import Mathlib

/-! # mlxsw Spectrum switchdev: VLAN membership, FID registry, flooding, FDB

A shallow embedding of `drivers/net/ethernet/mellanox/mlxsw/spectrum_switchdev.c`.

* C integers are `Nat`; `u16` arithmetic is written with an explicit `% 65536`.
* The bitmaps `active_vlans` and `active_fids` are bit masks held in a `Nat`.
* Every interaction with the environment (a register write through
  `mlxsw_reg_write`, a helper of `spectrum.c`, a `kmalloc`) is appended to a
  trace together with its result.  The result of the `k`-th interaction is
  `env k`, for an arbitrary `env : Nat → Int` (`0` is success).  The consumer
  of a dump and the upstream notifier are part of the environment.
* A register query answers with a result and a list of records; the answer to
  the query of round `k` of a loop is `q k`, for an arbitrary `q`.
* Loops over `u16` counters carry a fuel bound; running out of fuel is the
  result `Res.out_of_fuel`, and `BUG()` is the result `Res.bug`.
-/

namespace Mlxsw

/-! ## Constants -/

/-- Number of VLAN ids, the size in bits of both bitmaps (`linux/if_vlan.h`). -/
def VLAN_N_VID : Nat := 4096

/-- Modulus of `u16` arithmetic. -/
def U16 : Nat := 65536

/-- The errno behind `-ENOMEM`. -/
def ENOMEM : Int := 12

/-- Bridge port states of `linux/if_bridge.h`. -/
def BR_STATE_DISABLED : Nat := 0
/-- Bridge port state `BR_STATE_LISTENING`. -/
def BR_STATE_LISTENING : Nat := 1
/-- Bridge port state `BR_STATE_LEARNING`. -/
def BR_STATE_LEARNING : Nat := 2
/-- Bridge port state `BR_STATE_FORWARDING`. -/
def BR_STATE_FORWARDING : Nat := 3
/-- Bridge port state `BR_STATE_BLOCKING`. -/
def BR_STATE_BLOCKING : Nat := 4

/-- Modelled from the spec: the constants of `spectrum.h`, `reg.h` and `port.h`
that the functions of this file use and that are not part of the sources at
hand: the VLAN-table record maximum ("batch size = table record maximum"), the
per-port vFID maximum and the CPU port ("a shared CPU-facing row"). They are
parameters of the model. -/
structure Consts where
  MLXSW_REG_SPVM_REC_MAX_COUNT : Nat
  MLXSW_SP_VFID_PORT_MAX : Nat
  MLXSW_PORT_CPU_PORT : Nat
  deriving DecidableEq, Repr

/-- The values the driver's headers give to the constants. -/
def mlxsw_consts : Consts :=
  { MLXSW_REG_SPVM_REC_MAX_COUNT := 256
    MLXSW_SP_VFID_PORT_MAX := 512
    MLXSW_PORT_CPU_PORT := 0 }

/-! ## Bitmaps -/

/-- `test_bit(nr, addr)`. -/
def test_bit (nr : Nat) (addr : Nat) : Bool := addr.testBit nr

/-- `set_bit(nr, addr)`. -/
def set_bit (nr : Nat) (addr : Nat) : Nat := addr ||| 2 ^ nr

/-- `clear_bit(nr, addr)`. -/
def clear_bit (nr : Nat) (addr : Nat) : Nat := addr ^^^ (addr &&& 2 ^ nr)

/-- The indices visited by `for_each_set_bit(bit, addr, size)`, in order. -/
def for_each_set_bit (addr : Nat) (size : Nat) : List Nat :=
  (List.range size).filter (fun bit => test_bit bit addr)

/-! ## Requests and the trace -/

/-- `enum mlxsw_reg_spms_state`. -/
inductive spms_state where
  | MLXSW_REG_SPMS_STATE_DISCARDING
  | MLXSW_REG_SPMS_STATE_LEARNING
  | MLXSW_REG_SPMS_STATE_FORWARDING
  deriving DecidableEq, Repr

/-- `enum mlxsw_flood_table_type`, as far as this file uses it. -/
inductive flood_table_type where
  | MLXSW_REG_SFGC_TABLE_TYPE_FID_OFFEST
  | MLXSW_REG_SFGC_TABLE_TYPE_FID
  deriving DecidableEq, Repr

/-- The two flood tables, `MLXSW_SP_FLOOD_TABLE_UC` and `MLXSW_SP_FLOOD_TABLE_BM`. -/
inductive flood_table where
  | MLXSW_SP_FLOOD_TABLE_UC
  | MLXSW_SP_FLOOD_TABLE_BM
  deriving DecidableEq, Repr

/-- `enum mlxsw_reg_svfa_mt`, as far as this file uses it. -/
inductive svfa_mt where
  | MLXSW_REG_SVFA_MT_VID_TO_FID
  | MLXSW_REG_SVFA_MT_PORT_VID_TO_FID
  deriving DecidableEq, Repr

/-- `enum mlxsw_reg_sfmr_op`. -/
inductive sfmr_op where
  | MLXSW_REG_SFMR_OP_CREATE_FID
  | MLXSW_REG_SFMR_OP_DESTROY_FID
  deriving DecidableEq, Repr

/-- `enum mlxsw_reg_sfd_op`. -/
inductive sfd_op where
  | MLXSW_REG_SFD_OP_QUERY_DUMP
  | MLXSW_REG_SFD_OP_WRITE_EDIT
  | MLXSW_REG_SFD_OP_WRITE_REMOVE
  deriving DecidableEq, Repr

/-- `enum mlxsw_reg_sfd_rec_policy`, as far as this file uses it. -/
inductive sfd_rec_policy where
  | MLXSW_REG_SFD_REC_POLICY_STATIC_ENTRY
  | MLXSW_REG_SFD_REC_POLICY_DYNAMIC_ENTRY_INGRESS
  deriving DecidableEq, Repr

/-- The two notifier types handed to `call_switchdev_notifiers`. -/
inductive notifier_type where
  | SWITCHDEV_FDB_ADD
  | SWITCHDEV_FDB_DEL
  deriving DecidableEq, Repr

/-- The transient payload buffers the file allocates with `kmalloc`. -/
inductive payload where
  | spms_pl
  | sftr_pl
  | sfd_pl
  | sfn_pl
  deriving DecidableEq, Repr

/-- One interaction with the environment: a packed register handed to
`mlxsw_reg_write`, a call of a helper of `spectrum.c`, or a `kmalloc`. -/
inductive Op where
  /-- `kmalloc` of a payload buffer. -/
  | kmalloc (buf : payload)
  /-- `mlxsw_reg_spms_pack` followed by one `mlxsw_reg_spms_vid_pack` per vid. -/
  | spms (local_port : Nat) (vids : List Nat) (state : spms_state)
  /-- `mlxsw_reg_sftr_pack(flood_table, index, table_type, range, port, set)`. -/
  | sftr (table : flood_table) (index : Nat) (table_type : flood_table_type)
      (range : Nat) (port : Nat) (set : Bool)
  /-- `mlxsw_reg_sfdat_pack(ageing_time)`. -/
  | sfdat (ageing_time : Nat)
  /-- `mlxsw_reg_spvid_pack(local_port, pvid)`. -/
  | spvid (local_port : Nat) (pvid : Nat)
  /-- `mlxsw_reg_sfmr_pack(op, fid, fid_offset)`. -/
  | sfmr (op : sfmr_op) (fid : Nat) (fid_offset : Nat)
  /-- `mlxsw_sp_port_vid_to_fid_set(port, mt, valid, fid, vid)` of `spectrum.c`. -/
  | vid_to_fid_set (local_port : Nat) (mt : svfa_mt) (valid : Bool) (fid : Nat) (vid : Nat)
  /-- `mlxsw_sp_port_vlan_set(port, vid_begin, vid_end, is_member, untagged)` of `spectrum.c`. -/
  | vlan_set (local_port : Nat) (vid_begin : Nat) (vid_end : Nat) (is_member : Bool)
      (untagged : Bool)
  /-- `mlxsw_sp_port_add_vid(dev, 0, vid)` of `spectrum.c`. -/
  | add_vid (local_port : Nat) (vid : Nat)
  /-- `mlxsw_sp_port_kill_vid(dev, 0, vid)` of `spectrum.c`. -/
  | kill_vid (local_port : Nat) (vid : Nat)
  /-- `mlxsw_reg_sfd_pack(op, 0)` followed by
  `mlxsw_reg_sfd_uc_pack(0, policy, mac, fid, MLXSW_REG_SFD_REC_ACTION_NOP, local_port)`. -/
  | sfd_uc (op : sfd_op) (policy : sfd_rec_policy) (mac : Nat) (fid : Nat) (local_port : Nat)
  /-- `mlxsw_reg_sfd_pack(op, 0)` followed by
  `mlxsw_reg_sfd_uc_lag_pack(0, policy, mac, fid, MLXSW_REG_SFD_REC_ACTION_NOP, lag_vid, lag_id)`. -/
  | sfd_uc_lag (op : sfd_op) (policy : sfd_rec_policy) (mac : Nat) (fid : Nat) (lag_vid : Nat)
      (lag_id : Nat)
  /-- `mlxsw_reg_query` of the SFD register packed for `MLXSW_REG_SFD_OP_QUERY_DUMP`,
  asking for `MLXSW_REG_SFD_REC_MAX_COUNT` records. -/
  | sfd_query
  /-- `mlxsw_reg_query` of the SFN register (`mlxsw_reg_sfn_pack`). -/
  | sfn_query
  /-- `call_switchdev_notifiers(notifier_type, dev, &info.info)` with `info.addr = mac`
  and `info.vid = vid`. -/
  | call_switchdev_notifiers (type : notifier_type) (dev : Nat) (mac : Nat) (vid : Nat)
  /-- The consumer of a dump called on an FDB object, `cb(&fdb->obj)`, with
  `fdb->vid` and `fdb->addr` (`fdb->ndm_state` is `NUD_REACHABLE`). -/
  | cb_fdb (vid : Nat) (addr : Nat)
  /-- `schedule_delayed_work(&mlxsw_sp->fdb_notify.dw, msecs_to_jiffies(interval))`. -/
  | schedule_delayed_work (interval : Nat)
  /-- The consumer of a dump called on a VLAN object, `cb(&vlan->obj)`, with
  `vlan->flags`, `vlan->vid_begin` and `vlan->vid_end`. -/
  | cb_vlan (flags : Nat) (vid_begin : Nat) (vid_end : Nat)
  deriving DecidableEq, Repr

/-- An interaction and its result (`0` is success). -/
structure Ev where
  op : Op
  err : Int
  deriving DecidableEq, Repr

/-! ## State -/

/-- The fields of `struct mlxsw_sp_port` the file reads or writes. A virtual
port has `is_vport` set and carries `vport_vid` and `vport_vfid`;
`vports_list_empty` is `list_empty(&mlxsw_sp_port->vports_list)`; `dev` names
the network interface of the port. -/
structure mlxsw_sp_port where
  local_port : Nat
  bridged : Bool
  learning : Bool
  learning_sync : Bool
  uc_flood : Bool
  stp_state : Nat
  pvid : Nat
  active_vlans : Nat
  lagged : Bool
  lag_id : Nat
  is_vport : Bool
  vport_vid : Nat
  vport_vfid : Nat
  vports_list_empty : Bool
  dev : Nat
  deriving DecidableEq, Repr

/-- The fields of `struct mlxsw_sp` the file reads or writes. -/
structure mlxsw_sp where
  active_fids : Nat
  ageing_time : Nat
  deriving DecidableEq, Repr

/-- The state a call works on: the switch, the port the call is made on, and
the trace of interactions so far, newest first. -/
structure St where
  sp : mlxsw_sp
  port : mlxsw_sp_port
  trace : List Ev
  deriving DecidableEq, Repr

/-- How a call ends: it returns a value, it hits `BUG()`, or the fuel of a loop
runs out. -/
inductive Res (α : Type) where
  | ret (val : α) (s : St)
  | bug (s : St)
  | out_of_fuel
  deriving DecidableEq, Repr

/-- A computation on the state. -/
abbrev M (α : Type) : Type := St → Res α

/-- Sequencing: the second computation runs only if the first one returns. -/
def M.bind {α β : Type} (x : M α) (f : α → M β) : M β := fun s =>
  match x s with
  | .ret a s' => f a s'
  | .bug s' => .bug s'
  | .out_of_fuel => .out_of_fuel

instance : Monad M where
  pure a := fun s => .ret a s
  bind := M.bind

/-- Read the state. -/
def getSt : M St := fun s => .ret s s

/-- Change the state. -/
def modifySt (f : St → St) : M Unit := fun s => .ret () (f s)

/-- `BUG()`. -/
def BUG {α : Type} : M α := fun s => .bug s

/-! ## The gateway -/

/-- One interaction with the environment: its result is `env k`, where `k`
counts the interactions made so far. -/
def env_call (env : Nat → Int) (op : Op) : M Int := fun s =>
  .ret (env s.trace.length) { s with trace := ⟨op, env s.trace.length⟩ :: s.trace }

/-- `mlxsw_reg_write(mlxsw_sp->core, MLXSW_REG(...), payload)`. -/
def mlxsw_reg_write (env : Nat → Int) (op : Op) : M Int := env_call env op

/-- `kmalloc(len, GFP_KERNEL)`: `true` when the buffer was allocated. -/
def kmalloc (env : Nat → Int) (buf : payload) : M Bool := do
  let err ← env_call env (.kmalloc buf)
  pure (err == 0)

/-- Modelled from the spec: `mlxsw_sp_port_vid_to_fid_set` of `spectrum.c`, one
gateway write ("map VLAN→FID for this port") that succeeds or fails. -/
def mlxsw_sp_port_vid_to_fid_set (env : Nat → Int) (mt : svfa_mt) (valid : Bool)
    (fid vid : Nat) : M Int := do
  let s ← getSt
  env_call env (.vid_to_fid_set s.port.local_port mt valid fid vid)

/-- Modelled from the spec: `mlxsw_sp_port_vlan_set` of `spectrum.c`, one
VLAN-table write for a sub-range ("program VLAN membership/tag-mode"). -/
def mlxsw_sp_port_vlan_set (env : Nat → Int) (vid_begin vid_end : Nat)
    (is_member untagged : Bool) : M Int := do
  let s ← getSt
  env_call env (.vlan_set s.port.local_port vid_begin vid_end is_member untagged)

/-- Modelled from the spec: `mlxsw_sp_port_add_vid` of `spectrum.c`, the
interface-level VLAN add ("plain interface-level VLAN add/remove"). -/
def mlxsw_sp_port_add_vid (env : Nat → Int) (vid : Nat) : M Int := do
  let s ← getSt
  env_call env (.add_vid s.port.local_port vid)

/-- Modelled from the spec: `mlxsw_sp_port_kill_vid` of `spectrum.c`, the
interface-level VLAN remove. -/
def mlxsw_sp_port_kill_vid (env : Nat → Int) (vid : Nat) : M Int := do
  let s ← getSt
  env_call env (.kill_vid s.port.local_port vid)

/-! ## FID registry -/

/-- `mlxsw_sp_fid_create`. -/
def mlxsw_sp_fid_create (env : Nat → Int) (fid : Nat) : M Int := do
  let err ← mlxsw_reg_write env (.sfmr .MLXSW_REG_SFMR_OP_CREATE_FID fid fid)
  if err ≠ 0 then
    pure err
  else do
    modifySt (fun s => { s with sp := { s.sp with active_fids := set_bit fid s.sp.active_fids } })
    pure 0

/-- `mlxsw_sp_fid_destroy`. -/
def mlxsw_sp_fid_destroy (env : Nat → Int) (fid : Nat) : M Unit := do
  modifySt (fun s => { s with sp := { s.sp with active_fids := clear_bit fid s.sp.active_fids } })
  let _ ← mlxsw_reg_write env (.sfmr .MLXSW_REG_SFMR_OP_DESTROY_FID fid fid)
  pure ()

/-! ## Loops over `u16` counters -/

/-- The loop `for (vid = start; vid <= vid_end; vid += step) body(vid)` over a
`u16` counter. The body answers `none` to go on and `some e` to leave the loop
(a `return` or a `goto` inside it). The result is the counter at the exit and
what the body left with, `none` when the loop ran to its end. -/
def for_up {ε : Type} (body : Nat → M (Option ε)) (step vid_end : Nat) :
    Nat → Nat → M (Nat × Option ε)
  | 0, _ => fun _ => .out_of_fuel
  | fuel + 1, vid =>
    if vid ≤ vid_end then do
      let e ← body vid
      match e with
      | some x => pure (vid, some x)
      | none => for_up body step vid_end fuel ((vid + step) % U16)
    else
      pure (vid, none)

/-- The loop `for (vid = start; vid >= vid_begin; vid--) body(vid)` over a `u16`
counter: `vid--` at `0` wraps to `65535`. -/
def for_down (body : Nat → M Unit) (vid_begin : Nat) : Nat → Nat → M Unit
  | 0, _ => fun _ => .out_of_fuel
  | fuel + 1, vid =>
    if vid_begin ≤ vid then do
      body vid
      for_down body vid_begin fuel ((vid + U16 - 1) % U16)
    else
      pure ()

/-! ## STP state, flooding, PVID, FID mapping -/

/-- `mlxsw_sp_port_stp_state_set`. -/
def mlxsw_sp_port_stp_state_set (env : Nat → Int) (state : Nat) : M Int :=
  let go (spms_st : spms_state) : M Int := do
    let ok ← kmalloc env .spms_pl
    if !ok then
      pure (-ENOMEM)
    else do
      let s ← getSt
      let vids :=
        if s.port.is_vport then [s.port.vport_vid]
        else for_each_set_bit s.port.active_vlans VLAN_N_VID
      mlxsw_reg_write env (.spms s.port.local_port vids spms_st)
  if state = BR_STATE_DISABLED ∨ state = BR_STATE_FORWARDING then
    go .MLXSW_REG_SPMS_STATE_FORWARDING
  else if state = BR_STATE_LISTENING ∨ state = BR_STATE_LEARNING then
    go .MLXSW_REG_SPMS_STATE_LEARNING
  else if state = BR_STATE_BLOCKING then
    go .MLXSW_REG_SPMS_STATE_DISCARDING
  else
    BUG

/-- `mlxsw_sp_vfid_is_vport_br`. -/
def mlxsw_sp_vfid_is_vport_br (c : Consts) (vfid : Nat) : Bool :=
  decide (c.MLXSW_SP_VFID_PORT_MAX ≤ vfid)

/-- `__mlxsw_sp_port_flood_set`. -/
def __mlxsw_sp_port_flood_set (c : Consts) (env : Nat → Int) (idx_begin idx_end : Nat)
    (set only_uc : Bool) : M Int := do
  let s ← getSt
  let range := (idx_end + U16 - idx_begin + 1) % U16
  let table_type :=
    if s.port.is_vport then flood_table_type.MLXSW_REG_SFGC_TABLE_TYPE_FID
    else flood_table_type.MLXSW_REG_SFGC_TABLE_TYPE_FID_OFFEST
  let local_port :=
    if s.port.is_vport then
      if mlxsw_sp_vfid_is_vport_br c idx_begin then s.port.local_port
      else c.MLXSW_PORT_CPU_PORT
    else s.port.local_port
  let ok ← kmalloc env .sftr_pl
  if !ok then
    pure (-ENOMEM)
  else do
    let err ← mlxsw_reg_write env
      (.sftr .MLXSW_SP_FLOOD_TABLE_UC idx_begin table_type range local_port set)
    if err ≠ 0 then
      pure err
    else if only_uc then
      pure err
    else
      mlxsw_reg_write env
        (.sftr .MLXSW_SP_FLOOD_TABLE_BM idx_begin table_type range local_port set)

/-- `mlxsw_sp_port_pvid_set`. -/
def mlxsw_sp_port_pvid_set (env : Nat → Int) (vid : Nat) : M Int := do
  let s ← getSt
  mlxsw_reg_write env (.spvid s.port.local_port vid)

/-- `mlxsw_sp_port_fid_map`. -/
def mlxsw_sp_port_fid_map (env : Nat → Int) (fid : Nat) : M Int := do
  let s ← getSt
  let mt :=
    if !s.port.vports_list_empty then svfa_mt.MLXSW_REG_SVFA_MT_PORT_VID_TO_FID
    else svfa_mt.MLXSW_REG_SVFA_MT_VID_TO_FID
  mlxsw_sp_port_vid_to_fid_set env mt true fid fid

/-- `mlxsw_sp_port_fid_unmap`. -/
def mlxsw_sp_port_fid_unmap (env : Nat → Int) (fid : Nat) : M Int := do
  let s ← getSt
  if s.port.vports_list_empty then
    pure 0
  else
    mlxsw_sp_port_vid_to_fid_set env .MLXSW_REG_SVFA_MT_PORT_VID_TO_FID false fid fid

/-! ## VLAN membership -/

/-- `mlxsw_sp_port_add_vids`. -/
def mlxsw_sp_port_add_vids (env : Nat → Int) (fuel : Nat) (vid_begin vid_end : Nat) :
    M Int := do
  let r ← for_up (fun vid => do
      let err ← mlxsw_sp_port_add_vid env vid
      if err ≠ 0 then pure (some err) else pure none) 1 vid_end fuel vid_begin
  match r with
  | (_, none) => pure 0
  | (vid, some err) => do
    for_down (fun v => do
        let _ ← mlxsw_sp_port_kill_vid env v
        pure ()) vid_begin fuel ((vid + U16 - 1) % U16)
    pure err

/-- `mlxsw_sp_port_kill_vids`. -/
def mlxsw_sp_port_kill_vids (env : Nat → Int) (fuel : Nat) (vid_begin vid_end : Nat) :
    M Int := do
  let r ← for_up (fun vid => do
      let err ← mlxsw_sp_port_kill_vid env vid
      if err ≠ 0 then pure (some err) else pure none) 1 vid_end fuel vid_begin
  match r with
  | (_, none) => pure 0
  | (_, some err) => pure err

/-- `__mlxsw_sp_port_vlans_set`. -/
def __mlxsw_sp_port_vlans_set (c : Consts) (env : Nat → Int) (fuel : Nat)
    (vid_begin vid_end : Nat) (is_member untagged : Bool) : M Int := do
  let r ← for_up (fun vid => do
      let vid_e := min ((vid + c.MLXSW_REG_SPVM_REC_MAX_COUNT - 1) % U16) vid_end
      let err ← mlxsw_sp_port_vlan_set env vid vid_e is_member untagged
      if err ≠ 0 then pure (some err) else pure none)
    c.MLXSW_REG_SPVM_REC_MAX_COUNT vid_end fuel vid_begin
  match r with
  | (_, none) => pure 0
  | (_, some err) => pure err

/-- The loop `for (vid = vid_begin; vid <= vid_end; vid++) set_bit(vid, active_vlans)`. -/
def set_active_vlans (fuel : Nat) (vid_begin vid_end : Nat) : M Unit := do
  let _ ← for_up (ε := Unit) (fun vid => do
      modifySt (fun s => { s with port := { s.port with
        active_vlans := set_bit vid s.port.active_vlans } })
      pure none) 1 vid_end fuel vid_begin
  pure ()

/-- The loop `for (vid = vid_begin; vid <= vid_end; vid++) clear_bit(vid, active_vlans)`. -/
def clear_active_vlans (fuel : Nat) (vid_begin vid_end : Nat) : M Unit := do
  let _ ← for_up (ε := Unit) (fun vid => do
      modifySt (fun s => { s with port := { s.port with
        active_vlans := clear_bit vid s.port.active_vlans } })
      pure none) 1 vid_end fuel vid_begin
  pure ()

/-- The places where `__mlxsw_sp_port_vlans_add` leaves: its `return`s and the
labels its `goto`s jump to. -/
inductive add_exit where
  | ok
  | not_bridged
  | fid_create
  | err_port_vid_to_fid_set
  | err_port_fid_map
  | err_port_flood_set
  | err_port_vlans_set
  | err_port_pvid_set
  | err_port_stp_state_set
  deriving DecidableEq, Repr

/-- The code of `__mlxsw_sp_port_vlans_add` from the label `err_port_fid_map` on. -/
def vlans_add_err_port_fid_map (env : Nat → Int) (fuel : Nat) (vid_begin : Nat)
    (last_visited_vid : Nat) : M Unit :=
  for_down (fun vid => do
      let _ ← mlxsw_sp_port_fid_unmap env vid
      pure ()) vid_begin fuel last_visited_vid

/-- The code of `__mlxsw_sp_port_vlans_add` from the label `err_port_flood_set` on. -/
def vlans_add_err_port_flood_set (env : Nat → Int) (fuel : Nat) (vid_begin vid_end : Nat) :
    M Unit :=
  vlans_add_err_port_fid_map env fuel vid_begin vid_end

/-- The code of `__mlxsw_sp_port_vlans_add` from the label `err_port_vlans_set` on. -/
def vlans_add_err_port_vlans_set (c : Consts) (env : Nat → Int) (fuel : Nat)
    (vid_begin vid_end : Nat) : M Unit := do
  let _ ← __mlxsw_sp_port_flood_set c env vid_begin vid_end false false
  vlans_add_err_port_flood_set env fuel vid_begin vid_end

/-- The code of `__mlxsw_sp_port_vlans_add` from the label `err_port_pvid_set` on. -/
def vlans_add_err_port_pvid_set (c : Consts) (env : Nat → Int) (fuel : Nat)
    (vid_begin vid_end : Nat) : M Unit := do
  let _ ← __mlxsw_sp_port_vlans_set c env fuel vid_begin vid_end false false
  vlans_add_err_port_vlans_set c env fuel vid_begin vid_end

/-- The code of `__mlxsw_sp_port_vlans_add` from the label `err_port_stp_state_set` on. -/
def vlans_add_err_port_stp_state_set (c : Consts) (env : Nat → Int) (fuel : Nat)
    (vid_begin vid_end old_pvid : Nat) : M Unit := do
  clear_active_vlans fuel vid_begin vid_end
  let s ← getSt
  if old_pvid ≠ s.port.pvid then do
    let _ ← mlxsw_sp_port_pvid_set env old_pvid
    vlans_add_err_port_pvid_set c env fuel vid_begin vid_end
  else
    vlans_add_err_port_pvid_set c env fuel vid_begin vid_end

/-- The first loop of `__mlxsw_sp_port_vlans_add`: create the missing FIDs. A
failed create returns at once; a failed mapping goes to
`err_port_vid_to_fid_set`, which destroys the FID and returns. -/
def vlans_add_fids (env : Nat → Int) (fuel : Nat) (vid_begin vid_end : Nat) :
    M (Nat × Option (Int × add_exit)) :=
  for_up (fun vid => do
      let s ← getSt
      if !test_bit vid s.sp.active_fids then do
        let err ← mlxsw_sp_fid_create env vid
        if err ≠ 0 then
          pure (some (err, add_exit.fid_create))
        else do
          let err ← mlxsw_sp_port_vid_to_fid_set env .MLXSW_REG_SVFA_MT_VID_TO_FID true vid vid
          if err ≠ 0 then do
            mlxsw_sp_fid_destroy env vid
            pure (some (err, add_exit.err_port_vid_to_fid_set))
          else
            pure none
      else
        pure none) 1 vid_end fuel vid_begin

/-- The second loop of `__mlxsw_sp_port_vlans_add`: map every vid of the range
according to the port's mode; a failure leaves the loop for `err_port_fid_map`. -/
def vlans_add_fid_maps (env : Nat → Int) (fuel : Nat) (vid_begin vid_end : Nat) :
    M (Nat × Option Int) :=
  for_up (fun vid => do
      let err ← mlxsw_sp_port_fid_map env vid
      if err ≠ 0 then pure (some err) else pure none) 1 vid_end fuel vid_begin

/-- The PVID step of `__mlxsw_sp_port_vlans_add`:
`if (flag_pvid && old_pvid != vid_begin) { err = pvid_set(...); if (err) goto ...; port->pvid = vid_begin; }`.
The result is `err`. -/
def vlans_add_pvid (env : Nat → Int) (vid_begin : Nat) (flag_pvid : Bool) (old_pvid : Nat) :
    M Int :=
  if flag_pvid ∧ old_pvid ≠ vid_begin then do
    let err ← mlxsw_sp_port_pvid_set env vid_begin
    if err ≠ 0 then
      pure err
    else do
      modifySt (fun s => { s with port := { s.port with pvid := vid_begin } })
      pure 0
  else
    pure 0

/-- `__mlxsw_sp_port_vlans_add`, returning with the error also the place where
the function left. -/
def vlans_add_exit (c : Consts) (env : Nat → Int) (fuel : Nat) (vid_begin vid_end : Nat)
    (flag_untagged flag_pvid : Bool) : M (Int × add_exit) := do
  let s ← getSt
  if !s.port.bridged then do
    let err ← mlxsw_sp_port_add_vids env fuel vid_begin vid_end
    pure (err, .not_bridged)
  else do
    let r ← vlans_add_fids env fuel vid_begin vid_end
    match r with
    | (_, some x) => pure x
    | (_, none) => do
      let r ← vlans_add_fid_maps env fuel vid_begin vid_end
      match r with
      | (vid, some err) => do
        vlans_add_err_port_fid_map env fuel vid_begin ((vid + U16 - 1) % U16)
        pure (err, .err_port_fid_map)
      | (_, none) => do
        let err ← __mlxsw_sp_port_flood_set c env vid_begin vid_end true false
        if err ≠ 0 then do
          vlans_add_err_port_flood_set env fuel vid_begin vid_end
          pure (err, .err_port_flood_set)
        else do
          let err ← __mlxsw_sp_port_vlans_set c env fuel vid_begin vid_end true flag_untagged
          if err ≠ 0 then do
            vlans_add_err_port_vlans_set c env fuel vid_begin vid_end
            pure (err, .err_port_vlans_set)
          else do
            let s ← getSt
            let old_pvid := s.port.pvid
            let err ← vlans_add_pvid env vid_begin flag_pvid old_pvid
            if err ≠ 0 then do
              vlans_add_err_port_pvid_set c env fuel vid_begin vid_end
              pure (err, .err_port_pvid_set)
            else do
              set_active_vlans fuel vid_begin vid_end
              let s ← getSt
              let err ← mlxsw_sp_port_stp_state_set env s.port.stp_state
              if err ≠ 0 then do
                vlans_add_err_port_stp_state_set c env fuel vid_begin vid_end old_pvid
                pure (err, .err_port_stp_state_set)
              else
                pure (0, .ok)

/-- `__mlxsw_sp_port_vlans_add`. -/
def __mlxsw_sp_port_vlans_add (c : Consts) (env : Nat → Int) (fuel : Nat)
    (vid_begin vid_end : Nat) (flag_untagged flag_pvid : Bool) : M Int := do
  let r ← vlans_add_exit c env fuel vid_begin vid_end flag_untagged flag_pvid
  pure r.1

/-- The PVID step of `__mlxsw_sp_port_vlans_del`:
`if (pvid >= vid_begin && pvid <= vid_end && pvid != 1) { err = pvid_set(port, 1); if (err) return err; port->pvid = 1; }`.
The result is `err`. -/
def vlans_del_pvid (env : Nat → Int) (vid_begin vid_end : Nat) (pvid : Nat) : M Int :=
  if vid_begin ≤ pvid ∧ pvid ≤ vid_end ∧ pvid ≠ 1 then do
    let err ← mlxsw_sp_port_pvid_set env 1
    if err ≠ 0 then
      pure err
    else do
      modifySt (fun s => { s with port := { s.port with pvid := 1 } })
      pure 0
  else
    pure 0

/-- The unmap loop of `__mlxsw_sp_port_vlans_del`; a failure returns. -/
def vlans_del_fid_unmaps (env : Nat → Int) (fuel : Nat) (vid_begin vid_end : Nat) :
    M (Nat × Option Int) :=
  for_up (fun vid => do
      let err ← mlxsw_sp_port_fid_unmap env vid
      if err ≠ 0 then pure (some err) else pure none) 1 vid_end fuel vid_begin

/-- `__mlxsw_sp_port_vlans_del`. -/
def __mlxsw_sp_port_vlans_del (c : Consts) (env : Nat → Int) (fuel : Nat)
    (vid_begin vid_end : Nat) (init : Bool) : M Int := do
  let s ← getSt
  if !init ∧ !s.port.bridged then
    mlxsw_sp_port_kill_vids env fuel vid_begin vid_end
  else do
    let err ← __mlxsw_sp_port_vlans_set c env fuel vid_begin vid_end false false
    if err ≠ 0 then
      pure err
    else do
      let s ← getSt
      let err ← vlans_del_pvid env vid_begin vid_end s.port.pvid
      if err ≠ 0 then
        pure err
      else if init then do
        clear_active_vlans fuel vid_begin vid_end
        pure 0
      else do
        let err ← __mlxsw_sp_port_flood_set c env vid_begin vid_end false false
        if err ≠ 0 then
          pure err
        else do
          let r ← vlans_del_fid_unmaps env fuel vid_begin vid_end
          match r with
          | (_, some err) => pure err
          | (_, none) => do
            clear_active_vlans fuel vid_begin vid_end
            pure 0

/-! ## Switchdev attributes and objects: prepare and commit -/

/-- The errno behind `-EINVAL`. -/
def EINVAL : Int := 22

/-- Bridge port flag `BR_LEARNING` of `linux/if_bridge.h`. -/
def BR_LEARNING : Nat := 2 ^ 5
/-- Bridge port flag `BR_FLOOD`. -/
def BR_FLOOD : Nat := 2 ^ 6
/-- Bridge port flag `BR_LEARNING_SYNC`. -/
def BR_LEARNING_SYNC : Nat := 2 ^ 9
/-- VLAN flag `BRIDGE_VLAN_INFO_PVID` of `uapi/linux/if_bridge.h`. -/
def BRIDGE_VLAN_INFO_PVID : Nat := 2 ^ 1
/-- VLAN flag `BRIDGE_VLAN_INFO_UNTAGGED`. -/
def BRIDGE_VLAN_INFO_UNTAGGED : Nat := 2 ^ 2

/-- `struct switchdev_obj_port_vlan`, as far as the file reads it. -/
structure switchdev_obj_port_vlan where
  flags : Nat
  vid_begin : Nat
  vid_end : Nat
  deriving DecidableEq, Repr

/-- `struct switchdev_obj_port_fdb`, as far as the file reads it: `addr` is the
MAC address as a number. -/
structure switchdev_obj_port_fdb where
  vid : Nat
  addr : Nat
  deriving DecidableEq, Repr

/-- `mlxsw_sp_port_attr_stp_state_set`; `prepare` is
`switchdev_trans_ph_prepare(trans)`. -/
def mlxsw_sp_port_attr_stp_state_set (env : Nat → Int) (prepare : Bool) (state : Nat) :
    M Int :=
  if prepare then
    pure 0
  else do
    modifySt (fun s => { s with port := { s.port with stp_state := state } })
    mlxsw_sp_port_stp_state_set env state

/-- The first loop of `mlxsw_sp_port_uc_flood_set` over the set bits `vids` of
the active-VLAN bitmap: the answer is `none` when the loop ran to its end, and
the error with `last_visited_vid` when a write failed. -/
def uc_flood_set_vids (c : Consts) (env : Nat → Int) (set : Bool) :
    List Nat → M (Option (Int × Nat))
  | [] => pure none
  | vid :: vids => do
    let err ← __mlxsw_sp_port_flood_set c env vid vid set true
    if err ≠ 0 then
      pure (some (err, vid))
    else
      uc_flood_set_vids c env set vids

/-- The code of `mlxsw_sp_port_uc_flood_set` from the label `err_port_flood_set`
on, over the set bits `vids` below `last_visited_vid`. -/
def uc_flood_set_err_port_flood_set (c : Consts) (env : Nat → Int) (set : Bool) :
    List Nat → M Unit
  | [] => pure ()
  | vid :: vids => do
    let _ ← __mlxsw_sp_port_flood_set c env vid vid (!set) true
    uc_flood_set_err_port_flood_set c env set vids

/-- `mlxsw_sp_port_uc_flood_set`. -/
def mlxsw_sp_port_uc_flood_set (c : Consts) (env : Nat → Int) (set : Bool) : M Int := do
  let s ← getSt
  if s.port.is_vport then
    __mlxsw_sp_port_flood_set c env s.port.vport_vfid s.port.vport_vfid set true
  else do
    let r ← uc_flood_set_vids c env set (for_each_set_bit s.port.active_vlans VLAN_N_VID)
    match r with
    | none => pure 0
    | some (err, last_visited_vid) => do
      let s ← getSt
      uc_flood_set_err_port_flood_set c env set
        (for_each_set_bit s.port.active_vlans last_visited_vid)
      pure err

/-- `mlxsw_sp_port_attr_br_flags_set`. -/
def mlxsw_sp_port_attr_br_flags_set (c : Consts) (env : Nat → Int) (prepare : Bool)
    (brport_flags : Nat) : M Int := do
  let s ← getSt
  let uc_flood := if s.port.uc_flood then BR_FLOOD else 0
  if !s.port.bridged then
    pure (-EINVAL)
  else if prepare then
    pure 0
  else do
    let err ←
      if (uc_flood ^^^ brport_flags) &&& BR_FLOOD ≠ 0 then
        mlxsw_sp_port_uc_flood_set c env (!s.port.uc_flood)
      else
        pure 0
    if err ≠ 0 then
      pure err
    else do
      modifySt (fun s => { s with port := { s.port with
        uc_flood := decide (brport_flags &&& BR_FLOOD ≠ 0)
        learning := decide (brport_flags &&& BR_LEARNING ≠ 0)
        learning_sync := decide (brport_flags &&& BR_LEARNING_SYNC ≠ 0) } })
      pure 0

/-- `mlxsw_sp_ageing_set`. -/
def mlxsw_sp_ageing_set (env : Nat → Int) (ageing_time : Nat) : M Int := do
  let err ← mlxsw_reg_write env (.sfdat ageing_time)
  if err ≠ 0 then
    pure err
  else do
    modifySt (fun s => { s with sp := { s.sp with ageing_time := ageing_time } })
    pure 0

/-- `mlxsw_sp_port_attr_br_ageing_set`; the kernel's conversions
`clock_t_to_jiffies` and `jiffies_to_msecs` are parameters. -/
def mlxsw_sp_port_attr_br_ageing_set (env : Nat → Int)
    (clock_t_to_jiffies jiffies_to_msecs : Nat → Nat) (prepare : Bool)
    (ageing_clock_t : Nat) : M Int :=
  let ageing_jiffies := clock_t_to_jiffies ageing_clock_t
  let ageing_time := (jiffies_to_msecs ageing_jiffies / 1000) % 2 ^ 32
  if prepare then
    pure 0
  else
    mlxsw_sp_ageing_set env ageing_time

/-- `mlxsw_sp_port_vlans_add`. -/
def mlxsw_sp_port_vlans_add (c : Consts) (env : Nat → Int) (fuel : Nat) (prepare : Bool)
    (vlan : switchdev_obj_port_vlan) : M Int :=
  let untagged_flag := decide (vlan.flags &&& BRIDGE_VLAN_INFO_UNTAGGED ≠ 0)
  let pvid_flag := decide (vlan.flags &&& BRIDGE_VLAN_INFO_PVID ≠ 0)
  if prepare then
    pure 0
  else
    __mlxsw_sp_port_vlans_add c env fuel vlan.vid_begin vlan.vid_end untagged_flag pvid_flag

/-! ## Forwarding database -/

/-- Modelled from the spec: what the forwarding-database code reads of the
switch through `spectrum.h` and `reg.h`, which are not part of the sources at
hand: the array of known ports indexed by physical port number
(`mlxsw_sp->ports`), the members of a LAG ("the first live member of a LAG's
port set"), the virtual port of a port for a virtual FID, the interface of a
LAG, the split of the FID space into FIDs and virtual FIDs, the record maximum
of the two query tables, and the interval of the learning poll. None of them is
written by the code at hand; they are parameters of the model. -/
structure Topology where
  ports : Nat → Option mlxsw_sp_port
  mlxsw_sp_port_lagged_get : Nat → Nat → Option mlxsw_sp_port
  mlxsw_sp_port_vport_find_by_vfid : mlxsw_sp_port → Nat → Option mlxsw_sp_port
  mlxsw_sp_lag_get_dev : Nat → Nat
  mlxsw_sp_fid_is_vfid : Nat → Bool
  mlxsw_sp_fid_to_vfid : Nat → Nat
  mlxsw_sp_vfid_to_fid : Nat → Nat
  MLXSW_SP_PORT_PER_LAG_MAX : Nat
  MLXSW_REG_SFD_REC_MAX_COUNT : Nat
  MLXSW_REG_SFN_REC_MAX_COUNT : Nat
  fdb_notify_interval : Nat

/-- `mlxsw_reg_query(mlxsw_sp->core, MLXSW_REG(...), payload)`: `r` is what the
hardware answers, the result of the query and the records of the payload. -/
def mlxsw_reg_query {α : Type} (op : Op) (r : Int × α) : M (Int × α) := fun s =>
  .ret r { s with trace := ⟨op, r.1⟩ :: s.trace }

/-- `mlxsw_sp_sfd_rec_policy`. -/
def mlxsw_sp_sfd_rec_policy (dynamic : Bool) : sfd_rec_policy :=
  if dynamic then .MLXSW_REG_SFD_REC_POLICY_DYNAMIC_ENTRY_INGRESS
  else .MLXSW_REG_SFD_REC_POLICY_STATIC_ENTRY

/-- `mlxsw_sp_sfd_op`. -/
def mlxsw_sp_sfd_op (adding : Bool) : sfd_op :=
  if adding then .MLXSW_REG_SFD_OP_WRITE_EDIT else .MLXSW_REG_SFD_OP_WRITE_REMOVE

/-- `mlxsw_sp_port_fdb_uc_op` on the port `p`. -/
def mlxsw_sp_port_fdb_uc_op (env : Nat → Int) (p : mlxsw_sp_port) (mac fid : Nat)
    (adding dynamic : Bool) : M Int := do
  let ok ← kmalloc env .sfd_pl
  if !ok then
    pure (-ENOMEM)
  else
    mlxsw_reg_write env
      (.sfd_uc (mlxsw_sp_sfd_op adding) (mlxsw_sp_sfd_rec_policy dynamic) mac fid p.local_port)

/-- `mlxsw_sp_port_fdb_uc_lag_op`. -/
def mlxsw_sp_port_fdb_uc_lag_op (env : Nat → Int) (lag_id mac fid lag_vid : Nat)
    (adding dynamic : Bool) : M Int := do
  let ok ← kmalloc env .sfd_pl
  if !ok then
    pure (-ENOMEM)
  else
    mlxsw_reg_write env
      (.sfd_uc_lag (mlxsw_sp_sfd_op adding) (mlxsw_sp_sfd_rec_policy dynamic) mac fid lag_vid
        lag_id)

/-- `mlxsw_sp_port_fdb_static_add`; `prepare` is `switchdev_trans_ph_prepare(trans)`. -/
def mlxsw_sp_port_fdb_static_add (t : Topology) (env : Nat → Int) (prepare : Bool)
    (fdb : switchdev_obj_port_fdb) : M Int :=
  if prepare then
    pure 0
  else do
    let s ← getSt
    let fid := if s.port.is_vport then t.mlxsw_sp_vfid_to_fid s.port.vport_vfid else fdb.vid
    let lag_vid := if s.port.is_vport then s.port.vport_vid else 0
    let fid := if fid = 0 then s.port.pvid else fid
    if !s.port.lagged then
      mlxsw_sp_port_fdb_uc_op env s.port fdb.addr fid true false
    else
      mlxsw_sp_port_fdb_uc_lag_op env s.port.lag_id fdb.addr fid lag_vid true false

/-- `mlxsw_sp_port_fdb_static_del`. -/
def mlxsw_sp_port_fdb_static_del (t : Topology) (env : Nat → Int)
    (fdb : switchdev_obj_port_fdb) : M Int := do
  let s ← getSt
  let fid := if s.port.is_vport then t.mlxsw_sp_vfid_to_fid s.port.vport_vfid else fdb.vid
  let lag_vid := if s.port.is_vport then s.port.vport_vid else 0
  if !s.port.lagged then
    mlxsw_sp_port_fdb_uc_op env s.port fdb.addr fid false false
  else
    mlxsw_sp_port_fdb_uc_lag_op env s.port.lag_id fdb.addr fid lag_vid false false

/-- `mlxsw_sp_lag_rep_port`: the first member of the LAG that
`mlxsw_sp_port_lagged_get` finds. -/
def mlxsw_sp_lag_rep_port (t : Topology) (lag_id : Nat) : Option mlxsw_sp_port :=
  (List.range t.MLXSW_SP_PORT_PER_LAG_MAX).findSome?
    (fun i => t.mlxsw_sp_port_lagged_get lag_id i)

/-- A record of the answer to an SFD query, by `mlxsw_reg_sfd_rec_type_get` and
unpacked; `other` is a record of a type the dump has no case for. -/
inductive sfd_rec where
  | MLXSW_REG_SFD_REC_TYPE_UNICAST (mac : Nat) (fid : Nat) (local_port : Nat)
  | MLXSW_REG_SFD_REC_TYPE_UNICAST_LAG (mac : Nat) (fid : Nat) (lag_id : Nat)
  | other
  deriving DecidableEq, Repr

/-- The body of the `for` loop of `mlxsw_sp_port_fdb_dump` for one record. The
pair is `(stored_err, err)`. The port is compared with the representor of the
LAG by its fields. -/
def fdb_dump_rec (t : Topology) (env : Nat → Int) (vport_vid vport_fid : Nat)
    (r : sfd_rec) (e : Int × Int) : M (Int × Int) := do
  let s ← getSt
  let emit (mac fid : Nat) : M (Int × Int) :=
    if vport_fid ≠ 0 ∧ vport_fid ≠ fid then
      pure e
    else do
      let vid := if vport_fid ≠ 0 then vport_vid else fid
      let err ← env_call env (.cb_fdb vid mac)
      pure (if err ≠ 0 then err else e.1, err)
  match r with
  | .MLXSW_REG_SFD_REC_TYPE_UNICAST mac fid local_port =>
    if local_port = s.port.local_port then emit mac fid else pure e
  | .MLXSW_REG_SFD_REC_TYPE_UNICAST_LAG mac fid lag_id =>
    if some s.port = mlxsw_sp_lag_rep_port t lag_id then emit mac fid else pure e
  | .other => pure e

/-- The `for` loop of `mlxsw_sp_port_fdb_dump` over the records of one answer. -/
def fdb_dump_recs (t : Topology) (env : Nat → Int) (vport_vid vport_fid : Nat) :
    List sfd_rec → Int × Int → M (Int × Int)
  | [], e => pure e
  | r :: rs, e => do
    let e ← fdb_dump_rec t env vport_vid vport_fid r e
    fdb_dump_recs t env vport_vid vport_fid rs e

/-- The `do ... while (num_rec == MLXSW_REG_SFD_REC_MAX_COUNT)` loop of
`mlxsw_sp_port_fdb_dump` up to the `return`, from round `k` on with the stored
error `stored_err`; `q k` is the answer to the query of round `k`. -/
def fdb_dump_rounds (t : Topology) (env : Nat → Int) (q : Nat → Int × List sfd_rec)
    (vport_vid vport_fid : Nat) : Nat → Nat → Int → M Int
  | 0, _, _ => fun _ => .out_of_fuel
  | fuel + 1, k, stored_err => do
    let r ← mlxsw_reg_query .sfd_query (q k)
    if r.1 ≠ 0 then
      pure (if stored_err ≠ 0 then stored_err else r.1)
    else
      let num_rec := r.2.length
      if stored_err ≠ 0 then
        if num_rec = t.MLXSW_REG_SFD_REC_MAX_COUNT then
          fdb_dump_rounds t env q vport_vid vport_fid fuel (k + 1) stored_err
        else
          pure (if stored_err ≠ 0 then stored_err else r.1)
      else do
        let e ← fdb_dump_recs t env vport_vid vport_fid r.2 (stored_err, r.1)
        if num_rec = t.MLXSW_REG_SFD_REC_MAX_COUNT then
          fdb_dump_rounds t env q vport_vid vport_fid fuel (k + 1) e.1
        else
          pure (if e.1 ≠ 0 then e.1 else e.2)

/-- `mlxsw_sp_port_fdb_dump`: the consumer `cb` is part of the environment. -/
def mlxsw_sp_port_fdb_dump (t : Topology) (env : Nat → Int) (q : Nat → Int × List sfd_rec)
    (fuel : Nat) : M Int := do
  let ok ← kmalloc env .sfd_pl
  if !ok then
    pure (-ENOMEM)
  else do
    let s ← getSt
    let vport_fid := if s.port.is_vport then t.mlxsw_sp_vfid_to_fid s.port.vport_vfid else 0
    let vport_vid := if s.port.is_vport then s.port.vport_vid else 0
    fdb_dump_rounds t env q vport_vid vport_fid fuel 0 0

/-- A record of the answer to an SFN query, by `mlxsw_reg_sfn_rec_type_get` and
unpacked; `other` is a record of a type `mlxsw_sp_fdb_notify_rec_process` has no
case for. -/
inductive sfn_rec where
  | MLXSW_REG_SFN_REC_TYPE_LEARNED_MAC (mac : Nat) (fid : Nat) (local_port : Nat)
  | MLXSW_REG_SFN_REC_TYPE_AGED_OUT_MAC (mac : Nat) (fid : Nat) (local_port : Nat)
  | MLXSW_REG_SFN_REC_TYPE_LEARNED_MAC_LAG (mac : Nat) (fid : Nat) (lag_id : Nat)
  | MLXSW_REG_SFN_REC_TYPE_AGED_OUT_MAC_LAG (mac : Nat) (fid : Nat) (lag_id : Nat)
  | other
  deriving DecidableEq, Repr

/-- `mlxsw_sp_fdb_call_notifiers`. -/
def mlxsw_sp_fdb_call_notifiers (env : Nat → Int) (learning learning_sync adding : Bool)
    (mac vid dev : Nat) : M Unit :=
  if learning && learning_sync then do
    let notifier_type :=
      if adding then notifier_type.SWITCHDEV_FDB_ADD else notifier_type.SWITCHDEV_FDB_DEL
    let _ ← env_call env (.call_switchdev_notifiers notifier_type dev mac vid)
    pure ()
  else
    pure ()

/-- The port and the vid that `mlxsw_sp_fdb_notify_mac_process` and
`mlxsw_sp_fdb_notify_mac_lag_process` go on with for the FID `fid` found on
`port`: the virtual port of a virtual FID and its vid, `none` when there is
none, and the port itself with `vid = fid` otherwise. -/
def fdb_notify_resolve (t : Topology) (port : mlxsw_sp_port) (fid : Nat) :
    Option (mlxsw_sp_port × Nat) :=
  if t.mlxsw_sp_fid_is_vfid fid then
    match t.mlxsw_sp_port_vport_find_by_vfid port (t.mlxsw_sp_fid_to_vfid fid) with
    | none => none
    | some vport => some (vport, vport.vport_vid)
  else
    some (port, fid)

/-- `mlxsw_sp_fdb_notify_mac_process` for the unpacked record `(mac, fid, local_port)`. -/
def mlxsw_sp_fdb_notify_mac_process (t : Topology) (env : Nat → Int)
    (mac fid local_port : Nat) (adding : Bool) : M Unit :=
  match t.ports local_port with
  | none => pure ()
  | some port =>
    match fdb_notify_resolve t port fid with
    | none => pure ()
    | some (p, vid) => do
      let err ← mlxsw_sp_port_fdb_uc_op env p mac fid (adding && p.learning) true
      if err ≠ 0 then
        pure ()
      else
        mlxsw_sp_fdb_call_notifiers env p.learning p.learning_sync adding mac vid p.dev

/-- `mlxsw_sp_fdb_notify_mac_lag_process` for the unpacked record `(mac, fid, lag_id)`. -/
def mlxsw_sp_fdb_notify_mac_lag_process (t : Topology) (env : Nat → Int)
    (mac fid lag_id : Nat) (adding : Bool) : M Unit :=
  match mlxsw_sp_lag_rep_port t lag_id with
  | none => pure ()
  | some port =>
    match fdb_notify_resolve t port fid with
    | none => pure ()
    | some (p, vid) => do
      let lag_vid := if t.mlxsw_sp_fid_is_vfid fid then vid else 0
      let err ← mlxsw_sp_port_fdb_uc_lag_op env lag_id mac fid lag_vid (adding && p.learning)
        true
      if err ≠ 0 then
        pure ()
      else
        mlxsw_sp_fdb_call_notifiers env p.learning p.learning_sync adding mac vid
          (t.mlxsw_sp_lag_get_dev lag_id)

/-- `mlxsw_sp_fdb_notify_rec_process`. -/
def mlxsw_sp_fdb_notify_rec_process (t : Topology) (env : Nat → Int) : sfn_rec → M Unit
  | .MLXSW_REG_SFN_REC_TYPE_LEARNED_MAC mac fid local_port =>
    mlxsw_sp_fdb_notify_mac_process t env mac fid local_port true
  | .MLXSW_REG_SFN_REC_TYPE_AGED_OUT_MAC mac fid local_port =>
    mlxsw_sp_fdb_notify_mac_process t env mac fid local_port false
  | .MLXSW_REG_SFN_REC_TYPE_LEARNED_MAC_LAG mac fid lag_id =>
    mlxsw_sp_fdb_notify_mac_lag_process t env mac fid lag_id true
  | .MLXSW_REG_SFN_REC_TYPE_AGED_OUT_MAC_LAG mac fid lag_id =>
    mlxsw_sp_fdb_notify_mac_lag_process t env mac fid lag_id false
  | .other => pure ()

/-- The `for` loop of `mlxsw_sp_fdb_notify_work` over the records of one answer. -/
def fdb_notify_recs (t : Topology) (env : Nat → Int) : List sfn_rec → M Unit
  | [] => pure ()
  | r :: rs => do
    mlxsw_sp_fdb_notify_rec_process t env r
    fdb_notify_recs t env rs

/-- `mlxsw_sp_fdb_notify_work_schedule`. -/
def mlxsw_sp_fdb_notify_work_schedule (t : Topology) (env : Nat → Int) : M Unit := do
  let _ ← env_call env (.schedule_delayed_work t.fdb_notify_interval)
  pure ()

/-- The `do ... while (num_rec)` loop of `mlxsw_sp_fdb_notify_work` from round
`k` on; `q k` is the answer to the query of round `k`. -/
def fdb_notify_rounds (t : Topology) (env : Nat → Int) (q : Nat → Int × List sfn_rec) :
    Nat → Nat → M Unit
  | 0, _ => fun _ => .out_of_fuel
  | fuel + 1, k => do
    let r ← mlxsw_reg_query .sfn_query (q k)
    if r.1 ≠ 0 then
      pure ()
    else do
      fdb_notify_recs t env r.2
      if r.2.length ≠ 0 then
        fdb_notify_rounds t env q fuel (k + 1)
      else
        pure ()

/-- `mlxsw_sp_fdb_notify_work`. -/
def mlxsw_sp_fdb_notify_work (t : Topology) (env : Nat → Int) (q : Nat → Int × List sfn_rec)
    (fuel : Nat) : M Unit := do
  let ok ← kmalloc env .sfn_pl
  if !ok then
    pure ()
  else do
    fdb_notify_rounds t env q fuel 0
    mlxsw_sp_fdb_notify_work_schedule t env

/-! ## VLAN dump and port initialisation -/

/-- The `for_each_set_bit` loop of `mlxsw_sp_port_vlan_dump` over the set bits
`vids` of the active-VLAN bitmap; the result is `err`, which is 0 before the
first call of the consumer. -/
def vlan_dump_vids (env : Nat → Int) : List Nat → M Int
  | [] => pure 0
  | vid :: vids => do
    let s ← getSt
    let flags := if vid = s.port.pvid then 0 ||| BRIDGE_VLAN_INFO_PVID else 0
    let err ← env_call env (.cb_vlan flags vid vid)
    if err ≠ 0 then
      pure err
    else
      vlan_dump_vids env vids

/-- `mlxsw_sp_port_vlan_dump`: the consumer `cb` is part of the environment. -/
def mlxsw_sp_port_vlan_dump (env : Nat → Int) : M Int := do
  let s ← getSt
  if s.port.is_vport then
    env_call env (.cb_vlan 0 s.port.vport_vid s.port.vport_vid)
  else
    vlan_dump_vids env (for_each_set_bit s.port.active_vlans VLAN_N_VID)

/-- `mlxsw_sp_port_vlan_init`. -/
def mlxsw_sp_port_vlan_init (c : Consts) (env : Nat → Int) (fuel : Nat) : M Int := do
  modifySt (fun s => { s with port := { s.port with pvid := 1 } })
  let err ← __mlxsw_sp_port_vlans_del c env fuel 0 VLAN_N_VID true
  if err ≠ 0 then
    pure err
  else
    mlxsw_sp_port_add_vid env 1

/-! ## The hardware tables, read off the trace

The hardware is modelled as tables updated by each successful gateway write:
the content of a table after a trace is what the newest successful write that
addresses the entry put there, and the reset value if there is none. -/

/-- Flood membership: whether `port` is a member of entry `idx` of the flood
table `table` indexed by `table_type`. An `sftr` write addresses the entries
`index .. index + range - 1`. -/
def hw_flood (table : flood_table) (table_type : flood_table_type) (port idx : Nat) :
    List Ev → Bool
  | [] => false
  | e :: tr =>
    match e.op with
    | .sftr t i ty range p set =>
      if e.err = 0 ∧ t = table ∧ ty = table_type ∧ p = port ∧ i ≤ idx ∧ idx < i + range then set
      else hw_flood table table_type port idx tr
    | _ => hw_flood table table_type port idx tr

/-- VLAN-to-FID mapping: the FID that `vid` is mapped to for `local_port` in the
mapping table `mt`, `none` when the entry is not valid. -/
def hw_vid_to_fid (local_port : Nat) (mt : svfa_mt) (vid : Nat) : List Ev → Option Nat
  | [] => none
  | e :: tr =>
    match e.op with
    | .vid_to_fid_set p m valid fid v =>
      if e.err = 0 ∧ p = local_port ∧ m = mt ∧ v = vid then (if valid then some fid else none)
      else hw_vid_to_fid local_port mt vid tr
    | _ => hw_vid_to_fid local_port mt vid tr

/-- VLAN table: `none` when `local_port` is not a member of `vid`, `some untagged`
when it is. -/
def hw_vlan (local_port vid : Nat) : List Ev → Option Bool
  | [] => none
  | e :: tr =>
    match e.op with
    | .vlan_set p b e' is_member untagged =>
      if e.err = 0 ∧ p = local_port ∧ b ≤ vid ∧ vid ≤ e' then
        (if is_member then some untagged else none)
      else hw_vlan local_port vid tr
    | _ => hw_vlan local_port vid tr

/-- The PVID register of `local_port`: the value of the newest successful write. -/
def hw_pvid (local_port : Nat) : List Ev → Option Nat
  | [] => none
  | e :: tr =>
    match e.op with
    | .spvid p vid => if e.err = 0 ∧ p = local_port then some vid else hw_pvid local_port tr
    | _ => hw_pvid local_port tr

/-! ## Relations between the state before and after a call -/

/-- The computation `x` relates every state it starts in to the state it ends
in, when it ends (by a return or by `BUG()`). -/
def Pres {α : Type} (R : St → St → Prop) (x : M α) : Prop :=
  ∀ s, match x s with
    | .ret _ s' => R s s'
    | .bug s' => R s s'
    | .out_of_fuel => True

/-- A relation between the state before and after: `Ps` relates the switches,
`Pp` the ports, and every interaction made in between satisfies `Q`. -/
def Rel (Ps : mlxsw_sp → mlxsw_sp → Prop) (Pp : mlxsw_sp_port → mlxsw_sp_port → Prop)
    (Q : Ev → Prop) (s s' : St) : Prop :=
  Ps s.sp s'.sp ∧ Pp s.port s'.port ∧ ∃ evs, s'.trace = evs ++ s.trace ∧ ∀ e ∈ evs, Q e

/-- A reflexive and transitive relation. -/
structure Preorderly {σ : Type} (R : σ → σ → Prop) : Prop where
  refl : ∀ a, R a a
  trans : ∀ a b c, R a b → R b c → R a c

/-- The kind of an interaction. -/
inductive OpKind where
  | kmalloc
  | spms
  | sftr
  | sfdat
  | spvid
  | sfmr
  | vid_to_fid_set
  | vlan_set
  | add_vid
  | kill_vid
  | sfd
  | sfd_query
  | sfn_query
  | call_switchdev_notifiers
  | cb_fdb
  | schedule_delayed_work
  | cb_vlan
  deriving DecidableEq, Repr

/-- The kind of an interaction. -/
def Op.kind : Op → OpKind
  | .kmalloc _ => .kmalloc
  | .spms _ _ _ => .spms
  | .sftr _ _ _ _ _ _ => .sftr
  | .sfdat _ => .sfdat
  | .spvid _ _ => .spvid
  | .sfmr _ _ _ => .sfmr
  | .vid_to_fid_set _ _ _ _ _ => .vid_to_fid_set
  | .vlan_set _ _ _ _ _ => .vlan_set
  | .add_vid _ _ => .add_vid
  | .kill_vid _ _ => .kill_vid
  | .sfd_uc _ _ _ _ _ => .sfd
  | .sfd_uc_lag _ _ _ _ _ _ => .sfd
  | .sfd_query => .sfd_query
  | .sfn_query => .sfn_query
  | .call_switchdev_notifiers _ _ _ _ => .call_switchdev_notifiers
  | .cb_fdb _ _ => .cb_fdb
  | .schedule_delayed_work _ => .schedule_delayed_work
  | .cb_vlan _ _ _ => .cb_vlan

/-- The interaction is of one of the kinds `ks`. -/
def only (ks : List OpKind) (e : Ev) : Prop := e.op.kind ∈ ks

/-- Nothing but the trace changes, and every new interaction is of a kind in `ks`. -/
def HwOnly (ks : List OpKind) : St → St → Prop :=
  Rel (fun a b => a = b) (fun a b => a = b) (only ks)

/-- The interactions made between the state `s` and the later state `s'`, newest first. -/
def new_events (s s' : St) : List Ev := s'.trace.take (s'.trace.length - s.trace.length)

/-- From the `n`-th interaction on, everything the environment is asked succeeds. -/
def EnvOk (env : Nat → Int) (n : Nat) : Prop := ∀ j, n ≤ j → env j = 0

/-- What creating FIDs may change: no active FID becomes inactive, the rest of
the switch and the port stay, and every new interaction is of a kind in `ks`. -/
def FidsGrow (ks : List OpKind) : St → St → Prop :=
  Rel (fun a b => b.ageing_time = a.ageing_time ∧
        ∀ v, test_bit v a.active_fids = true → test_bit v b.active_fids = true)
    (fun a b => a = b) (only ks)

/-- Every kind of interaction. -/
def all_kinds : List OpKind :=
  [.kmalloc, .spms, .sftr, .sfdat, .spvid, .sfmr, .vid_to_fid_set, .vlan_set, .add_vid,
    .kill_vid, .sfd, .sfd_query, .sfn_query, .call_switchdev_notifiers, .cb_fdb,
    .schedule_delayed_work, .cb_vlan]

/-- What any call of the membership manager may change in the switch: no active
FID becomes inactive and the ageing time stays; the trace is extended. -/
def SpGrow : St → St → Prop :=
  Rel (fun a b => b.ageing_time = a.ageing_time ∧
        ∀ v, test_bit v a.active_fids = true → test_bit v b.active_fids = true)
    (fun _ _ => True) (fun _ => True)

/-- Every VLAN id that is set in the active-VLAN bitmap of one of the ports has
its FID set in the switch's active-FID bitmap. -/
def fid_invariant (sp : mlxsw_sp) (ports : List mlxsw_sp_port) : Prop :=
  ∀ p ∈ ports, ∀ vid, test_bit vid p.active_vlans = true → test_bit vid sp.active_fids = true

/-- The flood tables and the port-scoped VLAN-to-FID mapping table hold the
same after the trace of `b` as after the trace of `a`. -/
def TablesKept (a b : St) : Prop :=
  (∀ table table_type port idx,
    hw_flood table table_type port idx b.trace = hw_flood table table_type port idx a.trace) ∧
  ∀ lp vid,
    hw_vid_to_fid lp .MLXSW_REG_SVFA_MT_PORT_VID_TO_FID vid b.trace
      = hw_vid_to_fid lp .MLXSW_REG_SVFA_MT_PORT_VID_TO_FID vid a.trace

/-- The unicast flood request of a physical port for the range `b .. e`. -/
def flood_uc_op (local_port b e : Nat) (set : Bool) : Op :=
  .sftr .MLXSW_SP_FLOOD_TABLE_UC b .MLXSW_REG_SFGC_TABLE_TYPE_FID_OFFEST
    ((e + U16 - b + 1) % U16) local_port set

/-- The broadcast/multicast flood request of a physical port for the range `b .. e`. -/
def flood_bm_op (local_port b e : Nat) (set : Bool) : Op :=
  .sftr .MLXSW_SP_FLOOD_TABLE_BM b .MLXSW_REG_SFGC_TABLE_TYPE_FID_OFFEST
    ((e + U16 - b + 1) % U16) local_port set

/-- The number of failed interactions in a list of interactions. -/
def failures (evs : List Ev) : Nat := (evs.filter (fun e => decide (e.err ≠ 0))).length

/-- The tables after the trace of `b` are those after the trace of `a` with the
range `vid_begin .. vid_end` of the physical port `p` unwound: the port is no
member of the flood entries of the range and, when it hosts virtual ports, its
port-scoped mappings of the range are invalid. -/
def Unwound (p : mlxsw_sp_port) (vid_begin vid_end : Nat) (a b : St) : Prop :=
  (∀ table table_type port idx, hw_flood table table_type port idx b.trace
    = if table_type = .MLXSW_REG_SFGC_TABLE_TYPE_FID_OFFEST ∧ port = p.local_port ∧
        vid_begin ≤ idx ∧ idx ≤ vid_end then false
      else hw_flood table table_type port idx a.trace) ∧
  ∀ lp vid, hw_vid_to_fid lp .MLXSW_REG_SVFA_MT_PORT_VID_TO_FID vid b.trace
    = if p.vports_list_empty = false ∧ lp = p.local_port ∧ vid_begin ≤ vid ∧ vid ≤ vid_end
      then none
      else hw_vid_to_fid lp .MLXSW_REG_SVFA_MT_PORT_VID_TO_FID vid a.trace

/-- Between the traces of `a` and `b` the flood tables changed at most at the
entries of the range `vid_begin .. vid_end` of the physical port `p`, and the
port-scoped mapping table at most at the vids of that range of `p`, and only
when `p` hosts virtual ports. -/
def RangeOnly (p : mlxsw_sp_port) (vid_begin vid_end : Nat) (a b : St) : Prop :=
  (∀ table table_type port idx,
    ¬ (table_type = .MLXSW_REG_SFGC_TABLE_TYPE_FID_OFFEST ∧ port = p.local_port ∧
        vid_begin ≤ idx ∧ idx ≤ vid_end) →
    hw_flood table table_type port idx b.trace = hw_flood table table_type port idx a.trace) ∧
  ∀ lp vid,
    ¬ (p.vports_list_empty = false ∧ lp = p.local_port ∧ vid_begin ≤ vid ∧ vid ≤ vid_end) →
    hw_vid_to_fid lp .MLXSW_REG_SVFA_MT_PORT_VID_TO_FID vid b.trace
      = hw_vid_to_fid lp .MLXSW_REG_SVFA_MT_PORT_VID_TO_FID vid a.trace

/-- Between the traces of `a` and `b` every entry of the flood tables and of the
port-scoped mapping table is kept, or it is an entry of the range
`vid_begin .. vid_end` of the physical port `p` and is cleared: the port is no
member of the flood entry, the mapping is invalid. -/
def KeptOrCleared (p : mlxsw_sp_port) (vid_begin vid_end : Nat) (a b : St) : Prop :=
  (∀ table table_type port idx,
    hw_flood table table_type port idx b.trace = hw_flood table table_type port idx a.trace ∨
    (table_type = .MLXSW_REG_SFGC_TABLE_TYPE_FID_OFFEST ∧ port = p.local_port ∧
      vid_begin ≤ idx ∧ idx ≤ vid_end ∧
      hw_flood table table_type port idx b.trace = false)) ∧
  ∀ lp vid,
    hw_vid_to_fid lp .MLXSW_REG_SVFA_MT_PORT_VID_TO_FID vid b.trace
      = hw_vid_to_fid lp .MLXSW_REG_SVFA_MT_PORT_VID_TO_FID vid a.trace ∨
    (lp = p.local_port ∧ vid_begin ≤ vid ∧ vid ≤ vid_end ∧
      hw_vid_to_fid lp .MLXSW_REG_SVFA_MT_PORT_VID_TO_FID vid b.trace = none)

/-- After the trace of `b` the physical port `p` is a member of the unicast
flood entries of the range `vid_begin .. vid_end`; every other flood entry is
what it was after the trace of `a`, and every port-scoped mapping is kept, or
is a mapping of the range of `p` and is invalid. -/
def UcFloodLeft (p : mlxsw_sp_port) (vid_begin vid_end : Nat) (a b : St) : Prop :=
  (∀ table table_type port idx, hw_flood table table_type port idx b.trace
    = if table = .MLXSW_SP_FLOOD_TABLE_UC ∧
        table_type = .MLXSW_REG_SFGC_TABLE_TYPE_FID_OFFEST ∧ port = p.local_port ∧
        vid_begin ≤ idx ∧ idx ≤ vid_end then true
      else hw_flood table table_type port idx a.trace) ∧
  ∀ lp vid,
    hw_vid_to_fid lp .MLXSW_REG_SVFA_MT_PORT_VID_TO_FID vid b.trace
      = hw_vid_to_fid lp .MLXSW_REG_SVFA_MT_PORT_VID_TO_FID vid a.trace ∨
    (lp = p.local_port ∧ vid_begin ≤ vid ∧ vid ≤ vid_end ∧
      hw_vid_to_fid lp .MLXSW_REG_SVFA_MT_PORT_VID_TO_FID vid b.trace = none)

/-- The computation `x` returns from every state, having changed nothing but
the trace, by interactions of the kinds `ks`. -/
def Runs {α : Type} (ks : List OpKind) (x : M α) : Prop :=
  ∀ s, ∃ a s', x s = Res.ret a s' ∧ HwOnly ks s s'

/-- The number of interactions of kind `k` in a list of interactions. -/
def count_kind (k : OpKind) (evs : List Ev) : Nat :=
  (evs.filter (fun e => decide (e.op.kind = k))).length

/-- The call ends from every state: it returns a value for which `Q` holds, or
it hits `BUG()`; no loop of it runs out of fuel. -/
def Ends {α : Type} (x : M α) (Q : α → Prop) : Prop :=
  ∀ s, (∃ a s', x s = Res.ret a s' ∧ Q a) ∨ ∃ s', x s = Res.bug s'

/-! ## Concrete inputs -/

/-- A bridged physical port, local port 3 (interface 3), forwarding, with PVID 1,
no active VLAN and no virtual port. -/
def ex_port : mlxsw_sp_port :=
  { local_port := 3, bridged := true, learning := true, learning_sync := true,
    uc_flood := true, stp_state := BR_STATE_FORWARDING, pvid := 1, active_vlans := 0,
    lagged := false, lag_id := 0, is_vport := false, vport_vid := 0, vport_vfid := 0,
    vports_list_empty := true, dev := 3 }

/-- A switch without any FID, seen from `ex_port`, before any interaction. -/
def ex_st : St :=
  { sp := { active_fids := 0, ageing_time := 300 }, port := ex_port, trace := [] }

/-- The environment in which the `k`-th interaction fails with `-EIO` and every
other one succeeds. -/
def fail_at (k : Nat) : Nat → Int := fun j => if j = k then -5 else 0

/-- The environment in which every interaction succeeds. -/
def no_failure : Nat → Int := fun _ => 0

/-- The state a run ended in (the state `s` if it did not return). -/
def Res.final {α : Type} (s : St) : Res α → St
  | .ret _ s' => s'
  | .bug s' => s'
  | .out_of_fuel => s

/-- The port `ex_port` with VLAN 5 active and PVID 5. -/
def ex_port5 : mlxsw_sp_port :=
  { ex_port with pvid := 5, active_vlans := set_bit 5 0 }

/-- A switch whose only FID is 5, seen from `ex_port5`, before any interaction. -/
def ex_st5 : St :=
  { sp := { active_fids := set_bit 5 0, ageing_time := 300 }, port := ex_port5, trace := [] }

/-- The port `ex_port` with the VLANs 5 and 100 active and PVID 5. -/
def ex_port5_100 : mlxsw_sp_port :=
  { ex_port with pvid := 5, active_vlans := set_bit 100 (set_bit 5 0) }

/-- A switch whose FIDs are 5 and 100, seen from `ex_port5_100`, before any interaction. -/
def ex_st5_100 : St :=
  { sp := { active_fids := set_bit 100 (set_bit 5 0), ageing_time := 300 },
    port := ex_port5_100, trace := [] }

/-- The port `ex_port` hosting virtual ports (its `vports_list` is not empty). -/
def ex_port_vports : mlxsw_sp_port :=
  { ex_port with vports_list_empty := false }

/-- A switch without any FID, seen from `ex_port_vports`, before any interaction. -/
def ex_st_vports : St :=
  { sp := { active_fids := 0, ageing_time := 300 }, port := ex_port_vports, trace := [] }

/-- The request that maps `vid` to the FID `vid` in the port's mode, for a port
that hosts virtual ports. -/
def port_map_op (local_port vid : Nat) : Op :=
  .vid_to_fid_set local_port .MLXSW_REG_SVFA_MT_PORT_VID_TO_FID true vid vid

/-- The request that undoes `port_map_op`. -/
def port_unmap_op (local_port vid : Nat) : Op :=
  .vid_to_fid_set local_port .MLXSW_REG_SVFA_MT_PORT_VID_TO_FID false vid vid

/-- A switch whose only port is `ex_port`, without LAG and without virtual
port; FIDs from 4096 on are virtual FIDs, a query answers at most 64 records,
16 ports per LAG, poll interval 100 ms. -/
def ex_topology : Topology :=
  { ports := fun local_port => if local_port = 3 then some ex_port else none
    mlxsw_sp_port_lagged_get := fun _ _ => none
    mlxsw_sp_port_vport_find_by_vfid := fun _ _ => none
    mlxsw_sp_lag_get_dev := fun _ => 0
    mlxsw_sp_fid_is_vfid := fun fid => decide (VLAN_N_VID ≤ fid)
    mlxsw_sp_fid_to_vfid := fun fid => fid - VLAN_N_VID
    mlxsw_sp_vfid_to_fid := fun vfid => VLAN_N_VID + vfid
    MLXSW_SP_PORT_PER_LAG_MAX := 16
    MLXSW_REG_SFD_REC_MAX_COUNT := 64
    MLXSW_REG_SFN_REC_MAX_COUNT := 64
    fdb_notify_interval := 100 }

/-- The MAC address `00:11:22:33:44:55`. -/
def ex_mac : Nat := 0x001122334455

/-- Answers to the queries of the learning poll: the first holds one learned
record, every later one holds none. -/
def ex_sfn_answers : Nat → Int × List sfn_rec := fun k =>
  if k = 0 then (0, [.MLXSW_REG_SFN_REC_TYPE_LEARNED_MAC ex_mac 10 3]) else (0, [])

/-- Answers to the queries of a dump: the first holds 64 records of port 3, the
maximum of `ex_topology`, every later one holds a single record. -/
def ex_sfd_answers : Nat → Int × List sfd_rec := fun k =>
  if k = 0 then (0, List.replicate 64 (.MLXSW_REG_SFD_REC_TYPE_UNICAST ex_mac 10 3))
  else (0, [.MLXSW_REG_SFD_REC_TYPE_UNICAST ex_mac 10 3])

/-- The port `ex_port` outside any bridge. -/
def ex_port_unbridged : mlxsw_sp_port :=
  { ex_port with bridged := false }

/-- A switch without any FID, seen from `ex_port_unbridged`, before any interaction. -/
def ex_st_unbridged : St :=
  { sp := { active_fids := 0, ageing_time := 300 }, port := ex_port_unbridged, trace := [] }

/-- The port `ex_port5` (VLAN 5 active, PVID 5) seen together with the bit that
follows its active-VLAN bitmap in memory: in the number that stands for the
bitmap, the bits from `VLAN_N_VID` on stand for what lies behind the
`VLAN_N_VID` bits of the bitmap, and here the first of them is set. -/
def ex_port_past_bitmap : mlxsw_sp_port :=
  { ex_port with pvid := 5, active_vlans := set_bit VLAN_N_VID (set_bit 5 0) }

/-- A switch whose only FID is 5, seen from `ex_port_past_bitmap`, before any
interaction. -/
def ex_st_past_bitmap : St :=
  { sp := { active_fids := set_bit 5 0, ageing_time := 300 }, port := ex_port_past_bitmap,
    trace := [] }

/-! # Theorems -/

/-! ## Bitmaps and the state monad -/

theorem test_bit_set_bit (nr i addr : Nat) :
    test_bit i (set_bit nr addr) = (test_bit i addr || decide (nr = i)) := by
  simp [test_bit, set_bit, Nat.testBit_two_pow]

theorem test_bit_clear_bit (nr i addr : Nat) :
    test_bit i (clear_bit nr addr) = (test_bit i addr && !decide (nr = i)) := by
  simp only [test_bit, clear_bit, Nat.testBit_xor, Nat.testBit_and, Nat.testBit_two_pow]
  cases addr.testBit i <;> cases decide (nr = i) <;> rfl

theorem bitmap_ext (a b : Nat) (h : ∀ i, test_bit i a = test_bit i b) : a = b :=
  Nat.eq_of_testBit_eq h

@[simp] theorem pure_apply {α : Type} (a : α) (s : St) : (pure a : M α) s = Res.ret a s := rfl

@[simp] theorem bind_apply {α β : Type} (x : M α) (f : α → M β) (s : St) :
    (x >>= f) s = match x s with
      | .ret a s' => f a s'
      | .bug s' => .bug s'
      | .out_of_fuel => .out_of_fuel := rfl

@[simp] theorem getSt_apply (s : St) : getSt s = Res.ret s s := rfl
@[simp] theorem modifySt_apply (f : St → St) (s : St) : modifySt f s = Res.ret () (f s) := rfl
@[simp] theorem BUG_apply {α : Type} (s : St) : (BUG : M α) s = Res.bug s := rfl
@[simp] theorem env_call_apply (env : Nat → Int) (op : Op) (s : St) :
    env_call env op s
      = Res.ret (env s.trace.length) { s with trace := ⟨op, env s.trace.length⟩ :: s.trace } := rfl

theorem fid_create_eq (env : Nat → Int) (fid : Nat) (s : St) :
    mlxsw_sp_fid_create env fid s =
      Res.ret (env s.trace.length)
        { s with
          sp := { s.sp with active_fids :=
            (if (env s.trace.length) = 0 then set_bit fid s.sp.active_fids
             else s.sp.active_fids) }
          trace := ⟨.sfmr .MLXSW_REG_SFMR_OP_CREATE_FID fid fid, env s.trace.length⟩ :: s.trace } := by
  simp only [mlxsw_sp_fid_create, mlxsw_reg_write, bind_apply, env_call_apply]
  by_cases h : env s.trace.length = 0
  · simp [h]
  · simp [h]

theorem Preorderly_eq {σ : Type} : Preorderly (fun a b : σ => a = b) :=
  ⟨fun _ => rfl, fun _ _ _ h1 h2 => h1.trans h2⟩

theorem Preorderly_Rel {Ps : mlxsw_sp → mlxsw_sp → Prop}
    {Pp : mlxsw_sp_port → mlxsw_sp_port → Prop} (Q : Ev → Prop)
    (hs : Preorderly Ps) (hp : Preorderly Pp) : Preorderly (Rel Ps Pp Q) := by
  constructor
  · intro a
    exact ⟨hs.refl _, hp.refl _, [], rfl, by simp⟩
  · rintro a b c ⟨h1, h2, e1, h3, h4⟩ ⟨k1, k2, e2, k3, k4⟩
    refine ⟨hs.trans _ _ _ h1 k1, hp.trans _ _ _ h2 k2, e2 ++ e1, ?_, ?_⟩
    · rw [k3, h3, List.append_assoc]
    · intro e he
      rcases List.mem_append.mp he with h | h
      · exact k4 e h
      · exact h4 e h

theorem Pres_pure {α : Type} {R : St → St → Prop} (hR : Preorderly R) (a : α) :
    Pres R (pure a : M α) := fun s => hR.refl s

theorem Pres_bind {α β : Type} {R : St → St → Prop} (hR : Preorderly R) {x : M α}
    {f : α → M β} (hx : Pres R x) (hf : ∀ a, Pres R (f a)) : Pres R (x >>= f) := by
  intro s
  have h1 := hx s
  simp only [bind_apply]
  cases hxs : x s with
  | ret a s1 =>
    rw [hxs] at h1
    have h2 := hf a s1
    simp only
    cases hfs : f a s1 with
    | ret b s2 => rw [hfs] at h2; exact hR.trans _ _ _ h1 h2
    | bug s2 => rw [hfs] at h2; exact hR.trans _ _ _ h1 h2
    | out_of_fuel => trivial
  | bug s1 => rw [hxs] at h1; exact h1
  | out_of_fuel => trivial

theorem Pres_getSt {R : St → St → Prop} (hR : Preorderly R) : Pres R getSt :=
  fun s => hR.refl s

theorem Pres_BUG {α : Type} {R : St → St → Prop} (hR : Preorderly R) :
    Pres R (BUG : M α) := fun s => hR.refl s

theorem Pres_modifySt {R : St → St → Prop} (f : St → St) (h : ∀ s, R s (f s)) :
    Pres R (modifySt f) := fun s => h s

theorem Pres_env_call {Ps : mlxsw_sp → mlxsw_sp → Prop}
    {Pp : mlxsw_sp_port → mlxsw_sp_port → Prop} {Q : Ev → Prop}
    (hs : Preorderly Ps) (hp : Preorderly Pp) (env : Nat → Int) (op : Op)
    (h : ∀ err, Q ⟨op, err⟩) : Pres (Rel Ps Pp Q) (env_call env op) := by
  intro s
  exact ⟨hs.refl _, hp.refl _, [⟨op, env s.trace.length⟩], rfl, by simpa using h _⟩

theorem Pres_mono {α : Type} {R R' : St → St → Prop} {x : M α} (h : ∀ a b, R a b → R' a b)
    (hx : Pres R x) : Pres R' x := by
  intro s
  have h1 := hx s
  cases hxs : x s with
  | ret a s1 => rw [hxs] at h1; exact h _ _ h1
  | bug s1 => rw [hxs] at h1; exact h _ _ h1
  | out_of_fuel => trivial

theorem Pres_for_up {ε : Type} {R : St → St → Prop} (hR : Preorderly R)
    (body : Nat → M (Option ε)) (step vid_end : Nat) (hb : ∀ v, Pres R (body v)) :
    ∀ fuel vid, Pres R (for_up body step vid_end fuel vid) := by
  intro fuel
  induction fuel with
  | zero => intro vid s; trivial
  | succ n ih =>
    intro vid
    unfold for_up
    split
    · apply Pres_bind hR (hb vid)
      intro e
      cases e with
      | none => exact ih _
      | some x => exact Pres_pure hR _
    · exact Pres_pure hR _

theorem Pres_for_down {R : St → St → Prop} (hR : Preorderly R)
    (body : Nat → M Unit) (vid_begin : Nat) (hb : ∀ v, Pres R (body v)) :
    ∀ fuel vid, Pres R (for_down body vid_begin fuel vid) := by
  intro fuel
  induction fuel with
  | zero => intro vid s; trivial
  | succ n ih =>
    intro vid
    unfold for_down
    split
    · exact Pres_bind hR (hb vid) (fun _ => ih _)
    · exact Pres_pure hR _

/-! ## Step-by-step reading of `__mlxsw_sp_port_vlans_add` -/

theorem vlans_add_exit_cases (c : Consts) (env : Nat → Int) (fuel vid_begin vid_end : Nat)
    (fu fp : Bool) (s s' : St) (err : Int) (ex : add_exit)
    (hb : s.port.bridged = true)
    (h : vlans_add_exit c env fuel vid_begin vid_end fu fp s = Res.ret (err, ex) s') :
    (∃ v, vlans_add_fids env fuel vid_begin vid_end s = Res.ret (v, some (err, ex)) s') ∨
    ∃ v1 s1, vlans_add_fids env fuel vid_begin vid_end s = Res.ret (v1, none) s1 ∧
      ((∃ v s2, vlans_add_fid_maps env fuel vid_begin vid_end s1 = Res.ret (v, some err) s2 ∧
          vlans_add_err_port_fid_map env fuel vid_begin ((v + U16 - 1) % U16) s2 = Res.ret () s' ∧
          ex = .err_port_fid_map) ∨
       ∃ v2 s2, vlans_add_fid_maps env fuel vid_begin vid_end s1 = Res.ret (v2, none) s2 ∧
        ((∃ s3, __mlxsw_sp_port_flood_set c env vid_begin vid_end true false s2 = Res.ret err s3 ∧
            err ≠ 0 ∧ vlans_add_err_port_flood_set env fuel vid_begin vid_end s3 = Res.ret () s' ∧
            ex = .err_port_flood_set) ∨
         ∃ s3, __mlxsw_sp_port_flood_set c env vid_begin vid_end true false s2 = Res.ret 0 s3 ∧
          ((∃ s4, __mlxsw_sp_port_vlans_set c env fuel vid_begin vid_end true fu s3 = Res.ret err s4 ∧
              err ≠ 0 ∧
              vlans_add_err_port_vlans_set c env fuel vid_begin vid_end s4 = Res.ret () s' ∧
              ex = .err_port_vlans_set) ∨
           ∃ s4, __mlxsw_sp_port_vlans_set c env fuel vid_begin vid_end true fu s3 = Res.ret 0 s4 ∧
            ((∃ s5, vlans_add_pvid env vid_begin fp s4.port.pvid s4 = Res.ret err s5 ∧ err ≠ 0 ∧
                vlans_add_err_port_pvid_set c env fuel vid_begin vid_end s5 = Res.ret () s' ∧
                ex = .err_port_pvid_set) ∨
             ∃ s5 s6, vlans_add_pvid env vid_begin fp s4.port.pvid s4 = Res.ret 0 s5 ∧
              set_active_vlans fuel vid_begin vid_end s5 = Res.ret () s6 ∧
              ((∃ s7, mlxsw_sp_port_stp_state_set env s6.port.stp_state s6 = Res.ret err s7 ∧
                  err ≠ 0 ∧
                  vlans_add_err_port_stp_state_set c env fuel vid_begin vid_end s4.port.pvid s7
                    = Res.ret () s' ∧
                  ex = .err_port_stp_state_set) ∨
               (mlxsw_sp_port_stp_state_set env s6.port.stp_state s6 = Res.ret 0 s' ∧
                  err = 0 ∧ ex = .ok)))))) := by
  unfold vlans_add_exit at h
  simp only [bind_apply, getSt_apply, hb, Bool.not_true, Bool.false_eq_true, if_false] at h
  cases h1 : vlans_add_fids env fuel vid_begin vid_end s with
  | bug _ => simp [h1] at h
  | out_of_fuel => simp [h1] at h
  | ret r1 s1 =>
    obtain ⟨v1, e1⟩ := r1
    rw [h1] at h
    cases e1 with
    | some x =>
      simp only [pure_apply, Res.ret.injEq] at h
      left; exact ⟨v1, by rw [h.1, h.2]⟩
    | none =>
      right
      refine ⟨v1, s1, rfl, ?_⟩
      simp only [bind_apply] at h
      cases h2 : vlans_add_fid_maps env fuel vid_begin vid_end s1 with
      | bug _ => simp [h2] at h
      | out_of_fuel => simp [h2] at h
      | ret r2 s2 =>
        obtain ⟨v2, e2⟩ := r2
        rw [h2] at h
        cases e2 with
        | some x =>
          left
          simp only [bind_apply] at h
          cases h3 : vlans_add_err_port_fid_map env fuel vid_begin ((v2 + U16 - 1) % U16) s2 with
          | bug _ => simp [h3] at h
          | out_of_fuel => simp [h3] at h
          | ret u s3 =>
            rw [h3] at h
            simp only [pure_apply, Res.ret.injEq, Prod.mk.injEq] at h
            obtain ⟨⟨rfl, rfl⟩, rfl⟩ := h
            exact ⟨v2, s2, rfl, h3, rfl⟩
        | none =>
          right
          refine ⟨v2, s2, rfl, ?_⟩
          simp only [bind_apply] at h
          cases h3 : __mlxsw_sp_port_flood_set c env vid_begin vid_end true false s2 with
          | bug _ => simp [h3] at h
          | out_of_fuel => simp [h3] at h
          | ret e3 s3 =>
            rw [h3] at h
            by_cases he3 : e3 = 0
            · subst he3
              right
              refine ⟨s3, rfl, ?_⟩
              simp only [ne_eq, not_true_eq_false, if_false, bind_apply] at h
              cases h4 : __mlxsw_sp_port_vlans_set c env fuel vid_begin vid_end true fu s3 with
              | bug _ => simp [h4] at h
              | out_of_fuel => simp [h4] at h
              | ret e4 s4 =>
                rw [h4] at h
                by_cases he4 : e4 = 0
                · subst he4
                  right
                  refine ⟨s4, rfl, ?_⟩
                  simp only [ne_eq, not_true_eq_false, if_false, bind_apply, getSt_apply] at h
                  cases h5 : vlans_add_pvid env vid_begin fp s4.port.pvid s4 with
                  | bug _ => simp [h5] at h
                  | out_of_fuel => simp [h5] at h
                  | ret e5 s5 =>
                    rw [h5] at h
                    by_cases he5 : e5 = 0
                    · subst he5
                      right
                      simp only [ne_eq, not_true_eq_false, if_false, bind_apply] at h
                      cases h6 : set_active_vlans fuel vid_begin vid_end s5 with
                      | bug _ => simp [h6] at h
                      | out_of_fuel => simp [h6] at h
                      | ret u6 s6 =>
                        rw [h6] at h
                        refine ⟨s5, s6, rfl, h6, ?_⟩
                        simp only [getSt_apply] at h
                        cases h7 : mlxsw_sp_port_stp_state_set env s6.port.stp_state s6 with
                        | bug _ => simp [h7] at h
                        | out_of_fuel => simp [h7] at h
                        | ret e7 s7 =>
                          rw [h7] at h
                          by_cases he7 : e7 = 0
                          · subst he7
                            right
                            simp only [ne_eq, not_true_eq_false, if_false, pure_apply,
                              Res.ret.injEq, Prod.mk.injEq] at h
                            obtain ⟨⟨rfl, rfl⟩, rfl⟩ := h
                            exact ⟨rfl, rfl, rfl⟩
                          · left
                            simp only [ne_eq, he7, not_false_eq_true, if_true, bind_apply] at h
                            cases h8 : vlans_add_err_port_stp_state_set c env fuel vid_begin
                                vid_end s4.port.pvid s7 with
                            | bug _ => simp [h8] at h
                            | out_of_fuel => simp [h8] at h
                            | ret u8 s8 =>
                              rw [h8] at h
                              simp only [pure_apply, Res.ret.injEq, Prod.mk.injEq] at h
                              obtain ⟨⟨rfl, rfl⟩, rfl⟩ := h
                              exact ⟨s7, rfl, he7, h8, rfl⟩
                    · left
                      simp only [ne_eq, he5, not_false_eq_true, if_true, bind_apply] at h
                      cases h6 : vlans_add_err_port_pvid_set c env fuel vid_begin vid_end s5 with
                      | bug _ => simp [h6] at h
                      | out_of_fuel => simp [h6] at h
                      | ret u6 s6 =>
                        rw [h6] at h
                        simp only [pure_apply, Res.ret.injEq, Prod.mk.injEq] at h
                        obtain ⟨⟨rfl, rfl⟩, rfl⟩ := h
                        exact ⟨s5, rfl, he5, h6, rfl⟩
                · left
                  simp only [ne_eq, he4, not_false_eq_true, if_true, bind_apply] at h
                  cases h5 : vlans_add_err_port_vlans_set c env fuel vid_begin vid_end s4 with
                  | bug _ => simp [h5] at h
                  | out_of_fuel => simp [h5] at h
                  | ret u5 s5 =>
                    rw [h5] at h
                    simp only [pure_apply, Res.ret.injEq, Prod.mk.injEq] at h
                    obtain ⟨⟨rfl, rfl⟩, rfl⟩ := h
                    exact ⟨s4, rfl, he4, h5, rfl⟩
            · left
              simp only [ne_eq, he3, not_false_eq_true, if_true, bind_apply] at h
              cases h4 : vlans_add_err_port_flood_set env fuel vid_begin vid_end s3 with
              | bug _ => simp [h4] at h
              | out_of_fuel => simp [h4] at h
              | ret u4 s4 =>
                rw [h4] at h
                simp only [pure_apply, Res.ret.injEq, Prod.mk.injEq] at h
                obtain ⟨⟨rfl, rfl⟩, rfl⟩ := h
                exact ⟨s3, rfl, he3, h4, rfl⟩

/-! ## What each function may change -/

theorem HwOnly_pre (ks : List OpKind) : Preorderly (HwOnly ks) :=
  Preorderly_Rel _ Preorderly_eq Preorderly_eq

theorem HwOnly_mono {ks ks' : List OpKind} (h : ∀ k ∈ ks, k ∈ ks') (a b : St)
    (hab : HwOnly ks a b) : HwOnly ks' a b := by
  obtain ⟨h1, h2, evs, h3, h4⟩ := hab
  exact ⟨h1, h2, evs, h3, fun e he => h _ (h4 e he)⟩

theorem Pres_env_call_only (ks : List OpKind) (env : Nat → Int) (op : Op) (h : op.kind ∈ ks) :
    Pres (HwOnly ks) (env_call env op) :=
  Pres_env_call Preorderly_eq Preorderly_eq env op (fun _ => h)

theorem Pres_kmalloc (ks : List OpKind) (env : Nat → Int) (buf : payload)
    (h : OpKind.kmalloc ∈ ks) : Pres (HwOnly ks) (kmalloc env buf) :=
  Pres_bind (HwOnly_pre ks) (Pres_env_call_only ks env _ h) (fun _ => Pres_pure (HwOnly_pre ks) _)

theorem Pres_vid_to_fid_set (ks : List OpKind) (env : Nat → Int) (mt : svfa_mt) (valid : Bool)
    (fid vid : Nat) (h : OpKind.vid_to_fid_set ∈ ks) :
    Pres (HwOnly ks) (mlxsw_sp_port_vid_to_fid_set env mt valid fid vid) :=
  Pres_bind (HwOnly_pre ks) (Pres_getSt (HwOnly_pre ks))
    (fun _ => Pres_env_call_only ks env _ h)

theorem Pres_vlan_set (ks : List OpKind) (env : Nat → Int) (b e : Nat) (m u : Bool)
    (h : OpKind.vlan_set ∈ ks) : Pres (HwOnly ks) (mlxsw_sp_port_vlan_set env b e m u) :=
  Pres_bind (HwOnly_pre ks) (Pres_getSt (HwOnly_pre ks))
    (fun _ => Pres_env_call_only ks env _ h)

theorem Pres_add_vid (ks : List OpKind) (env : Nat → Int) (vid : Nat)
    (h : OpKind.add_vid ∈ ks) : Pres (HwOnly ks) (mlxsw_sp_port_add_vid env vid) :=
  Pres_bind (HwOnly_pre ks) (Pres_getSt (HwOnly_pre ks))
    (fun _ => Pres_env_call_only ks env _ h)

theorem Pres_kill_vid (ks : List OpKind) (env : Nat → Int) (vid : Nat)
    (h : OpKind.kill_vid ∈ ks) : Pres (HwOnly ks) (mlxsw_sp_port_kill_vid env vid) :=
  Pres_bind (HwOnly_pre ks) (Pres_getSt (HwOnly_pre ks))
    (fun _ => Pres_env_call_only ks env _ h)

theorem Pres_pvid_set (ks : List OpKind) (env : Nat → Int) (vid : Nat)
    (h : OpKind.spvid ∈ ks) : Pres (HwOnly ks) (mlxsw_sp_port_pvid_set env vid) :=
  Pres_bind (HwOnly_pre ks) (Pres_getSt (HwOnly_pre ks))
    (fun _ => Pres_env_call_only ks env _ h)

theorem Pres_ite {α : Type} {R : St → St → Prop} (p : Prop) [Decidable p] {x y : M α}
    (hx : Pres R x) (hy : Pres R y) : Pres R (if p then x else y) := by
  split
  · exact hx
  · exact hy

theorem Pres_fid_map (ks : List OpKind) (env : Nat → Int) (fid : Nat)
    (h : OpKind.vid_to_fid_set ∈ ks) : Pres (HwOnly ks) (mlxsw_sp_port_fid_map env fid) :=
  Pres_bind (HwOnly_pre ks) (Pres_getSt (HwOnly_pre ks))
    (fun _ => Pres_vid_to_fid_set ks env _ _ _ _ h)

theorem Pres_fid_unmap (ks : List OpKind) (env : Nat → Int) (fid : Nat)
    (h : OpKind.vid_to_fid_set ∈ ks) : Pres (HwOnly ks) (mlxsw_sp_port_fid_unmap env fid) :=
  Pres_bind (HwOnly_pre ks) (Pres_getSt (HwOnly_pre ks))
    (fun _ => Pres_ite _ (Pres_pure (HwOnly_pre ks) _) (Pres_vid_to_fid_set ks env _ _ _ _ h))

theorem Pres_flood_set (ks : List OpKind) (c : Consts) (env : Nat → Int) (b e : Nat)
    (set only_uc : Bool) (h1 : OpKind.kmalloc ∈ ks) (h2 : OpKind.sftr ∈ ks) :
    Pres (HwOnly ks) (__mlxsw_sp_port_flood_set c env b e set only_uc) := by
  have hR := HwOnly_pre ks
  unfold __mlxsw_sp_port_flood_set
  refine Pres_bind hR (Pres_getSt hR) (fun s => ?_)
  refine Pres_bind hR (Pres_kmalloc ks env _ h1) (fun ok => ?_)
  refine Pres_ite _ (Pres_pure hR _) ?_
  refine Pres_bind hR (Pres_env_call_only ks env _ h2) (fun err => ?_)
  refine Pres_ite _ (Pres_pure hR _) ?_
  exact Pres_ite _ (Pres_pure hR _) (Pres_env_call_only ks env _ h2)

theorem Pres_stp_state_set (ks : List OpKind) (env : Nat → Int) (state : Nat)
    (h1 : OpKind.kmalloc ∈ ks) (h2 : OpKind.spms ∈ ks) :
    Pres (HwOnly ks) (mlxsw_sp_port_stp_state_set env state) := by
  have hR := HwOnly_pre ks
  have hgo : ∀ st : spms_state, Pres (HwOnly ks) (do
      let ok ← kmalloc env .spms_pl
      if !ok then
        pure (-ENOMEM)
      else do
        let s ← getSt
        let vids :=
          if s.port.is_vport then [s.port.vport_vid]
          else for_each_set_bit s.port.active_vlans VLAN_N_VID
        mlxsw_reg_write env (.spms s.port.local_port vids st) : M Int) := by
    intro st
    refine Pres_bind hR (Pres_kmalloc ks env _ h1) (fun ok => ?_)
    refine Pres_ite _ (Pres_pure hR _) ?_
    exact Pres_bind hR (Pres_getSt hR) (fun s => Pres_env_call_only ks env _ h2)
  unfold mlxsw_sp_port_stp_state_set
  refine Pres_ite _ (hgo _) ?_
  refine Pres_ite _ (hgo _) ?_
  exact Pres_ite _ (hgo _) (Pres_BUG hR)

theorem FidsGrow_pre (ks : List OpKind) : Preorderly (FidsGrow ks) :=
  Preorderly_Rel _
    ⟨fun _ => ⟨rfl, fun _ h => h⟩,
     fun _ _ _ h1 h2 => ⟨h2.1.trans h1.1, fun v h => h2.2 v (h1.2 v h)⟩⟩
    Preorderly_eq

theorem HwOnly_FidsGrow {ks ks' : List OpKind} (h : ∀ k ∈ ks, k ∈ ks') (a b : St)
    (hab : HwOnly ks a b) : FidsGrow ks' a b := by
  obtain ⟨h1, h2, evs, h3, h4⟩ := hab
  exact ⟨⟨by rw [h1], fun v hv => by rw [← h1]; exact hv⟩, h2, evs, h3, fun e he => h _ (h4 e he)⟩

theorem Pres_vlans_add_fids_body (env : Nat → Int) (vid : Nat) :
    Pres (FidsGrow [.sfmr, .vid_to_fid_set]) (do
      let s ← getSt
      if !test_bit vid s.sp.active_fids then do
        let err ← mlxsw_sp_fid_create env vid
        if err ≠ 0 then
          pure (some (err, add_exit.fid_create))
        else do
          let err ← mlxsw_sp_port_vid_to_fid_set env .MLXSW_REG_SVFA_MT_VID_TO_FID true vid vid
          if err ≠ 0 then do
            mlxsw_sp_fid_destroy env vid
            pure (some (err, add_exit.err_port_vid_to_fid_set))
          else
            pure none
      else
        pure none : M (Option (Int × add_exit))) := by
  intro s
  by_cases hb : test_bit vid s.sp.active_fids = true
  · simp only [bind_apply, getSt_apply, hb, Bool.not_true, Bool.false_eq_true, if_false,
      pure_apply]
    exact (FidsGrow_pre _).refl s
  · simp only [Bool.not_eq_true] at hb
    simp only [bind_apply, getSt_apply, hb, Bool.not_false, if_true, fid_create_eq]
    by_cases h1 : env s.trace.length = 0
    · simp only [h1, ne_eq, not_true_eq_false, if_false, if_true, bind_apply,
        mlxsw_sp_port_vid_to_fid_set, getSt_apply, env_call_apply, List.length_cons]
      by_cases h2 : env (s.trace.length + 1) = 0
      · simp only [h2, not_true_eq_false, if_false, pure_apply]
        refine ⟨⟨rfl, fun v hv => ?_⟩, rfl, [_, _], rfl, ?_⟩
        · simp [test_bit_set_bit, hv]
        · intro e he
          simp at he
          rcases he with rfl | rfl <;> simp [only, Op.kind]
      · simp only [h2, not_false_eq_true, if_true, bind_apply, mlxsw_sp_fid_destroy,
          modifySt_apply, mlxsw_reg_write, env_call_apply, pure_apply]
        refine ⟨⟨rfl, fun v hv => ?_⟩, rfl, [_, _, _], rfl, ?_⟩
        · have : vid ≠ v := by
            rintro rfl
            rw [hb] at hv
            exact Bool.false_ne_true hv
          simp [test_bit_clear_bit, test_bit_set_bit, hv, this]
        · intro e he
          simp at he
          rcases he with rfl | rfl | rfl <;> simp [only, Op.kind]
    · simp only [h1, ne_eq, not_false_eq_true, if_true, if_false, pure_apply]
      refine ⟨⟨rfl, fun v hv => hv⟩, rfl, [_], rfl, ?_⟩
      intro e he
      simp at he
      subst he
      simp [only, Op.kind]

theorem Pres_vlans_add_fids (env : Nat → Int) (fuel vid_begin vid_end : Nat) :
    Pres (FidsGrow [.sfmr, .vid_to_fid_set]) (vlans_add_fids env fuel vid_begin vid_end) :=
  Pres_for_up (FidsGrow_pre _) _ _ _ (fun v => Pres_vlans_add_fids_body env v) _ _

theorem Pres_err_body {R : St → St → Prop} (hR : Preorderly R) {f : M Int} (hf : Pres R f) :
    Pres R (do
      let err ← f
      if err ≠ 0 then pure (some err) else pure none : M (Option Int)) :=
  Pres_bind hR hf (fun _ => Pres_ite _ (Pres_pure hR _) (Pres_pure hR _))

theorem Pres_drop {R : St → St → Prop} (hR : Preorderly R) {f : M Int} (hf : Pres R f) :
    Pres R (do
      let _ ← f
      pure () : M Unit) :=
  Pres_bind hR hf (fun _ => Pres_pure hR _)

theorem Pres_add_vids (ks : List OpKind) (env : Nat → Int) (fuel vid_begin vid_end : Nat)
    (h1 : OpKind.add_vid ∈ ks) (h2 : OpKind.kill_vid ∈ ks) :
    Pres (HwOnly ks) (mlxsw_sp_port_add_vids env fuel vid_begin vid_end) := by
  have hR := HwOnly_pre ks
  unfold mlxsw_sp_port_add_vids
  refine Pres_bind hR
    (Pres_for_up hR _ _ _ (fun v => Pres_err_body hR (Pres_add_vid ks env v h1)) _ _) ?_
  rintro ⟨v, e⟩
  cases e with
  | none => exact Pres_pure hR _
  | some err =>
    exact Pres_bind hR
      (Pres_for_down hR _ _ (fun v => Pres_drop hR (Pres_kill_vid ks env v h2)) _ _)
      (fun _ => Pres_pure hR _)

theorem Pres_kill_vids (ks : List OpKind) (env : Nat → Int) (fuel vid_begin vid_end : Nat)
    (h2 : OpKind.kill_vid ∈ ks) :
    Pres (HwOnly ks) (mlxsw_sp_port_kill_vids env fuel vid_begin vid_end) := by
  have hR := HwOnly_pre ks
  unfold mlxsw_sp_port_kill_vids
  refine Pres_bind hR
    (Pres_for_up hR _ _ _ (fun v => Pres_err_body hR (Pres_kill_vid ks env v h2)) _ _) ?_
  rintro ⟨v, e⟩
  cases e with
  | none => exact Pres_pure hR _
  | some err => exact Pres_pure hR _

theorem Pres_vlans_set (ks : List OpKind) (c : Consts) (env : Nat → Int)
    (fuel vid_begin vid_end : Nat) (m u : Bool) (h : OpKind.vlan_set ∈ ks) :
    Pres (HwOnly ks) (__mlxsw_sp_port_vlans_set c env fuel vid_begin vid_end m u) := by
  have hR := HwOnly_pre ks
  unfold __mlxsw_sp_port_vlans_set
  refine Pres_bind hR
    (Pres_for_up hR _ _ _ (fun v => Pres_err_body hR (Pres_vlan_set ks env _ _ m u h)) _ _) ?_
  rintro ⟨v, e⟩
  cases e with
  | none => exact Pres_pure hR _
  | some err => exact Pres_pure hR _

theorem Pres_vlans_add_fid_maps (ks : List OpKind) (env : Nat → Int)
    (fuel vid_begin vid_end : Nat) (h : OpKind.vid_to_fid_set ∈ ks) :
    Pres (HwOnly ks) (vlans_add_fid_maps env fuel vid_begin vid_end) :=
  Pres_for_up (HwOnly_pre ks) _ _ _
    (fun v => Pres_err_body (HwOnly_pre ks) (Pres_fid_map ks env v h)) _ _

theorem Pres_vlans_del_fid_unmaps (ks : List OpKind) (env : Nat → Int)
    (fuel vid_begin vid_end : Nat) (h : OpKind.vid_to_fid_set ∈ ks) :
    Pres (HwOnly ks) (vlans_del_fid_unmaps env fuel vid_begin vid_end) :=
  Pres_for_up (HwOnly_pre ks) _ _ _
    (fun v => Pres_err_body (HwOnly_pre ks) (Pres_fid_unmap ks env v h)) _ _

theorem Pres_err_port_fid_map (ks : List OpKind) (env : Nat → Int)
    (fuel vid_begin last : Nat) (h : OpKind.vid_to_fid_set ∈ ks) :
    Pres (HwOnly ks) (vlans_add_err_port_fid_map env fuel vid_begin last) :=
  Pres_for_down (HwOnly_pre ks) _ _
    (fun v => Pres_drop (HwOnly_pre ks) (Pres_fid_unmap ks env v h)) _ _

theorem Pres_err_port_flood_set (ks : List OpKind) (env : Nat → Int)
    (fuel vid_begin vid_end : Nat) (h : OpKind.vid_to_fid_set ∈ ks) :
    Pres (HwOnly ks) (vlans_add_err_port_flood_set env fuel vid_begin vid_end) :=
  Pres_err_port_fid_map ks env fuel vid_begin vid_end h

theorem Pres_err_port_vlans_set (ks : List OpKind) (c : Consts) (env : Nat → Int)
    (fuel vid_begin vid_end : Nat) (h : OpKind.vid_to_fid_set ∈ ks)
    (h1 : OpKind.kmalloc ∈ ks) (h2 : OpKind.sftr ∈ ks) :
    Pres (HwOnly ks) (vlans_add_err_port_vlans_set c env fuel vid_begin vid_end) :=
  Pres_bind (HwOnly_pre ks) (Pres_flood_set ks c env _ _ _ _ h1 h2)
    (fun _ => Pres_err_port_flood_set ks env fuel vid_begin vid_end h)

theorem Pres_err_port_pvid_set (ks : List OpKind) (c : Consts) (env : Nat → Int)
    (fuel vid_begin vid_end : Nat) (h : OpKind.vid_to_fid_set ∈ ks)
    (h1 : OpKind.kmalloc ∈ ks) (h2 : OpKind.sftr ∈ ks) (h3 : OpKind.vlan_set ∈ ks) :
    Pres (HwOnly ks) (vlans_add_err_port_pvid_set c env fuel vid_begin vid_end) :=
  Pres_bind (HwOnly_pre ks) (Pres_vlans_set ks c env _ _ _ _ _ h3)
    (fun _ => Pres_err_port_vlans_set ks c env fuel vid_begin vid_end h h1 h2)

/-- Reading `Pres` at a run that returned. -/
theorem Pres_ret {α : Type} {R : St → St → Prop} {x : M α} (hx : Pres R x) {s s' : St} {a : α}
    (h : x s = Res.ret a s') : R s s' := by
  have := hx s
  rw [h] at this
  exact this

/-! ## Loop rules -/

/-- Invariant rule for `for_up`, for runs that return. -/
theorem for_up_partial {ε : Type} (body : Nat → M (Option ε)) (step vid_end : Nat)
    (Inv : Nat → St → Prop) (Exit : Nat → ε → St → Prop)
    (hbody : ∀ v s e s', v ≤ vid_end → Inv v s → body v s = Res.ret e s' →
      match e with
      | none => Inv ((v + step) % U16) s'
      | some x => Exit v x s') :
    ∀ fuel vid s v' e s', Inv vid s →
      for_up body step vid_end fuel vid s = Res.ret (v', e) s' →
      match e with
      | none => vid_end < v' ∧ Inv v' s'
      | some x => v' ≤ vid_end ∧ Exit v' x s' := by
  intro fuel
  induction fuel with
  | zero => intro vid s v' e s' _ h; simp [for_up] at h
  | succ n ih =>
    intro vid s v' e s' hI h
    unfold for_up at h
    by_cases hle : vid ≤ vid_end
    · simp only [hle, if_true, bind_apply] at h
      cases hb : body vid s with
      | bug _ => simp [hb] at h
      | out_of_fuel => simp [hb] at h
      | ret e1 s1 =>
        rw [hb] at h
        have h1 := hbody vid s e1 s1 hle hI hb
        cases e1 with
        | none => exact ih _ _ _ _ _ h1 h
        | some x =>
          simp only [pure_apply, Res.ret.injEq, Prod.mk.injEq] at h
          obtain ⟨⟨rfl, rfl⟩, rfl⟩ := h
          exact ⟨hle, h1⟩
    · simp only [hle, if_false, pure_apply, Res.ret.injEq, Prod.mk.injEq] at h
      obtain ⟨⟨rfl, rfl⟩, rfl⟩ := h
      exact ⟨Nat.lt_of_not_le hle, hI⟩

/-- Invariant rule for `for_down`, for runs that return. -/
theorem for_down_partial (body : Nat → M Unit) (vid_begin : Nat) (Inv : Nat → St → Prop)
    (hbody : ∀ v s s', vid_begin ≤ v → Inv v s → body v s = Res.ret () s' →
      Inv ((v + U16 - 1) % U16) s') :
    ∀ fuel vid s s', Inv vid s → for_down body vid_begin fuel vid s = Res.ret () s' →
      ∃ v', v' < vid_begin ∧ Inv v' s' := by
  intro fuel
  induction fuel with
  | zero => intro vid s s' _ h; simp [for_down] at h
  | succ n ih =>
    intro vid s s' hI h
    unfold for_down at h
    by_cases hle : vid_begin ≤ vid
    · simp only [hle, if_true, bind_apply] at h
      cases hb : body vid s with
      | bug _ => simp [hb] at h
      | out_of_fuel => simp [hb] at h
      | ret u s1 =>
        rw [hb] at h
        exact ih _ _ _ (hbody vid s s1 hle hI hb) h
    · simp only [hle, if_false, pure_apply, Res.ret.injEq, true_and] at h
      subst h
      exact ⟨vid, Nat.lt_of_not_le hle, hI⟩

/-- A `for_up` loop whose counter cannot wrap returns when it has fuel for
every iteration and its body always returns. -/
theorem for_up_returns {ε : Type} (body : Nat → M (Option ε)) (step vid_end : Nat)
    (hbody : ∀ v s, ∃ e s', body v s = Res.ret e s') (hstep : 0 < step)
    (hwrap : vid_end + step < U16) :
    ∀ fuel vid s, vid_end + 1 - vid < fuel →
      ∃ r s', for_up body step vid_end fuel vid s = Res.ret r s' := by
  intro fuel
  induction fuel with
  | zero => intro vid s h; omega
  | succ n ih =>
    intro vid s hf
    unfold for_up
    by_cases hle : vid ≤ vid_end
    · obtain ⟨e, s1, hb⟩ := hbody vid s
      simp only [hle, if_true, bind_apply, hb]
      cases e with
      | some x => exact ⟨_, _, rfl⟩
      | none =>
        have hmod : (vid + step) % U16 = vid + step := Nat.mod_eq_of_lt (by omega)
        simp only [hmod]
        exact ih _ _ (by omega)
    · simp only [hle, if_false]
      exact ⟨_, _, rfl⟩

/-- A `for_down` loop with `vid_begin > 0` returns when it has fuel for every
iteration and its body always returns. -/
theorem for_down_returns (body : Nat → M Unit) (vid_begin : Nat)
    (hbody : ∀ v s, ∃ s', body v s = Res.ret () s') (hvb : 0 < vid_begin) :
    ∀ fuel vid s, vid < U16 → vid + 1 - vid_begin < fuel →
      ∃ s', for_down body vid_begin fuel vid s = Res.ret () s' := by
  intro fuel
  induction fuel with
  | zero => intro vid s _ h; omega
  | succ n ih =>
    intro vid s hv hf
    unfold for_down
    by_cases hle : vid_begin ≤ vid
    · obtain ⟨s1, hb⟩ := hbody vid s
      simp only [hle, if_true, bind_apply, hb]
      have hmod : (vid + U16 - 1) % U16 = vid - 1 := by
        have : vid + U16 - 1 = (vid - 1) + U16 := by omega
        rw [this, Nat.add_mod_right]
        exact Nat.mod_eq_of_lt (by omega)
      simp only [hmod]
      exact ih _ _ (by omega) (by omega)
    · simp only [hle, if_false]
      exact ⟨_, rfl⟩

/-! ## The activity bits and the PVID -/

theorem set_active_vlans_spec (fuel vid_begin vid_end : Nat) (s s' : St)
    (hvb : vid_begin < U16) (h : set_active_vlans fuel vid_begin vid_end s = Res.ret () s') :
    s'.sp = s.sp ∧ s'.trace = s.trace ∧
    s'.port = { s.port with active_vlans := s'.port.active_vlans } ∧
    ∀ u, test_bit u s'.port.active_vlans
      = (decide (vid_begin ≤ u ∧ u ≤ vid_end) || test_bit u s.port.active_vlans) := by
  unfold set_active_vlans at h
  simp only [bind_apply] at h
  cases hl : for_up (ε := Unit) (fun vid => do
      modifySt (fun s => { s with port := { s.port with
        active_vlans := set_bit vid s.port.active_vlans } })
      pure none) 1 vid_end fuel vid_begin s with
  | bug _ => simp [hl] at h
  | out_of_fuel => simp [hl] at h
  | ret r s1 =>
    rw [hl] at h
    simp only [pure_apply, Res.ret.injEq, true_and] at h
    subst h
    obtain ⟨v', e⟩ := r
    have key := for_up_partial (ε := Unit) _ 1 vid_end
      (fun v t => v < U16 ∧ t.sp = s.sp ∧ t.trace = s.trace ∧
        t.port = { s.port with active_vlans := t.port.active_vlans } ∧
        (vid_end + 1 < U16 → vid_begin ≤ v ∧ ∀ u, test_bit u t.port.active_vlans
          = (decide (vid_begin ≤ u ∧ u < v ∧ u ≤ vid_end) || test_bit u s.port.active_vlans)))
      (fun _ _ _ => False) ?_ fuel vid_begin s v' e s1 ?_ hl
    · cases e with
      | some x => exact key.2.elim
      | none =>
        obtain ⟨hlt, hU, h1, h2, h3, h4⟩ := key
        refine ⟨h1, h2, h3, fun u => ?_⟩
        obtain ⟨h5, h6⟩ := h4 (by omega)
        rw [h6 u]
        congr 1
        apply decide_eq_decide.mpr
        constructor
        · rintro ⟨a, _, b⟩; exact ⟨a, b⟩
        · rintro ⟨a, b⟩; exact ⟨a, by omega, b⟩
    · intro v t e t' hle hI hb
      simp only [bind_apply, modifySt_apply, pure_apply, Res.ret.injEq] at hb
      obtain ⟨rfl, rfl⟩ := hb
      obtain ⟨hU, h1, h2, h3, h4⟩ := hI
      refine ⟨Nat.mod_lt _ (by decide), h1, h2, ?_, fun hw => ?_⟩
      · simp only
        rw [h3]
      · obtain ⟨h5, h6⟩ := h4 hw
        have hmod : (v + 1) % U16 = v + 1 := Nat.mod_eq_of_lt (by omega)
        rw [hmod]
        refine ⟨by omega, fun u => ?_⟩
        simp only [test_bit_set_bit, h6 u]
        by_cases huv : v = u
        · subst huv
          simp [h5, hle]
        · have : (u < v + 1) = (u < v) := by
            apply propext
            constructor <;> intro hh <;> omega
          simp [huv, this]
    · refine ⟨hvb, rfl, rfl, rfl, fun _ => ⟨le_refl _, fun u => ?_⟩⟩
      have : ¬ (vid_begin ≤ u ∧ u < vid_begin ∧ u ≤ vid_end) := by omega
      simp [this]

theorem clear_active_vlans_spec (fuel vid_begin vid_end : Nat) (s s' : St)
    (hvb : vid_begin < U16) (h : clear_active_vlans fuel vid_begin vid_end s = Res.ret () s') :
    s'.sp = s.sp ∧ s'.trace = s.trace ∧
    s'.port = { s.port with active_vlans := s'.port.active_vlans } ∧
    ∀ u, test_bit u s'.port.active_vlans
      = (test_bit u s.port.active_vlans && !decide (vid_begin ≤ u ∧ u ≤ vid_end)) := by
  unfold clear_active_vlans at h
  simp only [bind_apply] at h
  cases hl : for_up (ε := Unit) (fun vid => do
      modifySt (fun s => { s with port := { s.port with
        active_vlans := clear_bit vid s.port.active_vlans } })
      pure none) 1 vid_end fuel vid_begin s with
  | bug _ => simp [hl] at h
  | out_of_fuel => simp [hl] at h
  | ret r s1 =>
    rw [hl] at h
    simp only [pure_apply, Res.ret.injEq, true_and] at h
    subst h
    obtain ⟨v', e⟩ := r
    have key := for_up_partial (ε := Unit) _ 1 vid_end
      (fun v t => v < U16 ∧ t.sp = s.sp ∧ t.trace = s.trace ∧
        t.port = { s.port with active_vlans := t.port.active_vlans } ∧
        (vid_end + 1 < U16 → vid_begin ≤ v ∧ ∀ u, test_bit u t.port.active_vlans
          = (test_bit u s.port.active_vlans && !decide (vid_begin ≤ u ∧ u < v ∧ u ≤ vid_end))))
      (fun _ _ _ => False) ?_ fuel vid_begin s v' e s1 ?_ hl
    · cases e with
      | some x => exact key.2.elim
      | none =>
        obtain ⟨hlt, hU, h1, h2, h3, h4⟩ := key
        refine ⟨h1, h2, h3, fun u => ?_⟩
        obtain ⟨h5, h6⟩ := h4 (by omega)
        rw [h6 u]
        congr 2
        apply decide_eq_decide.mpr
        constructor
        · rintro ⟨a, _, b⟩; exact ⟨a, b⟩
        · rintro ⟨a, b⟩; exact ⟨a, by omega, b⟩
    · intro v t e t' hle hI hb
      simp only [bind_apply, modifySt_apply, pure_apply, Res.ret.injEq] at hb
      obtain ⟨rfl, rfl⟩ := hb
      obtain ⟨hU, h1, h2, h3, h4⟩ := hI
      refine ⟨Nat.mod_lt _ (by decide), h1, h2, ?_, fun hw => ?_⟩
      · simp only
        rw [h3]
      · obtain ⟨h5, h6⟩ := h4 hw
        have hmod : (v + 1) % U16 = v + 1 := Nat.mod_eq_of_lt (by omega)
        rw [hmod]
        refine ⟨by omega, fun u => ?_⟩
        simp only [test_bit_clear_bit, h6 u]
        by_cases huv : v = u
        · subst huv
          simp [h5, hle]
        · have : (u < v + 1) = (u < v) := by
            apply propext
            constructor <;> intro hh <;> omega
          simp [huv, this]
    · refine ⟨hvb, rfl, rfl, rfl, fun _ => ⟨le_refl _, fun u => ?_⟩⟩
      have : ¬ (vid_begin ≤ u ∧ u < vid_begin ∧ u ≤ vid_end) := by omega
      simp [this]

theorem vlans_add_pvid_eq (env : Nat → Int) (vid_begin : Nat) (fp : Bool) (old : Nat) (s : St) :
    vlans_add_pvid env vid_begin fp old s =
      if fp = true ∧ old ≠ vid_begin then
        Res.ret (env s.trace.length)
          { s with
            port := { s.port with pvid :=
              (if (env s.trace.length) = 0 then vid_begin else s.port.pvid) }
            trace := ⟨.spvid s.port.local_port vid_begin, env s.trace.length⟩ :: s.trace }
      else Res.ret 0 s := by
  unfold vlans_add_pvid
  by_cases hc : fp = true ∧ old ≠ vid_begin
  · simp only [hc, and_self, if_true, ne_eq, not_false_eq_true, bind_apply,
      mlxsw_sp_port_pvid_set, getSt_apply, mlxsw_reg_write, env_call_apply]
    by_cases he : env s.trace.length = 0
    · simp [he]
    · simp [he]
  · simp only [hc, if_false, pure_apply]

theorem vlans_del_pvid_eq (env : Nat → Int) (vid_begin vid_end pvid : Nat) (s : St) :
    vlans_del_pvid env vid_begin vid_end pvid s =
      if vid_begin ≤ pvid ∧ pvid ≤ vid_end ∧ pvid ≠ 1 then
        Res.ret (env s.trace.length)
          { s with
            port := { s.port with pvid :=
              (if (env s.trace.length) = 0 then 1 else s.port.pvid) }
            trace := ⟨.spvid s.port.local_port 1, env s.trace.length⟩ :: s.trace }
      else Res.ret 0 s := by
  unfold vlans_del_pvid
  by_cases hc : vid_begin ≤ pvid ∧ pvid ≤ vid_end ∧ pvid ≠ 1
  · simp only [hc, and_self, if_true, ne_eq, not_false_eq_true, bind_apply,
      mlxsw_sp_port_pvid_set, getSt_apply, mlxsw_reg_write, env_call_apply]
    by_cases he : env s.trace.length = 0
    · simp [he]
    · simp [he]
  · simp only [hc, if_false, pure_apply]

/-- The port is untouched by a failing PVID step. -/
theorem vlans_add_pvid_fail_port (env : Nat → Int) (vid_begin : Nat) (fp : Bool) (old : Nat)
    (s s' : St) (err : Int) (h : vlans_add_pvid env vid_begin fp old s = Res.ret err s')
    (he : err ≠ 0) : s'.port = s.port ∧ s'.sp = s.sp := by
  rw [vlans_add_pvid_eq] at h
  split at h
  · simp only [Res.ret.injEq] at h
    obtain ⟨rfl, rfl⟩ := h
    simp [he]
  · simp only [Res.ret.injEq] at h
    exact absurd h.1.symm he

theorem vlans_add_eq_of_exit (c : Consts) (env : Nat → Int) (fuel vid_begin vid_end : Nat)
    (fu fp : Bool) (s s' : St) (err : Int) (ex : add_exit)
    (h : vlans_add_exit c env fuel vid_begin vid_end fu fp s = Res.ret (err, ex) s') :
    __mlxsw_sp_port_vlans_add c env fuel vid_begin vid_end fu fp s = Res.ret err s' := by
  simp [__mlxsw_sp_port_vlans_add, h]

theorem vlans_add_exit_of_eq (c : Consts) (env : Nat → Int) (fuel vid_begin vid_end : Nat)
    (fu fp : Bool) (s s' : St) (err : Int)
    (h : __mlxsw_sp_port_vlans_add c env fuel vid_begin vid_end fu fp s = Res.ret err s') :
    ∃ ex, vlans_add_exit c env fuel vid_begin vid_end fu fp s = Res.ret (err, ex) s' := by
  simp only [__mlxsw_sp_port_vlans_add, bind_apply] at h
  cases hx : vlans_add_exit c env fuel vid_begin vid_end fu fp s with
  | bug _ => simp [hx] at h
  | out_of_fuel => simp [hx] at h
  | ret r s1 =>
    rw [hx] at h
    simp only [pure_apply, Res.ret.injEq] at h
    obtain ⟨rfl, rfl⟩ := h
    exact ⟨r.2, rfl⟩

theorem mem_all_kinds (k : OpKind) : k ∈ all_kinds := by
  cases k <;> simp [all_kinds]

theorem HwOnly_port {ks : List OpKind} {a b : St} (h : HwOnly ks a b) :
    b.port = a.port ∧ b.sp = a.sp :=
  ⟨h.2.1.symm, h.1.symm⟩

theorem FidsGrow_port {ks : List OpKind} {a b : St} (h : FidsGrow ks a b) : b.port = a.port :=
  h.2.1.symm

/-! ## C2 -/

/-- C2: on a bridged port, when `__mlxsw_sp_port_vlans_add` returns through one
of the exits taken by a failure before the final STP re-apply (FID create,
VID-to-FID map of a new FID, port-mode FID map, flood programming, VLAN-table
programming, PVID set), the port's active-VLAN bitmap and its cached PVID are
the ones it had before the call. -/
theorem vlans_add_early_failure_keeps_bitmap_and_pvid (c : Consts) (env : Nat → Int)
    (fuel vid_begin vid_end : Nat) (fu fp : Bool) (s s' : St) (err : Int) (ex : add_exit)
    (hb : s.port.bridged = true)
    (h : vlans_add_exit c env fuel vid_begin vid_end fu fp s = Res.ret (err, ex) s')
    (hex : ex = .fid_create ∨ ex = .err_port_vid_to_fid_set ∨ ex = .err_port_fid_map ∨
      ex = .err_port_flood_set ∨ ex = .err_port_vlans_set ∨ ex = .err_port_pvid_set) :
    __mlxsw_sp_port_vlans_add c env fuel vid_begin vid_end fu fp s = Res.ret err s' ∧
    s'.port.active_vlans = s.port.active_vlans ∧ s'.port.pvid = s.port.pvid := by
  refine ⟨vlans_add_eq_of_exit _ _ _ _ _ _ _ _ _ _ _ h, ?_⟩
  suffices hp : s'.port = s.port by rw [hp]; exact ⟨rfl, rfl⟩
  have hk := mem_all_kinds
  rcases vlans_add_exit_cases c env fuel vid_begin vid_end fu fp s s' err ex hb h with
    ⟨v, h1⟩ | ⟨v1, s1, h1, hrest⟩
  · exact FidsGrow_port (Pres_ret (Pres_vlans_add_fids env fuel vid_begin vid_end) h1)
  have p1 := FidsGrow_port (Pres_ret (Pres_vlans_add_fids env fuel vid_begin vid_end) h1)
  rcases hrest with ⟨v, s2, h2, h3, -⟩ | ⟨v2, s2, h2, hrest⟩
  · have p2 := (HwOnly_port (Pres_ret (Pres_vlans_add_fid_maps all_kinds env _ _ _ (hk _)) h2)).1
    have p3 := (HwOnly_port (Pres_ret (Pres_err_port_fid_map all_kinds env _ _ _ (hk _)) h3)).1
    rw [p3, p2, p1]
  have p2 := (HwOnly_port (Pres_ret (Pres_vlans_add_fid_maps all_kinds env _ _ _ (hk _)) h2)).1
  rcases hrest with ⟨s3, h3, -, h4, -⟩ | ⟨s3, h3, hrest⟩
  · have p3 := (HwOnly_port (Pres_ret
      (Pres_flood_set all_kinds c env _ _ _ _ (hk _) (hk _)) h3)).1
    have p4 := (HwOnly_port (Pres_ret (Pres_err_port_flood_set all_kinds env _ _ _ (hk _)) h4)).1
    rw [p4, p3, p2, p1]
  have p3 := (HwOnly_port (Pres_ret (Pres_flood_set all_kinds c env _ _ _ _ (hk _) (hk _)) h3)).1
  rcases hrest with ⟨s4, h4, -, h5, -⟩ | ⟨s4, h4, hrest⟩
  · have p4 := (HwOnly_port (Pres_ret (Pres_vlans_set all_kinds c env _ _ _ _ _ (hk _)) h4)).1
    have p5 := (HwOnly_port (Pres_ret
      (Pres_err_port_vlans_set all_kinds c env _ _ _ (hk _) (hk _) (hk _)) h5)).1
    rw [p5, p4, p3, p2, p1]
  have p4 := (HwOnly_port (Pres_ret (Pres_vlans_set all_kinds c env _ _ _ _ _ (hk _)) h4)).1
  rcases hrest with ⟨s5, h5, he5, h6, -⟩ | ⟨s5, s6, -, -, hrest⟩
  · have p5 := (vlans_add_pvid_fail_port _ _ _ _ _ _ _ h5 he5).1
    have p6 := (HwOnly_port (Pres_ret
      (Pres_err_port_pvid_set all_kinds c env _ _ _ (hk _) (hk _) (hk _) (hk _)) h6)).1
    rw [p6, p5, p4, p3, p2, p1]
  rcases hrest with ⟨s7, -, -, -, hx⟩ | ⟨-, -, hx⟩
  · subst hx
    simp at hex
  · subst hx
    simp at hex

/-- Witness of C2: on `ex_port` (PVID 1, no VLAN) the add of VLAN 100 with the
VLAN-table write failing returns `-EIO` through `err_port_vlans_set` and leaves
the bitmap and the PVID as they were. -/
theorem vlans_add_early_failure_keeps_bitmap_and_pvid_witness :
    __mlxsw_sp_port_vlans_add mlxsw_consts (fail_at 6) 5 100 100 true true ex_st
      = Res.ret (-5) (Res.final ex_st
          (vlans_add_exit mlxsw_consts (fail_at 6) 5 100 100 true true ex_st)) ∧
    (Res.final ex_st (vlans_add_exit mlxsw_consts (fail_at 6) 5 100 100 true true
      ex_st)).port.active_vlans = 0 ∧
    (Res.final ex_st (vlans_add_exit mlxsw_consts (fail_at 6) 5 100 100 true true
      ex_st)).port.pvid = 1 :=
  vlans_add_early_failure_keeps_bitmap_and_pvid mlxsw_consts (fail_at 6) 5 100 100 true true
    ex_st _ (-5) .err_port_vlans_set (by decide) (by decide!)
    (Or.inr (Or.inr (Or.inr (Or.inr (Or.inl rfl)))))

/-! ## C10 -/

theorem fid_destroy_eq (env : Nat → Int) (fid : Nat) (s : St) :
    mlxsw_sp_fid_destroy env fid s =
      Res.ret ()
        { s with
          sp := { s.sp with active_fids := clear_bit fid s.sp.active_fids }
          trace := ⟨.sfmr .MLXSW_REG_SFMR_OP_DESTROY_FID fid fid, env s.trace.length⟩
            :: s.trace } := by
  simp [mlxsw_sp_fid_destroy, mlxsw_reg_write]

/-- C10: `mlxsw_sp_fid_destroy(fid)` issues the hardware delete and, whatever
its result, leaves `fid` inactive and every other FID's active bit as it was;
`mlxsw_sp_fid_create(fid)` issues the hardware create and returns its result,
sets the active bit of `fid` (and no other) when the create succeeded, and
leaves the active-FID bitmap unchanged when it failed. -/
theorem fid_registry_active_bit (env : Nat → Int) (fid : Nat) (s : St) :
    (∃ s', mlxsw_sp_fid_destroy env fid s = Res.ret () s' ∧
      s'.trace = ⟨.sfmr .MLXSW_REG_SFMR_OP_DESTROY_FID fid fid, env s.trace.length⟩ :: s.trace ∧
      test_bit fid s'.sp.active_fids = false ∧
      ∀ g, g ≠ fid → test_bit g s'.sp.active_fids = test_bit g s.sp.active_fids) ∧
    (∃ s', mlxsw_sp_fid_create env fid s = Res.ret (env s.trace.length) s' ∧
      s'.trace = ⟨.sfmr .MLXSW_REG_SFMR_OP_CREATE_FID fid fid, env s.trace.length⟩ :: s.trace ∧
      (env s.trace.length = 0 →
        test_bit fid s'.sp.active_fids = true ∧
        ∀ g, g ≠ fid → test_bit g s'.sp.active_fids = test_bit g s.sp.active_fids) ∧
      (env s.trace.length ≠ 0 → s'.sp.active_fids = s.sp.active_fids)) := by
  constructor
  · refine ⟨_, fid_destroy_eq env fid s, rfl, ?_, fun g hg => ?_⟩
    · simp [test_bit_clear_bit]
    · simp [test_bit_clear_bit, Ne.symm hg]
  · refine ⟨_, fid_create_eq env fid s, rfl, fun h0 => ⟨?_, fun g hg => ?_⟩, fun h0 => ?_⟩
    · simp [h0, test_bit_set_bit]
    · simp [h0, test_bit_set_bit, Ne.symm hg]
    · simp [h0]

/-! ## Step-by-step reading of `__mlxsw_sp_port_vlans_del` -/

theorem vlans_del_not_bridged (c : Consts) (env : Nat → Int) (fuel vid_begin vid_end : Nat)
    (s : St) (hb : s.port.bridged = false) :
    __mlxsw_sp_port_vlans_del c env fuel vid_begin vid_end false s
      = mlxsw_sp_port_kill_vids env fuel vid_begin vid_end s := by
  simp [__mlxsw_sp_port_vlans_del, hb]

theorem vlans_del_cases (c : Consts) (env : Nat → Int) (fuel vid_begin vid_end : Nat)
    (init : Bool) (s s' : St) (err : Int)
    (hb : init = true ∨ s.port.bridged = true)
    (h : __mlxsw_sp_port_vlans_del c env fuel vid_begin vid_end init s = Res.ret err s') :
    (__mlxsw_sp_port_vlans_set c env fuel vid_begin vid_end false false s = Res.ret err s' ∧
      err ≠ 0) ∨
    ∃ s1, __mlxsw_sp_port_vlans_set c env fuel vid_begin vid_end false false s = Res.ret 0 s1 ∧
      ((vlans_del_pvid env vid_begin vid_end s1.port.pvid s1 = Res.ret err s' ∧ err ≠ 0) ∨
       ∃ s2, vlans_del_pvid env vid_begin vid_end s1.port.pvid s1 = Res.ret 0 s2 ∧
        ((init = true ∧ clear_active_vlans fuel vid_begin vid_end s2 = Res.ret () s' ∧
            err = 0) ∨
         (init = false ∧
          ((__mlxsw_sp_port_flood_set c env vid_begin vid_end false false s2 = Res.ret err s' ∧
              err ≠ 0) ∨
           ∃ s3, __mlxsw_sp_port_flood_set c env vid_begin vid_end false false s2
              = Res.ret 0 s3 ∧
            ((∃ v, vlans_del_fid_unmaps env fuel vid_begin vid_end s3
                = Res.ret (v, some err) s') ∨
             ∃ v s4, vlans_del_fid_unmaps env fuel vid_begin vid_end s3
                = Res.ret (v, none) s4 ∧
              clear_active_vlans fuel vid_begin vid_end s4 = Res.ret () s' ∧ err = 0))))) := by
  have hc : ¬ ((!init) = true ∧ (!s.port.bridged) = true) := by
    rcases hb with hb | hb <;> simp [hb]
  unfold __mlxsw_sp_port_vlans_del at h
  simp only [bind_apply, getSt_apply, hc, if_false] at h
  cases h1 : __mlxsw_sp_port_vlans_set c env fuel vid_begin vid_end false false s with
  | bug _ => simp [h1] at h
  | out_of_fuel => simp [h1] at h
  | ret e1 s1 =>
    rw [h1] at h
    by_cases he1 : e1 = 0
    · subst he1
      right
      refine ⟨s1, rfl, ?_⟩
      simp only [ne_eq, not_true_eq_false, if_false, bind_apply, getSt_apply] at h
      cases h2 : vlans_del_pvid env vid_begin vid_end s1.port.pvid s1 with
      | bug _ => simp [h2] at h
      | out_of_fuel => simp [h2] at h
      | ret e2 s2 =>
        rw [h2] at h
        by_cases he2 : e2 = 0
        · subst he2
          right
          refine ⟨s2, rfl, ?_⟩
          simp only [ne_eq, not_true_eq_false, if_false] at h
          cases init with
          | true =>
            left
            simp only [if_true, bind_apply] at h
            cases h3 : clear_active_vlans fuel vid_begin vid_end s2 with
            | bug _ => simp [h3] at h
            | out_of_fuel => simp [h3] at h
            | ret u s3 =>
              rw [h3] at h
              simp only [pure_apply, Res.ret.injEq] at h
              obtain ⟨rfl, rfl⟩ := h
              exact ⟨rfl, rfl, rfl⟩
          | false =>
            right
            refine ⟨rfl, ?_⟩
            simp only [Bool.false_eq_true, if_false, bind_apply] at h
            cases h3 : __mlxsw_sp_port_flood_set c env vid_begin vid_end false false s2 with
            | bug _ => simp [h3] at h
            | out_of_fuel => simp [h3] at h
            | ret e3 s3 =>
              rw [h3] at h
              by_cases he3 : e3 = 0
              · subst he3
                right
                refine ⟨s3, rfl, ?_⟩
                simp only [ne_eq, not_true_eq_false, if_false, bind_apply] at h
                cases h4 : vlans_del_fid_unmaps env fuel vid_begin vid_end s3 with
                | bug _ => simp [h4] at h
                | out_of_fuel => simp [h4] at h
                | ret r4 s4 =>
                  obtain ⟨v4, e4⟩ := r4
                  rw [h4] at h
                  cases e4 with
                  | some x =>
                    left
                    simp only [pure_apply, Res.ret.injEq] at h
                    obtain ⟨rfl, rfl⟩ := h
                    exact ⟨v4, rfl⟩
                  | none =>
                    right
                    simp only [bind_apply] at h
                    cases h5 : clear_active_vlans fuel vid_begin vid_end s4 with
                    | bug _ => simp [h5] at h
                    | out_of_fuel => simp [h5] at h
                    | ret u s5 =>
                      rw [h5] at h
                      simp only [pure_apply, Res.ret.injEq] at h
                      obtain ⟨rfl, rfl⟩ := h
                      exact ⟨v4, s4, rfl, h5, rfl⟩
              · left
                simp only [ne_eq, he3, not_false_eq_true, if_true, pure_apply,
                  Res.ret.injEq] at h
                obtain ⟨rfl, rfl⟩ := h
                exact ⟨rfl, he3⟩
        · left
          simp only [ne_eq, he2, not_false_eq_true, if_true, pure_apply, Res.ret.injEq] at h
          obtain ⟨rfl, rfl⟩ := h
          exact ⟨rfl, he2⟩
    · left
      simp only [ne_eq, he1, not_false_eq_true, if_true, pure_apply, Res.ret.injEq] at h
      obtain ⟨rfl, rfl⟩ := h
      exact ⟨rfl, he1⟩

theorem new_events_of_append (s s' : St) (evs : List Ev) (h : s'.trace = evs ++ s.trace) :
    new_events s s' = evs := by
  simp [new_events, h]

theorem HwOnly_new_events {ks : List OpKind} {a b : St} (h : HwOnly ks a b) :
    b.trace = new_events a b ++ a.trace ∧ ∀ e ∈ new_events a b, only ks e := by
  obtain ⟨-, -, evs, h3, h4⟩ := h
  rw [new_events_of_append a b evs h3]
  exact ⟨h3, h4⟩

/-! ## C8 -/

/-- C8, counterexample: on `ex_port5` (VLAN 5 active, PVID 5) the removal of
VLAN 5 with the unicast flood write failing returns `-EIO`, and the cached PVID
is then 1, not the 5 it was before the call. -/
theorem vlans_del_error_after_pvid_reset :
    __mlxsw_sp_port_vlans_del mlxsw_consts (fail_at 3) 5 5 5 false ex_st5
      = Res.ret (-5)
          { ex_st5 with
            port := { ex_port5 with pvid := 1 }
            trace := [⟨.sftr .MLXSW_SP_FLOOD_TABLE_UC 5 .MLXSW_REG_SFGC_TABLE_TYPE_FID_OFFEST 1 3
                        false, -5⟩,
                      ⟨.kmalloc .sftr_pl, 0⟩, ⟨.spvid 3 1, 0⟩,
                      ⟨.vlan_set 3 5 5 false false, 0⟩] } ∧
    ex_st5.port.pvid = 5 := by
  decide!

/-- C8, amended: when `__mlxsw_sp_port_vlans_del` returns an error, the port's
active-VLAN bitmap is the one before the call; the cached PVID is the one before
the call, or it is 1, and then the previous PVID was inside the range, was not
1, and the hardware PVID write to VLAN 1 succeeded during the call (the error
came from the later flood or unmap step). -/
theorem vlans_del_error_keeps_bitmap (c : Consts) (env : Nat → Int)
    (fuel vid_begin vid_end : Nat) (init : Bool) (s s' : St) (err : Int)
    (h : __mlxsw_sp_port_vlans_del c env fuel vid_begin vid_end init s = Res.ret err s')
    (he : err ≠ 0) :
    s'.port.active_vlans = s.port.active_vlans ∧
    (s'.port.pvid = s.port.pvid ∨
      (s'.port.pvid = 1 ∧ vid_begin ≤ s.port.pvid ∧ s.port.pvid ≤ vid_end ∧ s.port.pvid ≠ 1 ∧
        (⟨.spvid s.port.local_port 1, 0⟩ : Ev) ∈ new_events s s')) := by
  have hk := mem_all_kinds
  by_cases hb : init = true ∨ s.port.bridged = true
  · rcases vlans_del_cases c env fuel vid_begin vid_end init s s' err hb h with
      ⟨h1, -⟩ | ⟨s1, h1, hrest⟩
    · have p1 := (HwOnly_port (Pres_ret (Pres_vlans_set all_kinds c env _ _ _ _ _ (hk _)) h1)).1
      rw [p1]; exact ⟨rfl, Or.inl rfl⟩
    have r1 := Pres_ret (Pres_vlans_set all_kinds c env _ _ _ _ _ (hk _)) h1
    have p1 := (HwOnly_port r1).1
    obtain ⟨t1, -⟩ := HwOnly_new_events r1
    rcases hrest with ⟨h2, he2⟩ | ⟨s2, h2, hrest⟩
    · rw [vlans_del_pvid_eq] at h2
      split at h2
      · simp only [Res.ret.injEq] at h2
        obtain ⟨rfl, rfl⟩ := h2
        simp only [ne_eq] at he2
        simp [he2, p1]
      · simp only [Res.ret.injEq] at h2
        exact absurd h2.1.symm he2
    -- the PVID step succeeded
    have key : ∀ s3 : St, s3.port = s2.port → (∃ evs, s3.trace = evs ++ s2.trace) →
        s3.port.active_vlans = s.port.active_vlans ∧
        (s3.port.pvid = s.port.pvid ∨
          (s3.port.pvid = 1 ∧ vid_begin ≤ s.port.pvid ∧ s.port.pvid ≤ vid_end ∧
            s.port.pvid ≠ 1 ∧ (⟨.spvid s.port.local_port 1, 0⟩ : Ev) ∈ new_events s s3)) := by
      intro s3 hp ⟨evs, ht⟩
      rw [vlans_del_pvid_eq] at h2
      split at h2
      · rename_i hc
        simp only [Res.ret.injEq] at h2
        obtain ⟨h0, rfl⟩ := h2
        simp only at hp ht
        rw [h0, p1] at ht
        rw [hp]
        simp only [h0, if_true, p1, true_and]
        right
        rw [p1] at hc
        refine ⟨hc.1, hc.2.1, hc.2.2, ?_⟩
        have hs3 : s3.trace
            = (evs ++ ⟨.spvid s.port.local_port 1, 0⟩ :: new_events s s1) ++ s.trace := by
          rw [ht, List.append_assoc, List.cons_append, ← t1]
        rw [new_events_of_append s s3 _ hs3]
        simp
      · simp only [Res.ret.injEq] at h2
        obtain ⟨-, rfl⟩ := h2
        rw [hp, p1]
        exact ⟨rfl, Or.inl rfl⟩
    rcases hrest with ⟨-, -, h0⟩ | ⟨-, hrest⟩
    · exact absurd h0 he
    rcases hrest with ⟨h3, -⟩ | ⟨s3, h3, hrest⟩
    · have r3 := Pres_ret (Pres_flood_set all_kinds c env _ _ _ _ (hk _) (hk _)) h3
      exact key s' (HwOnly_port r3).1 ⟨_, (HwOnly_new_events r3).1⟩
    have r3 := Pres_ret (Pres_flood_set all_kinds c env _ _ _ _ (hk _) (hk _)) h3
    rcases hrest with ⟨v, h4⟩ | ⟨v, s4, -, -, h0⟩
    · have r4 := Pres_ret (Pres_vlans_del_fid_unmaps all_kinds env _ _ _ (hk _)) h4
      have r34 := (HwOnly_pre all_kinds).trans _ _ _ r3 r4
      exact key s' (HwOnly_port r34).1 ⟨_, (HwOnly_new_events r34).1⟩
    · exact absurd h0 he
  · have hi : init = false := by
      cases init <;> simp at hb ⊢
    have hbr : s.port.bridged = false := by
      cases hbb : s.port.bridged <;> simp [hbb] at hb ⊢
    subst hi
    rw [vlans_del_not_bridged c env fuel vid_begin vid_end s hbr] at h
    have p1 := (HwOnly_port (Pres_ret (Pres_kill_vids all_kinds env _ _ _ (hk _)) h)).1
    rw [p1]; exact ⟨rfl, Or.inl rfl⟩

/-- Witness of the amended C8: the run of the counterexample. -/
theorem vlans_del_error_keeps_bitmap_witness :
    (Res.final ex_st5 (__mlxsw_sp_port_vlans_del mlxsw_consts (fail_at 3) 5 5 5 false
      ex_st5)).port.active_vlans = ex_st5.port.active_vlans ∧
    ((Res.final ex_st5 (__mlxsw_sp_port_vlans_del mlxsw_consts (fail_at 3) 5 5 5 false
        ex_st5)).port.pvid = ex_st5.port.pvid ∨
      ((Res.final ex_st5 (__mlxsw_sp_port_vlans_del mlxsw_consts (fail_at 3) 5 5 5 false
          ex_st5)).port.pvid = 1 ∧ 5 ≤ ex_st5.port.pvid ∧ ex_st5.port.pvid ≤ 5 ∧
        ex_st5.port.pvid ≠ 1 ∧
        (⟨.spvid ex_st5.port.local_port 1, 0⟩ : Ev) ∈ new_events ex_st5
          (Res.final ex_st5 (__mlxsw_sp_port_vlans_del mlxsw_consts (fail_at 3) 5 5 5 false
            ex_st5)))) :=
  vlans_del_error_keeps_bitmap mlxsw_consts (fail_at 3) 5 5 5 false ex_st5 _ (-5)
    (by decide!) (by decide)

/-! ## Summary of a run of `__mlxsw_sp_port_vlans_add` -/

theorem vlans_add_exit_not_bridged (c : Consts) (env : Nat → Int)
    (fuel vid_begin vid_end : Nat) (fu fp : Bool) (s s' : St) (err : Int) (ex : add_exit)
    (hb : s.port.bridged = false)
    (h : vlans_add_exit c env fuel vid_begin vid_end fu fp s = Res.ret (err, ex) s') :
    mlxsw_sp_port_add_vids env fuel vid_begin vid_end s = Res.ret err s' ∧
      ex = .not_bridged := by
  unfold vlans_add_exit at h
  simp only [bind_apply, getSt_apply, hb, Bool.not_false, if_true] at h
  cases h1 : mlxsw_sp_port_add_vids env fuel vid_begin vid_end s with
  | bug _ => simp [h1] at h
  | out_of_fuel => simp [h1] at h
  | ret e1 s1 =>
    rw [h1] at h
    simp only [pure_apply, Res.ret.injEq, Prod.mk.injEq] at h
    obtain ⟨⟨rfl, rfl⟩, rfl⟩ := h
    exact ⟨rfl, rfl⟩

/-- What one iteration of the first loop returns. -/
theorem vlans_add_fids_body_ret (env : Nat → Int) (vid : Nat) (s s' : St)
    (e : Option (Int × add_exit))
    (h : (do
      let s ← getSt
      if !test_bit vid s.sp.active_fids then do
        let err ← mlxsw_sp_fid_create env vid
        if err ≠ 0 then
          pure (some (err, add_exit.fid_create))
        else do
          let err ← mlxsw_sp_port_vid_to_fid_set env .MLXSW_REG_SVFA_MT_VID_TO_FID true vid vid
          if err ≠ 0 then do
            mlxsw_sp_fid_destroy env vid
            pure (some (err, add_exit.err_port_vid_to_fid_set))
          else
            pure none
      else
        pure none : M (Option (Int × add_exit))) s = Res.ret e s') :
    match e with
    | none => test_bit vid s'.sp.active_fids = true
    | some x => x.1 ≠ 0 ∧ (x.2 = .fid_create ∨ x.2 = .err_port_vid_to_fid_set) := by
  by_cases hb : test_bit vid s.sp.active_fids = true
  · simp only [bind_apply, getSt_apply, hb, Bool.not_true, Bool.false_eq_true, if_false,
      pure_apply, Res.ret.injEq] at h
    obtain ⟨rfl, rfl⟩ := h
    exact hb
  · simp only [Bool.not_eq_true] at hb
    simp only [bind_apply, getSt_apply, hb, Bool.not_false, if_true, fid_create_eq] at h
    by_cases h1 : env s.trace.length = 0
    · simp only [h1, ne_eq, not_true_eq_false, if_false, if_true, bind_apply,
        mlxsw_sp_port_vid_to_fid_set, getSt_apply, env_call_apply, List.length_cons] at h
      by_cases h2 : env (s.trace.length + 1) = 0
      · simp only [h2, not_true_eq_false, if_false, pure_apply, Res.ret.injEq] at h
        obtain ⟨rfl, rfl⟩ := h
        simp [test_bit_set_bit]
      · simp only [h2, not_false_eq_true, if_true, bind_apply, mlxsw_sp_fid_destroy,
          modifySt_apply, mlxsw_reg_write, env_call_apply, pure_apply, Res.ret.injEq] at h
        obtain ⟨rfl, rfl⟩ := h
        exact ⟨h2, Or.inr rfl⟩
    · simp only [h1, ne_eq, not_false_eq_true, if_true, if_false, pure_apply,
        Res.ret.injEq] at h
      obtain ⟨rfl, rfl⟩ := h
      exact ⟨h1, Or.inl rfl⟩

/-- The first loop: what it may change, and what holds at each of its exits. -/
theorem vlans_add_fids_spec (env : Nat → Int) (fuel vid_begin vid_end : Nat) (s s' : St)
    (v : Nat) (e : Option (Int × add_exit)) (hvb : vid_begin < U16)
    (h : vlans_add_fids env fuel vid_begin vid_end s = Res.ret (v, e) s') :
    FidsGrow [.sfmr, .vid_to_fid_set] s s' ∧
    match e with
    | none => ∀ u, vid_begin ≤ u → u ≤ vid_end → test_bit u s'.sp.active_fids = true
    | some x => x.1 ≠ 0 ∧ (x.2 = .fid_create ∨ x.2 = .err_port_vid_to_fid_set) := by
  refine ⟨Pres_ret (Pres_vlans_add_fids env fuel vid_begin vid_end) h, ?_⟩
  unfold vlans_add_fids at h
  have key := for_up_partial _ 1 vid_end
    (fun v t => v < U16 ∧ (vid_end + 1 < U16 → vid_begin ≤ v ∧
      ∀ u, vid_begin ≤ u → u < v → test_bit u t.sp.active_fids = true))
    (fun _ x _ => x.1 ≠ 0 ∧ (x.2 = .fid_create ∨ x.2 = .err_port_vid_to_fid_set))
    ?_ fuel vid_begin s v e s' ⟨hvb, fun _ => ⟨le_refl _, fun u h1 h2 => by omega⟩⟩ h
  · cases e with
    | some x => exact key.2
    | none =>
      obtain ⟨hlt, hU, hI⟩ := key
      intro u h1 h2
      exact (hI (by omega)).2 u h1 (by omega)
  · intro w t e1 t' hle hI hb
    have hret := vlans_add_fids_body_ret env w t t' e1 hb
    have hgrow := Pres_ret (Pres_vlans_add_fids_body env w) hb
    cases e1 with
    | some x => exact hret
    | none =>
      refine ⟨Nat.mod_lt _ (by decide), fun hw => ?_⟩
      obtain ⟨h5, h6⟩ := hI.2 hw
      have hmod : (w + 1) % U16 = w + 1 := Nat.mod_eq_of_lt (by omega)
      rw [hmod]
      refine ⟨by omega, fun u h1 h2 => ?_⟩
      by_cases huw : u = w
      · subst huw; exact hret
      · exact hgrow.1.2 u (h6 u h1 (by omega))

theorem SpGrow_pre : Preorderly SpGrow :=
  Preorderly_Rel _
    ⟨fun _ => ⟨rfl, fun _ h => h⟩,
     fun _ _ _ h1 h2 => ⟨h2.1.trans h1.1, fun v h => h2.2 v (h1.2 v h)⟩⟩
    ⟨fun _ => trivial, fun _ _ _ _ _ => trivial⟩

theorem FidsGrow_SpGrow {ks : List OpKind} {a b : St} (h : FidsGrow ks a b) : SpGrow a b := by
  obtain ⟨h1, -, evs, h3, -⟩ := h
  exact ⟨h1, trivial, evs, h3, fun _ _ => trivial⟩

theorem HwOnly_SpGrow {ks : List OpKind} {a b : St} (h : HwOnly ks a b) : SpGrow a b :=
  FidsGrow_SpGrow (HwOnly_FidsGrow (fun _ hk => hk) a b h)

theorem SpGrow_of_eq {a b : St} (h1 : b.sp = a.sp) (h2 : ∃ evs, b.trace = evs ++ a.trace) :
    SpGrow a b := by
  obtain ⟨evs, h3⟩ := h2
  exact ⟨⟨by rw [h1], fun v hv => by rw [h1]; exact hv⟩, trivial, evs, h3, fun _ _ => trivial⟩

theorem vlans_add_fid_maps_exit (env : Nat → Int) (fuel vid_begin vid_end : Nat) (s s' : St)
    (v : Nat) (err : Int)
    (h : vlans_add_fid_maps env fuel vid_begin vid_end s = Res.ret (v, some err) s') :
    err ≠ 0 ∧ v ≤ vid_end := by
  unfold vlans_add_fid_maps at h
  have key := for_up_partial _ 1 vid_end (fun _ _ => True) (fun _ x _ => x ≠ 0) ?_
    fuel vid_begin s v (some err) s' trivial h
  · exact ⟨key.2, key.1⟩
  · intro w t e t' _ _ hb
    simp only [bind_apply] at hb
    cases hm : mlxsw_sp_port_fid_map env w t with
    | bug _ => simp [hm] at hb
    | out_of_fuel => simp [hm] at hb
    | ret e1 t1 =>
      rw [hm] at hb
      by_cases he : e1 = 0
      · simp only [he, ne_eq, not_true_eq_false, if_false, pure_apply, Res.ret.injEq] at hb
        obtain ⟨rfl, -⟩ := hb
        trivial
      · simp only [ne_eq, he, not_false_eq_true, if_true, pure_apply, Res.ret.injEq] at hb
        obtain ⟨rfl, -⟩ := hb
        exact he

/-- The unwinding after a failed STP re-apply: it clears the activity bits of
the range and otherwise only talks to the hardware; the cached PVID stays. -/
theorem err_port_stp_state_set_spec (c : Consts) (env : Nat → Int)
    (fuel vid_begin vid_end old : Nat) (s s' : St) (hvb : vid_begin < U16)
    (h : vlans_add_err_port_stp_state_set c env fuel vid_begin vid_end old s = Res.ret () s') :
    s'.sp = s.sp ∧ (∃ evs, s'.trace = evs ++ s.trace) ∧
    s'.port = { s.port with active_vlans := s'.port.active_vlans } ∧
    ∀ u, test_bit u s'.port.active_vlans
      = (test_bit u s.port.active_vlans && !decide (vid_begin ≤ u ∧ u ≤ vid_end)) := by
  have hk := mem_all_kinds
  unfold vlans_add_err_port_stp_state_set at h
  simp only [bind_apply] at h
  cases h1 : clear_active_vlans fuel vid_begin vid_end s with
  | bug _ => simp [h1] at h
  | out_of_fuel => simp [h1] at h
  | ret u1 s1 =>
    rw [h1] at h
    obtain ⟨c1, c2, c3, c4⟩ := clear_active_vlans_spec fuel vid_begin vid_end s s1 hvb h1
    simp only [getSt_apply] at h
    have fin : ∀ s2 : St, HwOnly all_kinds s1 s2 →
        vlans_add_err_port_pvid_set c env fuel vid_begin vid_end s2 = Res.ret () s' →
        s'.sp = s.sp ∧ (∃ evs, s'.trace = evs ++ s.trace) ∧
        s'.port = { s.port with active_vlans := s'.port.active_vlans } ∧
        ∀ u, test_bit u s'.port.active_vlans
          = (test_bit u s.port.active_vlans && !decide (vid_begin ≤ u ∧ u ≤ vid_end)) := by
      intro s2 r12 h2
      have r2 := Pres_ret
        (Pres_err_port_pvid_set all_kinds c env _ _ _ (hk _) (hk _) (hk _) (hk _)) h2
      have r := (HwOnly_pre all_kinds).trans _ _ _ r12 r2
      obtain ⟨p1, p2⟩ := HwOnly_port r
      refine ⟨by rw [p2, c1], ⟨_, by rw [(HwOnly_new_events r).1, c2]⟩, ?_, fun u => ?_⟩
      · rw [p1, c3]
      · rw [p1, c4 u]
    by_cases hp : old = s1.port.pvid
    · simp only [hp, ne_eq, not_true_eq_false, if_false] at h
      exact fin s1 ((HwOnly_pre all_kinds).refl s1) h
    · simp only [ne_eq, hp, not_false_eq_true, if_true, bind_apply] at h
      cases h2 : mlxsw_sp_port_pvid_set env old s1 with
      | bug _ => simp [h2] at h
      | out_of_fuel => simp [h2] at h
      | ret e2 s2 =>
        rw [h2] at h
        exact fin s2 (Pres_ret (Pres_pvid_set all_kinds env old (hk _)) h2) h

theorem vlans_add_pvid_ok (env : Nat → Int) (vid_begin : Nat) (fp : Bool) (s s' : St)
    (h : vlans_add_pvid env vid_begin fp s.port.pvid s = Res.ret 0 s') :
    s'.sp = s.sp ∧
    s'.port = { s.port with pvid := (if fp = true then vid_begin else s.port.pvid) } ∧
    ∃ evs, s'.trace = evs ++ s.trace ∧ ∀ e ∈ evs, e = ⟨.spvid s.port.local_port vid_begin, 0⟩ := by
  rw [vlans_add_pvid_eq] at h
  split at h
  · rename_i hc
    simp only [Res.ret.injEq] at h
    obtain ⟨h0, rfl⟩ := h
    refine ⟨rfl, ?_, [_], rfl, ?_⟩
    · simp [h0, hc.1]
    · simp [h0]
  · rename_i hc
    simp only [Res.ret.injEq, true_and] at h
    subst h
    refine ⟨rfl, ?_, [], rfl, by simp⟩
    by_cases hf : fp = true
    · have : s.port.pvid = vid_begin := by
        by_contra hne
        exact hc ⟨hf, hne⟩
      simp [hf, ← this]
    · simp [hf]

/-- What a run of `__mlxsw_sp_port_vlans_add` on a bridged port leaves behind,
exit by exit. -/
theorem vlans_add_exit_summary (c : Consts) (env : Nat → Int) (fuel vid_begin vid_end : Nat)
    (fu fp : Bool) (s s' : St) (err : Int) (ex : add_exit)
    (hb : s.port.bridged = true) (hvb : vid_begin < U16)
    (h : vlans_add_exit c env fuel vid_begin vid_end fu fp s = Res.ret (err, ex) s') :
    SpGrow s s' ∧
    match ex with
    | .ok => err = 0 ∧
        (∀ u, vid_begin ≤ u → u ≤ vid_end → test_bit u s'.sp.active_fids = true) ∧
        s'.port = { s.port with
          pvid := (if fp = true then vid_begin else s.port.pvid)
          active_vlans := s'.port.active_vlans } ∧
        ∀ u, test_bit u s'.port.active_vlans
          = (decide (vid_begin ≤ u ∧ u ≤ vid_end) || test_bit u s.port.active_vlans)
    | .err_port_stp_state_set => err ≠ 0 ∧
        (∀ u, vid_begin ≤ u → u ≤ vid_end → test_bit u s'.sp.active_fids = true) ∧
        s'.port = { s.port with
          pvid := (if fp = true then vid_begin else s.port.pvid)
          active_vlans := s'.port.active_vlans } ∧
        ∀ u, test_bit u s'.port.active_vlans
          = (test_bit u s.port.active_vlans && !decide (vid_begin ≤ u ∧ u ≤ vid_end))
    | .not_bridged => False
    | _ => err ≠ 0 ∧ s'.port = s.port := by
  have hk := mem_all_kinds
  have tr := SpGrow_pre.trans
  rcases vlans_add_exit_cases c env fuel vid_begin vid_end fu fp s s' err ex hb h with
    ⟨v, h1⟩ | ⟨v1, s1, h1, hrest⟩
  · obtain ⟨g1, hx, hy⟩ := vlans_add_fids_spec env fuel vid_begin vid_end s s' v _ hvb h1
    refine ⟨FidsGrow_SpGrow g1, ?_⟩
    simp only at hx hy
    rcases hy with rfl | rfl
    · exact ⟨hx, FidsGrow_port g1⟩
    · exact ⟨hx, FidsGrow_port g1⟩
  obtain ⟨g1, f1⟩ := vlans_add_fids_spec env fuel vid_begin vid_end s s1 v1 _ hvb h1
  simp only at f1
  have p1 := FidsGrow_port g1
  have q1 := FidsGrow_SpGrow g1
  rcases hrest with ⟨v, s2, h2, h3, rfl⟩ | ⟨v2, s2, h2, hrest⟩
  · have r2 := Pres_ret (Pres_vlans_add_fid_maps all_kinds env _ _ _ (hk _)) h2
    have r3 := Pres_ret (Pres_err_port_fid_map all_kinds env _ _ _ (hk _)) h3
    refine ⟨tr _ _ _ q1 (tr _ _ _ (HwOnly_SpGrow r2) (HwOnly_SpGrow r3)), ?_⟩
    exact ⟨(vlans_add_fid_maps_exit _ _ _ _ _ _ _ _ h2).1,
      by rw [(HwOnly_port r3).1, (HwOnly_port r2).1, p1]⟩
  have r2 := Pres_ret (Pres_vlans_add_fid_maps all_kinds env _ _ _ (hk _)) h2
  have q2 := tr _ _ _ q1 (HwOnly_SpGrow r2)
  have p2 : s2.port = s.port := by rw [(HwOnly_port r2).1, p1]
  rcases hrest with ⟨s3, h3, he3, h4, rfl⟩ | ⟨s3, h3, hrest⟩
  · have r3 := Pres_ret (Pres_flood_set all_kinds c env _ _ _ _ (hk _) (hk _)) h3
    have r4 := Pres_ret (Pres_err_port_flood_set all_kinds env _ _ _ (hk _)) h4
    refine ⟨tr _ _ _ q2 (tr _ _ _ (HwOnly_SpGrow r3) (HwOnly_SpGrow r4)), he3, ?_⟩
    rw [(HwOnly_port r4).1, (HwOnly_port r3).1, p2]
  have r3 := Pres_ret (Pres_flood_set all_kinds c env _ _ _ _ (hk _) (hk _)) h3
  have q3 := tr _ _ _ q2 (HwOnly_SpGrow r3)
  have p3 : s3.port = s.port := by rw [(HwOnly_port r3).1, p2]
  rcases hrest with ⟨s4, h4, he4, h5, rfl⟩ | ⟨s4, h4, hrest⟩
  · have r4 := Pres_ret (Pres_vlans_set all_kinds c env _ _ _ _ _ (hk _)) h4
    have r5 := Pres_ret
      (Pres_err_port_vlans_set all_kinds c env _ _ _ (hk _) (hk _) (hk _)) h5
    refine ⟨tr _ _ _ q3 (tr _ _ _ (HwOnly_SpGrow r4) (HwOnly_SpGrow r5)), he4, ?_⟩
    rw [(HwOnly_port r5).1, (HwOnly_port r4).1, p3]
  have r4 := Pres_ret (Pres_vlans_set all_kinds c env _ _ _ _ _ (hk _)) h4
  have q4 := tr _ _ _ q3 (HwOnly_SpGrow r4)
  have p4 : s4.port = s.port := by rw [(HwOnly_port r4).1, p3]
  have e4 : s4.sp = s1.sp := by
    rw [(HwOnly_port r4).2, (HwOnly_port r3).2, (HwOnly_port r2).2]
  rcases hrest with ⟨s5, h5, he5, h6, rfl⟩ | ⟨s5, s6, h5, h6, hrest⟩
  · obtain ⟨a5, b5⟩ := vlans_add_pvid_fail_port _ _ _ _ _ _ _ h5 he5
    have r6 := Pres_ret
      (Pres_err_port_pvid_set all_kinds c env _ _ _ (hk _) (hk _) (hk _) (hk _)) h6
    have t5 : ∃ evs, s5.trace = evs ++ s4.trace := by
      rw [vlans_add_pvid_eq] at h5
      split at h5
      · simp only [Res.ret.injEq] at h5
        obtain ⟨-, rfl⟩ := h5
        exact ⟨[_], rfl⟩
      · simp only [Res.ret.injEq] at h5
        obtain ⟨-, rfl⟩ := h5
        exact ⟨[], rfl⟩
    refine ⟨tr _ _ _ q4 (tr _ _ _ (SpGrow_of_eq b5 t5) (HwOnly_SpGrow r6)), he5, ?_⟩
    rw [(HwOnly_port r6).1, a5, p4]
  obtain ⟨a5, b5, evs5, t5, -⟩ := vlans_add_pvid_ok env vid_begin fp s4 s5 h5
  obtain ⟨a6, t6, b6, c6⟩ := set_active_vlans_spec fuel vid_begin vid_end s5 s6 hvb h6
  have q6 : SpGrow s s6 :=
    tr _ _ _ q4 (tr _ _ _ (SpGrow_of_eq a5 ⟨_, t5⟩) (SpGrow_of_eq a6 ⟨[], by simpa using t6⟩))
  have e6 : s6.sp = s1.sp := by rw [a6, a5, e4]
  have p6 : s6.port = { s.port with
      pvid := (if fp = true then vid_begin else s.port.pvid)
      active_vlans := s6.port.active_vlans } := by
    rw [b6, b5, p4]
  have c6' : ∀ u, test_bit u s6.port.active_vlans
      = (decide (vid_begin ≤ u ∧ u ≤ vid_end) || test_bit u s.port.active_vlans) := by
    intro u
    rw [c6 u, b5, p4]
  rcases hrest with ⟨s7, h7, he7, h8, rfl⟩ | ⟨h7, rfl, rfl⟩
  · have r7 := Pres_ret (Pres_stp_state_set all_kinds env _ (hk _) (hk _)) h7
    obtain ⟨a8, t8, b8, c8⟩ :=
      err_port_stp_state_set_spec c env fuel vid_begin vid_end _ s7 s' hvb h8
    refine ⟨tr _ _ _ q6 (tr _ _ _ (HwOnly_SpGrow r7) (SpGrow_of_eq a8 t8)), he7, ?_, ?_, ?_⟩
    · intro u hu1 hu2
      rw [a8, (HwOnly_port r7).2, e6]
      exact f1 u hu1 hu2
    · rw [b8, (HwOnly_port r7).1, p6]
    · intro u
      rw [c8 u, (HwOnly_port r7).1, c6' u]
      by_cases hr : vid_begin ≤ u ∧ u ≤ vid_end
      · simp [hr]
      · simp [hr]
  · have r7 := Pres_ret (Pres_stp_state_set all_kinds env _ (hk _) (hk _)) h7
    refine ⟨tr _ _ _ q6 (HwOnly_SpGrow r7), rfl, ?_, ?_, ?_⟩
    · intro u hu1 hu2
      rw [(HwOnly_port r7).2, e6]
      exact f1 u hu1 hu2
    · rw [(HwOnly_port r7).1]
      exact p6
    · intro u
      rw [(HwOnly_port r7).1]
      exact c6' u

/-! ## Summary of a run of `__mlxsw_sp_port_vlans_del` -/

theorem vlans_del_pvid_ok (env : Nat → Int) (vid_begin vid_end : Nat) (s s' : St)
    (h : vlans_del_pvid env vid_begin vid_end s.port.pvid s = Res.ret 0 s') :
    s'.sp = s.sp ∧
    s'.port = { s.port with
      pvid := (if vid_begin ≤ s.port.pvid ∧ s.port.pvid ≤ vid_end then 1 else s.port.pvid) } ∧
    s'.trace = (if vid_begin ≤ s.port.pvid ∧ s.port.pvid ≤ vid_end ∧ s.port.pvid ≠ 1
      then [⟨.spvid s.port.local_port 1, 0⟩] else []) ++ s.trace := by
  rw [vlans_del_pvid_eq] at h
  split at h
  · rename_i hc
    simp only [Res.ret.injEq] at h
    obtain ⟨h0, rfl⟩ := h
    refine ⟨rfl, ?_, ?_⟩
    · simp [h0, hc.1, hc.2.1]
    · simp only [h0]
      rw [if_pos hc]
      rfl
  · rename_i hc
    simp only [Res.ret.injEq, true_and] at h
    subst h
    refine ⟨rfl, ?_, by rw [if_neg hc]; rfl⟩
    by_cases hr : vid_begin ≤ s.port.pvid ∧ s.port.pvid ≤ vid_end
    · have : s.port.pvid = 1 := by
        by_contra hne
        exact hc ⟨hr.1, hr.2, hne⟩
      simp only [hr, and_self, if_true]
      cases hp : s.port
      rw [hp] at this
      simp only at this
      simp [this]
    · simp [hr]

/-- What a run of `__mlxsw_sp_port_vlans_del` (on a bridged port, or at
initialisation) leaves behind. -/
theorem vlans_del_summary (c : Consts) (env : Nat → Int) (fuel vid_begin vid_end : Nat)
    (init : Bool) (s s' : St) (err : Int)
    (hb : init = true ∨ s.port.bridged = true) (hvb : vid_begin < U16)
    (h : __mlxsw_sp_port_vlans_del c env fuel vid_begin vid_end init s = Res.ret err s') :
    s'.sp = s.sp ∧ (∃ evs, s'.trace = evs ++ s.trace) ∧
    s'.port = { s.port with pvid := s'.port.pvid, active_vlans := s'.port.active_vlans } ∧
    (err = 0 →
      (∀ u, test_bit u s'.port.active_vlans
        = (test_bit u s.port.active_vlans && !decide (vid_begin ≤ u ∧ u ≤ vid_end))) ∧
      s'.port.pvid
        = (if vid_begin ≤ s.port.pvid ∧ s.port.pvid ≤ vid_end then 1 else s.port.pvid)) ∧
    (err ≠ 0 → s'.port.active_vlans = s.port.active_vlans) := by
  have hk := mem_all_kinds
  have tr := (HwOnly_pre all_kinds).trans
  have ext : ∀ a b : St, HwOnly all_kinds a b → ∃ evs, b.trace = evs ++ a.trace :=
    fun a b r => ⟨_, (HwOnly_new_events r).1⟩
  rcases vlans_del_cases c env fuel vid_begin vid_end init s s' err hb h with
    ⟨h1, he1⟩ | ⟨s1, h1, hrest⟩
  · have r1 := Pres_ret (Pres_vlans_set all_kinds c env _ _ _ _ _ (hk _)) h1
    obtain ⟨p1, q1⟩ := HwOnly_port r1
    exact ⟨q1, ext _ _ r1, by rw [p1], fun h0 => absurd h0 he1, fun _ => by rw [p1]⟩
  have r1 := Pres_ret (Pres_vlans_set all_kinds c env _ _ _ _ _ (hk _)) h1
  obtain ⟨p1, q1⟩ := HwOnly_port r1
  obtain ⟨evs1, t1⟩ := ext _ _ r1
  rcases hrest with ⟨h2, he2⟩ | ⟨s2, h2, hrest⟩
  · rw [vlans_del_pvid_eq] at h2
    split at h2
    · simp only [Res.ret.injEq] at h2
      obtain ⟨rfl, rfl⟩ := h2
      simp only [ne_eq] at he2
      refine ⟨q1, ⟨_ :: evs1, by rw [List.cons_append, ← t1]⟩, ?_, fun h0 => absurd h0 he2,
        fun _ => by simp [p1]⟩
      simp [he2, p1]
    · simp only [Res.ret.injEq] at h2
      exact absurd h2.1.symm he2
  obtain ⟨a2, b2, t2⟩ := vlans_del_pvid_ok env vid_begin vid_end s1 s2 h2
  rw [p1] at b2
  have e2 : ∃ evs, s2.trace = evs ++ s.trace := ⟨_, by rw [t2, t1, ← List.append_assoc]⟩
  have fail : ∀ s3 : St, HwOnly all_kinds s2 s3 → err ≠ 0 →
      s3.sp = s.sp ∧ (∃ evs, s3.trace = evs ++ s.trace) ∧
      s3.port = { s.port with pvid := s3.port.pvid, active_vlans := s3.port.active_vlans } ∧
      (err = 0 →
        (∀ u, test_bit u s3.port.active_vlans
          = (test_bit u s.port.active_vlans && !decide (vid_begin ≤ u ∧ u ≤ vid_end))) ∧
        s3.port.pvid
          = (if vid_begin ≤ s.port.pvid ∧ s.port.pvid ≤ vid_end then 1 else s.port.pvid)) ∧
      (err ≠ 0 → s3.port.active_vlans = s.port.active_vlans) := by
    intro s3 r3 he
    obtain ⟨p3, q3⟩ := HwOnly_port r3
    obtain ⟨evs3, t3⟩ := ext _ _ r3
    obtain ⟨evs2, t2'⟩ := e2
    refine ⟨by rw [q3, a2, q1], ⟨evs3 ++ evs2, by rw [t3, t2', List.append_assoc]⟩, ?_,
      fun h0 => absurd h0 he, fun _ => by rw [p3, b2]⟩
    rw [p3, b2]
  have done : ∀ s3 : St, s3.port = s2.port → s3.sp = s2.sp →
      (∃ evs, s3.trace = evs ++ s2.trace) →
      clear_active_vlans fuel vid_begin vid_end s3 = Res.ret () s' → err = 0 →
      s'.sp = s.sp ∧ (∃ evs, s'.trace = evs ++ s.trace) ∧
      s'.port = { s.port with pvid := s'.port.pvid, active_vlans := s'.port.active_vlans } ∧
      (err = 0 →
        (∀ u, test_bit u s'.port.active_vlans
          = (test_bit u s.port.active_vlans && !decide (vid_begin ≤ u ∧ u ≤ vid_end))) ∧
        s'.port.pvid
          = (if vid_begin ≤ s.port.pvid ∧ s.port.pvid ≤ vid_end then 1 else s.port.pvid)) ∧
      (err ≠ 0 → s'.port.active_vlans = s.port.active_vlans) := by
    intro s3 p3 q3 ⟨evs3, t3⟩ hc he
    obtain ⟨c1, c2, c3, c4⟩ := clear_active_vlans_spec fuel vid_begin vid_end s3 s' hvb hc
    obtain ⟨evs2, t2'⟩ := e2
    refine ⟨by rw [c1, q3, a2, q1], ⟨evs3 ++ evs2, by rw [c2, t3, t2', List.append_assoc]⟩, ?_,
      fun _ => ⟨fun u => ?_, ?_⟩, fun hne => absurd he hne⟩
    · rw [c3, p3, b2]
    · rw [c4 u, p3, b2]
    · rw [c3, p3, b2]
  rcases hrest with ⟨-, h3, h0⟩ | ⟨-, hrest⟩
  · exact done s2 rfl rfl ⟨[], rfl⟩ h3 h0
  rcases hrest with ⟨h3, he3⟩ | ⟨s3, h3, hrest⟩
  · exact fail s' (Pres_ret (Pres_flood_set all_kinds c env _ _ _ _ (hk _) (hk _)) h3) he3
  have r3 := Pres_ret (Pres_flood_set all_kinds c env _ _ _ _ (hk _) (hk _)) h3
  rcases hrest with ⟨v, h4⟩ | ⟨v, s4, h4, h5, h0⟩
  · have r4 := Pres_ret (Pres_vlans_del_fid_unmaps all_kinds env _ _ _ (hk _)) h4
    refine fail s' (tr _ _ _ r3 r4) ?_
    unfold vlans_del_fid_unmaps at h4
    have key := for_up_partial _ 1 vid_end (fun _ _ => True) (fun _ x _ => x ≠ 0) ?_
      fuel vid_begin s3 v (some err) s' trivial h4
    · exact key.2
    · intro w t e t' _ _ hbd
      simp only [bind_apply] at hbd
      cases hm : mlxsw_sp_port_fid_unmap env w t with
      | bug _ => simp [hm] at hbd
      | out_of_fuel => simp [hm] at hbd
      | ret e1 t1 =>
        rw [hm] at hbd
        by_cases he : e1 = 0
        · simp only [he, ne_eq, not_true_eq_false, if_false, pure_apply, Res.ret.injEq] at hbd
          obtain ⟨rfl, -⟩ := hbd
          trivial
        · simp only [ne_eq, he, not_false_eq_true, if_true, pure_apply, Res.ret.injEq] at hbd
          obtain ⟨rfl, -⟩ := hbd
          exact he
  · have r4 := Pres_ret (Pres_vlans_del_fid_unmaps all_kinds env _ _ _ (hk _)) h4
    have r34 := tr _ _ _ r3 r4
    exact done s4 (HwOnly_port r34).1 (HwOnly_port r34).2 (ext _ _ r34) h5 h0

/-! ## C9 -/

/-- C9: the predicate "every VLAN id set in the active-VLAN bitmap of a port of
the switch has its FID active" is kept by `__mlxsw_sp_port_vlans_add` and by
`__mlxsw_sp_port_vlans_del`: if it holds for the port the call is made on and
the other ports of the switch before the call, it holds when the call returns,
with success or with an error, for any range (`vid_begin` a `u16`) and any
pattern of hardware failures. -/
theorem membership_keeps_fid_invariant (c : Consts) (env : Nat → Int)
    (fuel vid_begin vid_end : Nat) (fu fp init : Bool) (s s' : St) (err : Int)
    (others : List mlxsw_sp_port) (hvb : vid_begin < U16)
    (hinv : fid_invariant s.sp (s.port :: others)) :
    (__mlxsw_sp_port_vlans_add c env fuel vid_begin vid_end fu fp s = Res.ret err s' →
      fid_invariant s'.sp (s'.port :: others)) ∧
    (__mlxsw_sp_port_vlans_del c env fuel vid_begin vid_end init s = Res.ret err s' →
      fid_invariant s'.sp (s'.port :: others)) := by
  have hk := mem_all_kinds
  -- it is enough that no FID is lost and that the port gains bits only where FIDs are active
  have main : ∀ t : St, (∀ v, test_bit v s.sp.active_fids = true →
        test_bit v t.sp.active_fids = true) →
      (∀ u, test_bit u t.port.active_vlans = true →
        test_bit u s.port.active_vlans = true ∨ test_bit u t.sp.active_fids = true) →
      fid_invariant t.sp (t.port :: others) := by
    intro t hg hp p hmem vid hbit
    rcases List.mem_cons.mp hmem with rfl | hmem
    · rcases hp vid hbit with h1 | h1
      · exact hg vid (hinv s.port (List.mem_cons_self _ _) vid h1)
      · exact h1
    · exact hg vid (hinv p (List.mem_cons_of_mem _ hmem) vid hbit)
  constructor
  · intro h
    obtain ⟨ex, hx⟩ := vlans_add_exit_of_eq c env fuel vid_begin vid_end fu fp s s' err h
    cases hbr : s.port.bridged with
    | false =>
      obtain ⟨h1, -⟩ :=
        vlans_add_exit_not_bridged c env fuel vid_begin vid_end fu fp s s' err ex hbr hx
      obtain ⟨p1, q1⟩ :=
        HwOnly_port (Pres_ret (Pres_add_vids all_kinds env _ _ _ (hk _) (hk _)) h1)
      exact main s' (fun v hv => by rw [q1]; exact hv) (fun u hu => by rw [p1] at hu; exact Or.inl hu)
    | true =>
      obtain ⟨g, hsum⟩ :=
        vlans_add_exit_summary c env fuel vid_begin vid_end fu fp s s' err ex hbr hvb hx
      refine main s' g.1.2 (fun u hu => ?_)
      cases ex with
      | ok =>
        obtain ⟨-, f1, -, f3⟩ := hsum
        rw [f3 u] at hu
        by_cases hr : vid_begin ≤ u ∧ u ≤ vid_end
        · exact Or.inr (f1 u hr.1 hr.2)
        · simp only [hr, decide_False, Bool.false_or] at hu
          exact Or.inl hu
      | err_port_stp_state_set =>
        obtain ⟨-, -, -, f3⟩ := hsum
        rw [f3 u] at hu
        simp only [Bool.and_eq_true] at hu
        exact Or.inl hu.1
      | not_bridged => exact hsum.elim
      | fid_create => rw [hsum.2] at hu; exact Or.inl hu
      | err_port_vid_to_fid_set => rw [hsum.2] at hu; exact Or.inl hu
      | err_port_fid_map => rw [hsum.2] at hu; exact Or.inl hu
      | err_port_flood_set => rw [hsum.2] at hu; exact Or.inl hu
      | err_port_vlans_set => rw [hsum.2] at hu; exact Or.inl hu
      | err_port_pvid_set => rw [hsum.2] at hu; exact Or.inl hu
  · intro h
    by_cases hb : init = true ∨ s.port.bridged = true
    · obtain ⟨q1, -, -, hok, hfail⟩ :=
        vlans_del_summary c env fuel vid_begin vid_end init s s' err hb hvb h
      refine main s' (fun v hv => by rw [q1]; exact hv) (fun u hu => ?_)
      by_cases he : err = 0
      · rw [(hok he).1 u] at hu
        simp only [Bool.and_eq_true] at hu
        exact Or.inl hu.1
      · rw [hfail he] at hu
        exact Or.inl hu
    · have hi : init = false := by
        cases init <;> simp at hb ⊢
      have hbr : s.port.bridged = false := by
        cases hbb : s.port.bridged <;> simp [hbb] at hb ⊢
      subst hi
      rw [vlans_del_not_bridged c env fuel vid_begin vid_end s hbr] at h
      obtain ⟨p1, q1⟩ := HwOnly_port (Pres_ret (Pres_kill_vids all_kinds env _ _ _ (hk _)) h)
      exact main s' (fun v hv => by rw [q1]; exact hv) (fun u hu => by rw [p1] at hu; exact Or.inl hu)

/-- Witness of C9: the add of VLAN 100 on `ex_port5` whose STP write fails, with
`ex_port` as the other port of the switch. -/
theorem membership_keeps_fid_invariant_witness :
    fid_invariant
      (Res.final ex_st5 (__mlxsw_sp_port_vlans_add mlxsw_consts (fail_at 9) 5 100 100 true true
        ex_st5)).sp
      ((Res.final ex_st5 (__mlxsw_sp_port_vlans_add mlxsw_consts (fail_at 9) 5 100 100 true true
        ex_st5)).port :: [ex_port]) :=
  (membership_keeps_fid_invariant mlxsw_consts (fail_at 9) 5 100 100 true true false ex_st5 _
    (-5) [ex_port] (by decide)
    (by
      intro p hp vid hbit
      simp only [List.mem_cons, List.mem_singleton, List.not_mem_nil, or_false] at hp
      rcases hp with rfl | rfl
      · exact hbit
      · simp [ex_port, test_bit] at hbit)).1 (by decide!)

/-! ## C3 -/

/-- C3, the code at the failing input: on `ex_port` (PVID 1, no VLAN) the add of
VLAN 100 as PVID with the final STP write failing returns `-EIO` through
`err_port_stp_state_set`; bit 100 is clear again and the hardware PVID register
is written back to 1, but the cached `pvid` of the port stays 100. -/
theorem vlans_add_stp_failure_cached_pvid :
    __mlxsw_sp_port_vlans_add mlxsw_consts (fail_at 9) 5 100 100 true true ex_st
      = Res.ret (-5) (Res.final ex_st
          (vlans_add_exit mlxsw_consts (fail_at 9) 5 100 100 true true ex_st)) ∧
    vlans_add_exit mlxsw_consts (fail_at 9) 5 100 100 true true ex_st
      = Res.ret (-5, .err_port_stp_state_set) (Res.final ex_st
          (vlans_add_exit mlxsw_consts (fail_at 9) 5 100 100 true true ex_st)) ∧
    ex_st.port.pvid = 1 ∧
    (Res.final ex_st (vlans_add_exit mlxsw_consts (fail_at 9) 5 100 100 true true
      ex_st)).port.pvid = 100 ∧
    hw_pvid 3 (Res.final ex_st (vlans_add_exit mlxsw_consts (fail_at 9) 5 100 100 true true
      ex_st)).trace = some 1 ∧
    test_bit 100 (Res.final ex_st (vlans_add_exit mlxsw_consts (fail_at 9) 5 100 100 true true
      ex_st)).port.active_vlans = false := by
  decide!

/-! ## Runs in which the environment never fails -/

/-- Invariant rule for a `for_up` loop whose body always goes on: the loop
returns, having run to its end, when it has fuel for every iteration. -/
theorem for_up_total {ε : Type} (body : Nat → M (Option ε)) (step vid_end : Nat)
    (Inv : Nat → St → Prop) (hstep : 0 < step) (hwrap : vid_end + step < U16)
    (hbody : ∀ v s, v ≤ vid_end → Inv v s →
      ∃ s', body v s = Res.ret none s' ∧ Inv (v + step) s') :
    ∀ fuel vid s, vid_end + 1 - vid < fuel → Inv vid s →
      ∃ v' s', for_up body step vid_end fuel vid s = Res.ret (v', none) s' ∧
        vid_end < v' ∧ Inv v' s' := by
  intro fuel
  induction fuel with
  | zero => intro vid s h; omega
  | succ n ih =>
    intro vid s hf hI
    unfold for_up
    by_cases hle : vid ≤ vid_end
    · obtain ⟨s1, hb, hI1⟩ := hbody vid s hle hI
      have hmod : (vid + step) % U16 = vid + step := Nat.mod_eq_of_lt (by omega)
      simp only [hle, if_true, bind_apply, hb, hmod]
      exact ih _ _ (by omega) hI1
    · simp only [hle, if_false]
      exact ⟨vid, s, rfl, Nat.lt_of_not_le hle, hI⟩

/-- Invariant rule for a `for_down` loop with `vid_begin > 0`: it returns when
it has fuel for every iteration. -/
theorem for_down_total (body : Nat → M Unit) (vid_begin : Nat) (Inv : Nat → St → Prop)
    (hvb : 0 < vid_begin)
    (hbody : ∀ v s, vid_begin ≤ v → v < U16 → Inv v s →
      ∃ s', body v s = Res.ret () s' ∧ Inv (v - 1) s') :
    ∀ fuel vid s, vid < U16 → vid + 1 - vid_begin < fuel → Inv vid s →
      ∃ v' s', for_down body vid_begin fuel vid s = Res.ret () s' ∧
        v' < vid_begin ∧ Inv v' s' := by
  intro fuel
  induction fuel with
  | zero => intro vid s _ h; omega
  | succ n ih =>
    intro vid s hv hf hI
    unfold for_down
    by_cases hle : vid_begin ≤ vid
    · obtain ⟨s1, hb, hI1⟩ := hbody vid s hle hv hI
      have hmod : (vid + U16 - 1) % U16 = vid - 1 := by
        have : vid + U16 - 1 = (vid - 1) + U16 := by omega
        rw [this, Nat.add_mod_right]
        exact Nat.mod_eq_of_lt (by omega)
      simp only [hle, if_true, bind_apply, hb, hmod]
      exact ih _ _ (by omega) (by omega) hI1
    · simp only [hle, if_false]
      exact ⟨vid, s, rfl, Nat.lt_of_not_le hle, hI⟩

theorem EnvOk_mono {env : Nat → Int} {n m : Nat} (h : EnvOk env n) (hnm : n ≤ m) :
    EnvOk env m := fun j hj => h j (le_trans hnm hj)

theorem EnvOk_here {env : Nat → Int} {n : Nat} (h : EnvOk env n) : env n = 0 := h n (le_refl n)

theorem EnvOk_ext {env : Nat → Int} {a b : St} (h : EnvOk env a.trace.length)
    (hab : ∃ evs, b.trace = evs ++ a.trace) : EnvOk env b.trace.length := by
  obtain ⟨evs, he⟩ := hab
  exact EnvOk_mono h (by rw [he, List.length_append]; omega)

theorem flood_set_ok (c : Consts) (env : Nat → Int) (b e : Nat) (set : Bool) (s : St)
    (hok : EnvOk env s.trace.length) :
    __mlxsw_sp_port_flood_set c env b e set false s =
      Res.ret 0 { s with trace :=
        ⟨.sftr .MLXSW_SP_FLOOD_TABLE_BM b
            (if s.port.is_vport then flood_table_type.MLXSW_REG_SFGC_TABLE_TYPE_FID
             else flood_table_type.MLXSW_REG_SFGC_TABLE_TYPE_FID_OFFEST)
            ((e + U16 - b + 1) % U16)
            (if s.port.is_vport then
              if mlxsw_sp_vfid_is_vport_br c b then s.port.local_port
              else c.MLXSW_PORT_CPU_PORT
             else s.port.local_port) set, 0⟩ ::
        ⟨.sftr .MLXSW_SP_FLOOD_TABLE_UC b
            (if s.port.is_vport then flood_table_type.MLXSW_REG_SFGC_TABLE_TYPE_FID
             else flood_table_type.MLXSW_REG_SFGC_TABLE_TYPE_FID_OFFEST)
            ((e + U16 - b + 1) % U16)
            (if s.port.is_vport then
              if mlxsw_sp_vfid_is_vport_br c b then s.port.local_port
              else c.MLXSW_PORT_CPU_PORT
             else s.port.local_port) set, 0⟩ ::
        ⟨.kmalloc .sftr_pl, 0⟩ :: s.trace } := by
  have h0 := hok s.trace.length (le_refl _)
  have h1 := hok (s.trace.length + 1) (by omega)
  have h2 := hok (s.trace.length + 1 + 1) (by omega)
  simp [__mlxsw_sp_port_flood_set, kmalloc, mlxsw_reg_write, h0, h1, h2]

theorem stp_state_set_ok (env : Nat → Int) (s : St) (hok : EnvOk env s.trace.length)
    (hst : s.port.stp_state ≤ BR_STATE_BLOCKING) :
    ∃ st, mlxsw_sp_port_stp_state_set env s.port.stp_state s =
      Res.ret 0 { s with trace :=
        ⟨.spms s.port.local_port
          (if s.port.is_vport then [s.port.vport_vid]
           else for_each_set_bit s.port.active_vlans VLAN_N_VID) st, 0⟩ ::
        ⟨.kmalloc .spms_pl, 0⟩ :: s.trace } := by
  have h0 := hok s.trace.length (le_refl _)
  have h1 := hok (s.trace.length + 1) (by omega)
  have hcases : s.port.stp_state = 0 ∨ s.port.stp_state = 1 ∨ s.port.stp_state = 2 ∨
      s.port.stp_state = 3 ∨ s.port.stp_state = 4 := by
    simp only [BR_STATE_BLOCKING] at hst
    omega
  rcases hcases with h | h | h | h | h
  · exact ⟨.MLXSW_REG_SPMS_STATE_FORWARDING, by
      simp [mlxsw_sp_port_stp_state_set, h, BR_STATE_DISABLED, kmalloc, mlxsw_reg_write, h0, h1]⟩
  · exact ⟨.MLXSW_REG_SPMS_STATE_LEARNING, by
      simp [mlxsw_sp_port_stp_state_set, h, BR_STATE_DISABLED, BR_STATE_FORWARDING,
        BR_STATE_LISTENING, kmalloc, mlxsw_reg_write, h0, h1]⟩
  · exact ⟨.MLXSW_REG_SPMS_STATE_LEARNING, by
      simp [mlxsw_sp_port_stp_state_set, h, BR_STATE_DISABLED, BR_STATE_FORWARDING,
        BR_STATE_LISTENING, BR_STATE_LEARNING, kmalloc, mlxsw_reg_write, h0, h1]⟩
  · exact ⟨.MLXSW_REG_SPMS_STATE_FORWARDING, by
      simp [mlxsw_sp_port_stp_state_set, h, BR_STATE_DISABLED, BR_STATE_FORWARDING,
        kmalloc, mlxsw_reg_write, h0, h1]⟩
  · exact ⟨.MLXSW_REG_SPMS_STATE_DISCARDING, by
      simp [mlxsw_sp_port_stp_state_set, h, BR_STATE_DISABLED, BR_STATE_FORWARDING,
        BR_STATE_LISTENING, BR_STATE_LEARNING, BR_STATE_BLOCKING, kmalloc, mlxsw_reg_write,
        h0, h1]⟩

/-- A loop of calls that fail only when the environment does runs to its end
when the environment never fails. -/
theorem for_up_calls_ok (env : Nat → Int) (f : Nat → M Int) (step vid_end : Nat)
    (hf : ∀ v t, EnvOk env t.trace.length →
      ∃ t', f v t = Res.ret 0 t' ∧ EnvOk env t'.trace.length)
    (hstep : 0 < step) (hwrap : vid_end + step < U16) (fuel vid : Nat) (s : St)
    (hfuel : vid_end + 1 - vid < fuel) (hok : EnvOk env s.trace.length) :
    ∃ v' s', for_up (fun v => do
        let err ← f v
        if err ≠ 0 then pure (some err) else pure none) step vid_end fuel vid s
      = Res.ret (v', none) s' ∧ EnvOk env s'.trace.length := by
  obtain ⟨v', s', h1, -, h2⟩ := for_up_total (fun v => do
        let err ← f v
        if err ≠ 0 then pure (some err) else pure none) step vid_end
    (fun _ t => EnvOk env t.trace.length)
    hstep hwrap (fun v t _ hI => by
      obtain ⟨t', h1, h2⟩ := hf v t hI
      exact ⟨t', by simp [h1], h2⟩) fuel vid s hfuel hok
  exact ⟨v', s', h1, h2⟩

theorem vid_to_fid_set_ok (env : Nat → Int) (mt : svfa_mt) (valid : Bool) (fid vid : Nat)
    (s : St) (hok : EnvOk env s.trace.length) :
    mlxsw_sp_port_vid_to_fid_set env mt valid fid vid s
      = Res.ret 0 { s with trace :=
          ⟨.vid_to_fid_set s.port.local_port mt valid fid vid, 0⟩ :: s.trace } := by
  simp [mlxsw_sp_port_vid_to_fid_set, EnvOk_here hok]

theorem fid_map_ok (env : Nat → Int) (v : Nat) (t : St) (hok : EnvOk env t.trace.length) :
    ∃ t', mlxsw_sp_port_fid_map env v t = Res.ret 0 t' ∧ EnvOk env t'.trace.length := by
  refine ⟨{ t with trace := ⟨.vid_to_fid_set t.port.local_port
      (if !t.port.vports_list_empty then svfa_mt.MLXSW_REG_SVFA_MT_PORT_VID_TO_FID
       else svfa_mt.MLXSW_REG_SVFA_MT_VID_TO_FID) true v v, 0⟩ :: t.trace }, ?_, ?_⟩
  · simp [mlxsw_sp_port_fid_map, vid_to_fid_set_ok env _ _ _ _ t hok]
  · exact EnvOk_mono hok (by simp)

theorem fid_unmap_ok (env : Nat → Int) (v : Nat) (t : St) (hok : EnvOk env t.trace.length) :
    ∃ t', mlxsw_sp_port_fid_unmap env v t = Res.ret 0 t' ∧ EnvOk env t'.trace.length := by
  cases hv : t.port.vports_list_empty with
  | true => exact ⟨t, by simp [mlxsw_sp_port_fid_unmap, hv], hok⟩
  | false =>
    refine ⟨{ t with trace := ⟨.vid_to_fid_set t.port.local_port
        .MLXSW_REG_SVFA_MT_PORT_VID_TO_FID false v v, 0⟩ :: t.trace }, ?_, ?_⟩
    · simp [mlxsw_sp_port_fid_unmap, hv, vid_to_fid_set_ok env _ _ _ _ t hok]
    · exact EnvOk_mono hok (by simp)

theorem vlans_add_fid_maps_ok (env : Nat → Int) (fuel vid_begin vid_end : Nat) (s : St)
    (hve : vid_end + 1 < U16) (hfuel : vid_end + 1 - vid_begin < fuel)
    (hok : EnvOk env s.trace.length) :
    ∃ v' s', vlans_add_fid_maps env fuel vid_begin vid_end s = Res.ret (v', none) s' ∧
      EnvOk env s'.trace.length :=
  for_up_calls_ok env _ 1 vid_end (fid_map_ok env) (by decide) hve fuel vid_begin s hfuel hok

theorem vlans_del_fid_unmaps_ok (env : Nat → Int) (fuel vid_begin vid_end : Nat) (s : St)
    (hve : vid_end + 1 < U16) (hfuel : vid_end + 1 - vid_begin < fuel)
    (hok : EnvOk env s.trace.length) :
    ∃ v' s', vlans_del_fid_unmaps env fuel vid_begin vid_end s = Res.ret (v', none) s' ∧
      EnvOk env s'.trace.length :=
  for_up_calls_ok env _ 1 vid_end (fid_unmap_ok env) (by decide) hve fuel vid_begin s hfuel hok

theorem hw_vlan_cons_vlan_set (lp vid p b e : Nat) (m u : Bool) (err : Int) (tr : List Ev) :
    hw_vlan lp vid (⟨.vlan_set p b e m u, err⟩ :: tr)
      = if err = 0 ∧ p = lp ∧ b ≤ vid ∧ vid ≤ e then (if m then some u else none)
        else hw_vlan lp vid tr := rfl

/-- The batched VLAN-table programming with every write succeeding: it returns
success and every vid of the range is programmed as asked. -/
theorem vlans_set_ok (c : Consts) (env : Nat → Int) (fuel vid_begin vid_end : Nat)
    (m u : Bool) (s : St) (hR : 0 < c.MLXSW_REG_SPVM_REC_MAX_COUNT)
    (hwrap : vid_end + c.MLXSW_REG_SPVM_REC_MAX_COUNT < U16)
    (hfuel : vid_end + 1 - vid_begin < fuel) (hok : EnvOk env s.trace.length) :
    ∃ s', __mlxsw_sp_port_vlans_set c env fuel vid_begin vid_end m u s = Res.ret 0 s' ∧
      EnvOk env s'.trace.length ∧
      ∀ vid, vid_begin ≤ vid → vid ≤ vid_end →
        hw_vlan s.port.local_port vid s'.trace = (if m then some u else none) := by
  obtain ⟨v', s', h1, hv', h2, h3, h4, h5⟩ := for_up_total (fun vid => do
      let vid_e := min ((vid + c.MLXSW_REG_SPVM_REC_MAX_COUNT - 1) % U16) vid_end
      let err ← mlxsw_sp_port_vlan_set env vid vid_e m u
      if err ≠ 0 then pure (some err) else pure none)
    c.MLXSW_REG_SPVM_REC_MAX_COUNT vid_end
    (fun v t => t.port = s.port ∧ EnvOk env t.trace.length ∧ vid_begin ≤ v ∧
      ∀ vid, vid_begin ≤ vid → vid < v → vid ≤ vid_end →
        hw_vlan s.port.local_port vid t.trace = (if m then some u else none))
    hR hwrap (fun v t hle ⟨i1, i2, i3, i4⟩ => by
      have hmod : (v + c.MLXSW_REG_SPVM_REC_MAX_COUNT - 1) % U16
          = v + c.MLXSW_REG_SPVM_REC_MAX_COUNT - 1 := Nat.mod_eq_of_lt (by omega)
      refine ⟨{ t with trace := ⟨.vlan_set t.port.local_port v
          (min (v + c.MLXSW_REG_SPVM_REC_MAX_COUNT - 1) vid_end) m u, 0⟩ :: t.trace }, ?_,
        i1, EnvOk_mono i2 (by simp), by omega, fun vid hv1 hv2 hv3 => ?_⟩
      · simp [mlxsw_sp_port_vlan_set, EnvOk_here i2, hmod]
      · simp only [hw_vlan_cons_vlan_set, i1, true_and]
        by_cases hcov : v ≤ vid
        · have : vid ≤ min (v + c.MLXSW_REG_SPVM_REC_MAX_COUNT - 1) vid_end := by
            simp only [le_min_iff]; omega
          simp [hcov, this]
        · have := i4 vid hv1 (by omega) hv3
          simp [hcov, this])
    fuel vid_begin s hfuel ⟨rfl, hok, le_refl _, fun vid a b => by omega⟩
  refine ⟨s', ?_, h3, fun vid hv1 hv2 => h5 vid hv1 (by omega) hv2⟩
  unfold __mlxsw_sp_port_vlans_set
  simp only [bind_apply]
  rw [h1]
  rfl

theorem clear_active_vlans_returns (fuel vid_begin vid_end : Nat) (s : St)
    (hve : vid_end + 1 < U16) (hfuel : vid_end + 1 - vid_begin < fuel) :
    ∃ s', clear_active_vlans fuel vid_begin vid_end s = Res.ret () s' := by
  obtain ⟨r, s', h⟩ := for_up_returns (ε := Unit) (fun vid => do
      modifySt (fun s => { s with port := { s.port with
        active_vlans := clear_bit vid s.port.active_vlans } })
      pure none) 1 vid_end (fun v t => ⟨_, _, rfl⟩) (by decide) hve fuel vid_begin s hfuel
  exact ⟨s', by simp [clear_active_vlans, h]⟩

theorem set_active_vlans_returns (fuel vid_begin vid_end : Nat) (s : St)
    (hve : vid_end + 1 < U16) (hfuel : vid_end + 1 - vid_begin < fuel) :
    ∃ s', set_active_vlans fuel vid_begin vid_end s = Res.ret () s' := by
  obtain ⟨r, s', h⟩ := for_up_returns (ε := Unit) (fun vid => do
      modifySt (fun s => { s with port := { s.port with
        active_vlans := set_bit vid s.port.active_vlans } })
      pure none) 1 vid_end (fun v t => ⟨_, _, rfl⟩) (by decide) hve fuel vid_begin s hfuel
  exact ⟨s', by simp [set_active_vlans, h]⟩

/-! ## C7 -/

theorem filter_kind_only {ks : List OpKind} {k : OpKind} (evs : List Ev)
    (h : ∀ e ∈ evs, only ks e) (hk : k ∉ ks) :
    evs.filter (fun e => decide (e.op.kind = k)) = [] := by
  apply List.filter_eq_nil_iff.mpr
  intro e he
  have := h e he
  simp only [decide_eq_true_eq]
  intro hek
  exact hk (hek ▸ this)

theorem vlans_del_compose (c : Consts) (env : Nat → Int) (fuel vid_begin vid_end : Nat)
    (s s1 s2 s3 s4 s' : St) (v : Nat) (hb : s.port.bridged = true)
    (h1 : __mlxsw_sp_port_vlans_set c env fuel vid_begin vid_end false false s = Res.ret 0 s1)
    (h2 : vlans_del_pvid env vid_begin vid_end s1.port.pvid s1 = Res.ret 0 s2)
    (h3 : __mlxsw_sp_port_flood_set c env vid_begin vid_end false false s2 = Res.ret 0 s3)
    (h4 : vlans_del_fid_unmaps env fuel vid_begin vid_end s3 = Res.ret (v, none) s4)
    (h5 : clear_active_vlans fuel vid_begin vid_end s4 = Res.ret () s') :
    __mlxsw_sp_port_vlans_del c env fuel vid_begin vid_end false s = Res.ret 0 s' := by
  simp [__mlxsw_sp_port_vlans_del, hb, h1, h2, h3, h4, h5]

/-- The run of `__mlxsw_sp_port_vlans_del` in which nothing fails. -/
theorem vlans_del_ok_run (c : Consts) (env : Nat → Int) (fuel vid_begin vid_end : Nat)
    (s : St) (hb : s.port.bridged = true) (hle : vid_begin ≤ vid_end)
    (hve : vid_end < VLAN_N_VID) (hR : 0 < c.MLXSW_REG_SPVM_REC_MAX_COUNT)
    (hR' : c.MLXSW_REG_SPVM_REC_MAX_COUNT ≤ VLAN_N_VID)
    (hfuel : vid_end + 1 - vid_begin < fuel) (hok : EnvOk env s.trace.length) :
    ∃ s', __mlxsw_sp_port_vlans_del c env fuel vid_begin vid_end false s = Res.ret 0 s' ∧
      (∀ u, test_bit u s'.port.active_vlans
        = (test_bit u s.port.active_vlans && !decide (vid_begin ≤ u ∧ u ≤ vid_end))) ∧
      s'.port.pvid
        = (if vid_begin ≤ s.port.pvid ∧ s.port.pvid ≤ vid_end then 1 else s.port.pvid) ∧
      (new_events s s').filter (fun e => decide (e.op.kind = .spvid))
        = (if vid_begin ≤ s.port.pvid ∧ s.port.pvid ≤ vid_end ∧ s.port.pvid ≠ 1
            then [⟨.spvid s.port.local_port 1, 0⟩] else []) := by
  have hU : vid_end + 1 < U16 := by
    simp only [VLAN_N_VID] at hve; simp only [U16]; omega
  have hw : vid_end + c.MLXSW_REG_SPVM_REC_MAX_COUNT < U16 := by
    simp only [VLAN_N_VID] at hve hR'; simp only [U16]; omega
  have hvb : vid_begin < U16 := by omega
  obtain ⟨s1, h1, ok1, -⟩ := vlans_set_ok c env fuel vid_begin vid_end false false s hR hw hfuel hok
  have r1 := Pres_ret (Pres_vlans_set [.vlan_set] c env _ _ _ _ _ (by simp)) h1
  obtain ⟨p1, q1⟩ := HwOnly_port r1
  obtain ⟨t1, k1⟩ := HwOnly_new_events r1
  have h2 : vlans_del_pvid env vid_begin vid_end s1.port.pvid s1 = Res.ret 0
      (if vid_begin ≤ s1.port.pvid ∧ s1.port.pvid ≤ vid_end ∧ s1.port.pvid ≠ 1 then
        { s1 with
          port := { s1.port with pvid := 1 }
          trace := ⟨.spvid s1.port.local_port 1, 0⟩ :: s1.trace }
      else s1) := by
    rw [vlans_del_pvid_eq]
    split
    · simp [EnvOk_here ok1]
    · rfl
  generalize hs2 : (if vid_begin ≤ s1.port.pvid ∧ s1.port.pvid ≤ vid_end ∧ s1.port.pvid ≠ 1 then
        ({ s1 with
          port := { s1.port with pvid := 1 }
          trace := ⟨.spvid s1.port.local_port 1, 0⟩ :: s1.trace } : St)
      else s1) = s2 at h2
  obtain ⟨a2, b2, t2⟩ := vlans_del_pvid_ok env vid_begin vid_end s1 s2 h2
  have ok2 : EnvOk env s2.trace.length := EnvOk_ext ok1 ⟨_, t2⟩
  have h3 := flood_set_ok c env vid_begin vid_end false s2 ok2
  generalize hs3 : ({ s2 with trace := _ } : St) = s3 at h3
  have r3 := Pres_ret (Pres_flood_set [.kmalloc, .sftr, .vid_to_fid_set] c env _ _ _ _
    (by simp) (by simp)) h3
  have ok3 : EnvOk env s3.trace.length := EnvOk_ext ok2 ⟨_, (HwOnly_new_events r3).1⟩
  obtain ⟨v4, s4, h4, ok4⟩ := vlans_del_fid_unmaps_ok env fuel vid_begin vid_end s3 hU hfuel ok3
  have r4 := Pres_ret (Pres_vlans_del_fid_unmaps [.kmalloc, .sftr, .vid_to_fid_set] env _ _ _
    (by simp)) h4
  have r34 := (HwOnly_pre _).trans _ _ _ r3 r4
  obtain ⟨t34, k34⟩ := HwOnly_new_events r34
  obtain ⟨s', h5⟩ := clear_active_vlans_returns fuel vid_begin vid_end s4 hU hfuel
  obtain ⟨c1, c2, c3, c4⟩ := clear_active_vlans_spec fuel vid_begin vid_end s4 s' hvb h5
  have hrun := vlans_del_compose c env fuel vid_begin vid_end s s1 s2 s3 s4 s' v4 hb h1 h2 h3 h4 h5
  obtain ⟨-, -, -, hsum, -⟩ :=
    vlans_del_summary c env fuel vid_begin vid_end false s s' 0 (Or.inr hb) hvb hrun
  refine ⟨s', hrun, (hsum rfl).1, (hsum rfl).2, ?_⟩
  have htr : s'.trace = (new_events s2 s4 ++
      ((if vid_begin ≤ s.port.pvid ∧ s.port.pvid ≤ vid_end ∧ s.port.pvid ≠ 1
        then [⟨.spvid s.port.local_port 1, 0⟩] else []) ++ new_events s s1)) ++ s.trace := by
    rw [c2, t34, t2, t1, p1]
    simp only [List.append_assoc]
  rw [new_events_of_append s s' _ htr, List.filter_append, List.filter_append,
    filter_kind_only _ k34 (by simp), filter_kind_only _ k1 (by simp)]
  split
  · simp [Op.kind]
  · simp

/-- C7: on a bridged port, for a range `vid_begin <= vid_end` of VLAN ids, when
every hardware operation (and every allocation of a payload buffer) succeeds,
`__mlxsw_sp_port_vlans_del` with `init = false` returns success; afterwards
every vid of the range is clear in the active-VLAN bitmap and every other bit is
unchanged, the PVID is 1 if the previous PVID was inside the range and unchanged
otherwise, and a hardware PVID write (of VLAN 1) was issued exactly when the
previous PVID was inside the range and was not 1. -/
theorem vlans_del_success (c : Consts) (env : Nat → Int) (fuel vid_begin vid_end : Nat)
    (s : St) (hb : s.port.bridged = true) (hle : vid_begin ≤ vid_end)
    (hve : vid_end < VLAN_N_VID) (hR : 0 < c.MLXSW_REG_SPVM_REC_MAX_COUNT)
    (hR' : c.MLXSW_REG_SPVM_REC_MAX_COUNT ≤ VLAN_N_VID)
    (hfuel : vid_end + 1 - vid_begin < fuel) (hok : EnvOk env s.trace.length) :
    ∃ s', __mlxsw_sp_port_vlans_del c env fuel vid_begin vid_end false s = Res.ret 0 s' ∧
      (∀ u, test_bit u s'.port.active_vlans
        = (test_bit u s.port.active_vlans && !decide (vid_begin ≤ u ∧ u ≤ vid_end))) ∧
      s'.port.pvid
        = (if vid_begin ≤ s.port.pvid ∧ s.port.pvid ≤ vid_end then 1 else s.port.pvid) ∧
      (new_events s s').filter (fun e => decide (e.op.kind = .spvid))
        = (if vid_begin ≤ s.port.pvid ∧ s.port.pvid ≤ vid_end ∧ s.port.pvid ≠ 1
            then [⟨.spvid s.port.local_port 1, 0⟩] else []) :=
  vlans_del_ok_run c env fuel vid_begin vid_end s hb hle hve hR hR' hfuel hok

/-- Witness of C7: the removal of VLAN 5 from `ex_port5` with nothing failing. -/
theorem vlans_del_success_witness :
    ∃ s', __mlxsw_sp_port_vlans_del mlxsw_consts no_failure 5 5 5 false ex_st5
        = Res.ret 0 s' ∧
      (∀ u, test_bit u s'.port.active_vlans
        = (test_bit u ex_st5.port.active_vlans && !decide (5 ≤ u ∧ u ≤ 5))) ∧
      s'.port.pvid
        = (if 5 ≤ ex_st5.port.pvid ∧ ex_st5.port.pvid ≤ 5 then 1 else ex_st5.port.pvid) ∧
      (new_events ex_st5 s').filter (fun e => decide (e.op.kind = .spvid))
        = (if 5 ≤ ex_st5.port.pvid ∧ ex_st5.port.pvid ≤ 5 ∧ ex_st5.port.pvid ≠ 1
            then [⟨.spvid ex_st5.port.local_port 1, 0⟩] else []) :=
  vlans_del_success mlxsw_consts no_failure 5 5 5 ex_st5 (by decide) (by decide) (by decide)
    (by decide) (by decide) (by decide) (fun _ _ => rfl)

/-! ## The hardware tables and the kinds of writes -/

theorem hw_flood_append_only {ks : List OpKind} (table : flood_table)
    (table_type : flood_table_type) (port idx : Nat) (evs tr : List Ev)
    (h : ∀ e ∈ evs, only ks e) (hk : OpKind.sftr ∉ ks) :
    hw_flood table table_type port idx (evs ++ tr) = hw_flood table table_type port idx tr := by
  induction evs with
  | nil => rfl
  | cons e evs ih =>
    have he := h e (List.mem_cons_self _ _)
    have ih' := ih (fun e' he' => h e' (List.mem_cons_of_mem _ he'))
    obtain ⟨op, err⟩ := e
    cases op <;> first
      | (exfalso; exact hk he)
      | (simp only [List.cons_append, hw_flood]; exact ih')

theorem hw_vlan_append_only {ks : List OpKind} (lp vid : Nat) (evs tr : List Ev)
    (h : ∀ e ∈ evs, only ks e) (hk : OpKind.vlan_set ∉ ks) :
    hw_vlan lp vid (evs ++ tr) = hw_vlan lp vid tr := by
  induction evs with
  | nil => rfl
  | cons e evs ih =>
    have he := h e (List.mem_cons_self _ _)
    have ih' := ih (fun e' he' => h e' (List.mem_cons_of_mem _ he'))
    obtain ⟨op, err⟩ := e
    cases op <;> first
      | (exfalso; exact hk he)
      | (simp only [List.cons_append, hw_vlan]; exact ih')

theorem hw_vid_to_fid_append_only {ks : List OpKind} (lp : Nat) (mt : svfa_mt) (vid : Nat)
    (evs tr : List Ev) (h : ∀ e ∈ evs, only ks e) (hk : OpKind.vid_to_fid_set ∉ ks) :
    hw_vid_to_fid lp mt vid (evs ++ tr) = hw_vid_to_fid lp mt vid tr := by
  induction evs with
  | nil => rfl
  | cons e evs ih =>
    have he := h e (List.mem_cons_self _ _)
    have ih' := ih (fun e' he' => h e' (List.mem_cons_of_mem _ he'))
    obtain ⟨op, err⟩ := e
    cases op <;> first
      | (exfalso; exact hk he)
      | (simp only [List.cons_append, hw_vid_to_fid]; exact ih')

theorem HwOnly_hw_flood {ks : List OpKind} {a b : St} (h : HwOnly ks a b)
    (hk : OpKind.sftr ∉ ks) (table : flood_table) (table_type : flood_table_type)
    (port idx : Nat) :
    hw_flood table table_type port idx b.trace = hw_flood table table_type port idx a.trace := by
  obtain ⟨t, k⟩ := HwOnly_new_events h
  rw [t]
  exact hw_flood_append_only _ _ _ _ _ _ k hk

theorem HwOnly_hw_vlan {ks : List OpKind} {a b : St} (h : HwOnly ks a b)
    (hk : OpKind.vlan_set ∉ ks) (lp vid : Nat) :
    hw_vlan lp vid b.trace = hw_vlan lp vid a.trace := by
  obtain ⟨t, k⟩ := HwOnly_new_events h
  rw [t]
  exact hw_vlan_append_only _ _ _ _ k hk

theorem HwOnly_hw_vid_to_fid {ks : List OpKind} {a b : St} (h : HwOnly ks a b)
    (hk : OpKind.vid_to_fid_set ∉ ks) (lp : Nat) (mt : svfa_mt) (vid : Nat) :
    hw_vid_to_fid lp mt vid b.trace = hw_vid_to_fid lp mt vid a.trace := by
  obtain ⟨t, k⟩ := HwOnly_new_events h
  rw [t]
  exact hw_vid_to_fid_append_only _ _ _ _ _ k hk

/-! ## C5 -/

theorem vlans_add_fids_ok (env : Nat → Int) (fuel vid_begin vid_end : Nat) (s : St)
    (hve : vid_end + 1 < U16) (hfuel : vid_end + 1 - vid_begin < fuel)
    (hok : EnvOk env s.trace.length) :
    ∃ v' s', vlans_add_fids env fuel vid_begin vid_end s = Res.ret (v', none) s' ∧
      EnvOk env s'.trace.length := by
  obtain ⟨v', s', h1, -, h2⟩ := for_up_total (fun vid => do
      let s ← getSt
      if !test_bit vid s.sp.active_fids then do
        let err ← mlxsw_sp_fid_create env vid
        if err ≠ 0 then
          pure (some (err, add_exit.fid_create))
        else do
          let err ← mlxsw_sp_port_vid_to_fid_set env .MLXSW_REG_SVFA_MT_VID_TO_FID true vid vid
          if err ≠ 0 then do
            mlxsw_sp_fid_destroy env vid
            pure (some (err, add_exit.err_port_vid_to_fid_set))
          else
            pure none
      else
        pure none : Nat → M (Option (Int × add_exit))) 1 vid_end
    (fun _ t => EnvOk env t.trace.length) (by decide) hve (fun v t _ hI => by
      have h0 := hI t.trace.length (le_refl _)
      have h1 := hI (t.trace.length + 1) (by omega)
      cases hb : test_bit v t.sp.active_fids with
      | true => exact ⟨t, by simp [hb], hI⟩
      | false =>
        refine ⟨{ t with
          sp := { t.sp with active_fids := set_bit v t.sp.active_fids }
          trace := ⟨.vid_to_fid_set t.port.local_port .MLXSW_REG_SVFA_MT_VID_TO_FID true v v, 0⟩
            :: ⟨.sfmr .MLXSW_REG_SFMR_OP_CREATE_FID v v, 0⟩ :: t.trace }, ?_, ?_⟩
        · simp [hb, fid_create_eq, h0, h1, mlxsw_sp_port_vid_to_fid_set]
        · exact EnvOk_mono hI (by simp only [List.length_cons]; omega))
    fuel vid_begin s hfuel hok
  exact ⟨v', s', h1, h2⟩

theorem vlans_add_pvid_env_ok (env : Nat → Int) (vid_begin : Nat) (fp : Bool) (s : St)
    (hok : EnvOk env s.trace.length) :
    ∃ s', vlans_add_pvid env vid_begin fp s.port.pvid s = Res.ret 0 s' := by
  rw [vlans_add_pvid_eq]
  split
  · exact ⟨_, by rw [EnvOk_here hok]⟩
  · exact ⟨_, rfl⟩

theorem vlans_add_compose (c : Consts) (env : Nat → Int) (fuel vid_begin vid_end : Nat)
    (fu fp : Bool) (s s1 s2 s3 s4 s5 s6 s' : St) (v1 v2 : Nat) (hb : s.port.bridged = true)
    (h1 : vlans_add_fids env fuel vid_begin vid_end s = Res.ret (v1, none) s1)
    (h2 : vlans_add_fid_maps env fuel vid_begin vid_end s1 = Res.ret (v2, none) s2)
    (h3 : __mlxsw_sp_port_flood_set c env vid_begin vid_end true false s2 = Res.ret 0 s3)
    (h4 : __mlxsw_sp_port_vlans_set c env fuel vid_begin vid_end true fu s3 = Res.ret 0 s4)
    (h5 : vlans_add_pvid env vid_begin fp s4.port.pvid s4 = Res.ret 0 s5)
    (h6 : set_active_vlans fuel vid_begin vid_end s5 = Res.ret () s6)
    (h7 : mlxsw_sp_port_stp_state_set env s6.port.stp_state s6 = Res.ret 0 s') :
    vlans_add_exit c env fuel vid_begin vid_end fu fp s = Res.ret (0, .ok) s' := by
  simp [vlans_add_exit, hb, h1, h2, h3, h4, h5, h6, h7]

theorem hw_flood_cons_sftr (table t : flood_table) (table_type ty : flood_table_type)
    (port idx i range p : Nat) (set : Bool) (err : Int) (tr : List Ev) :
    hw_flood table table_type port idx (⟨.sftr t i ty range p set, err⟩ :: tr)
      = if err = 0 ∧ t = table ∧ ty = table_type ∧ p = port ∧ i ≤ idx ∧ idx < i + range
        then set else hw_flood table table_type port idx tr := rfl

theorem hw_flood_cons_kmalloc (table : flood_table) (table_type : flood_table_type)
    (port idx : Nat) (buf : payload) (err : Int) (tr : List Ev) :
    hw_flood table table_type port idx (⟨.kmalloc buf, err⟩ :: tr)
      = hw_flood table table_type port idx tr := rfl

/-- The run of `__mlxsw_sp_port_vlans_add` in which nothing fails. -/
theorem vlans_add_ok_run (c : Consts) (env : Nat → Int) (fuel vid_begin vid_end : Nat)
    (fu fp : Bool) (s : St) (hb : s.port.bridged = true) (hphys : s.port.is_vport = false)
    (hle : vid_begin ≤ vid_end) (hve : vid_end < VLAN_N_VID)
    (hst : s.port.stp_state ≤ BR_STATE_BLOCKING)
    (hR : 0 < c.MLXSW_REG_SPVM_REC_MAX_COUNT)
    (hR' : c.MLXSW_REG_SPVM_REC_MAX_COUNT ≤ VLAN_N_VID)
    (hfuel : vid_end + 1 - vid_begin < fuel) (hok : EnvOk env s.trace.length) :
    ∃ s', __mlxsw_sp_port_vlans_add c env fuel vid_begin vid_end fu fp s = Res.ret 0 s' ∧
      (∀ u, test_bit u s'.port.active_vlans
        = (decide (vid_begin ≤ u ∧ u ≤ vid_end) || test_bit u s.port.active_vlans)) ∧
      (∀ u, vid_begin ≤ u → u ≤ vid_end → test_bit u s'.sp.active_fids = true) ∧
      (∀ u, vid_begin ≤ u → u ≤ vid_end →
        hw_flood .MLXSW_SP_FLOOD_TABLE_UC .MLXSW_REG_SFGC_TABLE_TYPE_FID_OFFEST
          s.port.local_port u s'.trace = true ∧
        hw_flood .MLXSW_SP_FLOOD_TABLE_BM .MLXSW_REG_SFGC_TABLE_TYPE_FID_OFFEST
          s.port.local_port u s'.trace = true) ∧
      (∀ u, vid_begin ≤ u → u ≤ vid_end → hw_vlan s.port.local_port u s'.trace = some fu) ∧
      s'.port.pvid = (if fp = true then vid_begin else s.port.pvid) ∧
      s'.port = { s.port with pvid := s'.port.pvid, active_vlans := s'.port.active_vlans } ∧
      ∃ evs, s'.trace = evs ++ s.trace := by
  have hU : vid_end + 1 < U16 := by
    simp only [VLAN_N_VID] at hve; simp only [U16]; omega
  have hw : vid_end + c.MLXSW_REG_SPVM_REC_MAX_COUNT < U16 := by
    simp only [VLAN_N_VID] at hve hR'; simp only [U16]; omega
  have hvb : vid_begin < U16 := by omega
  have hrange : (vid_end + U16 - vid_begin + 1) % U16 = vid_end - vid_begin + 1 := by
    have : vid_end + U16 - vid_begin + 1 = (vid_end - vid_begin + 1) + U16 := by omega
    rw [this, Nat.add_mod_right]
    exact Nat.mod_eq_of_lt (by omega)
  -- the steps, in order
  obtain ⟨v1, s1, h1, ok1⟩ := vlans_add_fids_ok env fuel vid_begin vid_end s hU hfuel hok
  have p1 := FidsGrow_port (Pres_ret (Pres_vlans_add_fids env fuel vid_begin vid_end) h1)
  obtain ⟨v2, s2, h2, ok2⟩ := vlans_add_fid_maps_ok env fuel vid_begin vid_end s1 hU hfuel ok1
  have r2 := Pres_ret (Pres_vlans_add_fid_maps [.vid_to_fid_set] env _ _ _ (by simp)) h2
  have p2 : s2.port = s.port := by rw [(HwOnly_port r2).1, p1]
  obtain ⟨s3, h3, t3, p3⟩ : ∃ s3 : St,
      __mlxsw_sp_port_flood_set c env vid_begin vid_end true false s2 = Res.ret 0 s3 ∧
      s3.trace = ⟨.sftr .MLXSW_SP_FLOOD_TABLE_BM vid_begin
          .MLXSW_REG_SFGC_TABLE_TYPE_FID_OFFEST (vid_end - vid_begin + 1) s.port.local_port
          true, 0⟩ ::
        ⟨.sftr .MLXSW_SP_FLOOD_TABLE_UC vid_begin
          .MLXSW_REG_SFGC_TABLE_TYPE_FID_OFFEST (vid_end - vid_begin + 1) s.port.local_port
          true, 0⟩ :: ⟨.kmalloc .sftr_pl, 0⟩ :: s2.trace ∧
      s3.port = s.port := by
    refine ⟨_, flood_set_ok c env vid_begin vid_end true s2 ok2, ?_, p2⟩
    simp only [p2, hphys, hrange, Bool.false_eq_true, if_false]
  have ok3 : EnvOk env s3.trace.length := EnvOk_ext ok2 ⟨[_, _, _], t3⟩
  obtain ⟨s4, h4, ok4, f4⟩ := vlans_set_ok c env fuel vid_begin vid_end true fu s3 hR hw hfuel ok3
  have r4 := Pres_ret (Pres_vlans_set [.vlan_set] c env _ _ _ _ _ (by simp)) h4
  have p4 : s4.port = s.port := by rw [(HwOnly_port r4).1, p3]
  obtain ⟨s5, h5⟩ := vlans_add_pvid_env_ok env vid_begin fp s4 ok4
  obtain ⟨a5, b5, evs5, t5, k5⟩ := vlans_add_pvid_ok env vid_begin fp s4 s5 h5
  have k5' : ∀ e ∈ evs5, only [.spvid] e := by
    intro e he
    rw [k5 e he]
    simp [only, Op.kind]
  obtain ⟨s6, h6⟩ := set_active_vlans_returns fuel vid_begin vid_end s5 hU hfuel
  obtain ⟨a6, t6, b6, c6⟩ := set_active_vlans_spec fuel vid_begin vid_end s5 s6 hvb h6
  have ok6 : EnvOk env s6.trace.length := by
    rw [t6]
    exact EnvOk_ext ok4 ⟨_, t5⟩
  have st6 : s6.port.stp_state ≤ BR_STATE_BLOCKING := by
    rw [b6, b5, p4]; exact hst
  obtain ⟨st, h7'⟩ := stp_state_set_ok env s6 ok6 st6
  obtain ⟨s7, h7, t7⟩ : ∃ s7 : St,
      mlxsw_sp_port_stp_state_set env s6.port.stp_state s6 = Res.ret 0 s7 ∧
      ∃ e1 e2 : Ev, e1.op.kind = .spms ∧ e2.op.kind = .kmalloc ∧
        s7.trace = e1 :: e2 :: s6.trace := by
    refine ⟨_, h7', _, _, ?_, ?_, rfl⟩ <;> rfl
  have hrun := vlans_add_compose c env fuel vid_begin vid_end fu fp s s1 s2 s3 s4 s5 s6 s7 v1 v2
    hb h1 h2 h3 h4 h5 h6 h7
  obtain ⟨hgrow, hsum⟩ :=
    vlans_add_exit_summary c env fuel vid_begin vid_end fu fp s s7 0 .ok hb hvb hrun
  obtain ⟨-, f1, f2, f3⟩ := hsum
  -- the tables after the last step are the tables after the step that wrote them
  obtain ⟨e1, e2, k1, k2, t7⟩ := t7
  have hfl : ∀ table u, hw_flood table .MLXSW_REG_SFGC_TABLE_TYPE_FID_OFFEST
      s.port.local_port u s7.trace
      = hw_flood table .MLXSW_REG_SFGC_TABLE_TYPE_FID_OFFEST s.port.local_port u s3.trace := by
    intro table u
    have : s7.trace = ([e1, e2] ++ evs5) ++ s4.trace := by
      rw [t7, t6, t5]; rfl
    rw [this, @hw_flood_append_only [.spms, .kmalloc, .spvid] _ _ _ _ _ _ _ (by simp)]
    · exact HwOnly_hw_flood r4 (by simp) _ _ _ _
    · intro e he
      simp only [List.mem_append, List.mem_cons, List.mem_singleton, List.not_mem_nil,
        or_false] at he
      rcases he with (rfl | rfl) | he
      · simp [only, k1]
      · simp [only, k2]
      · have := k5' e he
        simp only [only, List.mem_singleton] at this
        simp [only, this]
  have hvl : ∀ u, hw_vlan s.port.local_port u s7.trace
      = hw_vlan s.port.local_port u s4.trace := by
    intro u
    have : s7.trace = ([e1, e2] ++ evs5) ++ s4.trace := by
      rw [t7, t6, t5]; rfl
    rw [this]
    apply @hw_vlan_append_only [.spms, .kmalloc, .spvid] _ _ _ _ _ (by simp)
    intro e he
    simp only [List.mem_append, List.mem_cons, List.mem_singleton, List.not_mem_nil,
      or_false] at he
    rcases he with (rfl | rfl) | he
    · simp [only, k1]
    · simp [only, k2]
    · have := k5' e he
      simp only [only, List.mem_singleton] at this
      simp [only, this]
  refine ⟨s7, vlans_add_eq_of_exit _ _ _ _ _ _ _ _ _ _ _ hrun, f3, f1, fun u hu1 hu2 => ?_,
    fun u hu1 hu2 => ?_, ?_, ?_, ?_⟩
  · have hidx : u < vid_begin + (vid_end - vid_begin + 1) := by omega
    constructor
    · rw [hfl, t3]
      simp [hw_flood_cons_sftr, hu1, hidx]
    · rw [hfl, t3]
      simp [hw_flood_cons_sftr, hu1, hidx]
  · rw [hvl, ← p3]
    have := f4 u hu1 hu2
    simpa using this
  · rw [f2]
  · rw [f2]
  · obtain ⟨-, -, evs, he, -⟩ := hgrow
    exact ⟨evs, he⟩

/-- C5: on a bridged physical port (whose cached STP state is one of the five
bridge states), for a range `vid_begin <= vid_end` of VLAN ids, when every
hardware operation (and every allocation of a payload buffer) succeeds,
`__mlxsw_sp_port_vlans_add` returns success, and then: every vid of the range
is set in the active-VLAN bitmap and no other bit changed; the FID of every vid
of the range is active; the port is a member of the unicast and of the
broadcast/multicast flood table for every vid of the range; the VLAN table holds
every vid of the range with the requested untagged mode; the PVID is `vid_begin`
when `flag_pvid` is set and unchanged otherwise. -/
theorem vlans_add_success (c : Consts) (env : Nat → Int) (fuel vid_begin vid_end : Nat)
    (fu fp : Bool) (s : St) (hb : s.port.bridged = true) (hphys : s.port.is_vport = false)
    (hle : vid_begin ≤ vid_end) (hve : vid_end < VLAN_N_VID)
    (hst : s.port.stp_state ≤ BR_STATE_BLOCKING)
    (hR : 0 < c.MLXSW_REG_SPVM_REC_MAX_COUNT)
    (hR' : c.MLXSW_REG_SPVM_REC_MAX_COUNT ≤ VLAN_N_VID)
    (hfuel : vid_end + 1 - vid_begin < fuel) (hok : EnvOk env s.trace.length) :
    ∃ s', __mlxsw_sp_port_vlans_add c env fuel vid_begin vid_end fu fp s = Res.ret 0 s' ∧
      (∀ u, test_bit u s'.port.active_vlans
        = (decide (vid_begin ≤ u ∧ u ≤ vid_end) || test_bit u s.port.active_vlans)) ∧
      (∀ u, vid_begin ≤ u → u ≤ vid_end → test_bit u s'.sp.active_fids = true) ∧
      (∀ u, vid_begin ≤ u → u ≤ vid_end →
        hw_flood .MLXSW_SP_FLOOD_TABLE_UC .MLXSW_REG_SFGC_TABLE_TYPE_FID_OFFEST
          s.port.local_port u s'.trace = true ∧
        hw_flood .MLXSW_SP_FLOOD_TABLE_BM .MLXSW_REG_SFGC_TABLE_TYPE_FID_OFFEST
          s.port.local_port u s'.trace = true) ∧
      (∀ u, vid_begin ≤ u → u ≤ vid_end → hw_vlan s.port.local_port u s'.trace = some fu) ∧
      s'.port.pvid = (if fp = true then vid_begin else s.port.pvid) := by
  obtain ⟨s', h1, h2, h3, h4, h5, h6, -⟩ :=
    vlans_add_ok_run c env fuel vid_begin vid_end fu fp s hb hphys hle hve hst hR hR' hfuel hok
  exact ⟨s', h1, h2, h3, h4, h5, h6⟩

/-- Witness of C5: `vid_begin = vid_end = 100`, untagged, as PVID, on the bridged
port `ex_port`, which has no VLAN. -/
theorem vlans_add_success_witness :
    ∃ s', __mlxsw_sp_port_vlans_add mlxsw_consts no_failure 5 100 100 true true ex_st
        = Res.ret 0 s' ∧
      (∀ u, test_bit u s'.port.active_vlans
        = (decide (100 ≤ u ∧ u ≤ 100) || test_bit u ex_st.port.active_vlans)) ∧
      (∀ u, 100 ≤ u → u ≤ 100 → test_bit u s'.sp.active_fids = true) ∧
      (∀ u, 100 ≤ u → u ≤ 100 →
        hw_flood .MLXSW_SP_FLOOD_TABLE_UC .MLXSW_REG_SFGC_TABLE_TYPE_FID_OFFEST
          ex_st.port.local_port u s'.trace = true ∧
        hw_flood .MLXSW_SP_FLOOD_TABLE_BM .MLXSW_REG_SFGC_TABLE_TYPE_FID_OFFEST
          ex_st.port.local_port u s'.trace = true) ∧
      (∀ u, 100 ≤ u → u ≤ 100 → hw_vlan ex_st.port.local_port u s'.trace = some true) ∧
      s'.port.pvid = (if true = true then 100 else ex_st.port.pvid) :=
  vlans_add_success mlxsw_consts no_failure 5 100 100 true true ex_st (by decide) (by decide)
    (by decide) (by decide) (by decide) (by decide) (by decide) (by decide) (fun _ _ => rfl)

/-! ## C1 -/

/-- C1, counterexample: on `ex_port5_100` (VLANs 5 and 100 active, PVID 5), with
nothing failing, the add of VLAN 100 as PVID followed by the removal of VLAN 100
both return success, and afterwards bit 100 is clear although it was set before
the add, and the PVID is 1 although it was 5 before the add. -/
theorem vlans_add_then_del_not_restoring :
    __mlxsw_sp_port_vlans_add mlxsw_consts no_failure 5 100 100 true true ex_st5_100
      = Res.ret 0 (Res.final ex_st5_100
          (__mlxsw_sp_port_vlans_add mlxsw_consts no_failure 5 100 100 true true ex_st5_100)) ∧
    __mlxsw_sp_port_vlans_del mlxsw_consts no_failure 5 100 100 false
        (Res.final ex_st5_100
          (__mlxsw_sp_port_vlans_add mlxsw_consts no_failure 5 100 100 true true ex_st5_100))
      = Res.ret 0
          { sp := ex_st5_100.sp
            port := { ex_port5_100 with pvid := 1, active_vlans := set_bit 5 0 }
            trace := (Res.final ex_st5_100 (__mlxsw_sp_port_vlans_del mlxsw_consts no_failure 5
              100 100 false (Res.final ex_st5_100 (__mlxsw_sp_port_vlans_add mlxsw_consts
                no_failure 5 100 100 true true ex_st5_100)))).trace } ∧
    test_bit 100 ex_st5_100.port.active_vlans = true ∧
    test_bit 100 (set_bit 5 0) = false ∧
    ex_st5_100.port.pvid = 5 := by
  decide!

/-- C1, amended: on a bridged physical port, for a range `vid_begin <= vid_end`
of VLAN ids and any flags, when every hardware operation succeeds,
`__mlxsw_sp_port_vlans_add` followed immediately by `__mlxsw_sp_port_vlans_del`
(`init = false`) on the same range both return success and leave every vid of
the range clear and every other bit of the active-VLAN bitmap as before the add,
and the PVID equal to 1 if `flag_pvid` was set or the PVID before the add was
inside the range, and equal to the PVID before the add otherwise. So the bitmap
is the one before the add when no vid of the range was active before, and the
PVID is the one before the add when that PVID was 1, or when `flag_pvid` was not
set and that PVID was outside the range. -/
theorem vlans_add_then_del (c : Consts) (env : Nat → Int) (fuel vid_begin vid_end : Nat)
    (fu fp : Bool) (s : St) (hb : s.port.bridged = true) (hphys : s.port.is_vport = false)
    (hle : vid_begin ≤ vid_end) (hve : vid_end < VLAN_N_VID)
    (hst : s.port.stp_state ≤ BR_STATE_BLOCKING)
    (hR : 0 < c.MLXSW_REG_SPVM_REC_MAX_COUNT)
    (hR' : c.MLXSW_REG_SPVM_REC_MAX_COUNT ≤ VLAN_N_VID)
    (hfuel : vid_end + 1 - vid_begin < fuel) (hok : EnvOk env s.trace.length) :
    ∃ s1 s2, __mlxsw_sp_port_vlans_add c env fuel vid_begin vid_end fu fp s = Res.ret 0 s1 ∧
      __mlxsw_sp_port_vlans_del c env fuel vid_begin vid_end false s1 = Res.ret 0 s2 ∧
      (∀ u, test_bit u s2.port.active_vlans
        = (test_bit u s.port.active_vlans && !decide (vid_begin ≤ u ∧ u ≤ vid_end))) ∧
      s2.port.pvid
        = (if fp = true ∨ (vid_begin ≤ s.port.pvid ∧ s.port.pvid ≤ vid_end) then 1
           else s.port.pvid) ∧
      ((∀ u, vid_begin ≤ u → u ≤ vid_end → test_bit u s.port.active_vlans = false) →
        s2.port.active_vlans = s.port.active_vlans) ∧
      ((s.port.pvid = 1 ∨
          (fp = false ∧ ¬ (vid_begin ≤ s.port.pvid ∧ s.port.pvid ≤ vid_end))) →
        s2.port.pvid = s.port.pvid) := by
  obtain ⟨s1, h1, b1, -, -, -, p1, q1, t1⟩ :=
    vlans_add_ok_run c env fuel vid_begin vid_end fu fp s hb hphys hle hve hst hR hR' hfuel hok
  have hb1 : s1.port.bridged = true := by rw [q1]; exact hb
  obtain ⟨s2, h2, b2, p2, -⟩ :=
    vlans_del_ok_run c env fuel vid_begin vid_end s1 hb1 hle hve hR hR' hfuel (EnvOk_ext hok t1)
  have hbits : ∀ u, test_bit u s2.port.active_vlans
      = (test_bit u s.port.active_vlans && !decide (vid_begin ≤ u ∧ u ≤ vid_end)) := by
    intro u
    rw [b2 u, b1 u]
    by_cases hr : vid_begin ≤ u ∧ u ≤ vid_end
    · simp [hr]
    · simp [hr]
  have hpvid : s2.port.pvid
      = (if fp = true ∨ (vid_begin ≤ s.port.pvid ∧ s.port.pvid ≤ vid_end) then 1
         else s.port.pvid) := by
    rw [p2, p1]
    cases fp with
    | true => simp [hle]
    | false => simp
  refine ⟨s1, s2, h1, h2, hbits, hpvid, fun hclear => ?_, fun hp => ?_⟩
  · apply bitmap_ext
    intro u
    rw [hbits u]
    by_cases hr : vid_begin ≤ u ∧ u ≤ vid_end
    · simp [hr, hclear u hr.1 hr.2]
    · simp [hr]
  · rw [hpvid]
    rcases hp with hp | ⟨hf, hp⟩
    · rw [hp]; simp
    · simp [hf, hp]

/-- Witness of the amended C1: VLAN 100 added as PVID to `ex_port` (PVID 1, no
VLAN) and removed again. -/
theorem vlans_add_then_del_witness :
    ∃ s1 s2, __mlxsw_sp_port_vlans_add mlxsw_consts no_failure 5 100 100 true true ex_st
        = Res.ret 0 s1 ∧
      __mlxsw_sp_port_vlans_del mlxsw_consts no_failure 5 100 100 false s1 = Res.ret 0 s2 ∧
      (∀ u, test_bit u s2.port.active_vlans
        = (test_bit u ex_st.port.active_vlans && !decide (100 ≤ u ∧ u ≤ 100))) ∧
      s2.port.pvid
        = (if true = true ∨ (100 ≤ ex_st.port.pvid ∧ ex_st.port.pvid ≤ 100) then 1
           else ex_st.port.pvid) ∧
      ((∀ u, 100 ≤ u → u ≤ 100 → test_bit u ex_st.port.active_vlans = false) →
        s2.port.active_vlans = ex_st.port.active_vlans) ∧
      ((ex_st.port.pvid = 1 ∨
          (true = false ∧ ¬ (100 ≤ ex_st.port.pvid ∧ ex_st.port.pvid ≤ 100))) →
        s2.port.pvid = ex_st.port.pvid) :=
  vlans_add_then_del mlxsw_consts no_failure 5 100 100 true true ex_st (by decide) (by decide)
    (by decide) (by decide) (by decide) (by decide) (by decide) (by decide) (fun _ _ => rfl)

/-! ## C6 -/

/-- The second loop on a port that hosts virtual ports: the requests it issues,
newest first, when it is left at `v`. -/
theorem vlans_add_fid_maps_trace (env : Nat → Int) (fuel vid_begin vid_end : Nat)
    (s s' : St) (v : Nat) (err : Int) (hvp : s.port.vports_list_empty = false)
    (hve : vid_end + 1 < U16)
    (h : vlans_add_fid_maps env fuel vid_begin vid_end s = Res.ret (v, some err) s') :
    err ≠ 0 ∧ vid_begin ≤ v ∧ v ≤ vid_end ∧ s'.port = s.port ∧ s'.sp = s.sp ∧
    ∃ evs, s'.trace = ⟨port_map_op s.port.local_port v, err⟩ :: evs ++ s.trace ∧
      evs.map Ev.op
        = (List.range' vid_begin (v - vid_begin)).reverse.map (port_map_op s.port.local_port) := by
  unfold vlans_add_fid_maps at h
  have key := for_up_partial _ 1 vid_end
    (fun w t => vid_begin ≤ w ∧ t.port = s.port ∧ t.sp = s.sp ∧
      ∃ evs, t.trace = evs ++ s.trace ∧ evs.map Ev.op
        = (List.range' vid_begin (w - vid_begin)).reverse.map (port_map_op s.port.local_port))
    (fun w x t => x ≠ 0 ∧ vid_begin ≤ w ∧ t.port = s.port ∧ t.sp = s.sp ∧
      ∃ evs, t.trace = ⟨port_map_op s.port.local_port w, x⟩ :: evs ++ s.trace ∧ evs.map Ev.op
        = (List.range' vid_begin (w - vid_begin)).reverse.map (port_map_op s.port.local_port))
    ?_ fuel vid_begin s v (some err) s' ⟨le_refl _, rfl, rfl, [], rfl, by simp⟩ h
  · obtain ⟨k1, k2, k3, k4, k5, k6⟩ := key
    exact ⟨k2, k3, k1, k4, k5, k6⟩
  · intro w t e t' hle ⟨i1, i2, i3, evs, i4, i5⟩ hb
    have hvp' : t.port.vports_list_empty = false := by rw [i2]; exact hvp
    simp only [bind_apply, mlxsw_sp_port_fid_map, getSt_apply, hvp', Bool.not_false, if_true,
      mlxsw_sp_port_vid_to_fid_set, env_call_apply] at hb
    by_cases he : env t.trace.length = 0
    · simp only [he, ne_eq, not_true_eq_false, if_false, pure_apply, Res.ret.injEq] at hb
      obtain ⟨rfl, rfl⟩ := hb
      have hmod : (w + 1) % U16 = w + 1 := Nat.mod_eq_of_lt (by omega)
      simp only [hmod]
      refine ⟨by omega, i2, i3, ⟨_, 0⟩ :: evs, by rw [i4]; rfl, ?_⟩
      have hw : w + 1 - vid_begin = (w - vid_begin) + 1 := by omega
      rw [hw, List.range'_concat, List.reverse_append, List.map_cons, i5, i2]
      simp only [port_map_op, List.reverse_cons, List.reverse_nil, List.nil_append,
        List.singleton_append, List.map_cons, one_mul]
      have : vid_begin + (w - vid_begin) = w := by omega
      rw [this]
    · simp only [ne_eq, he, not_false_eq_true, if_true, pure_apply, Res.ret.injEq] at hb
      obtain ⟨rfl, rfl⟩ := hb
      refine ⟨he, i1, i2, i3, evs, ?_, i5⟩
      rw [i4, i2]
      rfl

/-- The unwinding from `err_port_fid_map` on a port that hosts virtual ports,
with `vid_begin > 0`: it returns, having issued one unmap for each vid from
`last` down to `vid_begin`. -/
theorem err_port_fid_map_trace (env : Nat → Int) (fuel vid_begin last : Nat) (s : St)
    (hvp : s.port.vports_list_empty = false) (hvb : 0 < vid_begin)
    (hlast : last < U16) (hvl : vid_begin ≤ last + 1) (hfuel : last + 1 - vid_begin < fuel) :
    ∃ s', vlans_add_err_port_fid_map env fuel vid_begin last s = Res.ret () s' ∧
      s'.port = s.port ∧ s'.sp = s.sp ∧
      ∃ evs, s'.trace = evs ++ s.trace ∧
        evs.map Ev.op
          = (List.range' vid_begin (last + 1 - vid_begin)).map
              (port_unmap_op s.port.local_port) := by
  obtain ⟨v', s', h1, h2, h3, -, h4, h5, evs, h6, h7⟩ := for_down_total (fun vid => do
      let _ ← mlxsw_sp_port_fid_unmap env vid
      pure ()) vid_begin
    (fun w t => vid_begin ≤ w + 1 ∧ w ≤ last ∧ t.port = s.port ∧ t.sp = s.sp ∧
      ∃ evs, t.trace = evs ++ s.trace ∧ evs.map Ev.op
        = (List.range' (w + 1) (last - w)).map (port_unmap_op s.port.local_port))
    hvb (fun w t hw hwU ⟨i1, i0, i2, i3, evs, i4, i5⟩ => by
      have hvp' : t.port.vports_list_empty = false := by rw [i2]; exact hvp
      refine ⟨{ t with trace := ⟨port_unmap_op t.port.local_port w, env t.trace.length⟩
        :: t.trace }, ?_, ?_⟩
      · simp [mlxsw_sp_port_fid_unmap, hvp', mlxsw_sp_port_vid_to_fid_set, port_unmap_op]
      · beta_reduce
        refine ⟨by omega, by omega, i2, i3, ⟨_, _⟩ :: evs, by rw [i4]; rfl, ?_⟩
        have e1 : w - 1 + 1 = w := by omega
        have e2 : last - (w - 1) = (last - w) + 1 := by omega
        rw [e1, e2, List.range'_succ, List.map_cons, List.map_cons, i5, i2])
    fuel last s hlast hfuel ⟨hvl, le_refl _, rfl, rfl, [], rfl, by simp⟩
  have hv' : v' + 1 = vid_begin := by omega
  refine ⟨s', h1, h4, h5, evs, h6, ?_⟩
  rw [h7, hv']
  congr 2
  omega

/-- C6, counterexample: on `ex_port_vports` (a bridged port that hosts virtual
ports) the add of the VLANs 5 to 7 whose port-mode mapping fails at vid 6
returns `-EIO` through `err_port_fid_map`, having issued an unmap for vid 5
only: no unmap request for vid 6, the one that failed, is in the trace. -/
theorem vlans_add_fid_map_failure_skips_failed_vid :
    vlans_add_exit mlxsw_consts (fail_at 7) 9 5 7 true true ex_st_vports
      = Res.ret (-5, .err_port_fid_map) (Res.final ex_st_vports
          (vlans_add_exit mlxsw_consts (fail_at 7) 9 5 7 true true ex_st_vports)) ∧
    ((Res.final ex_st_vports (vlans_add_exit mlxsw_consts (fail_at 7) 9 5 7 true true
        ex_st_vports)).trace.take 3).map Ev.op
      = [port_unmap_op 3 5, port_map_op 3 6, port_map_op 3 5] ∧
    (⟨port_map_op 3 6, -5⟩ : Ev) ∈ (Res.final ex_st_vports
      (vlans_add_exit mlxsw_consts (fail_at 7) 9 5 7 true true ex_st_vports)).trace ∧
    port_unmap_op 3 6 ∉ (Res.final ex_st_vports
      (vlans_add_exit mlxsw_consts (fail_at 7) 9 5 7 true true ex_st_vports)).trace.map Ev.op := by
  decide!

/-- C6, amended: on a bridged port that hosts virtual ports, for a range of VLAN
ids with `vid_begin > 0`, when the first loop ran to its end (state `s1`) and
the port-mode mapping then fails at vid `v`, `__mlxsw_sp_port_vlans_add` returns
the mapping error, having issued after the failed request one unmap for every
vid whose mapping succeeded in that step, that is for every vid of
`[vid_begin, v - 1]` and not for `v`, and nothing else; no FID is destroyed: the
active FIDs are those the first loop left. -/
theorem vlans_add_fid_map_failure_unwinds (c : Consts) (env : Nat → Int)
    (fuel vid_begin vid_end : Nat) (fu fp : Bool) (s s1 s2 : St) (v1 v : Nat) (err : Int)
    (hb : s.port.bridged = true) (hvp : s.port.vports_list_empty = false)
    (hvb : 0 < vid_begin) (hve : vid_end < VLAN_N_VID)
    (hfuel : vid_end + 1 - vid_begin < fuel)
    (h1 : vlans_add_fids env fuel vid_begin vid_end s = Res.ret (v1, none) s1)
    (h2 : vlans_add_fid_maps env fuel vid_begin vid_end s1 = Res.ret (v, some err) s2) :
    ∃ s', __mlxsw_sp_port_vlans_add c env fuel vid_begin vid_end fu fp s = Res.ret err s' ∧
      err ≠ 0 ∧ vid_begin ≤ v ∧ v ≤ vid_end ∧
      (⟨port_map_op s.port.local_port v, err⟩ : Ev) ∈ new_events s1 s' ∧
      (new_events s1 s').map Ev.op
        = (List.range' vid_begin (v - vid_begin)).map (port_unmap_op s.port.local_port) ++
          port_map_op s.port.local_port v ::
            (List.range' vid_begin (v - vid_begin)).reverse.map
              (port_map_op s.port.local_port) ∧
      s'.sp = s1.sp := by
  have hU : vid_end + 1 < U16 := by
    simp only [VLAN_N_VID] at hve; simp only [U16]; omega
  have p1 := FidsGrow_port (Pres_ret (Pres_vlans_add_fids env fuel vid_begin vid_end) h1)
  have hvp1 : s1.port.vports_list_empty = false := by rw [p1]; exact hvp
  obtain ⟨he, hv1, hv2, p2, q2, evs2, t2, o2⟩ :=
    vlans_add_fid_maps_trace env fuel vid_begin vid_end s1 s2 v err hvp1 hU h2
  have hmod : (v + U16 - 1) % U16 = v - 1 := by
    have : v + U16 - 1 = (v - 1) + U16 := by omega
    rw [this, Nat.add_mod_right]
    exact Nat.mod_eq_of_lt (by omega)
  have hvp2 : s2.port.vports_list_empty = false := by rw [p2]; exact hvp1
  obtain ⟨s', h3, p3, q3, evs3, t3, o3⟩ :=
    err_port_fid_map_trace env fuel vid_begin ((v + U16 - 1) % U16) s2 hvp2 hvb
      (by rw [hmod]; omega) (by rw [hmod]; omega) (by rw [hmod]; omega)
  have hrun : vlans_add_exit c env fuel vid_begin vid_end fu fp s
      = Res.ret (err, .err_port_fid_map) s' := by
    simp [vlans_add_exit, hb, h1, h2, h3]
  have hnew : new_events s1 s'
      = evs3 ++ ⟨port_map_op s.port.local_port v, err⟩ :: evs2 :=
    new_events_of_append s1 s' _ (by
      rw [t3, t2, p1]
      simp only [List.append_assoc, List.cons_append])
  refine ⟨s', vlans_add_eq_of_exit _ _ _ _ _ _ _ _ _ _ _ hrun, he, hv1, hv2, ?_, ?_, ?_⟩
  · rw [hnew]
    simp
  · rw [hnew, List.map_append, List.map_cons, o3, o2, hmod, p2, p1]
    have : v - 1 + 1 - vid_begin = v - vid_begin := by omega
    rw [this]
  · rw [q3, q2]

/-- Witness of the amended C6: the run of the counterexample. -/
theorem vlans_add_fid_map_failure_unwinds_witness :
    ∃ s', __mlxsw_sp_port_vlans_add mlxsw_consts (fail_at 7) 9 5 7 true true ex_st_vports
        = Res.ret (-5) s' ∧
      (-5 : Int) ≠ 0 ∧ 5 ≤ 6 ∧ 6 ≤ 7 ∧
      (⟨port_map_op ex_st_vports.port.local_port 6, -5⟩ : Ev) ∈ new_events
        (Res.final ex_st_vports (vlans_add_fids (fail_at 7) 9 5 7 ex_st_vports)) s' ∧
      (new_events (Res.final ex_st_vports (vlans_add_fids (fail_at 7) 9 5 7 ex_st_vports))
          s').map Ev.op
        = (List.range' 5 (6 - 5)).map (port_unmap_op ex_st_vports.port.local_port) ++
          port_map_op ex_st_vports.port.local_port 6 ::
            (List.range' 5 (6 - 5)).reverse.map (port_map_op ex_st_vports.port.local_port) ∧
      s'.sp = (Res.final ex_st_vports (vlans_add_fids (fail_at 7) 9 5 7 ex_st_vports)).sp :=
  vlans_add_fid_map_failure_unwinds mlxsw_consts (fail_at 7) 9 5 7 true true ex_st_vports
    (Res.final ex_st_vports (vlans_add_fids (fail_at 7) 9 5 7 ex_st_vports))
    (Res.final ex_st_vports (vlans_add_fid_maps (fail_at 7) 9 5 7
      (Res.final ex_st_vports (vlans_add_fids (fail_at 7) 9 5 7 ex_st_vports))))
    8 6 (-5) (by decide) (by decide) (by decide) (by decide) (by decide) (by decide!)
    (by decide!)

/-! ## C4 -/

theorem TablesKept_pre : Preorderly TablesKept :=
  ⟨fun _ => ⟨fun _ _ _ _ => rfl, fun _ _ => rfl⟩,
   fun _ _ _ h1 h2 =>
    ⟨fun a b c d => (h2.1 a b c d).trans (h1.1 a b c d),
     fun a b => (h2.2 a b).trans (h1.2 a b)⟩⟩

theorem HwOnly_TablesKept {ks : List OpKind} {a b : St} (h : HwOnly ks a b)
    (h1 : OpKind.sftr ∉ ks) (h2 : OpKind.vid_to_fid_set ∉ ks) : TablesKept a b :=
  ⟨fun _ _ _ _ => HwOnly_hw_flood h h1 _ _ _ _, fun _ _ => HwOnly_hw_vid_to_fid h h2 _ _ _⟩

theorem TablesKept_of_trace {a b : St} (h : b.trace = a.trace) : TablesKept a b := by
  unfold TablesKept
  rw [h]
  exact ⟨fun _ _ _ _ => rfl, fun _ _ => rfl⟩

/-- The first loop writes neither a flood table nor the port-scoped mapping table. -/
theorem Pres_vlans_add_fids_tables (env : Nat → Int) (fuel vid_begin vid_end : Nat) :
    Pres TablesKept (vlans_add_fids env fuel vid_begin vid_end) := by
  have hR := TablesKept_pre
  have hcall : ∀ op : Op, op.kind = .sfmr ∨
      (∃ lp valid fid vid, op = .vid_to_fid_set lp .MLXSW_REG_SVFA_MT_VID_TO_FID valid fid vid) →
      Pres TablesKept (env_call env op) := by
    intro op hop s
    simp only [env_call_apply]
    rcases hop with hop | ⟨lp, valid, fid, vid, rfl⟩
    · cases op <;> simp [Op.kind] at hop
      exact ⟨fun _ _ _ _ => rfl, fun _ _ => rfl⟩
    · refine ⟨fun _ _ _ _ => rfl, fun _ _ => ?_⟩
      simp [hw_vid_to_fid]
  have hmod : ∀ f : St → St, (∀ s, (f s).trace = s.trace) → Pres TablesKept (modifySt f) :=
    fun f hf => Pres_modifySt f (fun s => TablesKept_of_trace (hf s))
  unfold vlans_add_fids
  refine Pres_for_up hR _ _ _ (fun v => ?_) _ _
  refine Pres_bind hR (Pres_getSt hR) (fun s => ?_)
  refine Pres_ite _ ?_ (Pres_pure hR _)
  refine Pres_bind hR ?_ (fun err => ?_)
  · unfold mlxsw_sp_fid_create mlxsw_reg_write
    refine Pres_bind hR (hcall _ (Or.inl rfl)) (fun err => ?_)
    refine Pres_ite _ (Pres_pure hR _) ?_
    exact Pres_bind hR (hmod _ (fun _ => rfl)) (fun _ => Pres_pure hR _)
  refine Pres_ite _ (Pres_pure hR _) ?_
  refine Pres_bind hR ?_ (fun err => ?_)
  · unfold mlxsw_sp_port_vid_to_fid_set
    exact Pres_bind hR (Pres_getSt hR) (fun s => hcall _ (Or.inr ⟨_, _, _, _, rfl⟩))
  refine Pres_ite _ ?_ (Pres_pure hR _)
  refine Pres_bind hR ?_ (fun _ => Pres_pure hR _)
  unfold mlxsw_sp_fid_destroy mlxsw_reg_write
  refine Pres_bind hR (hmod _ (fun _ => rfl)) (fun _ => ?_)
  exact Pres_bind hR (hcall _ (Or.inl rfl)) (fun _ => Pres_pure hR _)

/-- What `__mlxsw_sp_port_flood_set` does on a physical port, both tables asked. -/
theorem flood_set_eq (c : Consts) (env : Nat → Int) (b e : Nat) (set : Bool) (s : St)
    (hphys : s.port.is_vport = false) :
    __mlxsw_sp_port_flood_set c env b e set false s =
      if env s.trace.length ≠ 0 then
        Res.ret (-ENOMEM) { s with trace := ⟨.kmalloc .sftr_pl, env s.trace.length⟩ :: s.trace }
      else if env (s.trace.length + 1) ≠ 0 then
        Res.ret (env (s.trace.length + 1)) { s with trace :=
          ⟨flood_uc_op s.port.local_port b e set, env (s.trace.length + 1)⟩ ::
          ⟨.kmalloc .sftr_pl, 0⟩ :: s.trace }
      else
        Res.ret (env (s.trace.length + 2)) { s with trace :=
          ⟨flood_bm_op s.port.local_port b e set, env (s.trace.length + 2)⟩ ::
          ⟨flood_uc_op s.port.local_port b e set, 0⟩ ::
          ⟨.kmalloc .sftr_pl, 0⟩ :: s.trace } := by
  by_cases h0 : env s.trace.length = 0
  · by_cases h1 : env (s.trace.length + 1) = 0
    · simp [__mlxsw_sp_port_flood_set, kmalloc, mlxsw_reg_write, h0, h1, hphys, flood_uc_op,
        flood_bm_op]
    · simp [__mlxsw_sp_port_flood_set, kmalloc, mlxsw_reg_write, h0, h1, hphys, flood_uc_op]
  · simp [__mlxsw_sp_port_flood_set, kmalloc, mlxsw_reg_write, h0]

theorem new_events_trans {a b c : St} (h1 : ∃ evs, b.trace = evs ++ a.trace)
    (h2 : ∃ evs, c.trace = evs ++ b.trace) :
    new_events a c = new_events b c ++ new_events a b ∧
    c.trace = new_events a c ++ a.trace := by
  obtain ⟨e1, t1⟩ := h1
  obtain ⟨e2, t2⟩ := h2
  have t3 : c.trace = (e2 ++ e1) ++ a.trace := by rw [t2, t1, List.append_assoc]
  rw [new_events_of_append a b e1 t1, new_events_of_append b c e2 t2,
    new_events_of_append a c _ t3]
  exact ⟨rfl, t3⟩

theorem failures_append (a b : List Ev) : failures (a ++ b) = failures a + failures b := by
  simp [failures, List.filter_append]

theorem failures_pos_of_mem {evs : List Ev} {e : Ev} (he : e ∈ evs) (hne : e.err ≠ 0) :
    0 < failures evs := by
  unfold failures
  apply List.length_pos_of_mem (a := e)
  exact List.mem_filter.mpr ⟨he, by simpa using hne⟩

theorem failures_zero {evs : List Ev} (h : failures evs = 0) : ∀ e ∈ evs, e.err = 0 := by
  intro e he
  by_contra hne
  have := failures_pos_of_mem he hne
  omega

/-- With at most one failure in all, what follows a failure succeeds. -/
theorem single_failure {later earlier : List Ev} {e : Ev} (h : failures (later ++ earlier) ≤ 1)
    (he : e ∈ earlier) (hne : e.err ≠ 0) : ∀ e' ∈ later, e'.err = 0 := by
  rw [failures_append] at h
  have := failures_pos_of_mem he hne
  exact failures_zero (by omega)

theorem hw_vid_to_fid_cons (lp : Nat) (mt : svfa_mt) (vid p : Nat) (m : svfa_mt) (valid : Bool)
    (fid v : Nat) (err : Int) (tr : List Ev) :
    hw_vid_to_fid lp mt vid (⟨.vid_to_fid_set p m valid fid v, err⟩ :: tr)
      = if err = 0 ∧ p = lp ∧ m = mt ∧ v = vid then (if valid then some fid else none)
        else hw_vid_to_fid lp mt vid tr := rfl

/-- The port-scoped mapping table after a list of successful unmap requests of
the port `lp`. -/
theorem hw_vid_to_fid_unmaps (lp lp' vid : Nat) (evs tr : List Ev)
    (h : ∀ e ∈ evs, e.err = 0 ∧ ∃ u, e.op = port_unmap_op lp u) :
    hw_vid_to_fid lp' .MLXSW_REG_SVFA_MT_PORT_VID_TO_FID vid (evs ++ tr)
      = if lp' = lp ∧ port_unmap_op lp vid ∈ evs.map Ev.op then none
        else hw_vid_to_fid lp' .MLXSW_REG_SVFA_MT_PORT_VID_TO_FID vid tr := by
  induction evs with
  | nil => simp
  | cons e evs ih =>
    obtain ⟨h0, u, hu⟩ := h e (List.mem_cons_self _ _)
    have ih' := ih (fun e' he' => h e' (List.mem_cons_of_mem _ he'))
    obtain ⟨op, err⟩ := e
    simp only at h0 hu
    subst h0 hu
    simp only [List.cons_append, port_unmap_op, hw_vid_to_fid_cons, List.map_cons,
      List.mem_cons, Op.vid_to_fid_set.injEq, true_and, and_true, Bool.false_eq_true,
      if_false]
    by_cases hk : lp = lp' ∧ u = vid
    · obtain ⟨rfl, rfl⟩ := hk
      simp
    · rw [if_neg hk, ih']
      by_cases hl : lp' = lp
      · subst hl
        have hne : ¬ vid = u := fun h => hk ⟨rfl, h.symm⟩
        simp [port_unmap_op, hne]
      · simp [hl]

theorem port_unmap_op_mem (lp vid vb n : Nat) :
    port_unmap_op lp vid ∈ (List.range' vb n).map (port_unmap_op lp)
      ↔ vb ≤ vid ∧ vid < vb + n := by
  simp only [List.mem_map, List.mem_range'_1, port_unmap_op, Op.vid_to_fid_set.injEq,
    true_and, and_self]
  constructor
  · rintro ⟨a, ha, rfl⟩
    exact ha
  · intro h
    exact ⟨vid, h, rfl⟩

/-- The unmap loop of the unwinding, when none of its requests fails: on a port
that hosts virtual ports the port-scoped mappings of `vid_begin .. last` are
invalid afterwards; nothing else changes in the tables. -/
theorem err_port_fid_map_unwound (env : Nat → Int) (fuel vid_begin last : Nat) (s s' : St)
    (hvb : 0 < vid_begin) (hlast : last < U16) (hvl : vid_begin ≤ last + 1)
    (hfuel : last + 1 - vid_begin < fuel)
    (h : vlans_add_err_port_fid_map env fuel vid_begin last s = Res.ret () s')
    (hz : ∀ e ∈ new_events s s', e.err = 0) :
    HwOnly [.vid_to_fid_set] s s' ∧
    ∀ lp' u, hw_vid_to_fid lp' .MLXSW_REG_SVFA_MT_PORT_VID_TO_FID u s'.trace
      = if s.port.vports_list_empty = false ∧ lp' = s.port.local_port ∧ vid_begin ≤ u ∧ u ≤ last
        then none
        else hw_vid_to_fid lp' .MLXSW_REG_SVFA_MT_PORT_VID_TO_FID u s.trace := by
  refine ⟨Pres_ret (Pres_err_port_fid_map [.vid_to_fid_set] env _ _ _ (by simp)) h, ?_⟩
  cases hvp : s.port.vports_list_empty with
  | true =>
    -- no request at all
    have key := for_down_partial (fun vid => do
        let _ ← mlxsw_sp_port_fid_unmap env vid
        pure ()) vid_begin (fun _ t => t = s) (fun w t t' _ hI hb => by
          subst hI
          simp only [bind_apply, mlxsw_sp_port_fid_unmap, getSt_apply, hvp, if_true, pure_apply,
            Res.ret.injEq, true_and] at hb
          exact hb.symm) fuel last s s' rfl h
    obtain ⟨_, _, rfl⟩ := key
    intro lp' u
    simp
  | false =>
    obtain ⟨s'', h3, p3, q3, evs3, t3, o3⟩ :=
      err_port_fid_map_trace env fuel vid_begin last s hvp hvb hlast hvl hfuel
    rw [h] at h3
    simp only [Res.ret.injEq, true_and] at h3
    subst h3
    rw [new_events_of_append s s' evs3 t3] at hz
    intro lp' u
    rw [t3, hw_vid_to_fid_unmaps s.port.local_port lp' u evs3 s.trace (fun e he => ⟨hz e he, by
      have : e.op ∈ evs3.map Ev.op := List.mem_map_of_mem _ he
      rw [o3] at this
      obtain ⟨w, -, hw⟩ := List.mem_map.mp this
      exact ⟨w, hw.symm⟩⟩), o3]
    have hiff : (vid_begin ≤ u ∧ u < vid_begin + (last + 1 - vid_begin))
        ↔ (vid_begin ≤ u ∧ u ≤ last) := by
      constructor <;> rintro ⟨a, b⟩ <;> exact ⟨a, by omega⟩
    simp only [port_unmap_op_mem, hiff, true_and]

theorem Unwound_of_kept {p : mlxsw_sp_port} {vid_begin vid_end : Nat} {a t b : St}
    (h1 : TablesKept a t) (h2 : Unwound p vid_begin vid_end t b) :
    Unwound p vid_begin vid_end a b := by
  refine ⟨fun table tt port idx => ?_, fun lp vid => ?_⟩
  · rw [h2.1, h1.1]
  · rw [h2.2, h1.2]

/-- The unwinding from `err_port_vlans_set` on a physical port, when none of its
requests fails: the flood membership and the port-scoped mappings of the range
are cleared, and nothing else changes in the tables. -/
theorem err_port_vlans_set_unwound (c : Consts) (env : Nat → Int)
    (fuel vid_begin vid_end : Nat) (s s' : St) (hphys : s.port.is_vport = false)
    (hvb : 0 < vid_begin) (hle : vid_begin ≤ vid_end) (hve : vid_end + 1 < U16)
    (hfuel : vid_end + 1 - vid_begin < fuel)
    (h : vlans_add_err_port_vlans_set c env fuel vid_begin vid_end s = Res.ret () s')
    (hz : ∀ e ∈ new_events s s', e.err = 0) :
    Unwound s.port vid_begin vid_end s s' := by
  have hrange : (vid_end + U16 - vid_begin + 1) % U16 = vid_end - vid_begin + 1 := by
    have : vid_end + U16 - vid_begin + 1 = (vid_end - vid_begin + 1) + U16 := by omega
    rw [this, Nat.add_mod_right]
    exact Nat.mod_eq_of_lt (by omega)
  unfold vlans_add_err_port_vlans_set vlans_add_err_port_flood_set at h
  simp only [bind_apply] at h
  cases h1 : __mlxsw_sp_port_flood_set c env vid_begin vid_end false false s with
  | bug _ => simp [h1] at h
  | out_of_fuel => simp [h1] at h
  | ret e1 s1 =>
    rw [h1] at h
    simp only at h
    have r1 := Pres_ret (Pres_flood_set [.kmalloc, .sftr] c env _ _ _ _ (by simp) (by simp)) h1
    have r2 := Pres_ret (Pres_err_port_fid_map [.vid_to_fid_set] env _ _ _ (by simp)) h
    obtain ⟨n13, -⟩ := new_events_trans ⟨_, (HwOnly_new_events r1).1⟩
      ⟨_, (HwOnly_new_events r2).1⟩
    have hz1 : ∀ e ∈ new_events s s1, e.err = 0 := fun e he =>
      hz e (by rw [n13]; exact List.mem_append_right _ he)
    have hz2 : ∀ e ∈ new_events s1 s', e.err = 0 := fun e he =>
      hz e (by rw [n13]; exact List.mem_append_left _ he)
    obtain ⟨-, hmap⟩ := err_port_fid_map_unwound env fuel vid_begin vid_end s1 s' hvb
      (by omega) (by omega) hfuel h hz2
    -- the flood step of the unwinding wrote both tables
    have t1 : s1.trace = ⟨flood_bm_op s.port.local_port vid_begin vid_end false, 0⟩ ::
        ⟨flood_uc_op s.port.local_port vid_begin vid_end false, 0⟩ ::
        ⟨.kmalloc .sftr_pl, 0⟩ :: s.trace := by
      rw [flood_set_eq c env vid_begin vid_end false s hphys] at h1
      split at h1
      · rename_i hne
        simp only [Res.ret.injEq] at h1
        obtain ⟨-, rfl⟩ := h1
        exact absurd (hz1 ⟨.kmalloc .sftr_pl, env s.trace.length⟩
          (by rw [new_events_of_append s _ [_] rfl]; simp)) hne
      · split at h1
        · rename_i hne
          simp only [Res.ret.injEq] at h1
          obtain ⟨-, rfl⟩ := h1
          exact absurd (hz1 ⟨flood_uc_op s.port.local_port vid_begin vid_end false,
              env (s.trace.length + 1)⟩
            (by rw [new_events_of_append s _ [_, _] rfl]; simp)) hne
        · simp only [Res.ret.injEq] at h1
          obtain ⟨-, rfl⟩ := h1
          have := hz1 ⟨flood_bm_op s.port.local_port vid_begin vid_end false,
              env (s.trace.length + 2)⟩
            (by rw [new_events_of_append s _ [_, _, _] rfl]; simp)
          simp only at this
          rw [this]
    refine ⟨fun table tt port idx => ?_, fun lp vid => ?_⟩
    · rw [HwOnly_hw_flood r2 (by simp), t1]
      simp only [flood_bm_op, flood_uc_op, hw_flood_cons_sftr, hw_flood_cons_kmalloc, hrange,
        true_and]
      have hiff : idx < vid_begin + (vid_end - vid_begin + 1) ↔ idx ≤ vid_end := by omega
      simp only [hiff]
      cases table <;> by_cases hk : tt = .MLXSW_REG_SFGC_TABLE_TYPE_FID_OFFEST ∧
        port = s.port.local_port ∧ vid_begin ≤ idx ∧ idx ≤ vid_end
      · obtain ⟨rfl, rfl, a, b⟩ := hk; simp [a, b]
      · have hk' : ¬ (flood_table_type.MLXSW_REG_SFGC_TABLE_TYPE_FID_OFFEST = tt ∧
            s.port.local_port = port ∧ vid_begin ≤ idx ∧ idx ≤ vid_end) :=
          fun ⟨a, b, c, d⟩ => hk ⟨a.symm, b.symm, c, d⟩
        simp [hk, hk']
      · obtain ⟨rfl, rfl, a, b⟩ := hk; simp [a, b]
      · have hk' : ¬ (flood_table_type.MLXSW_REG_SFGC_TABLE_TYPE_FID_OFFEST = tt ∧
            s.port.local_port = port ∧ vid_begin ≤ idx ∧ idx ≤ vid_end) :=
          fun ⟨a, b, c, d⟩ => hk ⟨a.symm, b.symm, c, d⟩
        simp [hk, hk']
    · rw [hmap lp vid, (HwOnly_port r1).1, HwOnly_hw_vid_to_fid r1 (by simp)]

theorem err_port_pvid_set_unwound (c : Consts) (env : Nat → Int)
    (fuel vid_begin vid_end : Nat) (s s' : St) (hphys : s.port.is_vport = false)
    (hvb : 0 < vid_begin) (hle : vid_begin ≤ vid_end) (hve : vid_end + 1 < U16)
    (hfuel : vid_end + 1 - vid_begin < fuel)
    (h : vlans_add_err_port_pvid_set c env fuel vid_begin vid_end s = Res.ret () s')
    (hz : ∀ e ∈ new_events s s', e.err = 0) :
    Unwound s.port vid_begin vid_end s s' := by
  have hk := mem_all_kinds
  unfold vlans_add_err_port_pvid_set at h
  simp only [bind_apply] at h
  cases h1 : __mlxsw_sp_port_vlans_set c env fuel vid_begin vid_end false false s with
  | bug _ => simp [h1] at h
  | out_of_fuel => simp [h1] at h
  | ret e1 s1 =>
    rw [h1] at h
    simp only at h
    have r1 := Pres_ret (Pres_vlans_set [.vlan_set] c env _ _ _ _ _ (by simp)) h1
    have r2 := Pres_ret
      (Pres_err_port_vlans_set all_kinds c env _ _ _ (hk _) (hk _) (hk _)) h
    obtain ⟨n13, -⟩ := new_events_trans ⟨_, (HwOnly_new_events r1).1⟩
      ⟨_, (HwOnly_new_events r2).1⟩
    have p1 := (HwOnly_port r1).1
    have u := err_port_vlans_set_unwound c env fuel vid_begin vid_end s1 s'
      (by rw [p1]; exact hphys) hvb hle hve hfuel h
      (fun e he => hz e (by rw [n13]; exact List.mem_append_left _ he))
    rw [p1] at u
    exact Unwound_of_kept (HwOnly_TablesKept r1 (by simp) (by simp)) u

theorem err_port_stp_state_set_unwound (c : Consts) (env : Nat → Int)
    (fuel vid_begin vid_end old : Nat) (s s' : St) (hphys : s.port.is_vport = false)
    (hvb : 0 < vid_begin) (hle : vid_begin ≤ vid_end) (hve : vid_end + 1 < U16)
    (hfuel : vid_end + 1 - vid_begin < fuel)
    (h : vlans_add_err_port_stp_state_set c env fuel vid_begin vid_end old s = Res.ret () s')
    (hz : ∀ e ∈ new_events s s', e.err = 0) :
    Unwound s.port vid_begin vid_end s s' := by
  have hk := mem_all_kinds
  unfold vlans_add_err_port_stp_state_set at h
  simp only [bind_apply] at h
  cases h1 : clear_active_vlans fuel vid_begin vid_end s with
  | bug _ => simp [h1] at h
  | out_of_fuel => simp [h1] at h
  | ret u1 s1 =>
    rw [h1] at h
    obtain ⟨c1, c2, c3, -⟩ := clear_active_vlans_spec fuel vid_begin vid_end s s1 (by omega) h1
    simp only [getSt_apply] at h
    have fin : ∀ s2 : St, s2.port = s1.port → TablesKept s1 s2 →
        (∃ evs, s2.trace = evs ++ s1.trace) →
        vlans_add_err_port_pvid_set c env fuel vid_begin vid_end s2 = Res.ret () s' →
        Unwound s.port vid_begin vid_end s s' := by
      intro s2 p2 k2 t2 h2
      have r2 := Pres_ret
        (Pres_err_port_pvid_set all_kinds c env _ _ _ (hk _) (hk _) (hk _) (hk _)) h2
      have t12 : ∃ evs, s2.trace = evs ++ s.trace := by rw [← c2]; exact t2
      obtain ⟨n13, -⟩ := new_events_trans t12 ⟨_, (HwOnly_new_events r2).1⟩
      have u := err_port_pvid_set_unwound c env fuel vid_begin vid_end s2 s'
        (by rw [p2, c3]; exact hphys) hvb hle hve hfuel h2
        (fun e he => hz e (by rw [n13]; exact List.mem_append_left _ he))
      have hu : Unwound s.port vid_begin vid_end s2 s' := by
        unfold Unwound at u ⊢
        rw [p2, c3] at u
        exact u
      exact Unwound_of_kept (TablesKept_pre.trans _ _ _ (TablesKept_of_trace c2) k2) hu
    by_cases hp : old = s1.port.pvid
    · simp only [hp, ne_eq, not_true_eq_false, if_false] at h
      exact fin s1 rfl (TablesKept_pre.refl s1) ⟨[], rfl⟩ h
    · simp only [ne_eq, hp, not_false_eq_true, if_true, bind_apply] at h
      cases h2 : mlxsw_sp_port_pvid_set env old s1 with
      | bug _ => simp [h2] at h
      | out_of_fuel => simp [h2] at h
      | ret e2 s2 =>
        rw [h2] at h
        have r2 := Pres_ret (Pres_pvid_set [.spvid] env old (by simp)) h2
        exact fin s2 (HwOnly_port r2).1 (HwOnly_TablesKept r2 (by simp) (by simp))
          ⟨_, (HwOnly_new_events r2).1⟩ h

/-- The second loop changes the port-scoped mapping table only at the vids it
mapped, `vid_begin .. v - 1`, and not at all on a port without virtual ports;
when it is left by a failure, a request failed. -/
theorem vlans_add_fid_maps_tables (env : Nat → Int) (fuel vid_begin vid_end : Nat)
    (s s' : St) (v : Nat) (e : Option Int) (hve : vid_end + 1 < U16)
    (h : vlans_add_fid_maps env fuel vid_begin vid_end s = Res.ret (v, e) s') :
    (∀ lp' u, (s.port.vports_list_empty = true ∨
        ¬ (lp' = s.port.local_port ∧ vid_begin ≤ u ∧ u < v ∧ u ≤ vid_end)) →
      hw_vid_to_fid lp' .MLXSW_REG_SVFA_MT_PORT_VID_TO_FID u s'.trace
        = hw_vid_to_fid lp' .MLXSW_REG_SVFA_MT_PORT_VID_TO_FID u s.trace) ∧
    vid_begin ≤ v ∧
    match e with
    | none => True
    | some _ => v ≤ vid_end ∧ ∃ ev ∈ new_events s s', ev.err ≠ 0 := by
  unfold vlans_add_fid_maps at h
  have key := for_up_partial _ 1 vid_end
    (fun w t => t.port = s.port ∧ vid_begin ≤ w ∧ (∃ evs, t.trace = evs ++ s.trace) ∧
      ∀ lp' u, (s.port.vports_list_empty = true ∨
          ¬ (lp' = s.port.local_port ∧ vid_begin ≤ u ∧ u < w ∧ u ≤ vid_end)) →
        hw_vid_to_fid lp' .MLXSW_REG_SVFA_MT_PORT_VID_TO_FID u t.trace
          = hw_vid_to_fid lp' .MLXSW_REG_SVFA_MT_PORT_VID_TO_FID u s.trace)
    (fun w _ t => vid_begin ≤ w ∧ (∃ ev ∈ new_events s t, ev.err ≠ 0) ∧
      ∀ lp' u, (s.port.vports_list_empty = true ∨
          ¬ (lp' = s.port.local_port ∧ vid_begin ≤ u ∧ u < w ∧ u ≤ vid_end)) →
        hw_vid_to_fid lp' .MLXSW_REG_SVFA_MT_PORT_VID_TO_FID u t.trace
          = hw_vid_to_fid lp' .MLXSW_REG_SVFA_MT_PORT_VID_TO_FID u s.trace)
    ?_ fuel vid_begin s v e s' ⟨rfl, le_refl _, ⟨[], rfl⟩, fun _ _ _ => rfl⟩ h
  · cases e with
    | none => exact ⟨key.2.2.2.2, key.2.2.1, trivial⟩
    | some x =>
      obtain ⟨k1, k2, k3, k5⟩ := key
      exact ⟨k5, k2, k1, k3⟩
  · intro w t e t' hle ⟨i1, i2, ⟨evs, i3⟩, i4⟩ hb
    simp only [bind_apply, mlxsw_sp_port_fid_map, getSt_apply, mlxsw_sp_port_vid_to_fid_set,
      env_call_apply] at hb
    have hlook : ∀ (err : Int) lp' u,
        (s.port.vports_list_empty = true ∨
          ¬ (lp' = s.port.local_port ∧ vid_begin ≤ u ∧ u < w + 1 ∧ u ≤ vid_end)) →
        hw_vid_to_fid lp' .MLXSW_REG_SVFA_MT_PORT_VID_TO_FID u
          (⟨.vid_to_fid_set t.port.local_port
            (if !t.port.vports_list_empty then svfa_mt.MLXSW_REG_SVFA_MT_PORT_VID_TO_FID
             else svfa_mt.MLXSW_REG_SVFA_MT_VID_TO_FID) true w w, err⟩ :: t.trace)
          = hw_vid_to_fid lp' .MLXSW_REG_SVFA_MT_PORT_VID_TO_FID u s.trace := by
      intro err lp' u hk
      rw [hw_vid_to_fid_cons, i1]
      have hno : ¬ (err = 0 ∧ s.port.local_port = lp' ∧
          (if !s.port.vports_list_empty then svfa_mt.MLXSW_REG_SVFA_MT_PORT_VID_TO_FID
             else svfa_mt.MLXSW_REG_SVFA_MT_VID_TO_FID) = .MLXSW_REG_SVFA_MT_PORT_VID_TO_FID ∧
          w = u) := by
        rintro ⟨-, a, m, b⟩
        rcases hk with hk | hk
        · simp [hk] at m
        · exact hk ⟨a.symm, by omega, by omega, by omega⟩
      rw [if_neg hno]
      refine i4 lp' u ?_
      rcases hk with hk | hk
      · exact Or.inl hk
      · exact Or.inr (fun ⟨a, b, c, d⟩ => hk ⟨a, b, by omega, d⟩)
    by_cases he : env t.trace.length = 0
    · simp only [he, ne_eq, not_true_eq_false, if_false, pure_apply, Res.ret.injEq] at hb
      obtain ⟨rfl, rfl⟩ := hb
      have hmod : (w + 1) % U16 = w + 1 := Nat.mod_eq_of_lt (by omega)
      simp only [hmod]
      exact ⟨i1, by omega, ⟨_ :: evs, by rw [i3]; rfl⟩, fun lp' u hk => hlook _ lp' u hk⟩
    · simp only [ne_eq, he, not_false_eq_true, if_true, pure_apply, Res.ret.injEq] at hb
      obtain ⟨rfl, rfl⟩ := hb
      refine ⟨i2, ⟨_, (by
        rw [new_events_of_append s _ (_ :: evs) (by rw [i3]; rfl)]
        exact List.mem_cons_self _ _), ?_⟩, fun lp' u hk => ?_⟩
      · simp only [← i3]
        exact he
      · rw [hw_vid_to_fid_cons]
        simp only [he, false_and, if_false]
        exact i4 lp' u hk

theorem vlans_set_failed (c : Consts) (env : Nat → Int) (fuel vid_begin vid_end : Nat)
    (m u : Bool) (s s' : St) (err : Int)
    (h : __mlxsw_sp_port_vlans_set c env fuel vid_begin vid_end m u s = Res.ret err s')
    (he : err ≠ 0) : ∃ ev ∈ new_events s s', ev.err ≠ 0 := by
  unfold __mlxsw_sp_port_vlans_set at h
  simp only [bind_apply] at h
  cases hl : for_up (fun vid => do
      let err ← mlxsw_sp_port_vlan_set env vid
        (min ((vid + c.MLXSW_REG_SPVM_REC_MAX_COUNT - 1) % U16) vid_end) m u
      if err ≠ 0 then pure (some err) else pure none)
    c.MLXSW_REG_SPVM_REC_MAX_COUNT vid_end fuel vid_begin s with
  | bug _ => rw [hl] at h; simp at h
  | out_of_fuel => rw [hl] at h; simp at h
  | ret r s1 =>
    rw [hl] at h
    obtain ⟨v, e⟩ := r
    cases e with
    | none =>
      simp only [pure_apply, Res.ret.injEq] at h
      exact absurd h.1.symm he
    | some x =>
      simp only [pure_apply, Res.ret.injEq] at h
      obtain ⟨rfl, rfl⟩ := h
      have key := for_up_partial _ c.MLXSW_REG_SPVM_REC_MAX_COUNT vid_end
        (fun _ t => ∃ evs, t.trace = evs ++ s.trace)
        (fun _ _ t => ∃ ev ∈ new_events s t, ev.err ≠ 0)
        ?_ fuel vid_begin s v (some x) s1 ⟨[], rfl⟩ hl
      · exact key.2
      · intro w t e t' _ ⟨evs, i1⟩ hb
        simp only [bind_apply, mlxsw_sp_port_vlan_set, getSt_apply, env_call_apply] at hb
        by_cases h0 : env t.trace.length = 0
        · simp only [h0, ne_eq, not_true_eq_false, if_false, pure_apply, Res.ret.injEq] at hb
          obtain ⟨rfl, rfl⟩ := hb
          exact ⟨_ :: evs, by rw [i1]; rfl⟩
        · simp only [ne_eq, h0, not_false_eq_true, if_true, pure_apply, Res.ret.injEq] at hb
          obtain ⟨rfl, rfl⟩ := hb
          refine ⟨_, (by
            rw [new_events_of_append s _ (_ :: evs) (by rw [i1]; rfl)]
            exact List.mem_cons_self _ _), ?_⟩
          simp only [← i1]
          exact h0

theorem stp_state_set_failed (env : Nat → Int) (state : Nat) (s s' : St) (err : Int)
    (h : mlxsw_sp_port_stp_state_set env state s = Res.ret err s') (he : err ≠ 0) :
    ∃ ev ∈ new_events s s', ev.err ≠ 0 := by
  have hgo : ∀ st : spms_state, (do
      let ok ← kmalloc env .spms_pl
      if !ok then
        pure (-ENOMEM)
      else do
        let s ← getSt
        let vids :=
          if s.port.is_vport then [s.port.vport_vid]
          else for_each_set_bit s.port.active_vlans VLAN_N_VID
        mlxsw_reg_write env (.spms s.port.local_port vids st) : M Int) s = Res.ret err s' →
      ∃ ev ∈ new_events s s', ev.err ≠ 0 := by
    intro st hg
    simp only [bind_apply, kmalloc, env_call_apply, pure_apply, mlxsw_reg_write,
      getSt_apply] at hg
    by_cases h0 : env s.trace.length = 0
    · simp only [h0, beq_self_eq_true, Bool.not_true, Bool.false_eq_true, if_false,
        List.length_cons, Res.ret.injEq] at hg
      obtain ⟨rfl, rfl⟩ := hg
      refine ⟨_, (by
        rw [new_events_of_append s _ [_, _] rfl]
        exact List.mem_cons_self _ _), ?_⟩
      exact he
    · have hb : (env s.trace.length == 0) = false := by simpa using h0
      simp only [hb, Bool.not_false, if_true, Res.ret.injEq] at hg
      obtain ⟨-, rfl⟩ := hg
      refine ⟨_, (by
        rw [new_events_of_append s _ [_] rfl]
        exact List.mem_cons_self _ _), ?_⟩
      exact h0
  unfold mlxsw_sp_port_stp_state_set at h
  split at h
  · exact hgo _ h
  · split at h
    · exact hgo _ h
    · split at h
      · exact hgo _ h
      · simp at h

theorem RangeOnly_of_kept {p : mlxsw_sp_port} {vid_begin vid_end : Nat} {a b : St}
    (h : TablesKept a b) : RangeOnly p vid_begin vid_end a b :=
  ⟨fun t tt port idx _ => h.1 t tt port idx, fun lp vid _ => h.2 lp vid⟩

theorem RangeOnly_trans {p : mlxsw_sp_port} {vid_begin vid_end : Nat} {a b c : St}
    (h1 : RangeOnly p vid_begin vid_end a b) (h2 : RangeOnly p vid_begin vid_end b c) :
    RangeOnly p vid_begin vid_end a c :=
  ⟨fun t tt port idx hk => (h2.1 t tt port idx hk).trans (h1.1 t tt port idx hk),
   fun lp vid hk => (h2.2 lp vid hk).trans (h1.2 lp vid hk)⟩

theorem ext_trans {a b c : St} (h1 : ∃ evs, b.trace = evs ++ a.trace)
    (h2 : ∃ evs, c.trace = evs ++ b.trace) : ∃ evs, c.trace = evs ++ a.trace :=
  ⟨_, (new_events_trans h1 h2).2⟩

theorem new_events_mid {s a t s' : St} (h1 : ∃ evs, a.trace = evs ++ s.trace)
    (h2 : ∃ evs, t.trace = evs ++ a.trace) (h3 : ∃ evs, s'.trace = evs ++ t.trace)
    {e : Ev} (he : e ∈ new_events a t) : e ∈ new_events s s' := by
  rw [(new_events_trans (ext_trans h1 h2) h3).1, (new_events_trans h1 h2).1]
  exact List.mem_append_right _ (List.mem_append_left _ he)

/-- When the one failure of a run is in the step from `a` to `t`, everything
after `t` succeeds. -/
theorem unwind_succeeds {s a t s' : St} (h1 : ∃ evs, a.trace = evs ++ s.trace)
    (h2 : ∃ evs, t.trace = evs ++ a.trace) (h3 : ∃ evs, s'.trace = evs ++ t.trace)
    (hone : failures (new_events s s') ≤ 1) {e : Ev} (he : e ∈ new_events a t)
    (hne : e.err ≠ 0) : ∀ e' ∈ new_events t s', e'.err = 0 := by
  rw [(new_events_trans (ext_trans h1 h2) h3).1] at hone
  exact single_failure hone
    (by rw [(new_events_trans h1 h2).1]; exact List.mem_append_left _ he) hne

/-- The flood step of `__mlxsw_sp_port_vlans_add` on a physical port: it
changes the tables on the range only; when it fails, a request failed, and
either the tables are as before or the failed request is the second write. -/
theorem flood_set_forward (c : Consts) (env : Nat → Int) (vid_begin vid_end : Nat)
    (s s' : St) (err : Int) (hphys : s.port.is_vport = false) (hle : vid_begin ≤ vid_end)
    (hve : vid_end + 1 < U16)
    (h : __mlxsw_sp_port_flood_set c env vid_begin vid_end true false s = Res.ret err s') :
    RangeOnly s.port vid_begin vid_end s s' ∧
    (err ≠ 0 → (∃ e ∈ new_events s s', e.err ≠ 0) ∧
      (TablesKept s s' ∨
        ∃ e ∈ new_events s s', e.err ≠ 0 ∧
          e.op = flood_bm_op s.port.local_port vid_begin vid_end true)) := by
  have hrange : (vid_end + U16 - vid_begin + 1) % U16 = vid_end - vid_begin + 1 := by
    have : vid_end + U16 - vid_begin + 1 = (vid_end - vid_begin + 1) + U16 := by omega
    rw [this, Nat.add_mod_right]
    exact Nat.mod_eq_of_lt (by omega)
  have r1 := Pres_ret (Pres_flood_set [.kmalloc, .sftr] c env _ _ _ _ (by simp) (by simp)) h
  have hmap := HwOnly_hw_vid_to_fid r1 (by simp : OpKind.vid_to_fid_set ∉ [.kmalloc, .sftr])
  rw [flood_set_eq c env vid_begin vid_end true s hphys] at h
  split at h
  · rename_i hne
    simp only [Res.ret.injEq] at h
    obtain ⟨rfl, rfl⟩ := h
    have hk : TablesKept s
        { s with trace := ⟨.kmalloc .sftr_pl, env s.trace.length⟩ :: s.trace } :=
      ⟨fun _ _ _ _ => rfl, fun lp vid => hmap _ _ _⟩
    refine ⟨RangeOnly_of_kept hk, fun _ =>
      ⟨⟨⟨.kmalloc .sftr_pl, env s.trace.length⟩, ?_, hne⟩, Or.inl hk⟩⟩
    rw [new_events_of_append s _ [_] rfl]
    exact List.mem_cons_self _ _
  · split at h
    · rename_i h0 hne
      simp only [Res.ret.injEq] at h
      obtain ⟨rfl, rfl⟩ := h
      have hk : TablesKept s
          { s with trace := ⟨flood_uc_op s.port.local_port vid_begin vid_end true,
              env (s.trace.length + 1)⟩ :: ⟨.kmalloc .sftr_pl, 0⟩ :: s.trace } := by
        refine ⟨fun _ _ _ _ => ?_, fun lp vid => hmap _ _ _⟩
        simp only [flood_uc_op, hw_flood_cons_sftr, hw_flood_cons_kmalloc, hne, false_and,
          if_false]
      refine ⟨RangeOnly_of_kept hk, fun _ =>
        ⟨⟨⟨flood_uc_op s.port.local_port vid_begin vid_end true, env (s.trace.length + 1)⟩,
          ?_, hne⟩, Or.inl hk⟩⟩
      rw [new_events_of_append s _ [_, _] rfl]
      exact List.mem_cons_self _ _
    · simp only [Res.ret.injEq] at h
      obtain ⟨rfl, rfl⟩ := h
      refine ⟨⟨fun table tt port idx hk => ?_, fun lp vid _ => hmap _ _ _⟩, fun hne => ?_⟩
      · have hk' : ¬ (flood_table_type.MLXSW_REG_SFGC_TABLE_TYPE_FID_OFFEST = tt ∧
            s.port.local_port = port ∧ vid_begin ≤ idx ∧
            idx < vid_begin + (vid_end - vid_begin + 1)) :=
          fun ⟨a, b, c, d⟩ => hk ⟨a.symm, b.symm, c, by omega⟩
        simp only [flood_bm_op, flood_uc_op, hw_flood_cons_sftr, hw_flood_cons_kmalloc, hrange]
        rw [if_neg (fun hh => hk' hh.2.2), if_neg (fun hh => hk' hh.2.2)]
      · have hmem : (⟨flood_bm_op s.port.local_port vid_begin vid_end true,
            env (s.trace.length + 2)⟩ : Ev) ∈ new_events s
            { s with trace := ⟨flood_bm_op s.port.local_port vid_begin vid_end true,
              env (s.trace.length + 2)⟩ ::
              ⟨flood_uc_op s.port.local_port vid_begin vid_end true, 0⟩ ::
              ⟨.kmalloc .sftr_pl, 0⟩ :: s.trace } := by
          rw [new_events_of_append s _ [_, _, _] rfl]
          exact List.mem_cons_self _ _
        exact ⟨⟨_, hmem, hne⟩, Or.inr ⟨_, hmem, hne, rfl⟩⟩

theorem Unwound_port_congr {p q : mlxsw_sp_port} {vid_begin vid_end : Nat} {a b : St}
    (h1 : p.local_port = q.local_port) (h2 : p.vports_list_empty = q.vports_list_empty)
    (h : Unwound p vid_begin vid_end a b) : Unwound q vid_begin vid_end a b := by
  unfold Unwound at h ⊢
  rw [h1, h2] at h
  exact h

/-- The PVID step of `__mlxsw_sp_port_vlans_add` writes none of the tables and
keeps the port but for its cached PVID; when it fails, its request failed. -/
theorem vlans_add_pvid_forward (env : Nat → Int) (vid_begin : Nat) (fp : Bool) (old : Nat)
    (s s' : St) (err : Int) (h : vlans_add_pvid env vid_begin fp old s = Res.ret err s') :
    TablesKept s s' ∧ (∃ evs, s'.trace = evs ++ s.trace) ∧
    s'.port = { s.port with pvid := s'.port.pvid } ∧
    (err ≠ 0 → ∃ e ∈ new_events s s', e.err ≠ 0) := by
  rw [vlans_add_pvid_eq] at h
  split at h
  · simp only [Res.ret.injEq] at h
    obtain ⟨rfl, rfl⟩ := h
    refine ⟨⟨fun _ _ _ _ => rfl, fun _ _ => rfl⟩, ⟨[_], rfl⟩, rfl, fun hne => ?_⟩
    refine ⟨⟨.spvid s.port.local_port vid_begin, env s.trace.length⟩, ?_, hne⟩
    rw [new_events_of_append s _ [_] rfl]
    exact List.mem_cons_self _ _
  · simp only [Res.ret.injEq] at h
    obtain ⟨rfl, rfl⟩ := h
    exact ⟨TablesKept_pre.refl _, ⟨[], rfl⟩, rfl, fun hne => absurd rfl hne⟩

/-! ## C11 -/

theorem mem_for_each_set_bit (addr size vid : Nat) :
    vid ∈ for_each_set_bit addr size ↔ vid < size ∧ test_bit vid addr = true := by
  simp [for_each_set_bit]

theorem nodup_for_each_set_bit (addr size : Nat) : (for_each_set_bit addr size).Nodup :=
  (List.nodup_range size).filter _

/-- The run of `mlxsw_sp_port_stp_state_set` in which the payload buffer is
allocated, for the five bridge states: one SPMS write, whose result is
returned; the request carries the hardware state forwarding for disabled and
forwarding, learning for listening and learning, discarding for blocking, once
for each VLAN of the port's active set (vid below 4096 with its bit set) on a
physical port, for the single VLAN of a virtual port, and for no other VLAN. -/
theorem stp_state_set_allocated (env : Nat → Int) (state : Nat) (s : St)
    (hst : state = BR_STATE_DISABLED ∨ state = BR_STATE_FORWARDING ∨
      state = BR_STATE_LISTENING ∨ state = BR_STATE_LEARNING ∨ state = BR_STATE_BLOCKING)
    (hbuf : env s.trace.length = 0) :
    ∃ st vids,
      mlxsw_sp_port_stp_state_set env state s =
        Res.ret (env (s.trace.length + 1)) { s with trace :=
          ⟨.spms s.port.local_port vids st, env (s.trace.length + 1)⟩ ::
          ⟨.kmalloc .spms_pl, 0⟩ :: s.trace } ∧
      (state = BR_STATE_DISABLED ∨ state = BR_STATE_FORWARDING →
        st = .MLXSW_REG_SPMS_STATE_FORWARDING) ∧
      (state = BR_STATE_LISTENING ∨ state = BR_STATE_LEARNING →
        st = .MLXSW_REG_SPMS_STATE_LEARNING) ∧
      (state = BR_STATE_BLOCKING → st = .MLXSW_REG_SPMS_STATE_DISCARDING) ∧
      vids.Nodup ∧
      (s.port.is_vport = true → ∀ vid, vid ∈ vids ↔ vid = s.port.vport_vid) ∧
      (s.port.is_vport = false →
        ∀ vid, vid ∈ vids ↔ vid < VLAN_N_VID ∧ test_bit vid s.port.active_vlans = true) := by
  have hv : (if s.port.is_vport then [s.port.vport_vid]
      else for_each_set_bit s.port.active_vlans VLAN_N_VID).Nodup ∧
      (s.port.is_vport = true → ∀ vid, vid ∈ (if s.port.is_vport then [s.port.vport_vid]
        else for_each_set_bit s.port.active_vlans VLAN_N_VID) ↔ vid = s.port.vport_vid) ∧
      (s.port.is_vport = false → ∀ vid, vid ∈ (if s.port.is_vport then [s.port.vport_vid]
        else for_each_set_bit s.port.active_vlans VLAN_N_VID) ↔
          vid < VLAN_N_VID ∧ test_bit vid s.port.active_vlans = true) := by
    cases hp : s.port.is_vport with
    | true => simp
    | false =>
      simp only [Bool.false_eq_true, if_false, false_implies, true_and, true_implies]
      exact ⟨nodup_for_each_set_bit _ _, fun vid => mem_for_each_set_bit _ _ vid⟩
  rcases hst with h | h | h | h | h
  · refine ⟨.MLXSW_REG_SPMS_STATE_FORWARDING, _, ?_, ?_, ?_, ?_, hv⟩
    · simp [mlxsw_sp_port_stp_state_set, h, kmalloc, mlxsw_reg_write, hbuf]
    · intro _; rfl
    · subst h; decide
    · subst h; decide
  · refine ⟨.MLXSW_REG_SPMS_STATE_FORWARDING, _, ?_, ?_, ?_, ?_, hv⟩
    · simp [mlxsw_sp_port_stp_state_set, h, kmalloc, mlxsw_reg_write, hbuf]
    · intro _; rfl
    · subst h; decide
    · subst h; decide
  · refine ⟨.MLXSW_REG_SPMS_STATE_LEARNING, _, ?_, ?_, ?_, ?_, hv⟩
    · simp [mlxsw_sp_port_stp_state_set, h, kmalloc, mlxsw_reg_write, hbuf,
        BR_STATE_DISABLED, BR_STATE_FORWARDING, BR_STATE_LISTENING]
    · subst h; decide
    · intro _; rfl
    · subst h; decide
  · refine ⟨.MLXSW_REG_SPMS_STATE_LEARNING, _, ?_, ?_, ?_, ?_, hv⟩
    · simp [mlxsw_sp_port_stp_state_set, h, kmalloc, mlxsw_reg_write, hbuf,
        BR_STATE_DISABLED, BR_STATE_FORWARDING, BR_STATE_LISTENING, BR_STATE_LEARNING]
    · subst h; decide
    · intro _; rfl
    · subst h; decide
  · refine ⟨.MLXSW_REG_SPMS_STATE_DISCARDING, _, ?_, ?_, ?_, ?_, hv⟩
    · simp [mlxsw_sp_port_stp_state_set, h, kmalloc, mlxsw_reg_write, hbuf,
        BR_STATE_DISABLED, BR_STATE_FORWARDING, BR_STATE_LISTENING, BR_STATE_LEARNING,
        BR_STATE_BLOCKING]
    · subst h; decide
    · subst h; decide
    · intro _; rfl

/-! ## C12 -/

/-- C12: for every STP state outside disabled, forwarding, listening, learning
and blocking, `mlxsw_sp_port_stp_state_set` ends in `BUG()` with the state and
the trace as they were: no allocation, no hardware write. -/
theorem stp_state_set_invalid (env : Nat → Int) (state : Nat) (s : St)
    (hst : ¬ (state = BR_STATE_DISABLED ∨ state = BR_STATE_FORWARDING ∨
      state = BR_STATE_LISTENING ∨ state = BR_STATE_LEARNING ∨ state = BR_STATE_BLOCKING)) :
    mlxsw_sp_port_stp_state_set env state s = Res.bug s := by
  simp only [not_or] at hst
  obtain ⟨h0, h3, h1, h2, h4⟩ := hst
  simp [mlxsw_sp_port_stp_state_set, h0, h1, h2, h3, h4]

/-! ## C13 -/

/-- C13: in the prepare phase (`switchdev_trans_ph_prepare(trans)` true) the
STP-state set, the ageing-time set, the bridge-flags set on a bridged port, the
VLAN-range add and the static FDB add return 0 in the very state they were
called in: no interaction is added to the trace, and the switch and the port
(STP state, flags, ageing time, PVID, active VLANs, active FIDs) are as before. -/
theorem prepare_phase_no_side_effect (c : Consts) (t : Topology) (env : Nat → Int)
    (fuel state brport_flags ageing_clock_t : Nat) (clock_t_to_jiffies jiffies_to_msecs : Nat → Nat)
    (vlan : switchdev_obj_port_vlan) (fdb : switchdev_obj_port_fdb) (s : St) :
    mlxsw_sp_port_attr_stp_state_set env true state s = Res.ret 0 s ∧
    mlxsw_sp_port_attr_br_ageing_set env clock_t_to_jiffies jiffies_to_msecs true
      ageing_clock_t s = Res.ret 0 s ∧
    (s.port.bridged = true →
      mlxsw_sp_port_attr_br_flags_set c env true brport_flags s = Res.ret 0 s) ∧
    mlxsw_sp_port_vlans_add c env fuel true vlan s = Res.ret 0 s ∧
    mlxsw_sp_port_fdb_static_add t env true fdb s = Res.ret 0 s := by
  refine ⟨rfl, rfl, fun hb => ?_, rfl, rfl⟩
  simp [mlxsw_sp_port_attr_br_flags_set, hb]

/-! ## C14 and C15 -/

/-- What `mlxsw_sp_fdb_notify_mac_process` does for a record that names the
known port `p` and a FID that is not a virtual FID. -/
theorem fdb_notify_mac_process_eq (t : Topology) (env : Nat → Int)
    (mac fid local_port : Nat) (adding : Bool) (p : mlxsw_sp_port) (s : St)
    (hp : t.ports local_port = some p) (hfid : t.mlxsw_sp_fid_is_vfid fid = false) :
    mlxsw_sp_fdb_notify_mac_process t env mac fid local_port adding s =
      if env s.trace.length ≠ 0 then
        Res.ret () { s with trace := ⟨.kmalloc .sfd_pl, env s.trace.length⟩ :: s.trace }
      else if env (s.trace.length + 1) ≠ 0 ∨ ¬ (p.learning = true ∧ p.learning_sync = true) then
        Res.ret () { s with trace :=
          ⟨.sfd_uc (mlxsw_sp_sfd_op (adding && p.learning))
              .MLXSW_REG_SFD_REC_POLICY_DYNAMIC_ENTRY_INGRESS mac fid p.local_port,
            env (s.trace.length + 1)⟩ ::
          ⟨.kmalloc .sfd_pl, 0⟩ :: s.trace }
      else
        Res.ret () { s with trace :=
          ⟨.call_switchdev_notifiers
              (if adding then .SWITCHDEV_FDB_ADD else .SWITCHDEV_FDB_DEL) p.dev mac fid,
            env (s.trace.length + 2)⟩ ::
          ⟨.sfd_uc (mlxsw_sp_sfd_op (adding && p.learning))
              .MLXSW_REG_SFD_REC_POLICY_DYNAMIC_ENTRY_INGRESS mac fid p.local_port, 0⟩ ::
          ⟨.kmalloc .sfd_pl, 0⟩ :: s.trace } := by
  by_cases h0 : env s.trace.length = 0
  · by_cases h1 : env (s.trace.length + 1) = 0
    · cases hl : p.learning <;> cases hs : p.learning_sync <;>
        simp [mlxsw_sp_fdb_notify_mac_process, hp, fdb_notify_resolve, hfid,
          mlxsw_sp_port_fdb_uc_op, kmalloc, mlxsw_reg_write, mlxsw_sp_fdb_call_notifiers,
          mlxsw_sp_sfd_rec_policy, h0, h1, hl, hs]
    · simp [mlxsw_sp_fdb_notify_mac_process, hp, fdb_notify_resolve, hfid,
        mlxsw_sp_port_fdb_uc_op, kmalloc, mlxsw_reg_write, mlxsw_sp_sfd_rec_policy, h0, h1]
  · simp [mlxsw_sp_fdb_notify_mac_process, hp, fdb_notify_resolve, hfid,
      mlxsw_sp_port_fdb_uc_op, kmalloc, h0, ENOMEM]

/-- The run of `mlxsw_sp_fdb_notify_mac_process` in which the payload buffer is
allocated, for a record that names a known port `p` and a FID that is not a
virtual FID: exactly one hardware FDB write, for the record's MAC and FID and
the port `p`, with the dynamic-entry policy; it is a write-edit if and only if
the record is learned and the learning flag of `p` is set, and a write-remove
otherwise. The switch and the port of the state are not touched. -/
theorem fdb_notify_mac_process_allocated (t : Topology) (env : Nat → Int)
    (mac fid local_port : Nat) (adding : Bool) (p : mlxsw_sp_port) (s : St)
    (hp : t.ports local_port = some p) (hfid : t.mlxsw_sp_fid_is_vfid fid = false)
    (hbuf : env s.trace.length = 0) :
    ∃ s' o, mlxsw_sp_fdb_notify_mac_process t env mac fid local_port adding s
        = Res.ret () s' ∧
      s'.sp = s.sp ∧ s'.port = s.port ∧
      (new_events s s').filter (fun e => decide (e.op.kind = .sfd)) =
        [⟨.sfd_uc o .MLXSW_REG_SFD_REC_POLICY_DYNAMIC_ENTRY_INGRESS mac fid p.local_port,
          env (s.trace.length + 1)⟩] ∧
      (o = .MLXSW_REG_SFD_OP_WRITE_EDIT ↔ adding = true ∧ p.learning = true) ∧
      (o = .MLXSW_REG_SFD_OP_WRITE_REMOVE ↔ ¬ (adding = true ∧ p.learning = true)) := by
  have ho : (mlxsw_sp_sfd_op (adding && p.learning) = .MLXSW_REG_SFD_OP_WRITE_EDIT ↔
        adding = true ∧ p.learning = true) ∧
      (mlxsw_sp_sfd_op (adding && p.learning) = .MLXSW_REG_SFD_OP_WRITE_REMOVE ↔
        ¬ (adding = true ∧ p.learning = true)) := by
    cases adding <;> cases p.learning <;> simp [mlxsw_sp_sfd_op]
  rw [fdb_notify_mac_process_eq t env mac fid local_port adding p s hp hfid]
  simp only [hbuf, ne_eq, not_true_eq_false, if_false]
  split
  · rename_i h1
    refine ⟨_, mlxsw_sp_sfd_op (adding && p.learning), rfl, rfl, rfl, ?_, ho⟩
    rw [new_events_of_append s _ [_, _] rfl]
    simp [Op.kind]
  · rename_i h1
    simp only [not_or, not_not] at h1
    refine ⟨_, mlxsw_sp_sfd_op (adding && p.learning), rfl, rfl, rfl, ?_, ho⟩
    rw [new_events_of_append s _ [_, _, _] rfl]
    simp [Op.kind, h1.1]

/-- C15: for a learned or aged notification record that names a known port `p`
and a FID that is not a virtual FID, `mlxsw_sp_fdb_notify_mac_process` returns,
having called the upstream notifier exactly once if its hardware FDB write
succeeded and `p` has both learning and learning-sync set, and not at all in
every other case; the one notification is `SWITCHDEV_FDB_ADD` for a learned
record and `SWITCHDEV_FDB_DEL` for an aged one, and carries the record's MAC,
the vid equal to the FID, and the interface of `p`. -/
theorem fdb_notify_mac_process_notifies (t : Topology) (env : Nat → Int)
    (mac fid local_port : Nat) (adding : Bool) (p : mlxsw_sp_port) (s : St)
    (hp : t.ports local_port = some p) (hfid : t.mlxsw_sp_fid_is_vfid fid = false) :
    ∃ s', mlxsw_sp_fdb_notify_mac_process t env mac fid local_port adding s
        = Res.ret () s' ∧
      ((∃ e ∈ new_events s s', e.op.kind = .sfd ∧ e.err = 0) ∧
          p.learning = true ∧ p.learning_sync = true →
        ((new_events s s').filter
            (fun e => decide (e.op.kind = .call_switchdev_notifiers))).map Ev.op =
          [.call_switchdev_notifiers
            (if adding then .SWITCHDEV_FDB_ADD else .SWITCHDEV_FDB_DEL) p.dev mac fid]) ∧
      (¬ ((∃ e ∈ new_events s s', e.op.kind = .sfd ∧ e.err = 0) ∧
          p.learning = true ∧ p.learning_sync = true) →
        (new_events s s').filter
          (fun e => decide (e.op.kind = .call_switchdev_notifiers)) = []) := by
  rw [fdb_notify_mac_process_eq t env mac fid local_port adding p s hp hfid]
  split
  · rename_i h0
    refine ⟨_, rfl, ?_, ?_⟩
    · rw [new_events_of_append s _ [_] rfl]
      rintro ⟨⟨e, he, hk, -⟩, -⟩
      simp only [List.mem_singleton] at he
      subst he
      simp [Op.kind] at hk
    · intro _
      rw [new_events_of_append s _ [_] rfl]
      simp [Op.kind]
  · split
    · rename_i h0 h1
      refine ⟨_, rfl, ?_, ?_⟩
      · rw [new_events_of_append s _ [_, _] rfl]
        rintro ⟨⟨e, he, hk, hz⟩, hl, hs⟩
        simp only [List.mem_cons, List.mem_singleton, List.not_mem_nil, or_false] at he
        rcases he with rfl | rfl
        · rcases h1 with h1 | h1
          · exact absurd hz h1
          · exact absurd ⟨hl, hs⟩ h1
        · simp [Op.kind] at hk
      · intro _
        rw [new_events_of_append s _ [_, _] rfl]
        simp [Op.kind]
    · rename_i h0 h1
      simp only [not_or, not_not] at h1
      refine ⟨_, rfl, ?_, ?_⟩
      · intro _
        rw [new_events_of_append s _ [_, _, _] rfl]
        simp [Op.kind]
      · intro hn
        exfalso
        apply hn
        refine ⟨⟨⟨.sfd_uc (mlxsw_sp_sfd_op (adding && p.learning))
              .MLXSW_REG_SFD_REC_POLICY_DYNAMIC_ENTRY_INGRESS mac fid p.local_port, 0⟩,
          ?_, rfl, rfl⟩, h1.2⟩
        rw [new_events_of_append s _ [_, _, _] rfl]
        simp

/-! ## Instances of C12 and C15 -/

/-- Instance of C12: the state 7 on `ex_port`. -/
theorem stp_state_set_invalid_witness :
    mlxsw_sp_port_stp_state_set no_failure 7 ex_st = Res.bug ex_st :=
  stp_state_set_invalid no_failure 7 ex_st (by decide)

/-- Instance of C15: the learned record (`00:11:22:33:44:55`, FID 10, local port
3) on the switch `ex_topology`, whose port 3 has learning and learning-sync set. -/
theorem fdb_notify_mac_process_notifies_witness :
    ∃ s', mlxsw_sp_fdb_notify_mac_process ex_topology no_failure ex_mac 10 3 true ex_st
        = Res.ret () s' ∧
      ((∃ e ∈ new_events ex_st s', e.op.kind = .sfd ∧ e.err = 0) ∧
          ex_port.learning = true ∧ ex_port.learning_sync = true →
        ((new_events ex_st s').filter
            (fun e => decide (e.op.kind = .call_switchdev_notifiers))).map Ev.op =
          [.call_switchdev_notifiers
            (if true = true then .SWITCHDEV_FDB_ADD else .SWITCHDEV_FDB_DEL) ex_port.dev
            ex_mac 10]) ∧
      (¬ ((∃ e ∈ new_events ex_st s', e.op.kind = .sfd ∧ e.err = 0) ∧
          ex_port.learning = true ∧ ex_port.learning_sync = true) →
        (new_events ex_st s').filter
          (fun e => decide (e.op.kind = .call_switchdev_notifiers)) = []) :=
  fdb_notify_mac_process_notifies ex_topology no_failure ex_mac 10 3 true ex_port ex_st
    (by decide) (by decide)

/-! ## C16 -/

/-- C16, the code at the failing input: on `ex_port5` (a physical port outside
any LAG, PVID 5), with nothing failing, the static add (commit phase) of
`00:11:22:33:44:55` with an unspecified vid (0) writes the entry with FID 5, the
PVID, while the static delete of the same request writes the removal with FID 0:
the delete does not address the (MAC, FID) key of the add. -/
theorem fdb_static_del_unspecified_vid :
    mlxsw_sp_port_fdb_static_add ex_topology no_failure false ⟨0, ex_mac⟩ ex_st5 =
      Res.ret 0 { ex_st5 with trace :=
        [⟨.sfd_uc .MLXSW_REG_SFD_OP_WRITE_EDIT .MLXSW_REG_SFD_REC_POLICY_STATIC_ENTRY
            ex_mac 5 3, 0⟩,
         ⟨.kmalloc .sfd_pl, 0⟩] } ∧
    mlxsw_sp_port_fdb_static_del ex_topology no_failure ⟨0, ex_mac⟩ ex_st5 =
      Res.ret 0 { ex_st5 with trace :=
        [⟨.sfd_uc .MLXSW_REG_SFD_OP_WRITE_REMOVE .MLXSW_REG_SFD_REC_POLICY_STATIC_ENTRY
            ex_mac 0 3, 0⟩,
         ⟨.kmalloc .sfd_pl, 0⟩] } := by
  decide!

/-! ## Computations that always return -/

theorem Runs_pure {α : Type} (ks : List OpKind) (a : α) : Runs ks (pure a : M α) :=
  fun s => ⟨a, s, rfl, (HwOnly_pre ks).refl s⟩

theorem Runs_bind {α β : Type} {ks : List OpKind} {x : M α} {f : α → M β}
    (hx : Runs ks x) (hf : ∀ a, Runs ks (f a)) : Runs ks (x >>= f) := by
  intro s
  obtain ⟨a, s1, h1, r1⟩ := hx s
  obtain ⟨b, s2, h2, r2⟩ := hf a s1
  exact ⟨b, s2, by simp only [bind_apply, h1, h2], (HwOnly_pre ks).trans _ _ _ r1 r2⟩

theorem Runs_env_call (ks : List OpKind) (env : Nat → Int) (op : Op) (h : op.kind ∈ ks) :
    Runs ks (env_call env op) :=
  fun s => ⟨_, _, rfl, rfl, rfl, [_], rfl, fun e he => by
    simp only [List.mem_singleton] at he
    subst he
    exact h⟩

theorem Runs_query {α : Type} (ks : List OpKind) (op : Op) (r : Int × α) (h : op.kind ∈ ks) :
    Runs ks (mlxsw_reg_query op r) :=
  fun s => ⟨_, _, rfl, rfl, rfl, [_], rfl, fun e he => by
    simp only [List.mem_singleton] at he
    subst he
    exact h⟩

theorem Runs_ite {α : Type} {ks : List OpKind} (p : Prop) [Decidable p] {x y : M α}
    (hx : Runs ks x) (hy : Runs ks y) : Runs ks (if p then x else y) := by
  split
  · exact hx
  · exact hy

theorem Runs_kmalloc (ks : List OpKind) (env : Nat → Int) (buf : payload)
    (h : OpKind.kmalloc ∈ ks) : Runs ks (kmalloc env buf) :=
  Runs_bind (Runs_env_call ks env _ h) (fun _ => Runs_pure ks _)

theorem Runs_Pres {α : Type} {ks : List OpKind} {x : M α} (h : Runs ks x) :
    Pres (HwOnly ks) x := by
  intro s
  obtain ⟨a, s', h1, r⟩ := h s
  rw [h1]
  exact r

theorem Runs_fdb_uc_op (ks : List OpKind) (env : Nat → Int) (p : mlxsw_sp_port)
    (mac fid : Nat) (adding dynamic : Bool) (h1 : OpKind.kmalloc ∈ ks) (h2 : OpKind.sfd ∈ ks) :
    Runs ks (mlxsw_sp_port_fdb_uc_op env p mac fid adding dynamic) :=
  Runs_bind (Runs_kmalloc ks env _ h1)
    (fun _ => Runs_ite _ (Runs_pure ks _) (Runs_env_call ks env _ h2))

theorem Runs_fdb_uc_lag_op (ks : List OpKind) (env : Nat → Int) (lag_id mac fid lag_vid : Nat)
    (adding dynamic : Bool) (h1 : OpKind.kmalloc ∈ ks) (h2 : OpKind.sfd ∈ ks) :
    Runs ks (mlxsw_sp_port_fdb_uc_lag_op env lag_id mac fid lag_vid adding dynamic) :=
  Runs_bind (Runs_kmalloc ks env _ h1)
    (fun _ => Runs_ite _ (Runs_pure ks _) (Runs_env_call ks env _ h2))

theorem Runs_fdb_call_notifiers (ks : List OpKind) (env : Nat → Int)
    (learning learning_sync adding : Bool) (mac vid dev : Nat)
    (h : OpKind.call_switchdev_notifiers ∈ ks) :
    Runs ks (mlxsw_sp_fdb_call_notifiers env learning learning_sync adding mac vid dev) := by
  unfold mlxsw_sp_fdb_call_notifiers
  exact Runs_ite _ (Runs_bind (Runs_env_call ks env _ h) (fun _ => Runs_pure ks _))
    (Runs_pure ks _)

theorem Runs_fdb_notify_mac_process (ks : List OpKind) (t : Topology) (env : Nat → Int)
    (mac fid local_port : Nat) (adding : Bool) (h1 : OpKind.kmalloc ∈ ks)
    (h2 : OpKind.sfd ∈ ks) (h3 : OpKind.call_switchdev_notifiers ∈ ks) :
    Runs ks (mlxsw_sp_fdb_notify_mac_process t env mac fid local_port adding) := by
  unfold mlxsw_sp_fdb_notify_mac_process
  cases t.ports local_port with
  | none => exact Runs_pure ks _
  | some port =>
    dsimp only
    cases fdb_notify_resolve t port fid with
    | none => exact Runs_pure ks _
    | some r =>
      obtain ⟨p, vid⟩ := r
      dsimp only
      exact Runs_bind (Runs_fdb_uc_op ks env _ _ _ _ _ h1 h2)
        (fun _ => Runs_ite _ (Runs_pure ks _) (Runs_fdb_call_notifiers ks env _ _ _ _ _ _ h3))

theorem Runs_fdb_notify_mac_lag_process (ks : List OpKind) (t : Topology) (env : Nat → Int)
    (mac fid lag_id : Nat) (adding : Bool) (h1 : OpKind.kmalloc ∈ ks)
    (h2 : OpKind.sfd ∈ ks) (h3 : OpKind.call_switchdev_notifiers ∈ ks) :
    Runs ks (mlxsw_sp_fdb_notify_mac_lag_process t env mac fid lag_id adding) := by
  unfold mlxsw_sp_fdb_notify_mac_lag_process
  cases mlxsw_sp_lag_rep_port t lag_id with
  | none => exact Runs_pure ks _
  | some port =>
    dsimp only
    cases fdb_notify_resolve t port fid with
    | none => exact Runs_pure ks _
    | some r =>
      obtain ⟨p, vid⟩ := r
      dsimp only
      exact Runs_bind (Runs_fdb_uc_lag_op ks env _ _ _ _ _ _ h1 h2)
        (fun _ => Runs_ite _ (Runs_pure ks _) (Runs_fdb_call_notifiers ks env _ _ _ _ _ _ h3))

theorem Runs_fdb_notify_rec_process (ks : List OpKind) (t : Topology) (env : Nat → Int)
    (r : sfn_rec) (h1 : OpKind.kmalloc ∈ ks) (h2 : OpKind.sfd ∈ ks)
    (h3 : OpKind.call_switchdev_notifiers ∈ ks) :
    Runs ks (mlxsw_sp_fdb_notify_rec_process t env r) := by
  cases r with
  | MLXSW_REG_SFN_REC_TYPE_LEARNED_MAC mac fid lp =>
    exact Runs_fdb_notify_mac_process ks t env mac fid lp true h1 h2 h3
  | MLXSW_REG_SFN_REC_TYPE_AGED_OUT_MAC mac fid lp =>
    exact Runs_fdb_notify_mac_process ks t env mac fid lp false h1 h2 h3
  | MLXSW_REG_SFN_REC_TYPE_LEARNED_MAC_LAG mac fid lag =>
    exact Runs_fdb_notify_mac_lag_process ks t env mac fid lag true h1 h2 h3
  | MLXSW_REG_SFN_REC_TYPE_AGED_OUT_MAC_LAG mac fid lag =>
    exact Runs_fdb_notify_mac_lag_process ks t env mac fid lag false h1 h2 h3
  | other => exact Runs_pure ks _

theorem Runs_fdb_notify_recs (ks : List OpKind) (t : Topology) (env : Nat → Int)
    (rs : List sfn_rec) (h1 : OpKind.kmalloc ∈ ks) (h2 : OpKind.sfd ∈ ks)
    (h3 : OpKind.call_switchdev_notifiers ∈ ks) : Runs ks (fdb_notify_recs t env rs) := by
  induction rs with
  | nil => exact Runs_pure ks _
  | cons r rs ih =>
    exact Runs_bind (Runs_fdb_notify_rec_process ks t env r h1 h2 h3) (fun _ => ih)

/-! ## The learning poll -/

theorem count_kind_append (k : OpKind) (a b : List Ev) :
    count_kind k (a ++ b) = count_kind k a + count_kind k b := by
  simp [count_kind, List.filter_append]

theorem count_kind_cons (k : OpKind) (e : Ev) (evs : List Ev) :
    count_kind k (e :: evs) = (if e.op.kind = k then 1 else 0) + count_kind k evs := by
  unfold count_kind
  by_cases h : e.op.kind = k
  · simp [List.filter_cons, h, Nat.add_comm]
  · simp [List.filter_cons, h]

theorem count_kind_only {ks : List OpKind} {k : OpKind} {evs : List Ev}
    (h : ∀ e ∈ evs, only ks e) (hk : k ∉ ks) : count_kind k evs = 0 := by
  unfold count_kind
  rw [List.length_eq_zero, List.filter_eq_nil_iff]
  intro e he
  have := h e he
  simp only [decide_eq_true_eq]
  intro hek
  exact hk (hek ▸ this)

/-- The kinds of interaction of the processing of a notification record. -/
theorem Runs_fdb_notify_recs_kinds (t : Topology) (env : Nat → Int) (rs : List sfn_rec) :
    Runs [.kmalloc, .sfd, .call_switchdev_notifiers] (fdb_notify_recs t env rs) :=
  Runs_fdb_notify_recs _ t env rs (by simp) (by simp) (by simp)

/-- The loop of the learning poll when every query succeeds: it queries until
an answer holds no record. -/
theorem fdb_notify_rounds_spec (t : Topology) (env : Nat → Int)
    (q : Nat → Int × List sfn_rec) (n : Nat) (hq : ∀ j, j ≤ n → (q j).1 = 0)
    (hne : ∀ j, j < n → (q j).2 ≠ []) (hlast : (q n).2 = []) :
    ∀ fuel k s, k ≤ n → n - k < fuel →
      ∃ s' evs, fdb_notify_rounds t env q fuel k s = Res.ret () s' ∧
        s'.sp = s.sp ∧ s'.port = s.port ∧ s'.trace = evs ++ s.trace ∧
        count_kind .sfn_query evs = n + 1 - k ∧
        count_kind .schedule_delayed_work evs = 0 := by
  intro fuel
  induction fuel with
  | zero => intro k s _ h; omega
  | succ fuel ih =>
    intro k s hk hfuel
    have hq0 := hq k hk
    obtain ⟨u, s2, h2, r2⟩ := Runs_fdb_notify_recs_kinds t env (q k).2
      { s with trace := ⟨.sfn_query, 0⟩ :: s.trace }
    obtain ⟨p2sp, p2port, evs2, t2, o2⟩ := r2
    have c1 : count_kind .sfn_query evs2 = 0 := count_kind_only o2 (by simp)
    have c2 : count_kind .schedule_delayed_work evs2 = 0 := count_kind_only o2 (by simp)
    simp only [fdb_notify_rounds, bind_apply, mlxsw_reg_query, hq0, ne_eq, not_true_eq_false,
      if_false]
    rw [h2]
    by_cases hkn : k = n
    · subst hkn
      simp only [hlast, List.length_nil, not_true_eq_false, if_false, pure_apply]
      refine ⟨s2, evs2 ++ [⟨.sfn_query, 0⟩], rfl, p2sp.symm, p2port.symm, ?_, ?_, ?_⟩
      · rw [t2]; simp
      · rw [count_kind_append, c1, count_kind_cons]
        simp [Op.kind, count_kind]
      · rw [count_kind_append, c2, count_kind_cons]
        simp [Op.kind, count_kind]
    · have hlen : (q k).2.length ≠ 0 := by
        intro h0
        exact hne k (by omega) (List.length_eq_zero.mp h0)
      simp only [hlen, not_false_eq_true, if_true]
      obtain ⟨s', evs, h3, q1, q2, q3, q4, q5⟩ := ih (k + 1) s2 (by omega) (by omega)
      refine ⟨s', evs ++ (evs2 ++ [⟨.sfn_query, 0⟩]), h3, by rw [q1, ← p2sp],
        by rw [q2, ← p2port], ?_, ?_, ?_⟩
      · rw [q3, t2]; simp
      · rw [count_kind_append, count_kind_append, q4, c1, count_kind_cons]
        simp only [Op.kind, if_true, count_kind, List.filter_nil, List.length_nil]
        omega
      · rw [count_kind_append, count_kind_append, q5, c2, count_kind_cons]
        simp [Op.kind, count_kind]

theorem Pres_fdb_notify_rounds (t : Topology) (env : Nat → Int)
    (q : Nat → Int × List sfn_rec) : ∀ fuel k,
    Pres (HwOnly [.kmalloc, .sfd, .call_switchdev_notifiers, .sfn_query])
      (fdb_notify_rounds t env q fuel k) := by
  have hR := HwOnly_pre [.kmalloc, .sfd, .call_switchdev_notifiers, .sfn_query]
  intro fuel
  induction fuel with
  | zero => intro k s; trivial
  | succ fuel ih =>
    intro k
    unfold fdb_notify_rounds
    refine Pres_bind hR (Runs_Pres (Runs_query _ _ _ (by simp [Op.kind]))) (fun r => ?_)
    refine Pres_ite _ (Pres_pure hR _) ?_
    refine Pres_bind hR
      (Runs_Pres (Runs_fdb_notify_recs _ t env _ (by simp) (by simp) (by simp))) (fun _ => ?_)
    exact Pres_ite _ (ih (k + 1)) (Pres_pure hR _)

/-- What `mlxsw_sp_fdb_notify_work` does when its payload buffer cannot be
allocated: it returns at once. -/
theorem fdb_notify_work_no_buffer (t : Topology) (env : Nat → Int)
    (q : Nat → Int × List sfn_rec) (fuel : Nat) (s : St) (hbuf : env s.trace.length ≠ 0) :
    mlxsw_sp_fdb_notify_work t env q fuel s =
      Res.ret () { s with trace := ⟨.kmalloc .sfn_pl, env s.trace.length⟩ :: s.trace } := by
  simp [mlxsw_sp_fdb_notify_work, kmalloc, hbuf]

/-- What `mlxsw_sp_fdb_notify_work` does when its payload buffer is allocated:
the loop, then the request of the next run. -/
theorem fdb_notify_work_buffer (t : Topology) (env : Nat → Int)
    (q : Nat → Int × List sfn_rec) (fuel : Nat) (s : St) (hbuf : env s.trace.length = 0) :
    mlxsw_sp_fdb_notify_work t env q fuel s =
      match fdb_notify_rounds t env q fuel 0
          { s with trace := ⟨.kmalloc .sfn_pl, 0⟩ :: s.trace } with
      | .ret _ s1 => Res.ret () { s1 with trace :=
          ⟨.schedule_delayed_work t.fdb_notify_interval, env s1.trace.length⟩ :: s1.trace }
      | .bug s1 => Res.bug s1
      | .out_of_fuel => Res.out_of_fuel := by
  simp only [mlxsw_sp_fdb_notify_work, kmalloc, bind_apply, env_call_apply, hbuf, pure_apply,
    beq_self_eq_true, Bool.not_true, Bool.false_eq_true, if_false,
    mlxsw_sp_fdb_notify_work_schedule]
  cases fdb_notify_rounds t env q fuel 0
      { s with trace := ⟨.kmalloc .sfn_pl, 0⟩ :: s.trace } <;> rfl

/-! ## C18 -/

/-- C18, counterexample: on `ex_topology` (at most 64 records per answer), when
the first answer holds one record, fewer than the maximum, and the second holds
none, one run of `mlxsw_sp_fdb_notify_work` with nothing failing issues two
queries, not one: it does not stop at the first answer below the maximum. -/
theorem fdb_notify_work_queries_after_short_batch :
    (ex_sfn_answers 0).2.length < ex_topology.MLXSW_REG_SFN_REC_MAX_COUNT ∧
    mlxsw_sp_fdb_notify_work ex_topology no_failure ex_sfn_answers 3 ex_st =
      Res.ret () (Res.final ex_st
        (mlxsw_sp_fdb_notify_work ex_topology no_failure ex_sfn_answers 3 ex_st)) ∧
    count_kind .sfn_query (Res.final ex_st
      (mlxsw_sp_fdb_notify_work ex_topology no_failure ex_sfn_answers 3 ex_st)).trace = 2 := by
  decide!

/-- C18, amended: in one run of `mlxsw_sp_fdb_notify_work` with its payload
buffer allocated and every query succeeding, the task keeps querying until an
answer holds no record at all and then stops: when the answer of round `n` is
the first empty one, the run returns having issued exactly `n + 1` queries, and
has then requested its next run once. -/
theorem fdb_notify_work_drains (t : Topology) (env : Nat → Int)
    (q : Nat → Int × List sfn_rec) (n fuel : Nat) (s : St)
    (hq : ∀ j, j ≤ n → (q j).1 = 0) (hne : ∀ j, j < n → (q j).2 ≠ [])
    (hlast : (q n).2 = []) (hfuel : n < fuel) (hbuf : env s.trace.length = 0) :
    ∃ s', mlxsw_sp_fdb_notify_work t env q fuel s = Res.ret () s' ∧
      count_kind .sfn_query (new_events s s') = n + 1 ∧
      count_kind .schedule_delayed_work (new_events s s') = 1 := by
  obtain ⟨s1, evs, h1, -, -, t1, c1, c2⟩ := fdb_notify_rounds_spec t env q n hq hne hlast fuel 0
    { s with trace := ⟨.kmalloc .sfn_pl, 0⟩ :: s.trace } (Nat.zero_le _) (by omega)
  rw [fdb_notify_work_buffer t env q fuel s hbuf, h1]
  refine ⟨_, rfl, ?_, ?_⟩
  · rw [new_events_of_append s _ (⟨.schedule_delayed_work t.fdb_notify_interval,
        env s1.trace.length⟩ :: (evs ++ [⟨.kmalloc .sfn_pl, 0⟩])) (by simp [t1])]
    rw [count_kind_cons, count_kind_append, c1, count_kind_cons]
    simp [Op.kind, count_kind]
  · rw [new_events_of_append s _ (⟨.schedule_delayed_work t.fdb_notify_interval,
        env s1.trace.length⟩ :: (evs ++ [⟨.kmalloc .sfn_pl, 0⟩])) (by simp [t1])]
    rw [count_kind_cons, count_kind_append, c2, count_kind_cons]
    simp [Op.kind, count_kind]

/-- Instance of the amended C18: the answers `ex_sfn_answers`, whose first empty
answer is the second one. -/
theorem fdb_notify_work_drains_witness :
    ∃ s', mlxsw_sp_fdb_notify_work ex_topology no_failure ex_sfn_answers 3 ex_st
        = Res.ret () s' ∧
      count_kind .sfn_query (new_events ex_st s') = 1 + 1 ∧
      count_kind .schedule_delayed_work (new_events ex_st s') = 1 :=
  fdb_notify_work_drains ex_topology no_failure ex_sfn_answers 1 3 ex_st
    (fun j _ => by unfold ex_sfn_answers; split <;> rfl)
    (fun j hj => by
      have : j = 0 := by omega
      subst this
      decide)
    (by decide) (by decide) (by decide)

/-! ## C19 -/

/-- C19, the code on its three paths: when the payload buffer cannot be
allocated, `mlxsw_sp_fdb_notify_work` returns after the failed allocation alone,
without having requested its next run; when the buffer is allocated, every run
that returns, whether its queries succeed or one of them fails, ends with the
request of the next run, the only such request of the run. -/
theorem fdb_notify_work_reschedule (t : Topology) (env : Nat → Int)
    (q : Nat → Int × List sfn_rec) (fuel : Nat) (s : St) :
    (env s.trace.length ≠ 0 →
      mlxsw_sp_fdb_notify_work t env q fuel s =
        Res.ret () { s with trace := ⟨.kmalloc .sfn_pl, env s.trace.length⟩ :: s.trace } ∧
      count_kind .schedule_delayed_work [(⟨.kmalloc .sfn_pl, env s.trace.length⟩ : Ev)] = 0) ∧
    (env s.trace.length = 0 → ∀ s',
      mlxsw_sp_fdb_notify_work t env q fuel s = Res.ret () s' →
        count_kind .schedule_delayed_work (new_events s s') = 1 ∧
        ∃ r, (new_events s s').head? = some ⟨.schedule_delayed_work t.fdb_notify_interval, r⟩) := by
  refine ⟨fun hbuf => ⟨fdb_notify_work_no_buffer t env q fuel s hbuf, by
    simp [count_kind, Op.kind]⟩, fun hbuf s' h => ?_⟩
  rw [fdb_notify_work_buffer t env q fuel s hbuf] at h
  cases h1 : fdb_notify_rounds t env q fuel 0
      { s with trace := ⟨.kmalloc .sfn_pl, 0⟩ :: s.trace } with
  | bug _ => simp [h1] at h
  | out_of_fuel => simp [h1] at h
  | ret u s1 =>
    rw [h1] at h
    simp only [Res.ret.injEq, true_and] at h
    subst h
    have r1 := Pres_ret (Pres_fdb_notify_rounds t env q fuel 0) h1
    obtain ⟨-, -, evs, t1, o1⟩ := r1
    have c1 : count_kind .schedule_delayed_work evs = 0 := count_kind_only o1 (by simp)
    rw [new_events_of_append s _ (⟨.schedule_delayed_work t.fdb_notify_interval,
        env s1.trace.length⟩ :: (evs ++ [⟨.kmalloc .sfn_pl, 0⟩])) (by simp [t1])]
    refine ⟨?_, _, rfl⟩
    rw [count_kind_cons, count_kind_append, c1, count_kind_cons]
    simp [Op.kind, count_kind]

/-- Instance of C19 at the failing input: on `ex_topology`, when the allocation
of the payload buffer fails, the run consists of the failed allocation alone. -/
theorem fdb_notify_work_reschedule_witness :
    mlxsw_sp_fdb_notify_work ex_topology (fail_at 0) ex_sfn_answers 3 ex_st =
      Res.ret () { ex_st with trace := [⟨.kmalloc .sfn_pl, -5⟩] } :=
  ((fdb_notify_work_reschedule ex_topology (fail_at 0) ex_sfn_answers 3 ex_st).1
    (by decide)).1

/-! ## The flood write -/

/-- The run of `__mlxsw_sp_port_flood_set` in which the payload buffer is
allocated: it first writes the unicast flood table for the range; if that write
fails it returns its error and writes nothing more; if it succeeds and
`only_uc` is set it returns 0 and writes nothing more; otherwise it writes the
broadcast/multicast flood table with the same index, range, table type, row and
`set` value and returns the result of that write. The table type and the row
are those of the port kind: FID offset and the port itself for a physical port;
FID and, for a virtual port, the port itself when the index is a bridge vFID
and the CPU port otherwise. -/
theorem flood_set_allocated (c : Consts) (env : Nat → Int) (idx_begin idx_end : Nat)
    (set only_uc : Bool) (s : St) (hbuf : env s.trace.length = 0) :
    ∃ table_type row,
      (s.port.is_vport = false →
        table_type = .MLXSW_REG_SFGC_TABLE_TYPE_FID_OFFEST ∧ row = s.port.local_port) ∧
      (s.port.is_vport = true →
        table_type = .MLXSW_REG_SFGC_TABLE_TYPE_FID ∧
        row = if mlxsw_sp_vfid_is_vport_br c idx_begin then s.port.local_port
              else c.MLXSW_PORT_CPU_PORT) ∧
      __mlxsw_sp_port_flood_set c env idx_begin idx_end set only_uc s =
        if env (s.trace.length + 1) ≠ 0 then
          Res.ret (env (s.trace.length + 1)) { s with trace :=
            ⟨.sftr .MLXSW_SP_FLOOD_TABLE_UC idx_begin table_type
                ((idx_end + U16 - idx_begin + 1) % U16) row set, env (s.trace.length + 1)⟩ ::
            ⟨.kmalloc .sftr_pl, 0⟩ :: s.trace }
        else if only_uc = true then
          Res.ret 0 { s with trace :=
            ⟨.sftr .MLXSW_SP_FLOOD_TABLE_UC idx_begin table_type
                ((idx_end + U16 - idx_begin + 1) % U16) row set, 0⟩ ::
            ⟨.kmalloc .sftr_pl, 0⟩ :: s.trace }
        else
          Res.ret (env (s.trace.length + 2)) { s with trace :=
            ⟨.sftr .MLXSW_SP_FLOOD_TABLE_BM idx_begin table_type
                ((idx_end + U16 - idx_begin + 1) % U16) row set, env (s.trace.length + 2)⟩ ::
            ⟨.sftr .MLXSW_SP_FLOOD_TABLE_UC idx_begin table_type
                ((idx_end + U16 - idx_begin + 1) % U16) row set, 0⟩ ::
            ⟨.kmalloc .sftr_pl, 0⟩ :: s.trace } := by
  refine ⟨if s.port.is_vport then .MLXSW_REG_SFGC_TABLE_TYPE_FID
      else .MLXSW_REG_SFGC_TABLE_TYPE_FID_OFFEST,
    if s.port.is_vport then
      (if mlxsw_sp_vfid_is_vport_br c idx_begin then s.port.local_port
       else c.MLXSW_PORT_CPU_PORT)
    else s.port.local_port, ?_, ?_, ?_⟩
  · intro h; simp [h]
  · intro h; simp [h]
  · by_cases h1 : env (s.trace.length + 1) = 0
    · cases only_uc
      · simp [__mlxsw_sp_port_flood_set, kmalloc, mlxsw_reg_write, hbuf, h1]
      · simp [__mlxsw_sp_port_flood_set, kmalloc, mlxsw_reg_write, hbuf, h1]
    · simp [__mlxsw_sp_port_flood_set, kmalloc, mlxsw_reg_write, hbuf, h1]

/-! ## The FDB dump -/

/-- One record of a dump: the consumer is called at most once, and `stored_err`
becomes its result when that is an error. -/
theorem fdb_dump_rec_spec (t : Topology) (env : Nat → Int) (vport_vid vport_fid : Nat)
    (r : sfd_rec) (e : Int × Int) (s : St) :
    (fdb_dump_rec t env vport_vid vport_fid r e s = Res.ret e s) ∨
    ∃ vid mac, fdb_dump_rec t env vport_vid vport_fid r e s =
      Res.ret (if env s.trace.length ≠ 0 then env s.trace.length else e.1, env s.trace.length)
        { s with trace := ⟨.cb_fdb vid mac, env s.trace.length⟩ :: s.trace } := by
  have hemit : ∀ mac fid : Nat,
      ((if vport_fid ≠ 0 ∧ vport_fid ≠ fid then (pure e : M (Int × Int))
        else do
          let err ← env_call env (.cb_fdb (if vport_fid ≠ 0 then vport_vid else fid) mac)
          pure (if err ≠ 0 then err else e.1, err)) s = Res.ret e s) ∨
      ∃ vid mac', (if vport_fid ≠ 0 ∧ vport_fid ≠ fid then (pure e : M (Int × Int))
        else do
          let err ← env_call env (.cb_fdb (if vport_fid ≠ 0 then vport_vid else fid) mac)
          pure (if err ≠ 0 then err else e.1, err)) s =
        Res.ret (if env s.trace.length ≠ 0 then env s.trace.length else e.1, env s.trace.length)
          { s with trace := ⟨.cb_fdb vid mac', env s.trace.length⟩ :: s.trace } := by
    intro mac fid
    by_cases hc : vport_fid ≠ 0 ∧ vport_fid ≠ fid
    · left; rw [if_pos hc]; rfl
    · right; rw [if_neg hc]; exact ⟨_, _, rfl⟩
  cases r with
  | MLXSW_REG_SFD_REC_TYPE_UNICAST mac fid lp =>
    simp only [fdb_dump_rec, bind_apply, getSt_apply]
    by_cases hl : lp = s.port.local_port
    · rw [if_pos hl]; exact hemit mac fid
    · rw [if_neg hl]; left; rfl
  | MLXSW_REG_SFD_REC_TYPE_UNICAST_LAG mac fid lag =>
    simp only [fdb_dump_rec, bind_apply, getSt_apply]
    by_cases hl : some s.port = mlxsw_sp_lag_rep_port t lag
    · rw [if_pos hl]; exact hemit mac fid
    · rw [if_neg hl]; left; rfl
  | other => left; rfl

/-- The records of one answer: only the consumer is called; `stored_err` stays
when every call succeeds, and is the result of a failed call otherwise. -/
theorem fdb_dump_recs_spec (t : Topology) (env : Nat → Int) (vport_vid vport_fid : Nat)
    (rs : List sfd_rec) : ∀ (e : Int × Int) (s : St),
    ∃ e' s' evs, fdb_dump_recs t env vport_vid vport_fid rs e s = Res.ret e' s' ∧
      s'.sp = s.sp ∧ s'.port = s.port ∧ s'.trace = evs ++ s.trace ∧
      (∀ ev ∈ evs, ev.op.kind = .cb_fdb) ∧
      ((∀ ev ∈ evs, ev.err = 0) → e'.1 = e.1) ∧
      ((∃ ev ∈ evs, ev.err ≠ 0) → e'.1 ≠ 0 ∧ ∃ ev ∈ evs, ev.err = e'.1) ∧
      ((e.1 = 0 → e.2 = 0) → e'.1 = 0 → e'.2 = 0) := by
  induction rs with
  | nil =>
    intro e s
    exact ⟨e, s, [], rfl, rfl, rfl, rfl, by simp, fun _ => rfl, by simp, fun h => h⟩
  | cons r rs ih =>
    intro e s
    simp only [fdb_dump_recs, bind_apply]
    rcases fdb_dump_rec_spec t env vport_vid vport_fid r e s with h | ⟨vid, mac, h⟩
    · rw [h]
      exact ih e s
    · rw [h]
      obtain ⟨e', s', evs, h1, h2, h3, h4, h5, h6, h7, h8⟩ := ih
        (if env s.trace.length ≠ 0 then env s.trace.length else e.1, env s.trace.length)
        { s with trace := ⟨.cb_fdb vid mac, env s.trace.length⟩ :: s.trace }
      refine ⟨e', s', evs ++ [⟨.cb_fdb vid mac, env s.trace.length⟩], h1, h2, h3,
        by rw [h4]; simp, ?_, ?_, ?_, ?_⟩
      · intro ev hev
        rcases List.mem_append.mp hev with hev | hev
        · exact h5 ev hev
        · simp only [List.mem_singleton] at hev
          subst hev
          rfl
      · intro hall
        have h0 : env s.trace.length = 0 :=
          hall ⟨.cb_fdb vid mac, env s.trace.length⟩ (by simp)
        rw [h6 (fun ev hev => hall ev (List.mem_append_left _ hev))]
        simp [h0]
      · rintro ⟨ev, hev, hne⟩
        by_cases hlater : ∃ ev ∈ evs, ev.err ≠ 0
        · obtain ⟨a, ev', hev', b⟩ := h7 hlater
          exact ⟨a, ev', List.mem_append_left _ hev', b⟩
        · have hall : ∀ ev ∈ evs, ev.err = 0 := by
            intro ev' hev'
            by_contra hc
            exact hlater ⟨ev', hev', hc⟩
          have h0 : env s.trace.length ≠ 0 := by
            rcases List.mem_append.mp hev with hev | hev
            · exact absurd (hall ev hev) hne
            · simp only [List.mem_singleton] at hev
              subst hev
              exact hne
          have he' := h6 hall
          simp only [h0, ne_eq, not_false_eq_true, if_true] at he'
          rw [he']
          exact ⟨h0, ⟨.cb_fdb vid mac, env s.trace.length⟩, by simp, rfl⟩
      · intro hJ
        apply h8
        simp only
        intro hz
        by_cases h0 : env s.trace.length = 0
        · exact h0
        · simp only [h0, ne_eq, not_false_eq_true, if_true] at hz

/-- One round of the loop of the dump whose query succeeds. -/
theorem fdb_dump_rounds_step (t : Topology) (env : Nat → Int)
    (q : Nat → Int × List sfd_rec) (vport_vid vport_fid fuel k : Nat) (stored_err : Int)
    (s : St) (h0 : (q k).1 = 0) :
    fdb_dump_rounds t env q vport_vid vport_fid (fuel + 1) k stored_err s =
      if stored_err ≠ 0 then
        (if (q k).2.length = t.MLXSW_REG_SFD_REC_MAX_COUNT then
          fdb_dump_rounds t env q vport_vid vport_fid fuel (k + 1) stored_err
            { s with trace := ⟨.sfd_query, 0⟩ :: s.trace }
         else Res.ret stored_err { s with trace := ⟨.sfd_query, 0⟩ :: s.trace })
      else
        match fdb_dump_recs t env vport_vid vport_fid (q k).2 (0, 0)
            { s with trace := ⟨.sfd_query, 0⟩ :: s.trace } with
        | .ret e s2 =>
          if (q k).2.length = t.MLXSW_REG_SFD_REC_MAX_COUNT then
            fdb_dump_rounds t env q vport_vid vport_fid fuel (k + 1) e.1 s2
          else Res.ret (if e.1 ≠ 0 then e.1 else e.2) s2
        | .bug s2 => Res.bug s2
        | .out_of_fuel => Res.out_of_fuel := by
  simp only [fdb_dump_rounds, bind_apply, mlxsw_reg_query, h0, ne_eq, not_true_eq_false,
    if_false]
  by_cases hst : stored_err = 0
  · subst hst
    simp only [not_true_eq_false, if_false, bind_apply]
    cases fdb_dump_recs t env vport_vid vport_fid (q k).2 (0, 0)
        { s with trace := ⟨.sfd_query, 0⟩ :: s.trace } with
    | ret e s2 =>
      simp only
      split <;> rfl
    | bug _ => rfl
    | out_of_fuel => rfl
  · simp only [hst, not_false_eq_true, if_true]
    split <;> rfl

/-- The loop of the dump when every query succeeds: it queries until an answer
holds another number of records than the maximum, whatever the consumer
answers; its result is the stored error, which is the result of a failed call
of the consumer when there is one. -/
theorem fdb_dump_rounds_spec (t : Topology) (env : Nat → Int)
    (q : Nat → Int × List sfd_rec) (vport_vid vport_fid n : Nat)
    (hq : ∀ j, j ≤ n → (q j).1 = 0)
    (hfull : ∀ j, j < n → (q j).2.length = t.MLXSW_REG_SFD_REC_MAX_COUNT)
    (hlast : (q n).2.length ≠ t.MLXSW_REG_SFD_REC_MAX_COUNT) :
    ∀ fuel k stored_err s, k ≤ n → n - k < fuel →
      ∃ r s' evs, fdb_dump_rounds t env q vport_vid vport_fid fuel k stored_err s
          = Res.ret r s' ∧
        s'.sp = s.sp ∧ s'.port = s.port ∧ s'.trace = evs ++ s.trace ∧
        count_kind .sfd_query evs = n + 1 - k ∧
        (stored_err ≠ 0 → r = stored_err ∧ ∀ ev ∈ evs, ev.op.kind ≠ .cb_fdb) ∧
        (stored_err = 0 →
          ((∀ ev ∈ evs, ev.op.kind = .cb_fdb → ev.err = 0) → r = 0) ∧
          ((∃ ev ∈ evs, ev.op.kind = .cb_fdb ∧ ev.err ≠ 0) →
            r ≠ 0 ∧ ∃ ev ∈ evs, ev.op.kind = .cb_fdb ∧ ev.err = r)) := by
  intro fuel
  induction fuel with
  | zero => intro k _ s _ h; omega
  | succ fuel ih =>
    intro k stored_err s hk hfuel
    have hq0 := hq k hk
    rw [fdb_dump_rounds_step t env q vport_vid vport_fid fuel k stored_err s hq0]
    have hcq : ∀ evs : List Ev, count_kind .sfd_query (evs ++ [⟨.sfd_query, 0⟩])
        = count_kind .sfd_query evs + 1 := by
      intro evs
      rw [count_kind_append, count_kind_cons]
      simp [Op.kind, count_kind]
    by_cases hst : stored_err = 0
    · -- the records of the answer are handed to the consumer
      rw [if_neg (not_not.mpr hst)]
      obtain ⟨e', s2, evs2, h2, p2sp, p2port, t2, o2, a2, b2, j2⟩ :=
        fdb_dump_recs_spec t env vport_vid vport_fid (q k).2 (0, 0)
          { s with trace := ⟨.sfd_query, 0⟩ :: s.trace }
      rw [h2]
      have c2 : count_kind .sfd_query evs2 = 0 := by
        unfold count_kind
        rw [List.length_eq_zero, List.filter_eq_nil_iff]
        intro ev hev
        simp [o2 ev hev]
      have hJ : e'.1 = 0 → e'.2 = 0 := j2 (fun _ => rfl)
      have hok2 : (∀ ev ∈ evs2, ev.err = 0) → e'.1 = 0 := fun h => a2 h
      simp only
      by_cases hkn : k = n
      · subst hkn
        rw [if_neg hlast]
        refine ⟨_, s2, evs2 ++ [⟨.sfd_query, 0⟩], rfl, p2sp, p2port, by rw [t2]; simp,
          by rw [hcq, c2]; omega, fun h => absurd hst h, fun _ => ⟨?_, ?_⟩⟩
        · intro hall
          have h1 : e'.1 = 0 := hok2 (fun ev hev =>
            hall ev (List.mem_append_left _ hev) (o2 ev hev))
          simp [h1, hJ h1]
        · rintro ⟨ev, hev, hkind, hne⟩
          rcases List.mem_append.mp hev with hev | hev
          · obtain ⟨x, ev', hev', y⟩ := b2 ⟨ev, hev, hne⟩
            simp only [x, ne_eq, not_false_eq_true, if_true]
            exact ⟨trivial, ev', List.mem_append_left _ hev', o2 ev' hev', y⟩
          · simp only [List.mem_singleton] at hev
            subst hev
            simp [Op.kind] at hkind
      · rw [if_pos (hfull k (by omega))]
        obtain ⟨r, s', evs, h3, q1, q2, q3, q4, q5, q6⟩ :=
          ih (k + 1) e'.1 s2 (by omega) (by omega)
        refine ⟨r, s', evs ++ (evs2 ++ [⟨.sfd_query, 0⟩]), h3, by rw [q1, p2sp],
          by rw [q2, p2port], by rw [q3, t2]; simp,
          by rw [count_kind_append, hcq, c2, q4]; omega, fun h => absurd hst h,
          fun _ => ⟨?_, ?_⟩⟩
        · intro hall
          have h1 : e'.1 = 0 := hok2 (fun ev hev =>
            hall ev (List.mem_append_right _ (List.mem_append_left _ hev)) (o2 ev hev))
          exact (q6 h1).1 (fun ev hev hkind => hall ev (List.mem_append_left _ hev) hkind)
        · rintro ⟨ev, hev, hkind, hne⟩
          by_cases h1 : e'.1 = 0
          · -- no call failed in this round: the failed call is in a later round
            have hev3 : ev ∈ evs := by
              rcases List.mem_append.mp hev with hev | hev
              · exact hev
              · rcases List.mem_append.mp hev with hev | hev
                · exact absurd h1 (b2 ⟨ev, hev, hne⟩).1
                · simp only [List.mem_singleton] at hev
                  subst hev
                  simp [Op.kind] at hkind
            obtain ⟨x, ev', hev', y⟩ := (q6 h1).2 ⟨ev, hev3, hkind, hne⟩
            exact ⟨x, ev', List.mem_append_left _ hev', y⟩
          · -- a call failed in this round: the later rounds keep the stored error
            obtain ⟨hr, hno⟩ := q5 h1
            have hfail2 : ∃ ev ∈ evs2, ev.err ≠ 0 := by
              by_contra hc
              exact h1 (hok2 (fun ev' hev' => by
                by_contra hne'
                exact hc ⟨ev', hev', hne'⟩))
            obtain ⟨-, ev', hev', y⟩ := b2 hfail2
            rw [hr]
            exact ⟨h1, ev', List.mem_append_right _ (List.mem_append_left _ hev'),
              o2 ev' hev', y⟩
    · -- an error is stored: the records are skipped
      rw [if_pos hst]
      by_cases hkn : k = n
      · subst hkn
        rw [if_neg hlast]
        refine ⟨_, _, [⟨.sfd_query, 0⟩], rfl, rfl, rfl, rfl, ?_, fun _ => ⟨rfl, ?_⟩,
          fun h => absurd h hst⟩
        · have := hcq []
          simp only [List.nil_append] at this
          rw [this]
          simp [count_kind]
        · intro ev hev
          simp only [List.mem_singleton] at hev
          subst hev
          simp [Op.kind]
      · rw [if_pos (hfull k (by omega))]
        obtain ⟨r, s', evs, h3, q1, q2, q3, q4, q5, -⟩ :=
          ih (k + 1) stored_err { s with trace := ⟨.sfd_query, 0⟩ :: s.trace }
            (by omega) (by omega)
        obtain ⟨hr, hno⟩ := q5 hst
        refine ⟨r, s', evs ++ [⟨.sfd_query, 0⟩], h3, q1, q2, by rw [q3]; simp,
          by rw [hcq, q4]; omega, fun _ => ⟨hr, ?_⟩, fun h => absurd h hst⟩
        intro ev hev
        rcases List.mem_append.mp hev with hev | hev
        · exact hno ev hev
        · simp only [List.mem_singleton] at hev
          subst hev
          simp [Op.kind]

/-! ## C17 -/

/-- C17: when its payload buffer is allocated and every query succeeds,
`mlxsw_sp_port_fdb_dump` returns after exactly `n + 1` query rounds, where round
`n` is the first whose answer holds fewer records than the maximum: the number
of rounds does not depend on what the consumer answers. When a call of the
consumer reported an error, the dump returns an error that a call of the
consumer reported, not success; when none did, it returns 0. -/
theorem fdb_dump_drains (t : Topology) (env : Nat → Int) (q : Nat → Int × List sfd_rec)
    (n fuel : Nat) (s : St) (hq : ∀ j, j ≤ n → (q j).1 = 0)
    (hfull : ∀ j, j < n → (q j).2.length = t.MLXSW_REG_SFD_REC_MAX_COUNT)
    (hlast : (q n).2.length < t.MLXSW_REG_SFD_REC_MAX_COUNT)
    (hfuel : n < fuel) (hbuf : env s.trace.length = 0) :
    ∃ r s', mlxsw_sp_port_fdb_dump t env q fuel s = Res.ret r s' ∧
      count_kind .sfd_query (new_events s s') = n + 1 ∧
      ((∃ ev ∈ new_events s s', ev.op.kind = .cb_fdb ∧ ev.err ≠ 0) →
        r ≠ 0 ∧ ∃ ev ∈ new_events s s', ev.op.kind = .cb_fdb ∧ ev.err = r) ∧
      ((∀ ev ∈ new_events s s', ev.op.kind = .cb_fdb → ev.err = 0) → r = 0) := by
  obtain ⟨r, s', evs, h1, -, -, t1, c1, -, h3⟩ :=
    fdb_dump_rounds_spec t env q
      (if s.port.is_vport then s.port.vport_vid else 0)
      (if s.port.is_vport then t.mlxsw_sp_vfid_to_fid s.port.vport_vfid else 0)
      n hq hfull (Nat.ne_of_lt hlast) fuel 0 0
      { s with trace := ⟨.kmalloc .sfd_pl, 0⟩ :: s.trace } (Nat.zero_le _) (by omega)
  obtain ⟨h3a, h3b⟩ := h3 rfl
  have hrun : mlxsw_sp_port_fdb_dump t env q fuel s = Res.ret r s' := by
    simp only [mlxsw_sp_port_fdb_dump, kmalloc, bind_apply, env_call_apply, hbuf, pure_apply,
      beq_self_eq_true, Bool.not_true, Bool.false_eq_true, if_false, getSt_apply]
    exact h1
  have hnew : new_events s s' = evs ++ [⟨.kmalloc .sfd_pl, 0⟩] :=
    new_events_of_append s s' _ (by rw [t1]; simp)
  have hmem : ∀ ev ∈ evs ++ [(⟨.kmalloc .sfd_pl, 0⟩ : Ev)], ev.op.kind = .cb_fdb → ev ∈ evs := by
    intro ev hev hkind
    rcases List.mem_append.mp hev with hev | hev
    · exact hev
    · simp only [List.mem_singleton] at hev
      subst hev
      simp [Op.kind] at hkind
  refine ⟨r, s', hrun, ?_, ?_, ?_⟩
  · rw [hnew, count_kind_append, c1, count_kind_cons]
    simp [Op.kind, count_kind]
  · rw [hnew]
    rintro ⟨ev, hev, hkind, hne⟩
    obtain ⟨x, ev', hev', y⟩ := h3b ⟨ev, hmem ev hev hkind, hkind, hne⟩
    exact ⟨x, ev', List.mem_append_left _ hev', y⟩
  · rw [hnew]
    intro hall
    exact h3a (fun ev hev hkind => hall ev (List.mem_append_left _ hev) hkind)

/-- Instance of C17: on `ex_port` with the answers `ex_sfd_answers`, the first
call of the consumer failing. -/
theorem fdb_dump_drains_witness :
    ∃ r s', mlxsw_sp_port_fdb_dump ex_topology (fail_at 2) ex_sfd_answers 3 ex_st
        = Res.ret r s' ∧
      count_kind .sfd_query (new_events ex_st s') = 1 + 1 ∧
      ((∃ ev ∈ new_events ex_st s', ev.op.kind = .cb_fdb ∧ ev.err ≠ 0) →
        r ≠ 0 ∧ ∃ ev ∈ new_events ex_st s', ev.op.kind = .cb_fdb ∧ ev.err = r) ∧
      ((∀ ev ∈ new_events ex_st s', ev.op.kind = .cb_fdb → ev.err = 0) → r = 0) :=
  fdb_dump_drains ex_topology (fail_at 2) ex_sfd_answers 1 3 ex_st
    (fun j _ => by unfold ex_sfd_answers; split <;> rfl)
    (fun j hj => by
      have : j = 0 := by omega
      subst this
      rfl)
    (by decide) (by decide) (by decide)

/-- The dump of the instance of C17, evaluated: the first call of the consumer
fails with `-EIO`; the dump hands the other 63 records of that answer to the
consumer, still makes its second query, hands the record of the second answer
to the consumer no more, and returns `-EIO`. -/
theorem fdb_dump_consumer_error_run :
    mlxsw_sp_port_fdb_dump ex_topology (fail_at 2) ex_sfd_answers 3 ex_st =
      Res.ret (-5) (Res.final ex_st
        (mlxsw_sp_port_fdb_dump ex_topology (fail_at 2) ex_sfd_answers 3 ex_st)) ∧
    count_kind .sfd_query (Res.final ex_st
      (mlxsw_sp_port_fdb_dump ex_topology (fail_at 2) ex_sfd_answers 3 ex_st)).trace = 2 ∧
    count_kind .cb_fdb (Res.final ex_st
      (mlxsw_sp_port_fdb_dump ex_topology (fail_at 2) ex_sfd_answers 3 ex_st)).trace = 64 := by
  decide!

/-! ## C22 -/

/-- C22: for every ageing time, `mlxsw_sp_ageing_set` issues exactly one hardware
write, of the SFDAT register with the new value, and returns its result; when
the write succeeds the cached ageing time of the switch is the new value, when
it fails the cached ageing time is unchanged; nothing else of the switch or of
the port changes. -/
theorem ageing_set_write (env : Nat → Int) (ageing_time : Nat) (s : St) :
    ∃ s', mlxsw_sp_ageing_set env ageing_time s = Res.ret (env s.trace.length) s' ∧
      s'.trace = ⟨.sfdat ageing_time, env s.trace.length⟩ :: s.trace ∧
      s'.port = s.port ∧ s'.sp.active_fids = s.sp.active_fids ∧
      (env s.trace.length = 0 → s'.sp.ageing_time = ageing_time) ∧
      (env s.trace.length ≠ 0 → s'.sp.ageing_time = s.sp.ageing_time) := by
  by_cases h : env s.trace.length = 0
  · refine ⟨{ s with
        sp := { s.sp with ageing_time := ageing_time }
        trace := ⟨.sfdat ageing_time, env s.trace.length⟩ :: s.trace }, ?_, rfl, rfl, rfl,
      fun _ => rfl, fun hne => absurd h hne⟩
    simp [mlxsw_sp_ageing_set, mlxsw_reg_write, h]
  · refine ⟨{ s with trace := ⟨.sfdat ageing_time, env s.trace.length⟩ :: s.trace }, ?_, rfl,
      rfl, rfl, fun h0 => absurd h0 h, fun _ => rfl⟩
    simp [mlxsw_sp_ageing_set, mlxsw_reg_write, h]

/-! ## C21 -/

theorem pairwise_for_each_set_bit (addr size : Nat) :
    (for_each_set_bit addr size).Pairwise (· < ·) :=
  (List.pairwise_lt_range size).filter _

/-- The loop of the VLAN dump: the consumer is called on the vids of the list
in order, up to the first call that fails. -/
theorem vlan_dump_vids_spec (env : Nat → Int) (vids : List Nat) : ∀ s : St,
    ∃ r s' k evs, k ≤ vids.length ∧ vlan_dump_vids env vids s = Res.ret r s' ∧
      s'.sp = s.sp ∧ s'.port = s.port ∧ s'.trace = evs ++ s.trace ∧
      evs.reverse.map Ev.op = (vids.take k).map
        (fun vid => Op.cb_vlan (if vid = s.port.pvid then BRIDGE_VLAN_INFO_PVID else 0) vid vid) ∧
      ((r = 0 ∧ k = vids.length ∧ ∀ ev ∈ evs, ev.err = 0) ∨
       (r ≠ 0 ∧ ∃ ev rest, evs = ev :: rest ∧ ev.err = r ∧ ∀ e ∈ rest, e.err = 0)) := by
  induction vids with
  | nil =>
    intro s
    exact ⟨0, s, 0, [], le_refl _, rfl, rfl, rfl, rfl, rfl, Or.inl ⟨rfl, rfl, by simp⟩⟩
  | cons vid vids ih =>
    intro s
    have hflags : (if vid = s.port.pvid then 0 ||| BRIDGE_VLAN_INFO_PVID else 0)
        = (if vid = s.port.pvid then BRIDGE_VLAN_INFO_PVID else 0) := by
      split <;> simp
    simp only [vlan_dump_vids, bind_apply, getSt_apply, env_call_apply, hflags]
    by_cases h0 : env s.trace.length = 0
    · simp only [h0, ne_eq, not_true_eq_false, if_false]
      obtain ⟨r, s', k, evs, hk, hrun, hsp, hport, htr, hops, hres⟩ := ih
        { s with trace := ⟨.cb_vlan (if vid = s.port.pvid then BRIDGE_VLAN_INFO_PVID else 0)
            vid vid, 0⟩ :: s.trace }
      refine ⟨r, s', k + 1, evs ++ [⟨.cb_vlan
          (if vid = s.port.pvid then BRIDGE_VLAN_INFO_PVID else 0) vid vid, 0⟩],
        by simp; omega, hrun, hsp, hport, by rw [htr]; simp, ?_, ?_⟩
      · simp only [List.reverse_append, List.reverse_cons, List.reverse_nil, List.nil_append,
          List.singleton_append, List.map_cons, List.take_succ_cons]
        rw [hops]
      · rcases hres with ⟨a, b, c⟩ | ⟨a, ev, rest, b, c, d⟩
        · left
          refine ⟨a, by simp [b], fun ev hev => ?_⟩
          rcases List.mem_append.mp hev with hev | hev
          · exact c ev hev
          · simp only [List.mem_singleton] at hev
            subst hev
            rfl
        · right
          refine ⟨a, ev, rest ++ [⟨.cb_vlan
            (if vid = s.port.pvid then BRIDGE_VLAN_INFO_PVID else 0) vid vid, 0⟩],
            by rw [b]; rfl, c, fun e he => ?_⟩
          rcases List.mem_append.mp he with he | he
          · exact d e he
          · simp only [List.mem_singleton] at he
            subst he
            rfl
    · simp only [h0, ne_eq, not_false_eq_true, if_true, pure_apply]
      refine ⟨_, _, 1, [⟨.cb_vlan (if vid = s.port.pvid then BRIDGE_VLAN_INFO_PVID else 0)
          vid vid, env s.trace.length⟩], by simp, rfl, rfl, rfl, rfl, by simp, Or.inr ⟨h0, _, [],
          rfl, rfl, by simp⟩⟩

/-- C21: on a physical port `mlxsw_sp_port_vlan_dump` calls the consumer on the
vids set in the port's active-VLAN bitmap (the vids below 4096 with their bit
set), in ascending order, each once, with `vid_begin = vid_end = vid` and with
the flag `BRIDGE_VLAN_INFO_PVID` exactly when the vid is the port's PVID; it
stops at the first call that reports an error and returns that error, and
returns 0 after the last vid when no call fails. On a virtual port it calls
the consumer once, on the port's own vid with no flag, and returns the result
of that call. The switch and the port are not touched. -/
theorem vlan_dump_records (env : Nat → Int) (s : St) :
    (s.port.is_vport = true →
      mlxsw_sp_port_vlan_dump env s = Res.ret (env s.trace.length) { s with trace :=
        ⟨.cb_vlan 0 s.port.vport_vid s.port.vport_vid, env s.trace.length⟩ :: s.trace }) ∧
    (s.port.is_vport = false →
      ∃ r s' k, ∃ (vids : List Nat) (evs : List Ev),
        mlxsw_sp_port_vlan_dump env s = Res.ret r s' ∧
        s'.sp = s.sp ∧ s'.port = s.port ∧ s'.trace = evs ++ s.trace ∧
        vids.Pairwise (· < ·) ∧
        (∀ vid, vid ∈ vids ↔ vid < VLAN_N_VID ∧ test_bit vid s.port.active_vlans = true) ∧
        k ≤ vids.length ∧
        evs.reverse.map Ev.op = (vids.take k).map (fun vid =>
          Op.cb_vlan (if vid = s.port.pvid then BRIDGE_VLAN_INFO_PVID else 0) vid vid) ∧
        ((r = 0 ∧ k = vids.length ∧ ∀ ev ∈ evs, ev.err = 0) ∨
         (r ≠ 0 ∧ ∃ ev rest, evs = ev :: rest ∧ ev.err = r ∧ ∀ e ∈ rest, e.err = 0))) := by
  constructor
  · intro hv
    simp [mlxsw_sp_port_vlan_dump, hv]
  · intro hv
    obtain ⟨r, s', k, evs, hk, hrun, hsp, hport, htr, hops, hres⟩ :=
      vlan_dump_vids_spec env (for_each_set_bit s.port.active_vlans VLAN_N_VID) s
    refine ⟨r, s', k, for_each_set_bit s.port.active_vlans VLAN_N_VID, evs, ?_, hsp, hport,
      htr, pairwise_for_each_set_bit _ _, fun vid => mem_for_each_set_bit _ _ vid, hk, hops,
      hres⟩
    simp only [mlxsw_sp_port_vlan_dump, bind_apply, getSt_apply, hv, Bool.false_eq_true,
      if_false]
    exact hrun

/-! ## C28 -/

/-- C28: `__mlxsw_sp_port_flood_set` always returns, and every flood write it
issued, unicast or broadcast/multicast, carries the same table type, row, start
index `idx_begin`, range length and `set` value: on a physical port the table
type is FID offset and the row the port's own local port; on a virtual port the
table type is FID and the row is the port's own local port when `idx_begin` is
a bridge vFID (at least `MLXSW_SP_VFID_PORT_MAX`) and the CPU port otherwise;
the range length is `idx_end - idx_begin + 1` in `u16` arithmetic. -/
theorem flood_set_table_and_row (c : Consts) (env : Nat → Int) (idx_begin idx_end : Nat)
    (set only_uc : Bool) (s : St) :
    ∃ r s' table_type row range,
      __mlxsw_sp_port_flood_set c env idx_begin idx_end set only_uc s = Res.ret r s' ∧
      (s.port.is_vport = false →
        table_type = .MLXSW_REG_SFGC_TABLE_TYPE_FID_OFFEST ∧ row = s.port.local_port) ∧
      (s.port.is_vport = true →
        table_type = .MLXSW_REG_SFGC_TABLE_TYPE_FID ∧
        (c.MLXSW_SP_VFID_PORT_MAX ≤ idx_begin → row = s.port.local_port) ∧
        (idx_begin < c.MLXSW_SP_VFID_PORT_MAX → row = c.MLXSW_PORT_CPU_PORT)) ∧
      range = (idx_end + U16 - idx_begin + 1) % U16 ∧
      (idx_begin ≤ idx_end → idx_end + 1 < U16 → range = idx_end - idx_begin + 1) ∧
      ∀ e ∈ new_events s s', e.op.kind = .sftr →
        e.op = .sftr .MLXSW_SP_FLOOD_TABLE_UC idx_begin table_type range row set ∨
        e.op = .sftr .MLXSW_SP_FLOOD_TABLE_BM idx_begin table_type range row set := by
  have hrange : idx_begin ≤ idx_end → idx_end + 1 < U16 →
      (idx_end + U16 - idx_begin + 1) % U16 = idx_end - idx_begin + 1 := by
    intro h1 h2
    have : idx_end + U16 - idx_begin + 1 = (idx_end - idx_begin + 1) + U16 := by omega
    rw [this, Nat.add_mod_right]
    exact Nat.mod_eq_of_lt (by omega)
  have htype : (s.port.is_vport = false →
        (if s.port.is_vport then flood_table_type.MLXSW_REG_SFGC_TABLE_TYPE_FID
          else .MLXSW_REG_SFGC_TABLE_TYPE_FID_OFFEST) = .MLXSW_REG_SFGC_TABLE_TYPE_FID_OFFEST ∧
        (if s.port.is_vport then
          (if mlxsw_sp_vfid_is_vport_br c idx_begin then s.port.local_port
            else c.MLXSW_PORT_CPU_PORT)
          else s.port.local_port) = s.port.local_port) ∧
      (s.port.is_vport = true →
        (if s.port.is_vport then flood_table_type.MLXSW_REG_SFGC_TABLE_TYPE_FID
          else .MLXSW_REG_SFGC_TABLE_TYPE_FID_OFFEST) = .MLXSW_REG_SFGC_TABLE_TYPE_FID ∧
        (c.MLXSW_SP_VFID_PORT_MAX ≤ idx_begin →
          (if s.port.is_vport then
            (if mlxsw_sp_vfid_is_vport_br c idx_begin then s.port.local_port
              else c.MLXSW_PORT_CPU_PORT)
            else s.port.local_port) = s.port.local_port) ∧
        (idx_begin < c.MLXSW_SP_VFID_PORT_MAX →
          (if s.port.is_vport then
            (if mlxsw_sp_vfid_is_vport_br c idx_begin then s.port.local_port
              else c.MLXSW_PORT_CPU_PORT)
            else s.port.local_port) = c.MLXSW_PORT_CPU_PORT)) := by
    constructor
    · intro h; simp [h]
    · intro h
      refine ⟨by simp [h], fun hge => ?_, fun hlt => ?_⟩
      · simp [h, mlxsw_sp_vfid_is_vport_br, hge]
      · simp [h, mlxsw_sp_vfid_is_vport_br, Nat.not_le.mpr hlt]
  by_cases h0 : env s.trace.length = 0
  · by_cases h1 : env (s.trace.length + 1) = 0
    · cases only_uc
      · refine ⟨_, _, _, _, _, by
          simp only [__mlxsw_sp_port_flood_set, kmalloc, mlxsw_reg_write, bind_apply,
            getSt_apply, env_call_apply, pure_apply, h0, h1, beq_self_eq_true, Bool.not_true,
            Bool.false_eq_true, if_false, ne_eq, not_true_eq_false, List.length_cons]
          rfl, htype.1, htype.2, rfl, hrange, ?_⟩
        rw [new_events_of_append s _ [_, _, _] rfl]
        intro e he hk
        simp only [List.mem_cons, List.mem_singleton, List.not_mem_nil, or_false] at he
        rcases he with rfl | rfl | rfl
        · exact Or.inr rfl
        · exact Or.inl rfl
        · simp [Op.kind] at hk
      · refine ⟨_, _, _, _, _, by
          simp only [__mlxsw_sp_port_flood_set, kmalloc, mlxsw_reg_write, bind_apply,
            getSt_apply, env_call_apply, pure_apply, h0, h1, beq_self_eq_true, Bool.not_true,
            Bool.false_eq_true, if_false, ne_eq, not_true_eq_false, List.length_cons, if_true]
          rfl, htype.1, htype.2, rfl, hrange, ?_⟩
        rw [new_events_of_append s _ [_, _] rfl]
        intro e he hk
        simp only [List.mem_cons, List.mem_singleton, List.not_mem_nil, or_false] at he
        rcases he with rfl | rfl
        · exact Or.inl rfl
        · simp [Op.kind] at hk
    · refine ⟨_, _, _, _, _, by
        simp only [__mlxsw_sp_port_flood_set, kmalloc, mlxsw_reg_write, bind_apply,
          getSt_apply, env_call_apply, pure_apply, h0, h1, beq_self_eq_true, Bool.not_true,
          Bool.false_eq_true, if_false, ne_eq, not_false_eq_true, List.length_cons, if_true]
        rfl, htype.1, htype.2, rfl, hrange, ?_⟩
      rw [new_events_of_append s _ [_, _] rfl]
      intro e he hk
      simp only [List.mem_cons, List.mem_singleton, List.not_mem_nil, or_false] at he
      rcases he with rfl | rfl
      · exact Or.inl rfl
      · simp [Op.kind] at hk
  · refine ⟨-ENOMEM, { s with trace := ⟨.kmalloc .sftr_pl, env s.trace.length⟩ :: s.trace },
      _, _, _, by simp [__mlxsw_sp_port_flood_set, kmalloc, h0], htype.1, htype.2, rfl,
      hrange, ?_⟩
    rw [new_events_of_append s _ [_] rfl]
    intro e he hk
    simp only [List.mem_singleton] at he
    subst he
    simp [Op.kind] at hk

/-! ## C23 -/

/-- A `for_down` loop with `vid_begin = 0` does not return: its `u16` counter is
never below 0. -/
theorem for_down_zero_no_return (body : Nat → M Unit) (fuel vid : Nat) (s s' : St) :
    for_down body 0 fuel vid s ≠ Res.ret () s' := by
  intro h
  obtain ⟨v', hv', -⟩ := for_down_partial body 0 (fun _ _ => True)
    (fun _ _ _ _ _ _ => trivial) fuel vid s s' trivial h
  omega

/-- What a run of `mlxsw_sp_port_add_vids` that returns has done: nothing but
interface-level adds and removes of vids of the range. -/
theorem add_vids_frame (env : Nat → Int) (fuel vid_begin vid_end : Nat) (s s' : St) (r : Int)
    (hve : vid_end + 1 < U16)
    (h : mlxsw_sp_port_add_vids env fuel vid_begin vid_end s = Res.ret r s') :
    Rel (fun a b => a = b) (fun a b => a = b)
      (fun e => ∃ v, vid_begin ≤ v ∧ v ≤ vid_end ∧
        (e.op = .add_vid s.port.local_port v ∨ e.op = .kill_vid s.port.local_port v)) s s' := by
  have hP := Preorderly_Rel (fun e : Ev => ∃ v, vid_begin ≤ v ∧ v ≤ vid_end ∧
        (e.op = .add_vid s.port.local_port v ∨ e.op = .kill_vid s.port.local_port v))
      Preorderly_eq Preorderly_eq
  have hstep : ∀ (t : St) (op : Op) (err : Int) (v : Nat), vid_begin ≤ v → v ≤ vid_end →
      (op = .add_vid s.port.local_port v ∨ op = .kill_vid s.port.local_port v) →
      Rel (fun a b => a = b) (fun a b => a = b)
        (fun e => ∃ v, vid_begin ≤ v ∧ v ≤ vid_end ∧
          (e.op = .add_vid s.port.local_port v ∨ e.op = .kill_vid s.port.local_port v)) s t →
      Rel (fun a b => a = b) (fun a b => a = b)
        (fun e => ∃ v, vid_begin ≤ v ∧ v ≤ vid_end ∧
          (e.op = .add_vid s.port.local_port v ∨ e.op = .kill_vid s.port.local_port v)) s
        { t with trace := ⟨op, err⟩ :: t.trace } := by
    intro t op err v h1 h2 hop hrel
    refine hP.trans _ _ _ hrel ⟨rfl, rfl, [⟨op, err⟩], rfl, fun e he => ?_⟩
    simp only [List.mem_singleton] at he
    subst he
    exact ⟨v, h1, h2, hop⟩
  unfold mlxsw_sp_port_add_vids at h
  simp only [bind_apply] at h
  cases hl : for_up (fun vid => do
      let err ← mlxsw_sp_port_add_vid env vid
      if err ≠ 0 then pure (some err) else pure none) 1 vid_end fuel vid_begin s with
  | bug _ => rw [hl] at h; simp at h
  | out_of_fuel => rw [hl] at h; simp at h
  | ret x s1 =>
    obtain ⟨v, e⟩ := x
    rw [hl] at h
    have key := for_up_partial _ 1 vid_end
      (fun w t => vid_begin ≤ w ∧ Rel (fun a b => a = b) (fun a b => a = b)
        (fun e => ∃ v, vid_begin ≤ v ∧ v ≤ vid_end ∧
          (e.op = .add_vid s.port.local_port v ∨ e.op = .kill_vid s.port.local_port v)) s t)
      (fun w _ t => vid_begin ≤ w ∧ Rel (fun a b => a = b) (fun a b => a = b)
        (fun e => ∃ v, vid_begin ≤ v ∧ v ≤ vid_end ∧
          (e.op = .add_vid s.port.local_port v ∨ e.op = .kill_vid s.port.local_port v)) s t)
      ?_ fuel vid_begin s v e s1 ⟨le_refl _, hP.refl s⟩ hl
    · cases e with
      | none =>
        simp only [pure_apply, Res.ret.injEq] at h
        obtain ⟨-, rfl⟩ := h
        exact key.2.2
      | some err =>
        obtain ⟨hv, hvb, hrel⟩ := key
        simp only [bind_apply] at h
        cases hd : for_down (fun v => do
            let _ ← mlxsw_sp_port_kill_vid env v
            pure ()) vid_begin fuel ((v + U16 - 1) % U16) s1 with
        | bug _ => rw [hd] at h; simp at h
        | out_of_fuel => rw [hd] at h; simp at h
        | ret u s2 =>
          rw [hd] at h
          simp only [pure_apply, Res.ret.injEq] at h
          obtain ⟨-, rfl⟩ := h
          by_cases hz : vid_begin = 0
          · subst hz
            exact absurd hd (for_down_zero_no_return _ _ _ _ _)
          · have hmod : (v + U16 - 1) % U16 = v - 1 := by
              have : v + U16 - 1 = (v - 1) + U16 := by omega
              rw [this, Nat.add_mod_right]
              exact Nat.mod_eq_of_lt (by omega)
            obtain ⟨w, -, -, -, hfin⟩ := for_down_partial _ vid_begin
              (fun w t => w ≤ vid_end ∧ w < U16 ∧ Rel (fun a b => a = b) (fun a b => a = b)
                (fun e => ∃ v, vid_begin ≤ v ∧ v ≤ vid_end ∧
                  (e.op = .add_vid s.port.local_port v ∨ e.op = .kill_vid s.port.local_port v))
                s t)
              (fun w t t' hw ⟨i1, i2, i3⟩ hb => by
                simp only [bind_apply, mlxsw_sp_port_kill_vid, getSt_apply, env_call_apply,
                  pure_apply, Res.ret.injEq, true_and] at hb
                subst hb
                have hm : (w + U16 - 1) % U16 = w - 1 := by
                  have : w + U16 - 1 = (w - 1) + U16 := by omega
                  rw [this, Nat.add_mod_right]
                  exact Nat.mod_eq_of_lt (by omega)
                rw [hm]
                refine ⟨by omega, by omega, hstep t _ _ w hw i1 (Or.inr ?_) i3⟩
                rw [← i3.2.1])
              fuel _ s1 s2 ⟨by rw [hmod]; omega, by rw [hmod]; omega, hrel⟩ hd
            exact hfin
    · intro w t e1 t' hle ⟨i1, i2⟩ hb
      simp only [bind_apply, mlxsw_sp_port_add_vid, getSt_apply, env_call_apply] at hb
      have hm : (w + 1) % U16 = w + 1 := Nat.mod_eq_of_lt (by omega)
      by_cases h0 : env t.trace.length = 0
      · simp only [h0, ne_eq, not_true_eq_false, if_false, pure_apply, Res.ret.injEq] at hb
        obtain ⟨rfl, rfl⟩ := hb
        refine ⟨by rw [hm]; omega, hstep t _ _ w i1 hle (Or.inl ?_) i2⟩
        rw [← i2.2.1]
      · simp only [h0, ne_eq, not_false_eq_true, if_true, pure_apply, Res.ret.injEq] at hb
        obtain ⟨rfl, rfl⟩ := hb
        refine ⟨i1, hstep t _ _ w i1 hle (Or.inl ?_) i2⟩
        rw [← i2.2.1]

/-- What a run of `mlxsw_sp_port_kill_vids` that returns has done: nothing but
interface-level removes of vids of the range. -/
theorem kill_vids_frame (env : Nat → Int) (fuel vid_begin vid_end : Nat) (s s' : St) (r : Int)
    (hve : vid_end + 1 < U16)
    (h : mlxsw_sp_port_kill_vids env fuel vid_begin vid_end s = Res.ret r s') :
    Rel (fun a b => a = b) (fun a b => a = b)
      (fun e => ∃ v, vid_begin ≤ v ∧ v ≤ vid_end ∧ e.op = .kill_vid s.port.local_port v)
      s s' := by
  have hP := Preorderly_Rel (fun e : Ev => ∃ v, vid_begin ≤ v ∧ v ≤ vid_end ∧
        e.op = .kill_vid s.port.local_port v)
      Preorderly_eq Preorderly_eq
  unfold mlxsw_sp_port_kill_vids at h
  simp only [bind_apply] at h
  cases hl : for_up (fun vid => do
      let err ← mlxsw_sp_port_kill_vid env vid
      if err ≠ 0 then pure (some err) else pure none) 1 vid_end fuel vid_begin s with
  | bug _ => rw [hl] at h; simp at h
  | out_of_fuel => rw [hl] at h; simp at h
  | ret x s1 =>
    obtain ⟨v, e⟩ := x
    rw [hl] at h
    have key := for_up_partial _ 1 vid_end
      (fun w t => vid_begin ≤ w ∧ Rel (fun a b => a = b) (fun a b => a = b)
        (fun e => ∃ v, vid_begin ≤ v ∧ v ≤ vid_end ∧ e.op = .kill_vid s.port.local_port v) s t)
      (fun _ _ t => Rel (fun a b => a = b) (fun a b => a = b)
        (fun e => ∃ v, vid_begin ≤ v ∧ v ≤ vid_end ∧ e.op = .kill_vid s.port.local_port v) s t)
      ?_ fuel vid_begin s v e s1 ⟨le_refl _, hP.refl s⟩ hl
    · cases e with
      | none =>
        simp only [pure_apply, Res.ret.injEq] at h
        obtain ⟨-, rfl⟩ := h
        exact key.2.2
      | some err =>
        simp only [pure_apply, Res.ret.injEq] at h
        obtain ⟨-, rfl⟩ := h
        exact key.2
    · intro w t e1 t' hle ⟨i1, i2⟩ hb
      simp only [bind_apply, mlxsw_sp_port_kill_vid, getSt_apply, env_call_apply] at hb
      have hm : (w + 1) % U16 = w + 1 := Nat.mod_eq_of_lt (by omega)
      have hnew : Rel (fun a b => a = b) (fun a b => a = b)
          (fun e => ∃ v, vid_begin ≤ v ∧ v ≤ vid_end ∧ e.op = .kill_vid s.port.local_port v) s
          { t with trace := ⟨.kill_vid t.port.local_port w, env t.trace.length⟩ :: t.trace } := by
        refine hP.trans _ _ _ i2 ⟨rfl, rfl, [_], rfl, fun e he => ?_⟩
        simp only [List.mem_singleton] at he
        subst he
        exact ⟨w, i1, hle, by rw [← i2.2.1]⟩
      by_cases h0 : env t.trace.length = 0
      · simp only [h0, ne_eq, not_true_eq_false, if_false, pure_apply, Res.ret.injEq] at hb
        obtain ⟨rfl, rfl⟩ := hb
        rw [h0] at hnew
        exact ⟨by rw [hm]; omega, hnew⟩
      · simp only [h0, ne_eq, not_false_eq_true, if_true, pure_apply, Res.ret.injEq] at hb
        obtain ⟨rfl, rfl⟩ := hb
        exact hnew

theorem kill_vids_returns (env : Nat → Int) (fuel vid_begin vid_end : Nat) (s : St)
    (hve : vid_end + 1 < U16) (hfuel : vid_end + 1 - vid_begin < fuel) :
    ∃ r s', mlxsw_sp_port_kill_vids env fuel vid_begin vid_end s = Res.ret r s' := by
  obtain ⟨x, s1, hl⟩ := for_up_returns (fun vid => do
      let err ← mlxsw_sp_port_kill_vid env vid
      if err ≠ 0 then pure (some err) else pure none) 1 vid_end
    (fun v t => by
      simp only [bind_apply, mlxsw_sp_port_kill_vid, getSt_apply, env_call_apply]
      split <;> exact ⟨_, _, rfl⟩) (by omega) hve fuel vid_begin s hfuel
  obtain ⟨v, e⟩ := x
  unfold mlxsw_sp_port_kill_vids
  simp only [bind_apply]
  rw [hl]
  cases e with
  | none => exact ⟨_, _, rfl⟩
  | some err => exact ⟨_, _, rfl⟩

theorem add_vids_returns (env : Nat → Int) (fuel vid_begin vid_end : Nat) (s : St)
    (hvb : 0 < vid_begin) (hve : vid_end + 1 < U16) (hfuel : vid_end + 1 - vid_begin < fuel) :
    ∃ r s', mlxsw_sp_port_add_vids env fuel vid_begin vid_end s = Res.ret r s' := by
  obtain ⟨x, s1, hl⟩ := for_up_returns (fun vid => do
      let err ← mlxsw_sp_port_add_vid env vid
      if err ≠ 0 then pure (some err) else pure none) 1 vid_end
    (fun v t => by
      simp only [bind_apply, mlxsw_sp_port_add_vid, getSt_apply, env_call_apply]
      split <;> exact ⟨_, _, rfl⟩) (by omega) hve fuel vid_begin s hfuel
  obtain ⟨v, e⟩ := x
  have key := for_up_partial _ 1 vid_end (fun w _ => vid_begin ≤ w) (fun w _ _ => vid_begin ≤ w)
    (fun w t e1 t' hle hI _ => by
      cases e1 with
      | none =>
        have hm : (w + 1) % U16 = w + 1 := Nat.mod_eq_of_lt (by omega)
        simp only [hm]
        omega
      | some _ => exact hI) fuel vid_begin s v e s1 (le_refl _) hl
  unfold mlxsw_sp_port_add_vids
  simp only [bind_apply]
  rw [hl]
  cases e with
  | none => exact ⟨_, _, rfl⟩
  | some err =>
    obtain ⟨h1, h2⟩ := key
    have hmod : (v + U16 - 1) % U16 = v - 1 := by
      have : v + U16 - 1 = (v - 1) + U16 := by omega
      rw [this, Nat.add_mod_right]
      exact Nat.mod_eq_of_lt (by omega)
    obtain ⟨s2, hd⟩ := for_down_returns (fun v => do
        let _ ← mlxsw_sp_port_kill_vid env v
        pure ()) vid_begin
      (fun v t => by
        simp only [bind_apply, mlxsw_sp_port_kill_vid, getSt_apply, env_call_apply]
        exact ⟨_, rfl⟩) hvb fuel ((v + U16 - 1) % U16) s1 (by rw [hmod]; omega)
      (by rw [hmod]; omega)
    simp only [bind_apply]
    rw [hd]
    exact ⟨_, _, rfl⟩

theorem vlans_add_not_bridged (c : Consts) (env : Nat → Int) (fuel vid_begin vid_end : Nat)
    (fu fp : Bool) (s : St) (hb : s.port.bridged = false) :
    __mlxsw_sp_port_vlans_add c env fuel vid_begin vid_end fu fp s
      = mlxsw_sp_port_add_vids env fuel vid_begin vid_end s := by
  simp only [__mlxsw_sp_port_vlans_add, vlans_add_exit, bind_apply, getSt_apply, hb,
    Bool.not_false, if_true]
  cases mlxsw_sp_port_add_vids env fuel vid_begin vid_end s <;> rfl

/-- C23: on a port that is not bridged, a run of `__mlxsw_sp_port_vlans_add` or
of `__mlxsw_sp_port_vlans_del` (`init = false`) that returns, with success or
with an error, has done nothing but interface-level VLAN adds and removes
(`mlxsw_sp_port_add_vid`, `mlxsw_sp_port_kill_vid`; removes only for the
delete) of the port for vids of the range: there is no FID, mapping, flood,
VLAN-table, PVID or STP request in its trace, and the switch (active FIDs) and
the port (active VLANs, PVID) are as before. With fuel for the range the delete
returns, and so does the add when `vid_begin > 0`. -/
theorem not_bridged_interface_level_only (c : Consts) (env : Nat → Int)
    (fuel vid_begin vid_end : Nat) (fu fp : Bool) (s : St)
    (hb : s.port.bridged = false) (hve : vid_end + 1 < U16) :
    (∀ r s', __mlxsw_sp_port_vlans_add c env fuel vid_begin vid_end fu fp s = Res.ret r s' →
      s'.sp = s.sp ∧ s'.port = s.port ∧
      ∀ e ∈ new_events s s', ∃ v, vid_begin ≤ v ∧ v ≤ vid_end ∧
        (e.op = .add_vid s.port.local_port v ∨ e.op = .kill_vid s.port.local_port v)) ∧
    (∀ r s', __mlxsw_sp_port_vlans_del c env fuel vid_begin vid_end false s = Res.ret r s' →
      s'.sp = s.sp ∧ s'.port = s.port ∧
      ∀ e ∈ new_events s s', ∃ v, vid_begin ≤ v ∧ v ≤ vid_end ∧
        e.op = .kill_vid s.port.local_port v) ∧
    (vid_end + 1 - vid_begin < fuel →
      (∃ r s', __mlxsw_sp_port_vlans_del c env fuel vid_begin vid_end false s = Res.ret r s') ∧
      (0 < vid_begin →
        ∃ r s', __mlxsw_sp_port_vlans_add c env fuel vid_begin vid_end fu fp s
          = Res.ret r s')) := by
  rw [vlans_add_not_bridged c env fuel vid_begin vid_end fu fp s hb,
    vlans_del_not_bridged c env fuel vid_begin vid_end s hb]
  refine ⟨fun r s' h => ?_, fun r s' h => ?_, fun hfuel => ⟨?_, fun hvb => ?_⟩⟩
  · obtain ⟨h1, h2, evs, h3, h4⟩ := add_vids_frame env fuel vid_begin vid_end s s' r hve h
    rw [new_events_of_append s s' evs h3]
    exact ⟨h1.symm, h2.symm, h4⟩
  · obtain ⟨h1, h2, evs, h3, h4⟩ := kill_vids_frame env fuel vid_begin vid_end s s' r hve h
    rw [new_events_of_append s s' evs h3]
    exact ⟨h1.symm, h2.symm, h4⟩
  · exact kill_vids_returns env fuel vid_begin vid_end s hve hfuel
  · exact add_vids_returns env fuel vid_begin vid_end s hvb hve hfuel

/-- Instance of C23: on `ex_port_unbridged`, the range 5 to 7, the second
interface-level request failing. -/
theorem not_bridged_interface_level_only_witness :
    (∀ r s', __mlxsw_sp_port_vlans_add mlxsw_consts (fail_at 1) 9 5 7 true true
        ex_st_unbridged = Res.ret r s' →
      s'.sp = ex_st_unbridged.sp ∧ s'.port = ex_st_unbridged.port ∧
      ∀ e ∈ new_events ex_st_unbridged s', ∃ v, 5 ≤ v ∧ v ≤ 7 ∧
        (e.op = .add_vid ex_st_unbridged.port.local_port v ∨
          e.op = .kill_vid ex_st_unbridged.port.local_port v)) ∧
    (∀ r s', __mlxsw_sp_port_vlans_del mlxsw_consts (fail_at 1) 9 5 7 false
        ex_st_unbridged = Res.ret r s' →
      s'.sp = ex_st_unbridged.sp ∧ s'.port = ex_st_unbridged.port ∧
      ∀ e ∈ new_events ex_st_unbridged s', ∃ v, 5 ≤ v ∧ v ≤ 7 ∧
        e.op = .kill_vid ex_st_unbridged.port.local_port v) ∧
    (7 + 1 - 5 < 9 →
      (∃ r s', __mlxsw_sp_port_vlans_del mlxsw_consts (fail_at 1) 9 5 7 false
        ex_st_unbridged = Res.ret r s') ∧
      (0 < 5 →
        ∃ r s', __mlxsw_sp_port_vlans_add mlxsw_consts (fail_at 1) 9 5 7 true true
          ex_st_unbridged = Res.ret r s')) :=
  not_bridged_interface_level_only mlxsw_consts (fail_at 1) 9 5 7 true true ex_st_unbridged
    (by decide) (by decide)

/-- The run of the instance of C23, evaluated: the add of the vids 5 to 7 whose
second request fails returns `-EIO` after adding vid 5, failing on vid 6 and
removing vid 5 again. -/
theorem not_bridged_add_run :
    __mlxsw_sp_port_vlans_add mlxsw_consts (fail_at 1) 9 5 7 true true ex_st_unbridged =
      Res.ret (-5) { ex_st_unbridged with trace :=
        [⟨.kill_vid 3 5, 0⟩, ⟨.add_vid 3 6, -5⟩, ⟨.add_vid 3 5, 0⟩] } := by
  decide!

/-! ## C26 -/

/-- The loop of `__mlxsw_sp_port_vlans_set` from the batch of index `j` on: it
writes the batches `j`, `j + 1`, ... in this order, up to the last batch of the
range or to the first write that fails. -/
theorem vlans_set_loop_spec (c : Consts) (env : Nat → Int) (vid_begin vid_end : Nat)
    (m u : Bool) (hR : 0 < c.MLXSW_REG_SPVM_REC_MAX_COUNT)
    (hwrap : vid_end + c.MLXSW_REG_SPVM_REC_MAX_COUNT < U16) (hle : vid_begin ≤ vid_end) :
    ∀ fuel j s, j ≤ (vid_end - vid_begin) / c.MLXSW_REG_SPVM_REC_MAX_COUNT + 1 →
      vid_end + 1 - (vid_begin + j * c.MLXSW_REG_SPVM_REC_MAX_COUNT) < fuel →
      ∃ (res : Nat × Option Int) (s' : St) (k : Nat) (evs : List Ev),
        for_up (fun vid => do
            let err ← mlxsw_sp_port_vlan_set env vid
              (min ((vid + c.MLXSW_REG_SPVM_REC_MAX_COUNT - 1) % U16) vid_end) m u
            if err ≠ 0 then pure (some err) else pure none)
          c.MLXSW_REG_SPVM_REC_MAX_COUNT vid_end fuel
          (vid_begin + j * c.MLXSW_REG_SPVM_REC_MAX_COUNT) s = Res.ret res s' ∧
        s'.sp = s.sp ∧ s'.port = s.port ∧ s'.trace = evs ++ s.trace ∧
        j + k ≤ (vid_end - vid_begin) / c.MLXSW_REG_SPVM_REC_MAX_COUNT + 1 ∧
        evs.reverse.map Ev.op = (List.range' j k).map (fun i =>
          Op.vlan_set s.port.local_port (vid_begin + i * c.MLXSW_REG_SPVM_REC_MAX_COUNT)
            (min (vid_begin + i * c.MLXSW_REG_SPVM_REC_MAX_COUNT
              + c.MLXSW_REG_SPVM_REC_MAX_COUNT - 1) vid_end) m u) ∧
        ((res.2 = none ∧
            j + k = (vid_end - vid_begin) / c.MLXSW_REG_SPVM_REC_MAX_COUNT + 1 ∧
            ∀ ev ∈ evs, ev.err = 0) ∨
         (∃ err ev rest, res.2 = some err ∧ err ≠ 0 ∧ evs = ev :: rest ∧ ev.err = err ∧
            ∀ e ∈ rest, e.err = 0)) := by
  have hdm := Nat.div_add_mod (vid_end - vid_begin) c.MLXSW_REG_SPVM_REC_MAX_COUNT
  have hml := Nat.mod_lt (vid_end - vid_begin) hR
  have hcomm : c.MLXSW_REG_SPVM_REC_MAX_COUNT *
      ((vid_end - vid_begin) / c.MLXSW_REG_SPVM_REC_MAX_COUNT)
      = (vid_end - vid_begin) / c.MLXSW_REG_SPVM_REC_MAX_COUNT
        * c.MLXSW_REG_SPVM_REC_MAX_COUNT := Nat.mul_comm _ _
  intro fuel
  induction fuel with
  | zero => intro j s _ h; omega
  | succ fuel ih =>
    intro j s hj hfuel
    unfold for_up
    by_cases hin : vid_begin + j * c.MLXSW_REG_SPVM_REC_MAX_COUNT ≤ vid_end
    · -- the batch of index `j` is written
      have hjd : j ≤ (vid_end - vid_begin) / c.MLXSW_REG_SPVM_REC_MAX_COUNT := by
        rw [Nat.le_div_iff_mul_le hR]
        omega
      have hsucc : (j + 1) * c.MLXSW_REG_SPVM_REC_MAX_COUNT
          = j * c.MLXSW_REG_SPVM_REC_MAX_COUNT + c.MLXSW_REG_SPVM_REC_MAX_COUNT :=
        Nat.succ_mul _ _
      have hm1 : (vid_begin + j * c.MLXSW_REG_SPVM_REC_MAX_COUNT
          + c.MLXSW_REG_SPVM_REC_MAX_COUNT - 1) % U16
          = vid_begin + j * c.MLXSW_REG_SPVM_REC_MAX_COUNT
            + c.MLXSW_REG_SPVM_REC_MAX_COUNT - 1 := Nat.mod_eq_of_lt (by omega)
      have hm2 : (vid_begin + j * c.MLXSW_REG_SPVM_REC_MAX_COUNT
          + c.MLXSW_REG_SPVM_REC_MAX_COUNT) % U16
          = vid_begin + (j + 1) * c.MLXSW_REG_SPVM_REC_MAX_COUNT := by
        rw [Nat.mod_eq_of_lt (by omega), hsucc]
        omega
      simp only [hin, if_true, bind_apply, mlxsw_sp_port_vlan_set, getSt_apply, env_call_apply,
        hm1]
      by_cases h0 : env s.trace.length = 0
      · simp only [h0, ne_eq, not_true_eq_false, if_false, pure_apply, hm2]
        obtain ⟨res, s', k, evs, h1, h2, h3, h4, h5, h6, h7⟩ := ih (j + 1)
          { s with trace := ⟨.vlan_set s.port.local_port
              (vid_begin + j * c.MLXSW_REG_SPVM_REC_MAX_COUNT)
              (min (vid_begin + j * c.MLXSW_REG_SPVM_REC_MAX_COUNT
                + c.MLXSW_REG_SPVM_REC_MAX_COUNT - 1) vid_end) m u, 0⟩ :: s.trace }
          (by omega) (by omega)
        refine ⟨res, s', k + 1, evs ++ [⟨.vlan_set s.port.local_port
              (vid_begin + j * c.MLXSW_REG_SPVM_REC_MAX_COUNT)
              (min (vid_begin + j * c.MLXSW_REG_SPVM_REC_MAX_COUNT
                + c.MLXSW_REG_SPVM_REC_MAX_COUNT - 1) vid_end) m u, 0⟩],
          h1, h2, h3, by rw [h4]; simp, by omega, ?_, ?_⟩
        · simp only [List.reverse_append, List.reverse_cons, List.reverse_nil, List.nil_append,
            List.singleton_append, List.map_cons, List.range'_succ]
          rw [h6]
        · rcases h7 with ⟨a, b, d⟩ | ⟨err, ev, rest, a, b, d, e, f⟩
          · left
            refine ⟨a, by omega, fun ev hev => ?_⟩
            rcases List.mem_append.mp hev with hev | hev
            · exact d ev hev
            · simp only [List.mem_singleton] at hev
              subst hev
              rfl
          · right
            refine ⟨err, ev, rest ++ [_], a, b, by rw [d]; rfl, e, fun x hx => ?_⟩
            rcases List.mem_append.mp hx with hx | hx
            · exact f x hx
            · simp only [List.mem_singleton] at hx
              subst hx
              rfl
      · simp only [h0, ne_eq, not_false_eq_true, if_true, pure_apply]
        refine ⟨_, _, 1, [_], rfl, rfl, rfl, rfl, by omega, by simp, Or.inr
          ⟨env s.trace.length, _, [], rfl, h0, rfl, rfl, by simp⟩⟩
    · -- the range is exhausted
      have hjd : ¬ j ≤ (vid_end - vid_begin) / c.MLXSW_REG_SPVM_REC_MAX_COUNT := by
        rw [Nat.le_div_iff_mul_le hR]
        omega
      simp only [hin, if_false, pure_apply]
      exact ⟨_, s, 0, [], rfl, rfl, rfl, rfl, by omega, by simp, Or.inl ⟨rfl, by omega, by simp⟩⟩

/-- C26: for a range `vid_begin <= vid_end <= 4095` and a VLAN-table record
maximum `R` (between 1 and 4096), `__mlxsw_sp_port_vlans_set` returns, having
issued VLAN-table writes for the batches `0, 1, ..., k - 1` in this order, all
with the asked membership and untagged values, where batch `i` is the sub-range
from `vid_begin + i * R` to `min (vid_begin + i * R + R - 1) vid_end`. When every
write succeeds it returns 0 and `k` is `(vid_end - vid_begin) / R + 1`, the
ceiling of `(vid_end - vid_begin + 1) / R`; when a write fails it returns the
error of that write, which is the last one issued. The batches are not empty,
hold at most `R` vids each, each starts right after the one before, the first
starts at `vid_begin` and the last ends at `vid_end`. -/
theorem vlans_set_batches (c : Consts) (env : Nat → Int) (fuel vid_begin vid_end : Nat)
    (m u : Bool) (s : St) (hle : vid_begin ≤ vid_end) (hve : vid_end < VLAN_N_VID)
    (hR : 0 < c.MLXSW_REG_SPVM_REC_MAX_COUNT) (hR' : c.MLXSW_REG_SPVM_REC_MAX_COUNT ≤ VLAN_N_VID)
    (hfuel : vid_end + 1 - vid_begin < fuel) :
    ∃ (r : Int) (s' : St) (k : Nat) (evs : List Ev),
      __mlxsw_sp_port_vlans_set c env fuel vid_begin vid_end m u s = Res.ret r s' ∧
      s'.sp = s.sp ∧ s'.port = s.port ∧ s'.trace = evs ++ s.trace ∧
      evs.reverse.map Ev.op = (List.range k).map (fun i =>
        Op.vlan_set s.port.local_port (vid_begin + i * c.MLXSW_REG_SPVM_REC_MAX_COUNT)
          (min (vid_begin + i * c.MLXSW_REG_SPVM_REC_MAX_COUNT
            + c.MLXSW_REG_SPVM_REC_MAX_COUNT - 1) vid_end) m u) ∧
      ((r = 0 ∧ k = (vid_end - vid_begin) / c.MLXSW_REG_SPVM_REC_MAX_COUNT + 1 ∧
          ∀ ev ∈ evs, ev.err = 0) ∨
       (r ≠ 0 ∧ k ≤ (vid_end - vid_begin) / c.MLXSW_REG_SPVM_REC_MAX_COUNT + 1 ∧
          ∃ ev rest, evs = ev :: rest ∧ ev.err = r ∧ ∀ e ∈ rest, e.err = 0)) ∧
      (vid_end - vid_begin) / c.MLXSW_REG_SPVM_REC_MAX_COUNT + 1
        = (vid_end - vid_begin + 1 + (c.MLXSW_REG_SPVM_REC_MAX_COUNT - 1))
          / c.MLXSW_REG_SPVM_REC_MAX_COUNT ∧
      ∀ i, i < (vid_end - vid_begin) / c.MLXSW_REG_SPVM_REC_MAX_COUNT + 1 →
        vid_begin + i * c.MLXSW_REG_SPVM_REC_MAX_COUNT
          ≤ min (vid_begin + i * c.MLXSW_REG_SPVM_REC_MAX_COUNT
              + c.MLXSW_REG_SPVM_REC_MAX_COUNT - 1) vid_end ∧
        min (vid_begin + i * c.MLXSW_REG_SPVM_REC_MAX_COUNT
              + c.MLXSW_REG_SPVM_REC_MAX_COUNT - 1) vid_end + 1
            - (vid_begin + i * c.MLXSW_REG_SPVM_REC_MAX_COUNT)
          ≤ c.MLXSW_REG_SPVM_REC_MAX_COUNT ∧
        (i + 1 < (vid_end - vid_begin) / c.MLXSW_REG_SPVM_REC_MAX_COUNT + 1 →
          min (vid_begin + i * c.MLXSW_REG_SPVM_REC_MAX_COUNT
              + c.MLXSW_REG_SPVM_REC_MAX_COUNT - 1) vid_end + 1
            = vid_begin + (i + 1) * c.MLXSW_REG_SPVM_REC_MAX_COUNT) ∧
        (i + 1 = (vid_end - vid_begin) / c.MLXSW_REG_SPVM_REC_MAX_COUNT + 1 →
          min (vid_begin + i * c.MLXSW_REG_SPVM_REC_MAX_COUNT
              + c.MLXSW_REG_SPVM_REC_MAX_COUNT - 1) vid_end = vid_end) := by
  have hV : VLAN_N_VID = 4096 := rfl
  have hU : U16 = 65536 := rfl
  obtain ⟨res, s', k, evs, h1, h2, h3, h4, h5, h6, h7⟩ :=
    vlans_set_loop_spec c env vid_begin vid_end m u hR (by omega) hle fuel 0 s
      (Nat.zero_le _) (by simp only [Nat.zero_mul, Nat.add_zero]; exact hfuel)
  simp only [Nat.zero_mul, Nat.add_zero, Nat.zero_add] at h1 h5 h7
  rw [← List.range_eq_range'] at h6
  obtain ⟨v, e⟩ := res
  have hrun : ∀ r : Int, (match e with | none => r = 0 | some err => r = err) →
      __mlxsw_sp_port_vlans_set c env fuel vid_begin vid_end m u s = Res.ret r s' := by
    intro r hr
    unfold __mlxsw_sp_port_vlans_set
    simp only [bind_apply]
    rw [h1]
    cases e with
    | none => simp only at hr; subst hr; rfl
    | some err => simp only at hr; subst hr; rfl
  have hdm := Nat.div_add_mod (vid_end - vid_begin) c.MLXSW_REG_SPVM_REC_MAX_COUNT
  have hml := Nat.mod_lt (vid_end - vid_begin) hR
  have hcomm : c.MLXSW_REG_SPVM_REC_MAX_COUNT *
      ((vid_end - vid_begin) / c.MLXSW_REG_SPVM_REC_MAX_COUNT)
      = (vid_end - vid_begin) / c.MLXSW_REG_SPVM_REC_MAX_COUNT
        * c.MLXSW_REG_SPVM_REC_MAX_COUNT := Nat.mul_comm _ _
  have harith : (vid_end - vid_begin) / c.MLXSW_REG_SPVM_REC_MAX_COUNT + 1
        = (vid_end - vid_begin + 1 + (c.MLXSW_REG_SPVM_REC_MAX_COUNT - 1))
          / c.MLXSW_REG_SPVM_REC_MAX_COUNT := by
    have : vid_end - vid_begin + 1 + (c.MLXSW_REG_SPVM_REC_MAX_COUNT - 1)
        = vid_end - vid_begin + c.MLXSW_REG_SPVM_REC_MAX_COUNT := by omega
    rw [this, Nat.add_div_right _ hR]
  have hbatch : ∀ i, i < (vid_end - vid_begin) / c.MLXSW_REG_SPVM_REC_MAX_COUNT + 1 →
        vid_begin + i * c.MLXSW_REG_SPVM_REC_MAX_COUNT
          ≤ min (vid_begin + i * c.MLXSW_REG_SPVM_REC_MAX_COUNT
              + c.MLXSW_REG_SPVM_REC_MAX_COUNT - 1) vid_end ∧
        min (vid_begin + i * c.MLXSW_REG_SPVM_REC_MAX_COUNT
              + c.MLXSW_REG_SPVM_REC_MAX_COUNT - 1) vid_end + 1
            - (vid_begin + i * c.MLXSW_REG_SPVM_REC_MAX_COUNT)
          ≤ c.MLXSW_REG_SPVM_REC_MAX_COUNT ∧
        (i + 1 < (vid_end - vid_begin) / c.MLXSW_REG_SPVM_REC_MAX_COUNT + 1 →
          min (vid_begin + i * c.MLXSW_REG_SPVM_REC_MAX_COUNT
              + c.MLXSW_REG_SPVM_REC_MAX_COUNT - 1) vid_end + 1
            = vid_begin + (i + 1) * c.MLXSW_REG_SPVM_REC_MAX_COUNT) ∧
        (i + 1 = (vid_end - vid_begin) / c.MLXSW_REG_SPVM_REC_MAX_COUNT + 1 →
          min (vid_begin + i * c.MLXSW_REG_SPVM_REC_MAX_COUNT
              + c.MLXSW_REG_SPVM_REC_MAX_COUNT - 1) vid_end = vid_end) := by
    intro i hi
    have hiR : i * c.MLXSW_REG_SPVM_REC_MAX_COUNT
        ≤ (vid_end - vid_begin) / c.MLXSW_REG_SPVM_REC_MAX_COUNT
          * c.MLXSW_REG_SPVM_REC_MAX_COUNT := Nat.mul_le_mul_right _ (by omega)
    have hsucc : (i + 1) * c.MLXSW_REG_SPVM_REC_MAX_COUNT
        = i * c.MLXSW_REG_SPVM_REC_MAX_COUNT + c.MLXSW_REG_SPVM_REC_MAX_COUNT :=
      Nat.succ_mul _ _
    refine ⟨by omega, by omega, fun hlt => ?_, fun heq => ?_⟩
    · have : (i + 1) * c.MLXSW_REG_SPVM_REC_MAX_COUNT
          ≤ (vid_end - vid_begin) / c.MLXSW_REG_SPVM_REC_MAX_COUNT
            * c.MLXSW_REG_SPVM_REC_MAX_COUNT := Nat.mul_le_mul_right _ (by omega)
      omega
    · have hi' : i = (vid_end - vid_begin) / c.MLXSW_REG_SPVM_REC_MAX_COUNT := by omega
      rw [← hi'] at hdm hcomm
      omega
  rcases h7 with ⟨a, b, d⟩ | ⟨err, ev, rest, a, b, d, e', f⟩
  · simp only at a
    subst a
    exact ⟨0, s', k, evs, hrun 0 rfl, h2, h3, h4, h6, Or.inl ⟨rfl, b, d⟩, harith, hbatch⟩
  · simp only at a
    subst a
    exact ⟨err, s', k, evs, hrun err rfl, h2, h3, h4, h6,
      Or.inr ⟨b, h5, ev, rest, d, e', f⟩, harith, hbatch⟩

/-- Instance of C26: the range 100 to 700 with the record maximum of the driver,
the second write failing. -/
theorem vlans_set_batches_witness :
    ∃ (r : Int) (s' : St) (k : Nat) (evs : List Ev),
      __mlxsw_sp_port_vlans_set mlxsw_consts (fail_at 1) 700 100 700 true false ex_st = Res.ret r s' ∧
      s'.sp = ex_st.sp ∧ s'.port = ex_st.port ∧ s'.trace = evs ++ ex_st.trace ∧
      evs.reverse.map Ev.op = (List.range k).map (fun i =>
        Op.vlan_set ex_st.port.local_port (100 + i * mlxsw_consts.MLXSW_REG_SPVM_REC_MAX_COUNT)
          (min (100 + i * mlxsw_consts.MLXSW_REG_SPVM_REC_MAX_COUNT
            + mlxsw_consts.MLXSW_REG_SPVM_REC_MAX_COUNT - 1) 700) true false) ∧
      ((r = 0 ∧ k = (700 - 100) / mlxsw_consts.MLXSW_REG_SPVM_REC_MAX_COUNT + 1 ∧
          ∀ ev ∈ evs, ev.err = 0) ∨
       (r ≠ 0 ∧ k ≤ (700 - 100) / mlxsw_consts.MLXSW_REG_SPVM_REC_MAX_COUNT + 1 ∧
          ∃ ev rest, evs = ev :: rest ∧ ev.err = r ∧ ∀ e ∈ rest, e.err = 0)) ∧
      (700 - 100) / mlxsw_consts.MLXSW_REG_SPVM_REC_MAX_COUNT + 1
        = (700 - 100 + 1 + (mlxsw_consts.MLXSW_REG_SPVM_REC_MAX_COUNT - 1))
          / mlxsw_consts.MLXSW_REG_SPVM_REC_MAX_COUNT ∧
      ∀ i, i < (700 - 100) / mlxsw_consts.MLXSW_REG_SPVM_REC_MAX_COUNT + 1 →
        100 + i * mlxsw_consts.MLXSW_REG_SPVM_REC_MAX_COUNT
          ≤ min (100 + i * mlxsw_consts.MLXSW_REG_SPVM_REC_MAX_COUNT
              + mlxsw_consts.MLXSW_REG_SPVM_REC_MAX_COUNT - 1) 700 ∧
        min (100 + i * mlxsw_consts.MLXSW_REG_SPVM_REC_MAX_COUNT
              + mlxsw_consts.MLXSW_REG_SPVM_REC_MAX_COUNT - 1) 700 + 1
            - (100 + i * mlxsw_consts.MLXSW_REG_SPVM_REC_MAX_COUNT)
          ≤ mlxsw_consts.MLXSW_REG_SPVM_REC_MAX_COUNT ∧
        (i + 1 < (700 - 100) / mlxsw_consts.MLXSW_REG_SPVM_REC_MAX_COUNT + 1 →
          min (100 + i * mlxsw_consts.MLXSW_REG_SPVM_REC_MAX_COUNT
              + mlxsw_consts.MLXSW_REG_SPVM_REC_MAX_COUNT - 1) 700 + 1
            = 100 + (i + 1) * mlxsw_consts.MLXSW_REG_SPVM_REC_MAX_COUNT) ∧
        (i + 1 = (700 - 100) / mlxsw_consts.MLXSW_REG_SPVM_REC_MAX_COUNT + 1 →
          min (100 + i * mlxsw_consts.MLXSW_REG_SPVM_REC_MAX_COUNT
              + mlxsw_consts.MLXSW_REG_SPVM_REC_MAX_COUNT - 1) 700 = 700) :=
  vlans_set_batches mlxsw_consts (fail_at 1) 700 100 700 true false ex_st
    (by decide) (by decide) (by decide) (by decide) (by decide)

/-- The batches of the range 100 to 700 with the driver's record maximum 256,
the second write failing: the first two batches are written, the third is not. -/
theorem vlans_set_batches_run :
    __mlxsw_sp_port_vlans_set mlxsw_consts (fail_at 1) 700 100 700 true false ex_st =
      Res.ret (-5) { ex_st with trace :=
        [⟨.vlan_set 3 356 611 true false, -5⟩, ⟨.vlan_set 3 100 355 true false, 0⟩] } ∧
    __mlxsw_sp_port_vlans_set mlxsw_consts no_failure 700 100 700 true false ex_st =
      Res.ret 0 { ex_st with trace :=
        [⟨.vlan_set 3 612 700 true false, 0⟩, ⟨.vlan_set 3 356 611 true false, 0⟩,
         ⟨.vlan_set 3 100 355 true false, 0⟩] } := by
  decide!

/-! ## C27 -/

/-- What `__mlxsw_sp_port_flood_set` does on a physical port, the unicast table
only. -/
theorem flood_set_uc_eq (c : Consts) (env : Nat → Int) (b e : Nat) (set : Bool) (s : St)
    (hphys : s.port.is_vport = false) :
    __mlxsw_sp_port_flood_set c env b e set true s =
      if env s.trace.length ≠ 0 then
        Res.ret (-ENOMEM) { s with trace := ⟨.kmalloc .sftr_pl, env s.trace.length⟩ :: s.trace }
      else
        Res.ret (env (s.trace.length + 1)) { s with trace :=
          ⟨flood_uc_op s.port.local_port b e set, env (s.trace.length + 1)⟩ ::
          ⟨.kmalloc .sftr_pl, 0⟩ :: s.trace } := by
  by_cases h0 : env s.trace.length = 0
  · by_cases h1 : env (s.trace.length + 1) = 0
    · simp [__mlxsw_sp_port_flood_set, kmalloc, mlxsw_reg_write, h0, h1, hphys, flood_uc_op,
        env_call, getSt]
    · simp [__mlxsw_sp_port_flood_set, kmalloc, mlxsw_reg_write, h0, h1, hphys, flood_uc_op,
        env_call, getSt]
  · simp [__mlxsw_sp_port_flood_set, kmalloc, mlxsw_reg_write, h0, env_call, getSt]

/-- The set bits below `v` are the set bits of the bitmap that come before `v`. -/
theorem for_each_set_bit_prefix (addr size v : Nat) (pre post : List Nat)
    (h : for_each_set_bit addr size = pre ++ v :: post) :
    for_each_set_bit addr v = pre := by
  have hs := pairwise_for_each_set_bit addr size
  rw [h] at hs
  have hs' := List.pairwise_append.1 hs
  have hv : v ∈ for_each_set_bit addr size := by rw [h]; simp
  have hvn := ((mem_for_each_set_bit _ _ _).1 hv).1
  refine List.eq_of_perm_of_sorted ?_ (pairwise_for_each_set_bit addr v) hs'.1
  refine (List.perm_ext_iff_of_nodup (nodup_for_each_set_bit addr v)
    (hs'.1.imp (fun h => Nat.ne_of_lt h))).2 (fun x => ?_)
  rw [mem_for_each_set_bit]
  constructor
  · rintro ⟨hx, hb⟩
    have hm : x ∈ for_each_set_bit addr size :=
      (mem_for_each_set_bit _ _ _).2 ⟨by omega, hb⟩
    rw [h] at hm
    rcases List.mem_append.1 hm with hm | hm
    · exact hm
    · rcases List.mem_cons.1 hm with hm | hm
      · omega
      · have := (List.pairwise_cons.1 hs'.2.1).1 x hm
        omega
  · intro hx
    have hm : x ∈ for_each_set_bit addr size := by rw [h]; simp [hx]
    exact ⟨hs'.2.2 x hx v (by simp), ((mem_for_each_set_bit _ _ _).1 hm).2⟩

/-- The first loop of `mlxsw_sp_port_uc_flood_set` on a physical port: it
allocates a buffer and writes the unicast table for the vids of the list in
order, up to the first allocation or write that fails. -/
theorem uc_flood_set_vids_spec (c : Consts) (env : Nat → Int) (set : Bool) :
    ∀ (vids : List Nat) (s : St), s.port.is_vport = false →
    ∃ (r : Option (Int × Nat)) (s' : St) (evs : List Ev),
      uc_flood_set_vids c env set vids s = Res.ret r s' ∧ s'.sp = s.sp ∧ s'.port = s.port ∧
      s'.trace = evs ++ s.trace ∧
      ((r = none ∧
          evs.reverse.map Ev.op = vids.flatMap (fun vid =>
            [.kmalloc .sftr_pl, flood_uc_op s.port.local_port vid vid set]) ∧
          ∀ e ∈ evs, e.err = 0) ∨
       (∃ (err : Int) (v : Nat) (pre post : List Nat) (fail fwd : List Ev),
          r = some (err, v) ∧ err ≠ 0 ∧ vids = pre ++ v :: post ∧ evs = fail ++ fwd ∧
          fwd.reverse.map Ev.op = pre.flatMap (fun vid =>
            [.kmalloc .sftr_pl, flood_uc_op s.port.local_port vid vid set]) ∧
          (∀ e ∈ fwd, e.err = 0) ∧
          ((∃ e : Int, e ≠ 0 ∧ fail = [⟨.kmalloc .sftr_pl, e⟩] ∧ err = -ENOMEM) ∨
           fail = [⟨flood_uc_op s.port.local_port v v set, err⟩, ⟨.kmalloc .sftr_pl, 0⟩]))) := by
  intro vids
  induction vids with
  | nil =>
    intro s _
    exact ⟨none, s, [], rfl, rfl, rfl, rfl, Or.inl ⟨rfl, rfl, by simp⟩⟩
  | cons vid vids ih =>
    intro s hphys
    have hstep := flood_set_uc_eq c env vid vid set s hphys
    by_cases h0 : env s.trace.length = 0
    · by_cases h1 : env (s.trace.length + 1) = 0
      · rw [if_neg (by simpa using h0), h1] at hstep
        obtain ⟨r, s', evs, hrun, hsp, hport, htr, hcase⟩ := ih
          { s with trace := ⟨flood_uc_op s.port.local_port vid vid set, 0⟩ ::
            ⟨.kmalloc .sftr_pl, 0⟩ :: s.trace } hphys
        refine ⟨r, s', evs ++ [⟨flood_uc_op s.port.local_port vid vid set, 0⟩,
          ⟨.kmalloc .sftr_pl, 0⟩], ?_, hsp, hport, ?_, ?_⟩
        · unfold uc_flood_set_vids
          simp only [bind_apply]
          rw [hstep]
          simpa using hrun
        · rw [htr]; simp
        · rcases hcase with ⟨hr, hops, hok⟩ | ⟨err, v, pre, post, fail, fwd, hr, he, hv, hevs,
            hops, hok, hfail⟩
          · refine Or.inl ⟨hr, ?_, ?_⟩
            · simp only [List.reverse_append, List.map_append, List.flatMap_cons, hops]
              rfl
            · intro e he
              rcases List.mem_append.1 he with he | he
              · exact hok e he
              · simp at he
                rcases he with he | he <;> rw [he]
          · refine Or.inr ⟨err, v, vid :: pre, post, fail,
              fwd ++ [⟨flood_uc_op s.port.local_port vid vid set, 0⟩, ⟨.kmalloc .sftr_pl, 0⟩],
              hr, he, by rw [hv]; rfl, by rw [hevs, List.append_assoc], ?_, ?_, hfail⟩
            · simp only [List.reverse_append, List.map_append, List.flatMap_cons, hops]
              rfl
            · intro e he
              rcases List.mem_append.1 he with he | he
              · exact hok e he
              · simp at he
                rcases he with he | he <;> rw [he]
      · rw [if_neg (by simpa using h0)] at hstep
        refine ⟨some (env (s.trace.length + 1), vid),
          { s with trace := ⟨flood_uc_op s.port.local_port vid vid set,
            env (s.trace.length + 1)⟩ :: ⟨.kmalloc .sftr_pl, 0⟩ :: s.trace },
          [⟨flood_uc_op s.port.local_port vid vid set, env (s.trace.length + 1)⟩,
            ⟨.kmalloc .sftr_pl, 0⟩], ?_, rfl, rfl, rfl, ?_⟩
        · unfold uc_flood_set_vids
          simp only [bind_apply]
          rw [hstep]
          simp [h1]
        · exact Or.inr ⟨_, vid, [], vids, _, [], rfl, h1, rfl, by simp, rfl, by simp,
            Or.inr rfl⟩
    · rw [if_pos h0] at hstep
      refine ⟨some (-ENOMEM, vid),
        { s with trace := ⟨.kmalloc .sftr_pl, env s.trace.length⟩ :: s.trace },
        [⟨.kmalloc .sftr_pl, env s.trace.length⟩], ?_, rfl, rfl, rfl, ?_⟩
      · unfold uc_flood_set_vids
        simp only [bind_apply]
        rw [hstep]
        simp [ENOMEM]
      · exact Or.inr ⟨_, vid, [], vids, _, [], rfl, by simp [ENOMEM], rfl, by simp, rfl,
          by simp, Or.inl ⟨_, h0, rfl, rfl⟩⟩

/-- The rollback loop of `mlxsw_sp_port_uc_flood_set` on a physical port: for the
vids of the list in order it allocates a buffer and, when the buffer was
allocated, writes the unicast table with the opposite value; the results of the
writes are ignored. -/
theorem uc_flood_set_err_spec (c : Consts) (env : Nat → Int) (set : Bool) :
    ∀ (vids : List Nat) (s : St), s.port.is_vport = false →
    ∃ (s' : St) (roll : List Ev),
      uc_flood_set_err_port_flood_set c env set vids s = Res.ret () s' ∧
      s'.sp = s.sp ∧ s'.port = s.port ∧ s'.trace = roll ++ s.trace ∧
      (∀ e ∈ roll, e.op = .kmalloc .sftr_pl ∨
        ∃ vid ∈ vids, e.op = flood_uc_op s.port.local_port vid vid (!set)) ∧
      (((roll.filter (fun e => decide (e.op ≠ .kmalloc .sftr_pl))).reverse.map Ev.op).Sublist
        (vids.map (fun vid => flood_uc_op s.port.local_port vid vid (!set)))) ∧
      ((∀ e ∈ roll, e.op = .kmalloc .sftr_pl → e.err = 0) →
        roll.reverse.map Ev.op = vids.flatMap (fun vid =>
          [.kmalloc .sftr_pl, flood_uc_op s.port.local_port vid vid (!set)])) := by
  intro vids
  induction vids with
  | nil =>
    intro s _
    exact ⟨s, [], rfl, rfl, rfl, rfl, by simp, by simp, by simp⟩
  | cons vid vids ih =>
    intro s hphys
    have hstep := flood_set_uc_eq c env vid vid (!set) s hphys
    by_cases h0 : env s.trace.length = 0
    · rw [if_neg (by simpa using h0)] at hstep
      obtain ⟨s', roll, hrun, hsp, hport, htr, hmem, hsub, hall⟩ := ih
        { s with trace := ⟨flood_uc_op s.port.local_port vid vid (!set),
            env (s.trace.length + 1)⟩ :: ⟨.kmalloc .sftr_pl, 0⟩ :: s.trace } hphys
      refine ⟨s', roll ++ [⟨flood_uc_op s.port.local_port vid vid (!set),
          env (s.trace.length + 1)⟩, ⟨.kmalloc .sftr_pl, 0⟩], ?_, hsp, hport, ?_, ?_, ?_, ?_⟩
      · unfold uc_flood_set_err_port_flood_set
        simp only [bind_apply]
        rw [hstep]
        exact hrun
      · rw [htr]; simp
      · intro e he
        rcases List.mem_append.1 he with he | he
        · rcases hmem e he with h | ⟨w, hw, h⟩
          · exact Or.inl h
          · exact Or.inr ⟨w, List.mem_cons_of_mem _ hw, h⟩
        · simp at he
          rcases he with he | he
          · exact Or.inr ⟨vid, List.mem_cons_self _ _, by rw [he]⟩
          · exact Or.inl (by rw [he])
      · have hne : flood_uc_op s.port.local_port vid vid (!set) ≠ .kmalloc .sftr_pl := by
          simp [flood_uc_op]
        simp only [List.filter_append, List.filter_cons, hne, ne_eq, not_false_eq_true,
          decide_True, decide_False, not_true_eq_false, if_true, if_false, List.filter_nil,
          List.reverse_append, List.reverse_cons, List.reverse_nil, List.nil_append,
          List.map_append, List.map_cons, List.map_nil, List.singleton_append]
        exact List.Sublist.cons₂ _ hsub
      · intro hok
        have := hall (fun e he => hok e (List.mem_append_left _ he))
        simp only [List.reverse_append, List.map_append, List.flatMap_cons, this]
        rfl
    · rw [if_pos h0] at hstep
      obtain ⟨s', roll, hrun, hsp, hport, htr, hmem, hsub, hall⟩ := ih
        { s with trace := ⟨.kmalloc .sftr_pl, env s.trace.length⟩ :: s.trace } hphys
      refine ⟨s', roll ++ [⟨.kmalloc .sftr_pl, env s.trace.length⟩], ?_, hsp, hport, ?_, ?_,
        ?_, ?_⟩
      · unfold uc_flood_set_err_port_flood_set
        simp only [bind_apply]
        rw [hstep]
        exact hrun
      · rw [htr]; simp
      · intro e he
        rcases List.mem_append.1 he with he | he
        · rcases hmem e he with h | ⟨w, hw, h⟩
          · exact Or.inl h
          · exact Or.inr ⟨w, List.mem_cons_of_mem _ hw, h⟩
        · simp at he
          exact Or.inl (by rw [he])
      · simp only [List.filter_append, List.filter_cons, ne_eq, not_true_eq_false,
          decide_False, Bool.false_eq_true, if_false, List.filter_nil, List.append_nil,
          List.map_cons]
        exact List.Sublist.cons _ hsub
      · intro hok
        exact absurd (hok _ (List.mem_append_right _ (List.mem_singleton_self _)) rfl) h0

/-- The trace of the rollback loop of `mlxsw_sp_port_uc_flood_set` on a physical
port, in full: for each vid of the list in order, one allocation, followed by
one unicast write with the opposite value exactly when the allocation
succeeded; `rs` lists, vid by vid, the results of the allocation and of the
write. -/
theorem uc_flood_set_err_exact (c : Consts) (env : Nat → Int) (set : Bool) :
    ∀ (vids : List Nat) (s : St), s.port.is_vport = false →
    ∃ (s' : St) (rs : List (Int × Int)),
      uc_flood_set_err_port_flood_set c env set vids s = Res.ret () s' ∧
      rs.length = vids.length ∧
      s'.trace = ((vids.zip rs).flatMap (fun p =>
        if p.2.1 = 0 then
          [(⟨.kmalloc .sftr_pl, 0⟩ : Ev),
            ⟨flood_uc_op s.port.local_port p.1 p.1 (!set), p.2.2⟩]
        else [⟨.kmalloc .sftr_pl, p.2.1⟩])).reverse ++ s.trace := by
  intro vids
  induction vids with
  | nil =>
    intro s _
    exact ⟨s, [], rfl, rfl, by simp⟩
  | cons vid vids ih =>
    intro s hphys
    have hstep := flood_set_uc_eq c env vid vid (!set) s hphys
    by_cases h0 : env s.trace.length = 0
    · rw [if_neg (by simpa using h0)] at hstep
      obtain ⟨s', rs, hrun, hlen, htr⟩ := ih
        { s with trace := ⟨flood_uc_op s.port.local_port vid vid (!set),
            env (s.trace.length + 1)⟩ :: ⟨.kmalloc .sftr_pl, 0⟩ :: s.trace } hphys
      refine ⟨s', (0, env (s.trace.length + 1)) :: rs, ?_, by simp [hlen], ?_⟩
      · unfold uc_flood_set_err_port_flood_set
        simp only [bind_apply]
        rw [hstep]
        exact hrun
      · rw [htr]
        simp
    · rw [if_pos h0] at hstep
      obtain ⟨s', rs, hrun, hlen, htr⟩ := ih
        { s with trace := ⟨.kmalloc .sftr_pl, env s.trace.length⟩ :: s.trace } hphys
      refine ⟨s', (env s.trace.length, 0) :: rs, ?_, by simp [hlen], ?_⟩
      · unfold uc_flood_set_err_port_flood_set
        simp only [bind_apply]
        rw [hstep]
        exact hrun
      · rw [htr]
        simp [h0]

theorem and_two_pow_ne_zero (x i : Nat) : x &&& 2 ^ i ≠ 0 ↔ x.testBit i = true := by
  constructor
  · intro h
    by_contra hb
    apply h
    apply Nat.eq_of_testBit_eq
    intro j
    simp only [Nat.testBit_and, Nat.testBit_two_pow, Nat.zero_testBit]
    by_cases hij : i = j
    · subst hij; simp [hb]
    · simp [hij]
  · intro hb h
    have := congrArg (fun n => n.testBit i) h
    simp [Nat.testBit_and, Nat.testBit_two_pow, hb] at this

/-- The test of `mlxsw_sp_port_attr_br_flags_set` on the flood flag: it holds when
the requested flag differs from the cached one. -/
theorem br_flood_changed (b : Bool) (flags : Nat) :
    ((if b then BR_FLOOD else 0) ^^^ flags) &&& BR_FLOOD ≠ 0 ↔
      decide (flags &&& BR_FLOOD ≠ 0) ≠ b := by
  have hF : BR_FLOOD = 64 := rfl
  have h1 : flags &&& 64 ≠ 0 ↔ flags.testBit 6 = true := and_two_pow_ne_zero flags 6
  have h2 : ∀ a : Nat, (a ^^^ flags) &&& 64 ≠ 0 ↔ (a ^^^ flags).testBit 6 = true :=
    fun a => and_two_pow_ne_zero (a ^^^ flags) 6
  have h64 : Nat.testBit 64 6 = true := by decide
  rw [hF, h2, Nat.testBit_xor]
  cases b
  · cases hf : flags.testBit 6
    · have : ¬ (flags &&& 64 ≠ 0) := by rw [h1, hf]; simp
      simpa using this
    · have : flags &&& 64 ≠ 0 := by rw [h1, hf]
      simpa using this
  · cases hf : flags.testBit 6
    · have : ¬ (flags &&& 64 ≠ 0) := by rw [h1, hf]; simp
      simpa [h64] using this
    · have : flags &&& 64 ≠ 0 := by rw [h1, hf]
      simpa [h64] using this

/-- C27 (amended): on a bridged physical port in the commit phase,
`mlxsw_sp_port_attr_br_flags_set` returns. When the requested flood flag equals
the cached one it returns 0 without any interaction. When it returns an error
`r`, the port is unchanged (so are its `uc_flood`, `learning` and
`learning_sync` flags), and for some active vid `v` the new trace is made of
three parts: the allocations and unicast-only flood writes with the new value
for the active vids below `v`, all successful; the failure at `v` (the
allocation, then `r = -ENOMEM`, or the write, whose error is `r`); and the
rollback. The rollback makes, for each active vid below `v` in ascending
order, one allocation, followed by one unicast-only flood write with the old
value exactly when that allocation succeeded (`rs` lists the results); so it
writes for no vid at or above `v`, at most once for each active vid below `v`,
and exactly once for each of them when each of its allocations succeeds. When
it returns 0 the three flags take the requested values. -/
theorem br_flags_set_rollback (c : Consts) (env : Nat → Int) (brport_flags : Nat) (s : St)
    (hb : s.port.bridged = true) (hphys : s.port.is_vport = false) :
    ∃ (r : Int) (s' : St),
      mlxsw_sp_port_attr_br_flags_set c env false brport_flags s = Res.ret r s' ∧
      s'.sp = s.sp ∧
      (decide (brport_flags &&& BR_FLOOD ≠ 0) = s.port.uc_flood →
        r = 0 ∧ s'.trace = s.trace) ∧
      (r = 0 → s'.port = { s.port with
          uc_flood := decide (brport_flags &&& BR_FLOOD ≠ 0)
          learning := decide (brport_flags &&& BR_LEARNING ≠ 0)
          learning_sync := decide (brport_flags &&& BR_LEARNING_SYNC ≠ 0) }) ∧
      (r ≠ 0 → s'.port = s.port ∧
        ∃ (v : Nat) (fwd fail roll : List Ev),
          v < VLAN_N_VID ∧ test_bit v s.port.active_vlans = true ∧
          s'.trace = roll ++ (fail ++ (fwd ++ s.trace)) ∧
          fwd.reverse.map Ev.op = (for_each_set_bit s.port.active_vlans v).flatMap (fun vid =>
            [.kmalloc .sftr_pl, flood_uc_op s.port.local_port vid vid (!s.port.uc_flood)]) ∧
          (∀ e ∈ fwd, e.err = 0) ∧
          ((∃ e : Int, e ≠ 0 ∧ fail = [⟨.kmalloc .sftr_pl, e⟩] ∧ r = -ENOMEM) ∨
           fail = [⟨flood_uc_op s.port.local_port v v (!s.port.uc_flood), r⟩,
             ⟨.kmalloc .sftr_pl, 0⟩]) ∧
          (∀ e ∈ roll, e.op = .kmalloc .sftr_pl ∨
            ∃ vid ∈ for_each_set_bit s.port.active_vlans v,
              e.op = flood_uc_op s.port.local_port vid vid s.port.uc_flood) ∧
          (((roll.filter (fun e => decide (e.op ≠ .kmalloc .sftr_pl))).reverse.map Ev.op).Sublist
            ((for_each_set_bit s.port.active_vlans v).map (fun vid =>
              flood_uc_op s.port.local_port vid vid s.port.uc_flood))) ∧
          ((∀ e ∈ roll, e.op = .kmalloc .sftr_pl → e.err = 0) →
            roll.reverse.map Ev.op = (for_each_set_bit s.port.active_vlans v).flatMap
              (fun vid => [.kmalloc .sftr_pl,
                flood_uc_op s.port.local_port vid vid s.port.uc_flood])) ∧
          ∃ rs : List (Int × Int),
            rs.length = (for_each_set_bit s.port.active_vlans v).length ∧
            roll.reverse = ((for_each_set_bit s.port.active_vlans v).zip rs).flatMap (fun p =>
              if p.2.1 = 0 then
                [(⟨.kmalloc .sftr_pl, 0⟩ : Ev),
                  ⟨flood_uc_op s.port.local_port p.1 p.1 s.port.uc_flood, p.2.2⟩]
              else [⟨.kmalloc .sftr_pl, p.2.1⟩])) := by
  have unf : ∀ (err : Int) (s1 : St),
      (if ((if s.port.uc_flood then BR_FLOOD else 0) ^^^ brport_flags) &&& BR_FLOOD ≠ 0
        then mlxsw_sp_port_uc_flood_set c env (!s.port.uc_flood) else pure 0) s
        = Res.ret err s1 →
      mlxsw_sp_port_attr_br_flags_set c env false brport_flags s =
        if err ≠ 0 then Res.ret err s1
        else Res.ret 0 { s1 with port := { s1.port with
          uc_flood := decide (brport_flags &&& BR_FLOOD ≠ 0)
          learning := decide (brport_flags &&& BR_LEARNING ≠ 0)
          learning_sync := decide (brport_flags &&& BR_LEARNING_SYNC ≠ 0) } } := by
    intro err s1 h
    unfold mlxsw_sp_port_attr_br_flags_set
    simp only [getSt_apply, bind_apply, hb, Bool.not_true, Bool.false_eq_true, if_false]
    by_cases hc : ((if s.port.uc_flood then BR_FLOOD else 0) ^^^ brport_flags) &&& BR_FLOOD ≠ 0
    · rw [if_pos hc] at h ⊢
      simp only [bind_apply]
      rw [h]
      by_cases he : err = 0
      · simp [he]
      · simp [he]
    · rw [if_neg hc] at h ⊢
      simp only [pure_apply, Res.ret.injEq] at h
      obtain ⟨rfl, rfl⟩ := h
      simp
  by_cases hch : decide (brport_flags &&& BR_FLOOD ≠ 0) = s.port.uc_flood
  · have hc : ¬ (((if s.port.uc_flood then BR_FLOOD else 0) ^^^ brport_flags)
        &&& BR_FLOOD ≠ 0) := by
      rw [br_flood_changed]; exact not_not.2 hch
    have h := unf 0 s (by rw [if_neg hc]; rfl)
    rw [if_neg (not_not.2 rfl)] at h
    exact ⟨0, _, h, rfl, fun _ => ⟨rfl, rfl⟩, fun _ => rfl, fun h => absurd rfl h⟩
  · have hc := (br_flood_changed s.port.uc_flood brport_flags).2 hch
    obtain ⟨r, s1, evs, hrun, hsp, hport, htr, hcase⟩ := uc_flood_set_vids_spec c env
      (!s.port.uc_flood) (for_each_set_bit s.port.active_vlans VLAN_N_VID) s hphys
    rcases hcase with ⟨hr, -, -⟩ | ⟨err, v, pre, post, fail, fwd, hr, he, hv, hevs,
      hops, hok, hfail⟩
    · subst hr
      have hu : mlxsw_sp_port_uc_flood_set c env (!s.port.uc_flood) s = Res.ret 0 s1 := by
        unfold mlxsw_sp_port_uc_flood_set
        simp only [bind_apply, getSt_apply, hphys, Bool.false_eq_true, if_false]
        rw [hrun]
        rfl
      have h := unf 0 s1 (by rw [if_pos hc]; exact hu)
      rw [if_neg (not_not.2 rfl)] at h
      refine ⟨0, _, h, hsp, fun h => absurd h hch, fun _ => ?_, fun h => absurd rfl h⟩
      simp only [hport]
    · subst hr
      have hpre := for_each_set_bit_prefix _ _ _ _ _ hv
      have hvm : v ∈ for_each_set_bit s.port.active_vlans VLAN_N_VID := by rw [hv]; simp
      rw [mem_for_each_set_bit] at hvm
      obtain ⟨s2, roll, hrun2, hsp2, hport2, htr2, hmem, hsub, hall⟩ := uc_flood_set_err_spec
        c env (!s.port.uc_flood) (for_each_set_bit s1.port.active_vlans v) s1
        (by rw [hport]; exact hphys)
      have hu : mlxsw_sp_port_uc_flood_set c env (!s.port.uc_flood) s = Res.ret err s2 := by
        unfold mlxsw_sp_port_uc_flood_set
        simp only [bind_apply, getSt_apply, hphys, Bool.false_eq_true, if_false]
        rw [hrun]
        simp only [bind_apply, getSt_apply]
        rw [hrun2]
        rfl
      have h := unf err s2 (by rw [if_pos hc]; exact hu)
      rw [if_pos he] at h
      obtain ⟨s2', rs, hrun2', hlen, htr2'⟩ := uc_flood_set_err_exact
        c env (!s.port.uc_flood) (for_each_set_bit s1.port.active_vlans v) s1
        (by rw [hport]; exact hphys)
      rw [hrun2] at hrun2'
      simp only [Res.ret.injEq, true_and] at hrun2'
      subst hrun2'
      rw [htr2] at htr2'
      have hroll := List.append_cancel_right htr2'
      have hex : roll.reverse = ((for_each_set_bit s1.port.active_vlans v).zip rs).flatMap
          (fun p =>
            if p.2.1 = 0 then
              [(⟨.kmalloc .sftr_pl, 0⟩ : Ev),
                ⟨flood_uc_op s1.port.local_port p.1 p.1 (!(!s.port.uc_flood)), p.2.2⟩]
            else [⟨.kmalloc .sftr_pl, p.2.1⟩]) := by
        rw [hroll, List.reverse_reverse]
      rw [hport, Bool.not_not] at hmem hsub hall hex
      rw [hport] at hlen
      rw [← hpre] at hops
      refine ⟨err, s2, h, hsp2.trans hsp, fun h => absurd h hch, fun h => absurd h he,
        fun _ => ⟨hport2.trans hport, v, fwd, fail, roll, hvm.1, hvm.2, ?_, hops, hok, hfail,
          hmem, hsub, hall, rs, hlen, hex⟩⟩
      rw [htr2, htr, hevs, List.append_assoc]

/-- Instance of C27: the port `ex_port5_100`, flooding switched off, the write
for vid 100 failing. -/
theorem br_flags_set_rollback_witness :
    ∃ (r : Int) (s' : St),
      mlxsw_sp_port_attr_br_flags_set mlxsw_consts (fail_at 3) false 0 ex_st5_100 = Res.ret r s' ∧
      s'.sp = ex_st5_100.sp ∧
      (decide (0 &&& BR_FLOOD ≠ 0) = ex_st5_100.port.uc_flood →
        r = 0 ∧ s'.trace = ex_st5_100.trace) ∧
      (r = 0 → s'.port = { ex_st5_100.port with
          uc_flood := decide (0 &&& BR_FLOOD ≠ 0)
          learning := decide (0 &&& BR_LEARNING ≠ 0)
          learning_sync := decide (0 &&& BR_LEARNING_SYNC ≠ 0) }) ∧
      (r ≠ 0 → s'.port = ex_st5_100.port ∧
        ∃ (v : Nat) (fwd fail roll : List Ev),
          v < VLAN_N_VID ∧ test_bit v ex_st5_100.port.active_vlans = true ∧
          s'.trace = roll ++ (fail ++ (fwd ++ ex_st5_100.trace)) ∧
          fwd.reverse.map Ev.op = (for_each_set_bit ex_st5_100.port.active_vlans v).flatMap (fun vid =>
            [.kmalloc .sftr_pl, flood_uc_op ex_st5_100.port.local_port vid vid (!ex_st5_100.port.uc_flood)]) ∧
          (∀ e ∈ fwd, e.err = 0) ∧
          ((∃ e : Int, e ≠ 0 ∧ fail = [⟨.kmalloc .sftr_pl, e⟩] ∧ r = -ENOMEM) ∨
           fail = [⟨flood_uc_op ex_st5_100.port.local_port v v (!ex_st5_100.port.uc_flood), r⟩,
             ⟨.kmalloc .sftr_pl, 0⟩]) ∧
          (∀ e ∈ roll, e.op = .kmalloc .sftr_pl ∨
            ∃ vid ∈ for_each_set_bit ex_st5_100.port.active_vlans v,
              e.op = flood_uc_op ex_st5_100.port.local_port vid vid ex_st5_100.port.uc_flood) ∧
          (((roll.filter (fun e => decide (e.op ≠ .kmalloc .sftr_pl))).reverse.map Ev.op).Sublist
            ((for_each_set_bit ex_st5_100.port.active_vlans v).map (fun vid =>
              flood_uc_op ex_st5_100.port.local_port vid vid ex_st5_100.port.uc_flood))) ∧
          ((∀ e ∈ roll, e.op = .kmalloc .sftr_pl → e.err = 0) →
            roll.reverse.map Ev.op = (for_each_set_bit ex_st5_100.port.active_vlans v).flatMap
              (fun vid => [.kmalloc .sftr_pl,
                flood_uc_op ex_st5_100.port.local_port vid vid ex_st5_100.port.uc_flood])) ∧
          ∃ rs : List (Int × Int),
            rs.length = (for_each_set_bit ex_st5_100.port.active_vlans v).length ∧
            roll.reverse = ((for_each_set_bit ex_st5_100.port.active_vlans v).zip rs).flatMap
              (fun p =>
                if p.2.1 = 0 then
                  [(⟨.kmalloc .sftr_pl, 0⟩ : Ev),
                    ⟨flood_uc_op ex_st5_100.port.local_port p.1 p.1 ex_st5_100.port.uc_flood,
                      p.2.2⟩]
                else [⟨.kmalloc .sftr_pl, p.2.1⟩])) :=
  br_flags_set_rollback mlxsw_consts (fail_at 3) 0 ex_st5_100 (by decide) (by decide)

/-- The run of the instance of C27, evaluated: flooding is switched off for vid
5, the write for vid 100 fails with `-EIO`, flooding is switched on again for
vid 5 and the port keeps its flags. -/
theorem br_flags_set_rollback_run :
    mlxsw_sp_port_attr_br_flags_set mlxsw_consts (fail_at 3) false 0 ex_st5_100 =
      Res.ret (-5) { ex_st5_100 with trace :=
        [⟨flood_uc_op 3 5 5 true, 0⟩, ⟨.kmalloc .sftr_pl, 0⟩,
         ⟨flood_uc_op 3 100 100 false, -5⟩, ⟨.kmalloc .sftr_pl, 0⟩,
         ⟨flood_uc_op 3 5 5 false, 0⟩, ⟨.kmalloc .sftr_pl, 0⟩] } := by
  decide!

/-- C27, counterexample: on `ex_port5_100` (VLANs 5 and 100 active, flooding
on) flooding is switched off; the write for vid 5 succeeds, the write for vid
100 fails, and the allocation of the rollback for vid 5 fails too. The function
returns the error of the write with the port unchanged, and the rollback has
issued no compensating write for the active vid 5 below the failing vid 100:
the write with the old value `true` that the claim requires for vid 5 is not
in the trace. -/
theorem br_flags_set_rollback_skips_write :
    mlxsw_sp_port_attr_br_flags_set mlxsw_consts (fun k => if k = 3 ∨ k = 4 then -5 else 0)
        false 0 ex_st5_100 =
      Res.ret (-5) { ex_st5_100 with trace :=
        [⟨.kmalloc .sftr_pl, -5⟩,
         ⟨flood_uc_op 3 100 100 false, -5⟩, ⟨.kmalloc .sftr_pl, 0⟩,
         ⟨flood_uc_op 3 5 5 false, 0⟩, ⟨.kmalloc .sftr_pl, 0⟩] } ∧
    test_bit 5 ex_st5_100.port.active_vlans = true ∧
    (flood_uc_op 3 5 5 true ∉ (Res.final ex_st5_100
      (mlxsw_sp_port_attr_br_flags_set mlxsw_consts (fun k => if k = 3 ∨ k = 4 then -5 else 0)
        false 0 ex_st5_100)).trace.map Ev.op) := by
  decide!

/-! ## C25 -/
/-- When `__mlxsw_sp_port_vlans_set` returns 0 its last VLAN-table write is the
batch that ends at `vid_end`. -/
theorem vlans_set_last_batch (c : Consts) (env : Nat → Int) (fuel vid_begin vid_end : Nat)
    (m u : Bool) (s s' : St) (hR : 0 < c.MLXSW_REG_SPVM_REC_MAX_COUNT)
    (hwrap : vid_end + c.MLXSW_REG_SPVM_REC_MAX_COUNT < U16) (hle : vid_begin ≤ vid_end)
    (hfuel : vid_end + 1 - vid_begin < fuel)
    (h : __mlxsw_sp_port_vlans_set c env fuel vid_begin vid_end m u s = Res.ret 0 s') :
    ∃ rest, s'.trace = ⟨.vlan_set s.port.local_port
        (vid_begin + (vid_end - vid_begin) / c.MLXSW_REG_SPVM_REC_MAX_COUNT
          * c.MLXSW_REG_SPVM_REC_MAX_COUNT) vid_end m u, 0⟩ :: rest ++ s.trace := by
  obtain ⟨res, s1, k, evs, h1, h2, h3, h4, h5, h6, h7⟩ :=
    vlans_set_loop_spec c env vid_begin vid_end m u hR hwrap hle fuel 0 s
      (Nat.zero_le _) (by simp only [Nat.zero_mul, Nat.add_zero]; exact hfuel)
  simp only [Nat.zero_mul, Nat.add_zero, Nat.zero_add] at h1 h5 h7
  obtain ⟨v, e⟩ := res
  unfold __mlxsw_sp_port_vlans_set at h
  simp only [bind_apply] at h
  rw [h1] at h
  rcases h7 with ⟨a, b, d⟩ | ⟨err, ev, rest, a, b, d, e', f⟩
  · simp only at a
    subst a
    simp only [pure_apply, Res.ret.injEq, true_and] at h
    subst h
    subst b
    rw [List.range'_concat, List.map_append] at h6
    cases evs with
    | nil => simp at h6
    | cons ev rest =>
      simp only [List.reverse_cons, List.map_append, List.map_cons, List.map_nil] at h6
      have h8 := List.append_inj_right' h6 (by simp)
      simp only [Nat.one_mul, Nat.zero_add, List.cons.injEq, and_true] at h8
      refine ⟨rest, ?_⟩
      rw [h4]
      have hev : ev = ⟨ev.op, ev.err⟩ := rfl
      rw [hev, h8, d ev (List.mem_cons_self _ _)]
      have hdm := Nat.div_add_mod (vid_end - vid_begin) c.MLXSW_REG_SPVM_REC_MAX_COUNT
      have hml := Nat.mod_lt (vid_end - vid_begin) hR
      have hcomm : c.MLXSW_REG_SPVM_REC_MAX_COUNT *
          ((vid_end - vid_begin) / c.MLXSW_REG_SPVM_REC_MAX_COUNT)
          = (vid_end - vid_begin) / c.MLXSW_REG_SPVM_REC_MAX_COUNT
            * c.MLXSW_REG_SPVM_REC_MAX_COUNT := Nat.mul_comm _ _
      have hmin : min (vid_begin + (vid_end - vid_begin) / c.MLXSW_REG_SPVM_REC_MAX_COUNT
            * c.MLXSW_REG_SPVM_REC_MAX_COUNT + c.MLXSW_REG_SPVM_REC_MAX_COUNT - 1) vid_end
          = vid_end := by omega
      rw [hmin]
  · simp only at a
    subst a
    simp only [pure_apply, Res.ret.injEq] at h
    exact absurd h.1 b


/-- The run of `mlxsw_sp_port_vlan_init` in which every write succeeds. -/
theorem vlan_init_ok_run (c : Consts) (env : Nat → Int) (fuel : Nat) (s : St)
    (hR : 0 < c.MLXSW_REG_SPVM_REC_MAX_COUNT)
    (hR' : c.MLXSW_REG_SPVM_REC_MAX_COUNT ≤ VLAN_N_VID)
    (hfuel : VLAN_N_VID + 1 < fuel) (hok : EnvOk env s.trace.length) :
    ∃ s', mlxsw_sp_port_vlan_init c env fuel s = Res.ret 0 s' ∧
      (∀ u, test_bit u s'.port.active_vlans
        = (test_bit u s.port.active_vlans && !decide (u ≤ VLAN_N_VID))) ∧
      s'.port.pvid = 1 ∧ s'.sp = s.sp ∧
      (∃ evs, s'.trace = ⟨.add_vid s.port.local_port 1, 0⟩ ::
          ⟨.vlan_set s.port.local_port
            (VLAN_N_VID / c.MLXSW_REG_SPVM_REC_MAX_COUNT * c.MLXSW_REG_SPVM_REC_MAX_COUNT)
            VLAN_N_VID false false, 0⟩ :: evs ++ s.trace ∧
        ∀ e ∈ evs, e.op.kind = .vlan_set) := by
  have hV : VLAN_N_VID = 4096 := rfl
  have hU : U16 = 65536 := rfl
  obtain ⟨s1, h1, ok1, -⟩ := vlans_set_ok c env fuel 0 VLAN_N_VID false false
    { s with port := { s.port with pvid := 1 } } hR (by omega) (by omega) hok
  have r1 := Pres_ret (Pres_vlans_set [.vlan_set] c env _ _ _ _ _ (by simp)) h1
  obtain ⟨p1, q1⟩ := HwOnly_port r1
  obtain ⟨t1, k1⟩ := HwOnly_new_events r1
  have hp1 : s1.port.pvid = 1 := by rw [p1]
  have h2 : vlans_del_pvid env 0 VLAN_N_VID s1.port.pvid s1 = Res.ret 0 s1 := by
    rw [vlans_del_pvid_eq, if_neg (by rw [hp1]; simp)]
  obtain ⟨s2, h3⟩ := clear_active_vlans_returns fuel 0 VLAN_N_VID s1 (by omega) (by omega)
  obtain ⟨c1, c2, c3, c4⟩ := clear_active_vlans_spec fuel 0 VLAN_N_VID s1 s2 (by omega) h3
  have ok2 : EnvOk env s2.trace.length := by rw [c2]; exact ok1
  obtain ⟨rest, hlast⟩ := vlans_set_last_batch c env fuel 0 VLAN_N_VID false false _ s1 hR
    (by omega) (Nat.zero_le _) (by omega) h1
  simp only [Nat.zero_add, Nat.sub_zero] at hlast
  rw [new_events_of_append { s with port := { s.port with pvid := 1 } } s1 _ hlast] at k1
  refine ⟨{ s2 with trace := ⟨.add_vid s2.port.local_port 1, 0⟩ :: s2.trace }, ?_, ?_, ?_, ?_,
    rest, ?_, ?_⟩
  · simp [mlxsw_sp_port_vlan_init, __mlxsw_sp_port_vlans_del, mlxsw_sp_port_add_vid, h1, h2, h3,
      EnvOk_here ok2]
  · intro u
    simp only [c4, p1, Nat.zero_le, true_and]
  · show s2.port.pvid = 1
    rw [c3]
    exact hp1
  · show s2.sp = s.sp
    rw [c1, q1]
  · show _ :: s2.trace = _
    rw [c2, hlast, c3, p1]
    rfl
  · intro e he
    have := k1 e (List.mem_cons_of_mem _ he)
    simpa [only] using this

/-- C25, the code: when every write succeeds, `mlxsw_sp_port_vlan_init` returns 0
with the PVID 1 and every bit of the active-VLAN bitmap clear, and it issues
VLAN-table writes and the interface-level add of vid 1 only, no flood and no
unmap operation. But its teardown runs over the vids 0 to `VLAN_N_VID`
inclusive: the bit at index `VLAN_N_VID`, the size of the bitmap, is cleared as
well (so a bit set there before is clear afterwards), and the last VLAN-table
write is for a sub-range that ends at vid `VLAN_N_VID`. -/
theorem vlan_init_clears_past_bitmap (c : Consts) (env : Nat → Int) (fuel : Nat) (s : St)
    (hR : 0 < c.MLXSW_REG_SPVM_REC_MAX_COUNT)
    (hR' : c.MLXSW_REG_SPVM_REC_MAX_COUNT ≤ VLAN_N_VID)
    (hfuel : VLAN_N_VID + 1 < fuel) (hok : EnvOk env s.trace.length) :
    ∃ s', mlxsw_sp_port_vlan_init c env fuel s = Res.ret 0 s' ∧
      (∀ u, test_bit u s'.port.active_vlans
        = (test_bit u s.port.active_vlans && !decide (u ≤ VLAN_N_VID))) ∧
      test_bit VLAN_N_VID s'.port.active_vlans = false ∧
      s'.port.pvid = 1 ∧ s'.sp = s.sp ∧
      (∃ evs, s'.trace = ⟨.add_vid s.port.local_port 1, 0⟩ ::
          ⟨.vlan_set s.port.local_port
            (VLAN_N_VID / c.MLXSW_REG_SPVM_REC_MAX_COUNT * c.MLXSW_REG_SPVM_REC_MAX_COUNT)
            VLAN_N_VID false false, 0⟩ :: evs ++ s.trace ∧
        ∀ e ∈ evs, e.op.kind = .vlan_set) := by
  obtain ⟨s', h1, h2, h3, h4, h5⟩ := vlan_init_ok_run c env fuel s hR hR' hfuel hok
  exact ⟨s', h1, h2, by rw [h2]; simp, h3, h4, h5⟩

/-- Instance of C25: the port `ex_port_past_bitmap`, whose bit at index
`VLAN_N_VID` is set before the call, with the record maximum of the driver. -/
theorem vlan_init_clears_past_bitmap_witness :
    test_bit VLAN_N_VID ex_st_past_bitmap.port.active_vlans = true ∧
    ∃ s', mlxsw_sp_port_vlan_init mlxsw_consts no_failure 4098 ex_st_past_bitmap
        = Res.ret 0 s' ∧
      (∀ u, test_bit u s'.port.active_vlans
        = (test_bit u ex_st_past_bitmap.port.active_vlans && !decide (u ≤ VLAN_N_VID))) ∧
      test_bit VLAN_N_VID s'.port.active_vlans = false ∧
      s'.port.pvid = 1 ∧ s'.sp = ex_st_past_bitmap.sp ∧
      (∃ evs, s'.trace = ⟨.add_vid ex_st_past_bitmap.port.local_port 1, 0⟩ ::
          ⟨.vlan_set ex_st_past_bitmap.port.local_port
            (VLAN_N_VID / mlxsw_consts.MLXSW_REG_SPVM_REC_MAX_COUNT
              * mlxsw_consts.MLXSW_REG_SPVM_REC_MAX_COUNT)
            VLAN_N_VID false false, 0⟩ :: evs ++ ex_st_past_bitmap.trace ∧
        ∀ e ∈ evs, e.op.kind = .vlan_set) :=
  ⟨by decide!, vlan_init_clears_past_bitmap mlxsw_consts no_failure 4098 ex_st_past_bitmap
    (by decide) (by decide) (by decide) (fun _ _ => rfl)⟩

/-- The run of the instance of C25, evaluated: the bitmap ends empty, the bit at
index `VLAN_N_VID` included, and the seventeenth VLAN-table write is for the
vid 4096 alone. -/
theorem vlan_init_run :
    (Res.final ex_st_past_bitmap
      (mlxsw_sp_port_vlan_init mlxsw_consts no_failure 4098 ex_st_past_bitmap)).port.active_vlans
      = 0 ∧
    (Res.final ex_st_past_bitmap
      (mlxsw_sp_port_vlan_init mlxsw_consts no_failure 4098 ex_st_past_bitmap)).trace.take 3
      = [⟨.add_vid 3 1, 0⟩, ⟨.vlan_set 3 4096 4096 false false, 0⟩,
         ⟨.vlan_set 3 3840 4095 false false, 0⟩] ∧
    (Res.final ex_st_past_bitmap
      (mlxsw_sp_port_vlan_init mlxsw_consts no_failure 4098 ex_st_past_bitmap)).trace.length
      = 18 := by
  decide!

/-! ## C24 -/

theorem Ends_pure {α : Type} (a : α) {Q : α → Prop} (h : Q a) : Ends (pure a : M α) Q :=
  fun s => Or.inl ⟨a, s, rfl, h⟩

theorem Ends_bind {α β : Type} {x : M α} {f : α → M β} {Q : α → Prop} {Q' : β → Prop}
    (hx : Ends x Q) (hf : ∀ a, Q a → Ends (f a) Q') : Ends (x >>= f) Q' := by
  intro s
  rcases hx s with ⟨a, s1, h, hq⟩ | ⟨s1, h⟩
  · simp only [bind_apply, h]
    exact hf a hq s1
  · exact Or.inr ⟨s1, by simp only [bind_apply, h]⟩

theorem Ends_weaken {α : Type} {x : M α} {Q Q' : α → Prop} (hx : Ends x Q)
    (h : ∀ a, Q a → Q' a) : Ends x Q' := by
  intro s
  rcases hx s with ⟨a, s1, h1, hq⟩ | h1
  · exact Or.inl ⟨a, s1, h1, h a hq⟩
  · exact Or.inr h1

theorem Ends_getSt : Ends getSt (fun _ => True) := fun s => Or.inl ⟨s, s, rfl, trivial⟩

theorem Ends_modifySt (f : St → St) : Ends (modifySt f) (fun _ => True) :=
  fun s => Or.inl ⟨(), f s, rfl, trivial⟩

theorem Ends_env_call (env : Nat → Int) (op : Op) : Ends (env_call env op) (fun _ => True) :=
  fun _ => Or.inl ⟨_, _, rfl, trivial⟩

theorem Ends_BUG {α : Type} {Q : α → Prop} : Ends (BUG : M α) Q := fun s => Or.inr ⟨s, rfl⟩

theorem Ends_ite {α : Type} {p : Prop} [Decidable p] {x y : M α} {Q : α → Prop}
    (hx : Ends x Q) (hy : Ends y Q) : Ends (if p then x else y) Q := by
  split
  · exact hx
  · exact hy

theorem Ends_of_returns {α : Type} {x : M α} (h : ∀ s, ∃ a s', x s = Res.ret a s') :
    Ends x (fun _ => True) := by
  intro s
  obtain ⟨a, s', h1⟩ := h s
  exact Or.inl ⟨a, s', h1, trivial⟩

/-- A `for_up` loop whose body ends, with fuel for every iteration: it ends, and
when it is left from inside the body the counter lies between the start and
`vid_end`. -/
theorem Ends_for_up {ε : Type} (body : Nat → M (Option ε)) (step vid_end : Nat)
    (hbody : ∀ v, Ends (body v) (fun _ => True)) (hstep : 0 < step)
    (hwrap : vid_end + step < U16) :
    ∀ fuel vid, vid_end + 1 - vid < fuel →
      Ends (for_up body step vid_end fuel vid)
        (fun r => r.2 ≠ none → vid ≤ r.1 ∧ r.1 ≤ vid_end) := by
  intro fuel
  induction fuel with
  | zero => intro vid h; omega
  | succ n ih =>
    intro vid hf
    unfold for_up
    by_cases hle : vid ≤ vid_end
    · simp only [hle, if_true]
      refine Ends_bind (hbody vid) (fun e _ => ?_)
      cases e with
      | some x => exact Ends_pure _ (fun _ => ⟨le_refl _, hle⟩)
      | none =>
        have hm : (vid + step) % U16 = vid + step := Nat.mod_eq_of_lt (by omega)
        simp only [hm]
        exact Ends_weaken (ih (vid + step) (by omega)) (fun r hr h => ⟨by have := (hr h).1; omega,
          (hr h).2⟩)
    · simp only [hle, if_false]
      exact Ends_pure _ (fun h => absurd rfl h)

/-- A `for_down` loop whose body ends, with a lower end above 0 and fuel for
every iteration: it ends. -/
theorem Ends_for_down (body : Nat → M Unit) (vid_begin : Nat)
    (hbody : ∀ v, Ends (body v) (fun _ => True)) (hvb : 0 < vid_begin) :
    ∀ fuel vid, vid < U16 → vid + 1 - vid_begin < fuel →
      Ends (for_down body vid_begin fuel vid) (fun _ => True) := by
  intro fuel
  induction fuel with
  | zero => intro vid _ h; omega
  | succ n ih =>
    intro vid hv hf
    unfold for_down
    by_cases hle : vid_begin ≤ vid
    · simp only [hle, if_true]
      have hmod : (vid + U16 - 1) % U16 = vid - 1 := by
        have : vid + U16 - 1 = (vid - 1) + U16 := by omega
        rw [this, Nat.add_mod_right]
        exact Nat.mod_eq_of_lt (by omega)
      refine Ends_bind (hbody vid) (fun _ _ => ?_)
      rw [hmod]
      exact ih (vid - 1) (by omega) (by omega)
    · simp only [hle, if_false]
      exact Ends_pure _ trivial

theorem Ends_vid_to_fid_set (env : Nat → Int) (mt : svfa_mt) (valid : Bool) (fid vid : Nat) :
    Ends (mlxsw_sp_port_vid_to_fid_set env mt valid fid vid) (fun _ => True) := by
  unfold mlxsw_sp_port_vid_to_fid_set
  exact Ends_bind Ends_getSt (fun _ _ => Ends_env_call _ _)

theorem Ends_fid_create (env : Nat → Int) (fid : Nat) :
    Ends (mlxsw_sp_fid_create env fid) (fun _ => True) := by
  unfold mlxsw_sp_fid_create mlxsw_reg_write
  exact Ends_bind (Ends_env_call _ _) (fun _ _ => Ends_ite (Ends_pure _ trivial)
    (Ends_bind (Ends_modifySt _) (fun _ _ => Ends_pure _ trivial)))

theorem Ends_fid_destroy (env : Nat → Int) (fid : Nat) :
    Ends (mlxsw_sp_fid_destroy env fid) (fun _ => True) := by
  unfold mlxsw_sp_fid_destroy mlxsw_reg_write
  exact Ends_bind (Ends_modifySt _) (fun _ _ =>
    Ends_bind (Ends_env_call _ _) (fun _ _ => Ends_pure _ trivial))

theorem Ends_fid_map (env : Nat → Int) (fid : Nat) :
    Ends (mlxsw_sp_port_fid_map env fid) (fun _ => True) := by
  unfold mlxsw_sp_port_fid_map
  exact Ends_bind Ends_getSt (fun _ _ => Ends_vid_to_fid_set _ _ _ _ _)

theorem Ends_fid_unmap (env : Nat → Int) (fid : Nat) :
    Ends (mlxsw_sp_port_fid_unmap env fid) (fun _ => True) := by
  unfold mlxsw_sp_port_fid_unmap
  exact Ends_bind Ends_getSt (fun _ _ =>
    Ends_ite (Ends_pure _ trivial) (Ends_vid_to_fid_set _ _ _ _ _))

theorem Ends_pvid_set (env : Nat → Int) (vid : Nat) :
    Ends (mlxsw_sp_port_pvid_set env vid) (fun _ => True) := by
  unfold mlxsw_sp_port_pvid_set mlxsw_reg_write
  exact Ends_bind Ends_getSt (fun _ _ => Ends_env_call _ _)

theorem Ends_kmalloc (env : Nat → Int) (buf : payload) :
    Ends (kmalloc env buf) (fun _ => True) := by
  unfold kmalloc
  exact Ends_bind (Ends_env_call _ _) (fun _ _ => Ends_pure _ trivial)

theorem Ends_flood_set (c : Consts) (env : Nat → Int) (idx_begin idx_end : Nat)
    (set only_uc : Bool) :
    Ends (__mlxsw_sp_port_flood_set c env idx_begin idx_end set only_uc) (fun _ => True) := by
  unfold __mlxsw_sp_port_flood_set mlxsw_reg_write
  refine Ends_bind Ends_getSt (fun _ _ => Ends_bind (Ends_kmalloc _ _) (fun _ _ => ?_))
  exact Ends_ite (Ends_pure _ trivial) (Ends_bind (Ends_env_call _ _) (fun _ _ =>
    Ends_ite (Ends_pure _ trivial) (Ends_ite (Ends_pure _ trivial) (Ends_env_call _ _))))

theorem Ends_stp_state_set (env : Nat → Int) (state : Nat) :
    Ends (mlxsw_sp_port_stp_state_set env state) (fun _ => True) := by
  have hgo : ∀ st : spms_state, Ends (do
      let ok ← kmalloc env .spms_pl
      if !ok then
        pure (-ENOMEM)
      else do
        let s ← getSt
        let vids :=
          if s.port.is_vport then [s.port.vport_vid]
          else for_each_set_bit s.port.active_vlans VLAN_N_VID
        mlxsw_reg_write env (.spms s.port.local_port vids st) : M Int) (fun _ => True) := by
    intro st
    unfold mlxsw_reg_write
    exact Ends_bind (Ends_kmalloc _ _) (fun _ _ => Ends_ite (Ends_pure _ trivial)
      (Ends_bind Ends_getSt (fun _ _ => Ends_env_call _ _)))
  unfold mlxsw_sp_port_stp_state_set
  exact Ends_ite (hgo _) (Ends_ite (hgo _) (Ends_ite (hgo _) Ends_BUG))

theorem Ends_vlan_set (env : Nat → Int) (vid_begin vid_end : Nat) (m u : Bool) :
    Ends (mlxsw_sp_port_vlan_set env vid_begin vid_end m u) (fun _ => True) := by
  unfold mlxsw_sp_port_vlan_set
  exact Ends_bind Ends_getSt (fun _ _ => Ends_env_call _ _)

theorem Ends_err_body (x : M Int) (hx : Ends x (fun _ => True)) :
    Ends (do
      let err ← x
      if err ≠ 0 then pure (some err) else pure none : M (Option Int)) (fun _ => True) :=
  Ends_bind hx (fun _ _ => Ends_ite (Ends_pure _ trivial) (Ends_pure _ trivial))

theorem Ends_vlans_set (c : Consts) (env : Nat → Int) (fuel vid_begin vid_end : Nat)
    (m u : Bool) (hR : 0 < c.MLXSW_REG_SPVM_REC_MAX_COUNT)
    (hwrap : vid_end + c.MLXSW_REG_SPVM_REC_MAX_COUNT < U16)
    (hfuel : vid_end + 1 - vid_begin < fuel) :
    Ends (__mlxsw_sp_port_vlans_set c env fuel vid_begin vid_end m u) (fun _ => True) := by
  unfold __mlxsw_sp_port_vlans_set
  refine Ends_bind (Ends_for_up _ _ _ (fun v => Ends_err_body _ (Ends_vlan_set _ _ _ _ _))
    hR hwrap fuel vid_begin hfuel) (fun r _ => ?_)
  obtain ⟨v, e⟩ := r
  cases e <;> exact Ends_pure _ trivial

theorem Ends_clear_active_vlans (fuel vid_begin vid_end : Nat) (hve : vid_end + 1 < U16)
    (hfuel : vid_end + 1 - vid_begin < fuel) :
    Ends (clear_active_vlans fuel vid_begin vid_end) (fun _ => True) :=
  Ends_of_returns (fun s => by
    obtain ⟨s', h⟩ := clear_active_vlans_returns fuel vid_begin vid_end s hve hfuel
    exact ⟨(), s', h⟩)

theorem Ends_set_active_vlans (fuel vid_begin vid_end : Nat) (hve : vid_end + 1 < U16)
    (hfuel : vid_end + 1 - vid_begin < fuel) :
    Ends (set_active_vlans fuel vid_begin vid_end) (fun _ => True) :=
  Ends_of_returns (fun s => by
    obtain ⟨s', h⟩ := set_active_vlans_returns fuel vid_begin vid_end s hve hfuel
    exact ⟨(), s', h⟩)

theorem Ends_err_port_fid_map (env : Nat → Int) (fuel vid_begin last_visited_vid : Nat)
    (hvb : 0 < vid_begin) (hl : last_visited_vid < U16)
    (hfuel : last_visited_vid + 1 - vid_begin < fuel) :
    Ends (vlans_add_err_port_fid_map env fuel vid_begin last_visited_vid) (fun _ => True) := by
  unfold vlans_add_err_port_fid_map
  exact Ends_for_down _ _ (fun v => Ends_bind (Ends_fid_unmap _ _)
    (fun _ _ => Ends_pure _ trivial)) hvb fuel last_visited_vid hl hfuel

theorem Ends_err_port_vlans_set (c : Consts) (env : Nat → Int) (fuel vid_begin vid_end : Nat)
    (hvb : 0 < vid_begin) (hve : vid_end < U16) (hfuel : vid_end + 1 - vid_begin < fuel) :
    Ends (vlans_add_err_port_vlans_set c env fuel vid_begin vid_end) (fun _ => True) := by
  unfold vlans_add_err_port_vlans_set vlans_add_err_port_flood_set
  exact Ends_bind (Ends_flood_set _ _ _ _ _ _)
    (fun _ _ => Ends_err_port_fid_map env fuel vid_begin vid_end hvb hve hfuel)

theorem Ends_err_port_pvid_set (c : Consts) (env : Nat → Int) (fuel vid_begin vid_end : Nat)
    (hvb : 0 < vid_begin) (hR : 0 < c.MLXSW_REG_SPVM_REC_MAX_COUNT)
    (hwrap : vid_end + c.MLXSW_REG_SPVM_REC_MAX_COUNT < U16)
    (hfuel : vid_end + 1 - vid_begin < fuel) :
    Ends (vlans_add_err_port_pvid_set c env fuel vid_begin vid_end) (fun _ => True) := by
  unfold vlans_add_err_port_pvid_set
  exact Ends_bind (Ends_vlans_set c env fuel vid_begin vid_end false false hR hwrap hfuel)
    (fun _ _ => Ends_err_port_vlans_set c env fuel vid_begin vid_end hvb (by omega) hfuel)

theorem Ends_err_port_stp_state_set (c : Consts) (env : Nat → Int)
    (fuel vid_begin vid_end old_pvid : Nat)
    (hvb : 0 < vid_begin) (hR : 0 < c.MLXSW_REG_SPVM_REC_MAX_COUNT)
    (hwrap : vid_end + c.MLXSW_REG_SPVM_REC_MAX_COUNT < U16)
    (hfuel : vid_end + 1 - vid_begin < fuel) :
    Ends (vlans_add_err_port_stp_state_set c env fuel vid_begin vid_end old_pvid)
      (fun _ => True) := by
  unfold vlans_add_err_port_stp_state_set
  refine Ends_bind (Ends_clear_active_vlans fuel vid_begin vid_end (by omega) hfuel)
    (fun _ _ => Ends_bind Ends_getSt (fun _ _ => Ends_ite ?_ ?_))
  · exact Ends_bind (Ends_pvid_set _ _)
      (fun _ _ => Ends_err_port_pvid_set c env fuel vid_begin vid_end hvb hR hwrap hfuel)
  · exact Ends_err_port_pvid_set c env fuel vid_begin vid_end hvb hR hwrap hfuel

theorem Ends_vlans_add_pvid (env : Nat → Int) (vid_begin : Nat) (flag_pvid : Bool)
    (old_pvid : Nat) :
    Ends (vlans_add_pvid env vid_begin flag_pvid old_pvid) (fun _ => True) := by
  unfold vlans_add_pvid
  exact Ends_ite (Ends_bind (Ends_pvid_set _ _) (fun _ _ => Ends_ite (Ends_pure _ trivial)
    (Ends_bind (Ends_modifySt _) (fun _ _ => Ends_pure _ trivial)))) (Ends_pure _ trivial)

theorem Ends_vlans_add_fids (env : Nat → Int) (fuel vid_begin vid_end : Nat)
    (hve : vid_end + 1 < U16) (hfuel : vid_end + 1 - vid_begin < fuel) :
    Ends (vlans_add_fids env fuel vid_begin vid_end) (fun _ => True) := by
  unfold vlans_add_fids
  refine Ends_weaken (Ends_for_up _ 1 vid_end (fun v => ?_) (by omega) hve fuel vid_begin hfuel)
    (fun _ _ => trivial)
  refine Ends_bind Ends_getSt (fun _ _ => Ends_ite ?_ (Ends_pure _ trivial))
  refine Ends_bind (Ends_fid_create _ _) (fun _ _ => Ends_ite (Ends_pure _ trivial) ?_)
  refine Ends_bind (Ends_vid_to_fid_set _ _ _ _ _) (fun _ _ => Ends_ite ?_ (Ends_pure _ trivial))
  exact Ends_bind (Ends_fid_destroy _ _) (fun _ _ => Ends_pure _ trivial)

theorem Ends_vlans_add_fid_maps (env : Nat → Int) (fuel vid_begin vid_end : Nat)
    (hve : vid_end + 1 < U16) (hfuel : vid_end + 1 - vid_begin < fuel) :
    Ends (vlans_add_fid_maps env fuel vid_begin vid_end)
      (fun r => r.2 ≠ none → vid_begin ≤ r.1 ∧ r.1 ≤ vid_end) := by
  unfold vlans_add_fid_maps
  exact Ends_for_up _ 1 vid_end (fun v => Ends_err_body _ (Ends_fid_map _ _)) (by omega) hve
    fuel vid_begin hfuel

theorem Ends_add_vids (env : Nat → Int) (fuel vid_begin vid_end : Nat)
    (hvb : 0 < vid_begin) (hve : vid_end + 1 < U16) (hfuel : vid_end + 1 - vid_begin < fuel) :
    Ends (mlxsw_sp_port_add_vids env fuel vid_begin vid_end) (fun _ => True) :=
  Ends_of_returns (fun s => add_vids_returns env fuel vid_begin vid_end s hvb hve hfuel)

/-- With a range that starts above vid 0 and fuel for the range, a run of
`vlans_add_exit` ends, whatever the environment answers. -/
theorem Ends_vlans_add_exit (c : Consts) (env : Nat → Int) (fuel vid_begin vid_end : Nat)
    (fu fp : Bool) (hvb : 0 < vid_begin) (hR : 0 < c.MLXSW_REG_SPVM_REC_MAX_COUNT)
    (hwrap : vid_end + c.MLXSW_REG_SPVM_REC_MAX_COUNT < U16)
    (hfuel : vid_end + 1 - vid_begin < fuel) :
    Ends (vlans_add_exit c env fuel vid_begin vid_end fu fp) (fun _ => True) := by
  have hU : U16 = 65536 := rfl
  have hve : vid_end + 1 < U16 := by omega
  unfold vlans_add_exit
  refine Ends_bind Ends_getSt (fun _ _ => Ends_ite ?_ ?_)
  · exact Ends_bind (Ends_add_vids env fuel vid_begin vid_end hvb hve hfuel)
      (fun _ _ => Ends_pure _ trivial)
  refine Ends_bind (Ends_vlans_add_fids env fuel vid_begin vid_end hve hfuel) (fun r _ => ?_)
  obtain ⟨v, e⟩ := r
  cases e with
  | some x => exact Ends_pure _ trivial
  | none =>
    refine Ends_bind (Ends_vlans_add_fid_maps env fuel vid_begin vid_end hve hfuel)
      (fun r hr => ?_)
    obtain ⟨v, e⟩ := r
    cases e with
    | some err =>
      have hv : vid_begin ≤ v ∧ v ≤ vid_end := hr (by simp)
      refine Ends_bind (Ends_err_port_fid_map env fuel vid_begin ((v + U16 - 1) % U16) hvb
        (Nat.mod_lt _ (by omega)) ?_) (fun _ _ => Ends_pure _ trivial)
      have hmod : (v + U16 - 1) % U16 = v - 1 := by
        have : v + U16 - 1 = (v - 1) + U16 := by omega
        rw [this, Nat.add_mod_right]
        exact Nat.mod_eq_of_lt (by omega)
      rw [hmod]
      omega
    | none =>
      refine Ends_bind (Ends_flood_set _ _ _ _ _ _) (fun _ _ => Ends_ite ?_ ?_)
      · unfold vlans_add_err_port_flood_set
        exact Ends_bind (Ends_err_port_fid_map env fuel vid_begin vid_end hvb (by omega) hfuel)
          (fun _ _ => Ends_pure _ trivial)
      refine Ends_bind (Ends_vlans_set c env fuel vid_begin vid_end true fu hR hwrap hfuel)
        (fun _ _ => Ends_ite ?_ ?_)
      · exact Ends_bind (Ends_err_port_vlans_set c env fuel vid_begin vid_end hvb (by omega)
          hfuel) (fun _ _ => Ends_pure _ trivial)
      refine Ends_bind Ends_getSt (fun _ _ => Ends_bind (Ends_vlans_add_pvid _ _ _ _)
        (fun _ _ => Ends_ite ?_ ?_))
      · exact Ends_bind (Ends_err_port_pvid_set c env fuel vid_begin vid_end hvb hR hwrap
          hfuel) (fun _ _ => Ends_pure _ trivial)
      refine Ends_bind (Ends_set_active_vlans fuel vid_begin vid_end hve hfuel) (fun _ _ =>
        Ends_bind Ends_getSt (fun _ _ => Ends_bind (Ends_stp_state_set _ _)
          (fun _ _ => Ends_ite ?_ (Ends_pure _ trivial))))
      exact Ends_bind (Ends_err_port_stp_state_set c env fuel vid_begin vid_end _ hvb hR hwrap
        hfuel) (fun _ _ => Ends_pure _ trivial)

/-- More fuel does not change a `for_up` loop that returned. -/
theorem for_up_fuel_mono {ε : Type} (body : Nat → M (Option ε)) (step vid_end : Nat) :
    ∀ fuel vid s r s', for_up body step vid_end fuel vid s = Res.ret r s' →
      ∀ fuel', fuel ≤ fuel' → for_up body step vid_end fuel' vid s = Res.ret r s' := by
  intro fuel
  induction fuel with
  | zero => intro vid s r s' h; simp [for_up] at h
  | succ n ih =>
    intro vid s r s' h fuel' hle
    cases fuel' with
    | zero => omega
    | succ m =>
      unfold for_up at h ⊢
      by_cases hc : vid ≤ vid_end
      · simp only [hc, if_true, bind_apply] at h ⊢
        cases hb : body vid s with
        | bug _ => simp [hb] at h
        | out_of_fuel => simp [hb] at h
        | ret e s1 =>
          rw [hb] at h
          dsimp only at h ⊢
          cases e with
          | some x => exact h
          | none => exact ih _ _ _ _ h m (by omega)
      · simp only [hc, if_false] at h ⊢
        exact h

/-- A `for_down` loop with the lower end 0 whose body returns uses up any fuel:
the `u16` counter is never below 0. -/
theorem for_down_zero_out_of_fuel (body : Nat → M Unit)
    (hbody : ∀ v s, ∃ s', body v s = Res.ret () s') :
    ∀ fuel vid s, for_down body 0 fuel vid s = Res.out_of_fuel := by
  intro fuel
  induction fuel with
  | zero => intro vid s; rfl
  | succ n ih =>
    intro vid s
    unfold for_down
    obtain ⟨s1, hb⟩ := hbody vid s
    simp only [Nat.zero_le, if_true, bind_apply, hb]
    exact ih _ _

/-- C24 (amended): for every port, bridged or not, every range whose first vid
is above 0 and whose last vid is at most 4095, every VLAN-table record maximum
between 1 and 4096 and every pattern of failures, a run of
`__mlxsw_sp_port_vlans_add` with fuel for `vid_end - vid_begin + 2` iterations
of each loop ends: it returns, or it stops at the `BUG()` of the STP step; none
of its forward loops and none of its rollback loops runs out of fuel. The run
of `mlxsw_sp_port_add_vids`, with its rollback loop, returns. -/
theorem vlans_add_terminates (c : Consts) (env : Nat → Int) (fuel vid_begin vid_end : Nat)
    (fu fp : Bool) (s : St) (hvb : 0 < vid_begin) (hve : vid_end < VLAN_N_VID)
    (hR : 0 < c.MLXSW_REG_SPVM_REC_MAX_COUNT)
    (hR' : c.MLXSW_REG_SPVM_REC_MAX_COUNT ≤ VLAN_N_VID)
    (hfuel : vid_end + 1 - vid_begin < fuel) :
    ((∃ r s', __mlxsw_sp_port_vlans_add c env fuel vid_begin vid_end fu fp s = Res.ret r s') ∨
      ∃ s', __mlxsw_sp_port_vlans_add c env fuel vid_begin vid_end fu fp s = Res.bug s') ∧
    ∃ r s', mlxsw_sp_port_add_vids env fuel vid_begin vid_end s = Res.ret r s' := by
  have hV : VLAN_N_VID = 4096 := rfl
  have hU : U16 = 65536 := rfl
  refine ⟨?_, add_vids_returns env fuel vid_begin vid_end s hvb (by omega) hfuel⟩
  have h : Ends (__mlxsw_sp_port_vlans_add c env fuel vid_begin vid_end fu fp)
      (fun _ => True) := by
    unfold __mlxsw_sp_port_vlans_add
    exact Ends_bind (Ends_vlans_add_exit c env fuel vid_begin vid_end fu fp hvb hR (by omega)
      hfuel) (fun _ _ => Ends_pure _ trivial)
  rcases h s with ⟨r, s', h1, -⟩ | ⟨s', h1⟩
  · exact Or.inl ⟨r, s', h1⟩
  · exact Or.inr ⟨s', h1⟩

/-- Instance of C24: the range 5 to 7 on `ex_port`, the third interaction
failing. -/
theorem vlans_add_terminates_witness :
    ((∃ r s', __mlxsw_sp_port_vlans_add mlxsw_consts (fail_at 2) 4 5 7 true true ex_st
        = Res.ret r s') ∨
      ∃ s', __mlxsw_sp_port_vlans_add mlxsw_consts (fail_at 2) 4 5 7 true true ex_st
        = Res.bug s') ∧
    ∃ r s', mlxsw_sp_port_add_vids (fail_at 2) 4 5 7 ex_st = Res.ret r s' :=
  vlans_add_terminates mlxsw_consts (fail_at 2) 4 5 7 true true ex_st
    (by decide) (by decide) (by decide) (by decide) (by decide)

/-- C24, counterexample: with `vid_begin = 0` the rollback loops never end. On
the bridged port `ex_port` the add of VLAN 0 whose FID mapping fails jumps to
`err_port_fid_map` with `last_visited_vid = 65535`, and on the port outside any
bridge the add of vid 0 that fails enters the rollback of
`mlxsw_sp_port_add_vids` at `vid = 65535`; the condition `vid >= 0` of either
loop holds for every `u16` value, so the run uses up every amount of fuel. -/
theorem vlans_add_rollback_from_zero_never_ends :
    (∀ fuel, __mlxsw_sp_port_vlans_add mlxsw_consts (fail_at 2) fuel 0 0 true true ex_st
      = Res.out_of_fuel) ∧
    (∀ fuel, mlxsw_sp_port_add_vids (fail_at 0) fuel 0 0 ex_st_unbridged
      = Res.out_of_fuel) := by
  constructor
  · intro fuel
    have hb : ex_st.port.bridged = true := rfl
    rcases Nat.lt_or_ge fuel 2 with hlt | hge
    · interval_cases fuel <;> decide!
    · have h1 : vlans_add_fids (fail_at 2) 2 0 0 ex_st = Res.ret (1, none)
          (Res.final ex_st (vlans_add_fids (fail_at 2) 2 0 0 ex_st)) := by decide!
      have h2 : vlans_add_fid_maps (fail_at 2) 1 0 0
          (Res.final ex_st (vlans_add_fids (fail_at 2) 2 0 0 ex_st)) = Res.ret (0, some (-5))
          (Res.final ex_st (vlans_add_fid_maps (fail_at 2) 1 0 0
            (Res.final ex_st (vlans_add_fids (fail_at 2) 2 0 0 ex_st)))) := by decide!
      have h1' := for_up_fuel_mono _ _ _ _ _ _ _ _ h1 fuel hge
      have h2' := for_up_fuel_mono _ _ _ _ _ _ _ _ h2 fuel (by omega)
      have h3 := for_down_zero_out_of_fuel (fun vid => do
          let _ ← mlxsw_sp_port_fid_unmap (fail_at 2) vid
          pure ())
        (fun v t => by
          by_cases hv : t.port.vports_list_empty = true <;>
            simp [mlxsw_sp_port_fid_unmap, mlxsw_sp_port_vid_to_fid_set, hv])
        fuel ((0 + U16 - 1) % U16)
        (Res.final ex_st (vlans_add_fid_maps (fail_at 2) 1 0 0
          (Res.final ex_st (vlans_add_fids (fail_at 2) 2 0 0 ex_st))))
      change vlans_add_fids (fail_at 2) fuel 0 0 ex_st = _ at h1'
      change vlans_add_fid_maps (fail_at 2) fuel 0 0 _ = _ at h2'
      change vlans_add_err_port_fid_map (fail_at 2) fuel 0 ((0 + U16 - 1) % U16) _ = _ at h3
      simp only [__mlxsw_sp_port_vlans_add, vlans_add_exit, bind_apply, getSt_apply, hb,
        Bool.not_true, Bool.false_eq_true, if_false, h1', h2', h3]
  · intro fuel
    rcases Nat.lt_or_ge fuel 1 with hlt | hge
    · interval_cases fuel
      decide!
    · have h1 : for_up (fun vid => do
            let err ← mlxsw_sp_port_add_vid (fail_at 0) vid
            if err ≠ 0 then pure (some err) else pure none) 1 0 1 0 ex_st_unbridged
          = Res.ret (0, some (-5)) { ex_st_unbridged with trace := [⟨.add_vid 3 0, -5⟩] } := by
        decide!
      have h1' := for_up_fuel_mono _ _ _ _ _ _ _ _ h1 fuel hge
      have h3 := for_down_zero_out_of_fuel (fun v => do
          let _ ← mlxsw_sp_port_kill_vid (fail_at 0) v
          pure ())
        (fun v t => by
          simp only [bind_apply, mlxsw_sp_port_kill_vid, getSt_apply, env_call_apply]
          exact ⟨_, rfl⟩) fuel ((0 + U16 - 1) % U16)
        { ex_st_unbridged with trace := [⟨.add_vid 3 0, -5⟩] }
      simp only [mlxsw_sp_port_add_vids, bind_apply, h1', h3]

/-! ## C11, C14 and C20: the allocation of the payload buffer -/

/-- When the payload buffer is not allocated, `mlxsw_sp_port_stp_state_set`
returns `-ENOMEM` for the five bridge states, having made no write. -/
theorem stp_state_set_no_buffer (env : Nat → Int) (state : Nat) (s : St)
    (hst : state = BR_STATE_DISABLED ∨ state = BR_STATE_FORWARDING ∨
      state = BR_STATE_LISTENING ∨ state = BR_STATE_LEARNING ∨ state = BR_STATE_BLOCKING)
    (hbuf : env s.trace.length ≠ 0) :
    mlxsw_sp_port_stp_state_set env state s =
      Res.ret (-ENOMEM) { s with trace := ⟨.kmalloc .spms_pl, env s.trace.length⟩ :: s.trace } := by
  rcases hst with h | h | h | h | h <;>
    simp [mlxsw_sp_port_stp_state_set, h, kmalloc, hbuf, BR_STATE_DISABLED,
      BR_STATE_FORWARDING, BR_STATE_LISTENING, BR_STATE_LEARNING, BR_STATE_BLOCKING]

/-- C11 (amended): for every port and every STP state among disabled,
forwarding, listening, learning and blocking, `mlxsw_sp_port_stp_state_set`
first allocates its payload buffer. When the allocation fails it returns
`-ENOMEM` and issues no write. When the buffer is allocated it issues exactly
one SPMS write and returns its result; the request carries the hardware state
forwarding for disabled and forwarding, learning for listening and learning,
discarding for blocking, and carries it once for each VLAN of the port's active
set (vid below 4096 with its bit set) on a physical port, for the single VLAN
of a virtual port, and for no other VLAN. -/
theorem stp_state_set_request (env : Nat → Int) (state : Nat) (s : St)
    (hst : state = BR_STATE_DISABLED ∨ state = BR_STATE_FORWARDING ∨
      state = BR_STATE_LISTENING ∨ state = BR_STATE_LEARNING ∨ state = BR_STATE_BLOCKING) :
    (env s.trace.length ≠ 0 →
      mlxsw_sp_port_stp_state_set env state s =
        Res.ret (-ENOMEM)
          { s with trace := ⟨.kmalloc .spms_pl, env s.trace.length⟩ :: s.trace }) ∧
    (env s.trace.length = 0 →
      ∃ st vids,
        mlxsw_sp_port_stp_state_set env state s =
          Res.ret (env (s.trace.length + 1)) { s with trace :=
            ⟨.spms s.port.local_port vids st, env (s.trace.length + 1)⟩ ::
            ⟨.kmalloc .spms_pl, 0⟩ :: s.trace } ∧
        (state = BR_STATE_DISABLED ∨ state = BR_STATE_FORWARDING →
          st = .MLXSW_REG_SPMS_STATE_FORWARDING) ∧
        (state = BR_STATE_LISTENING ∨ state = BR_STATE_LEARNING →
          st = .MLXSW_REG_SPMS_STATE_LEARNING) ∧
        (state = BR_STATE_BLOCKING → st = .MLXSW_REG_SPMS_STATE_DISCARDING) ∧
        vids.Nodup ∧
        (s.port.is_vport = true → ∀ vid, vid ∈ vids ↔ vid = s.port.vport_vid) ∧
        (s.port.is_vport = false →
          ∀ vid, vid ∈ vids ↔ vid < VLAN_N_VID ∧ test_bit vid s.port.active_vlans = true)) :=
  ⟨fun hbuf => stp_state_set_no_buffer env state s hst hbuf,
   fun hbuf => stp_state_set_allocated env state s hst hbuf⟩

/-- Instance of C11: on `ex_port5` (VLAN 5 active) the state listening is
written as hardware learning for VLAN 5 when the buffer is allocated. -/
theorem stp_state_set_request_witness :
    (no_failure ex_st5.trace.length ≠ 0 →
      mlxsw_sp_port_stp_state_set no_failure BR_STATE_LISTENING ex_st5 =
        Res.ret (-ENOMEM) { ex_st5 with trace :=
          ⟨.kmalloc .spms_pl, no_failure ex_st5.trace.length⟩ :: ex_st5.trace }) ∧
    (no_failure ex_st5.trace.length = 0 →
      ∃ st vids,
        mlxsw_sp_port_stp_state_set no_failure BR_STATE_LISTENING ex_st5 =
          Res.ret (no_failure (ex_st5.trace.length + 1)) { ex_st5 with trace :=
            ⟨.spms ex_st5.port.local_port vids st, no_failure (ex_st5.trace.length + 1)⟩ ::
            ⟨.kmalloc .spms_pl, 0⟩ :: ex_st5.trace } ∧
        (BR_STATE_LISTENING = BR_STATE_DISABLED ∨ BR_STATE_LISTENING = BR_STATE_FORWARDING →
          st = .MLXSW_REG_SPMS_STATE_FORWARDING) ∧
        (BR_STATE_LISTENING = BR_STATE_LISTENING ∨ BR_STATE_LISTENING = BR_STATE_LEARNING →
          st = .MLXSW_REG_SPMS_STATE_LEARNING) ∧
        (BR_STATE_LISTENING = BR_STATE_BLOCKING → st = .MLXSW_REG_SPMS_STATE_DISCARDING) ∧
        vids.Nodup ∧
        (ex_st5.port.is_vport = true → ∀ vid, vid ∈ vids ↔ vid = ex_st5.port.vport_vid) ∧
        (ex_st5.port.is_vport = false →
          ∀ vid, vid ∈ vids ↔
            vid < VLAN_N_VID ∧ test_bit vid ex_st5.port.active_vlans = true)) :=
  stp_state_set_request no_failure BR_STATE_LISTENING ex_st5 (by decide)

/-- C11, counterexample: on `ex_port5` (VLAN 5 active) with the state
forwarding, when the allocation of the payload buffer fails the function
returns `-ENOMEM` and its trace holds the failed allocation only: it issued no
SPMS write, where the claim has it issue exactly one. The run with the buffer
allocated issues the one write. -/
theorem stp_state_set_no_buffer_no_write :
    mlxsw_sp_port_stp_state_set (fail_at 0) BR_STATE_FORWARDING ex_st5 =
      Res.ret (-12) { ex_st5 with trace := [⟨.kmalloc .spms_pl, -5⟩] } ∧
    count_kind .spms (Res.final ex_st5
      (mlxsw_sp_port_stp_state_set (fail_at 0) BR_STATE_FORWARDING ex_st5)).trace = 0 ∧
    mlxsw_sp_port_stp_state_set no_failure BR_STATE_FORWARDING ex_st5 =
      Res.ret 0 { ex_st5 with trace :=
        [⟨.spms 3 [5] .MLXSW_REG_SPMS_STATE_FORWARDING, 0⟩, ⟨.kmalloc .spms_pl, 0⟩] } := by
  decide!

/-- C14 (amended): for a learned (`adding`) or aged (`adding` false)
notification record that names a known port `p` and a FID that is not a virtual
FID, `mlxsw_sp_fdb_notify_mac_process` first allocates its payload buffer. When
the allocation fails it returns having issued no FDB write. When the buffer is
allocated it issues exactly one hardware FDB write; it is for the record's MAC
and FID and the port `p`, with the dynamic-entry policy, and it is a write-edit
(entry present) if and only if the record is learned and the learning flag of
`p` is set, and a write-remove (entry absent) otherwise. The switch and the
port of the state are not touched. -/
theorem fdb_notify_mac_process_write (t : Topology) (env : Nat → Int)
    (mac fid local_port : Nat) (adding : Bool) (p : mlxsw_sp_port) (s : St)
    (hp : t.ports local_port = some p) (hfid : t.mlxsw_sp_fid_is_vfid fid = false) :
    (env s.trace.length ≠ 0 →
      mlxsw_sp_fdb_notify_mac_process t env mac fid local_port adding s =
        Res.ret () { s with trace := ⟨.kmalloc .sfd_pl, env s.trace.length⟩ :: s.trace }) ∧
    (env s.trace.length = 0 →
      ∃ s' o, mlxsw_sp_fdb_notify_mac_process t env mac fid local_port adding s
          = Res.ret () s' ∧
        s'.sp = s.sp ∧ s'.port = s.port ∧
        (new_events s s').filter (fun e => decide (e.op.kind = .sfd)) =
          [⟨.sfd_uc o .MLXSW_REG_SFD_REC_POLICY_DYNAMIC_ENTRY_INGRESS mac fid p.local_port,
            env (s.trace.length + 1)⟩] ∧
        (o = .MLXSW_REG_SFD_OP_WRITE_EDIT ↔ adding = true ∧ p.learning = true) ∧
        (o = .MLXSW_REG_SFD_OP_WRITE_REMOVE ↔ ¬ (adding = true ∧ p.learning = true))) := by
  refine ⟨fun hbuf => ?_,
    fun hbuf => fdb_notify_mac_process_allocated t env mac fid local_port adding p s hp hfid hbuf⟩
  rw [fdb_notify_mac_process_eq t env mac fid local_port adding p s hp hfid, if_pos hbuf]

/-- Instance of C14: the learned record (`00:11:22:33:44:55`, FID 10, local port
3) on the switch `ex_topology`, whose port 3 has learning set. -/
theorem fdb_notify_mac_process_write_witness :
    (no_failure ex_st.trace.length ≠ 0 →
      mlxsw_sp_fdb_notify_mac_process ex_topology no_failure ex_mac 10 3 true ex_st =
        Res.ret () { ex_st with trace :=
          ⟨.kmalloc .sfd_pl, no_failure ex_st.trace.length⟩ :: ex_st.trace }) ∧
    (no_failure ex_st.trace.length = 0 →
      ∃ s' o, mlxsw_sp_fdb_notify_mac_process ex_topology no_failure ex_mac 10 3 true ex_st
          = Res.ret () s' ∧
        s'.sp = ex_st.sp ∧ s'.port = ex_st.port ∧
        (new_events ex_st s').filter (fun e => decide (e.op.kind = .sfd)) =
          [⟨.sfd_uc o .MLXSW_REG_SFD_REC_POLICY_DYNAMIC_ENTRY_INGRESS ex_mac 10
              ex_port.local_port, no_failure (ex_st.trace.length + 1)⟩] ∧
        (o = .MLXSW_REG_SFD_OP_WRITE_EDIT ↔ true = true ∧ ex_port.learning = true) ∧
        (o = .MLXSW_REG_SFD_OP_WRITE_REMOVE ↔ ¬ (true = true ∧ ex_port.learning = true))) :=
  fdb_notify_mac_process_write ex_topology no_failure ex_mac 10 3 true ex_port ex_st
    (by decide) (by decide)

/-- C14, counterexample: the learned record (`00:11:22:33:44:55`, FID 10, local
port 3) on the switch `ex_topology`; when the allocation of the payload buffer
in `mlxsw_sp_port_fdb_uc_op` fails, the function returns with the failed
allocation as its only interaction: it issued no FDB write, where the claim has
it issue exactly one. The run with the buffer allocated issues the one write. -/
theorem fdb_notify_mac_process_no_buffer_no_write :
    mlxsw_sp_fdb_notify_mac_process ex_topology (fail_at 0) ex_mac 10 3 true ex_st =
      Res.ret () { ex_st with trace := [⟨.kmalloc .sfd_pl, -5⟩] } ∧
    count_kind .sfd (Res.final ex_st
      (mlxsw_sp_fdb_notify_mac_process ex_topology (fail_at 0) ex_mac 10 3 true ex_st)).trace
      = 0 ∧
    count_kind .sfd (Res.final ex_st
      (mlxsw_sp_fdb_notify_mac_process ex_topology no_failure ex_mac 10 3 true ex_st)).trace
      = 1 := by
  decide!

/-- C20 (amended): for every port, index range, `set` value and `only_uc` flag,
`__mlxsw_sp_port_flood_set` first allocates its payload buffer. When the
allocation fails it returns `-ENOMEM` and writes no table. When the buffer is
allocated it first writes the unicast flood table for the range; if that write
fails it returns its error and writes nothing more; if it succeeds and
`only_uc` is set it returns 0 and writes nothing more; otherwise it writes the
broadcast/multicast flood table with the same index, range, table type, row and
`set` value and returns the result of that write. The table type and the row
are those of the port kind: FID offset and the port itself for a physical port;
FID and, for a virtual port, the port itself when the index is a bridge vFID
and the CPU port otherwise. -/
theorem flood_set_writes (c : Consts) (env : Nat → Int) (idx_begin idx_end : Nat)
    (set only_uc : Bool) (s : St) :
    (env s.trace.length ≠ 0 →
      __mlxsw_sp_port_flood_set c env idx_begin idx_end set only_uc s =
        Res.ret (-ENOMEM)
          { s with trace := ⟨.kmalloc .sftr_pl, env s.trace.length⟩ :: s.trace }) ∧
    (env s.trace.length = 0 →
      ∃ table_type row,
        (s.port.is_vport = false →
          table_type = .MLXSW_REG_SFGC_TABLE_TYPE_FID_OFFEST ∧ row = s.port.local_port) ∧
        (s.port.is_vport = true →
          table_type = .MLXSW_REG_SFGC_TABLE_TYPE_FID ∧
          row = if mlxsw_sp_vfid_is_vport_br c idx_begin then s.port.local_port
                else c.MLXSW_PORT_CPU_PORT) ∧
        __mlxsw_sp_port_flood_set c env idx_begin idx_end set only_uc s =
          if env (s.trace.length + 1) ≠ 0 then
            Res.ret (env (s.trace.length + 1)) { s with trace :=
              ⟨.sftr .MLXSW_SP_FLOOD_TABLE_UC idx_begin table_type
                  ((idx_end + U16 - idx_begin + 1) % U16) row set, env (s.trace.length + 1)⟩ ::
              ⟨.kmalloc .sftr_pl, 0⟩ :: s.trace }
          else if only_uc = true then
            Res.ret 0 { s with trace :=
              ⟨.sftr .MLXSW_SP_FLOOD_TABLE_UC idx_begin table_type
                  ((idx_end + U16 - idx_begin + 1) % U16) row set, 0⟩ ::
              ⟨.kmalloc .sftr_pl, 0⟩ :: s.trace }
          else
            Res.ret (env (s.trace.length + 2)) { s with trace :=
              ⟨.sftr .MLXSW_SP_FLOOD_TABLE_BM idx_begin table_type
                  ((idx_end + U16 - idx_begin + 1) % U16) row set, env (s.trace.length + 2)⟩ ::
              ⟨.sftr .MLXSW_SP_FLOOD_TABLE_UC idx_begin table_type
                  ((idx_end + U16 - idx_begin + 1) % U16) row set, 0⟩ ::
              ⟨.kmalloc .sftr_pl, 0⟩ :: s.trace }) := by
  refine ⟨fun hbuf => ?_,
    fun hbuf => flood_set_allocated c env idx_begin idx_end set only_uc s hbuf⟩
  simp [__mlxsw_sp_port_flood_set, kmalloc, hbuf]

/-- C20, counterexample: on `ex_port`, range 5 to 7, both tables asked; when
the allocation of the payload buffer fails the function returns `-ENOMEM` with
the failed allocation as its only interaction: the unicast flood table is not
written, where the claim has it written first on every call. The run with the
buffer allocated writes the unicast table, then the broadcast/multicast one. -/
theorem flood_set_no_buffer_no_write :
    __mlxsw_sp_port_flood_set mlxsw_consts (fail_at 0) 5 7 true false ex_st =
      Res.ret (-12) { ex_st with trace := [⟨.kmalloc .sftr_pl, -5⟩] } ∧
    count_kind .sftr (Res.final ex_st
      (__mlxsw_sp_port_flood_set mlxsw_consts (fail_at 0) 5 7 true false ex_st)).trace = 0 ∧
    __mlxsw_sp_port_flood_set mlxsw_consts no_failure 5 7 true false ex_st =
      Res.ret 0 { ex_st with trace :=
        [⟨flood_bm_op 3 5 7 true, 0⟩, ⟨flood_uc_op 3 5 7 true, 0⟩, ⟨.kmalloc .sftr_pl, 0⟩] } := by
  decide!

/-! ## C4: every failing step -/

theorem KeptOrCleared_of_kept {p : mlxsw_sp_port} {vid_begin vid_end : Nat} {a b : St}
    (h : TablesKept a b) : KeptOrCleared p vid_begin vid_end a b :=
  ⟨fun t tt port idx => Or.inl (h.1 t tt port idx), fun lp vid => Or.inl (h.2 lp vid)⟩

/-- Unwinding the range after changes on the range only leaves every entry as
it was at first, or cleared. -/
theorem unwound_cleared {p : mlxsw_sp_port} {vid_begin vid_end : Nat} {s t s' : St}
    (h1 : RangeOnly p vid_begin vid_end s t) (h2 : Unwound p vid_begin vid_end t s') :
    KeptOrCleared p vid_begin vid_end s s' := by
  refine ⟨fun table tt port idx => ?_, fun lp vid => ?_⟩
  · by_cases hk : tt = .MLXSW_REG_SFGC_TABLE_TYPE_FID_OFFEST ∧ port = p.local_port ∧
        vid_begin ≤ idx ∧ idx ≤ vid_end
    · refine Or.inr ⟨hk.1, hk.2.1, hk.2.2.1, hk.2.2.2, ?_⟩
      rw [h2.1, if_pos hk]
    · left
      rw [h2.1, if_neg hk]
      exact h1.1 table tt port idx hk
  · by_cases hk : p.vports_list_empty = false ∧ lp = p.local_port ∧ vid_begin ≤ vid ∧
        vid ≤ vid_end
    · refine Or.inr ⟨hk.2.1, hk.2.2.1, hk.2.2.2, ?_⟩
      rw [h2.2, if_pos hk]
    · left
      rw [h2.2, if_neg hk]
      exact h1.2 lp vid hk

/-- The identity of the original claim follows for entries that were
unprogrammed before the call. -/
theorem KeptOrCleared_unprogrammed {p : mlxsw_sp_port} {vid_begin vid_end : Nat} {s s' : St}
    (h : KeptOrCleared p vid_begin vid_end s s')
    (hf : ∀ table idx, vid_begin ≤ idx → idx ≤ vid_end →
      hw_flood table .MLXSW_REG_SFGC_TABLE_TYPE_FID_OFFEST p.local_port idx s.trace = false)
    (hm : ∀ vid, vid_begin ≤ vid → vid ≤ vid_end →
      hw_vid_to_fid p.local_port .MLXSW_REG_SVFA_MT_PORT_VID_TO_FID vid s.trace = none) :
    TablesKept s s' := by
  refine ⟨fun table tt port idx => ?_, fun lp vid => ?_⟩
  · rcases h.1 table tt port idx with hk | ⟨rfl, rfl, a, b, hc⟩
    · exact hk
    · rw [hc, hf table idx a b]
  · rcases h.2 lp vid with hk | ⟨rfl, a, b, hc⟩
    · exact hk
    · rw [hc, hm vid a b]

/-- The unmap loop of the unwinding after mappings up to `last`: every
port-scoped mapping is as at first, or is one of the range and invalid; the
flood tables are as they were before the loop. -/
theorem fid_unwind_cleared (env : Nat → Int) (fuel vid_begin vid_end last : Nat)
    (s t s' : St) (hvb : 0 < vid_begin) (hlast : last ≤ vid_end) (hve : vid_end + 1 < U16)
    (hvl : vid_begin ≤ last + 1) (hfuel : vid_end + 1 - vid_begin < fuel)
    (hp : t.port = s.port)
    (hmap : ∀ lp u,
      ¬ (s.port.vports_list_empty = false ∧ lp = s.port.local_port ∧ vid_begin ≤ u ∧ u ≤ last) →
      hw_vid_to_fid lp .MLXSW_REG_SVFA_MT_PORT_VID_TO_FID u t.trace
        = hw_vid_to_fid lp .MLXSW_REG_SVFA_MT_PORT_VID_TO_FID u s.trace)
    (h : vlans_add_err_port_fid_map env fuel vid_begin last t = Res.ret () s')
    (hz : ∀ e ∈ new_events t s', e.err = 0) :
    (∀ table table_type port idx,
      hw_flood table table_type port idx s'.trace = hw_flood table table_type port idx t.trace) ∧
    ∀ lp vid,
      hw_vid_to_fid lp .MLXSW_REG_SVFA_MT_PORT_VID_TO_FID vid s'.trace
        = hw_vid_to_fid lp .MLXSW_REG_SVFA_MT_PORT_VID_TO_FID vid s.trace ∨
      (lp = s.port.local_port ∧ vid_begin ≤ vid ∧ vid ≤ vid_end ∧
        hw_vid_to_fid lp .MLXSW_REG_SVFA_MT_PORT_VID_TO_FID vid s'.trace = none) := by
  obtain ⟨r, hu⟩ := err_port_fid_map_unwound env fuel vid_begin last t s' hvb (by omega) hvl
    (by omega) h hz
  refine ⟨fun table tt port idx => HwOnly_hw_flood r (by simp) _ _ _ _, fun lp u => ?_⟩
  rw [hu, hp]
  by_cases hk : s.port.vports_list_empty = false ∧ lp = s.port.local_port ∧ vid_begin ≤ u ∧
      u ≤ last
  · rw [if_pos hk]
    exact Or.inr ⟨hk.2.1, hk.2.2.1, by omega, rfl⟩
  · rw [if_neg hk]
    exact Or.inl (hmap lp u hk)

/-- With at most one failure in all, two failed interactions are the same one. -/
theorem failure_unique {evs : List Ev} {e e' : Ev} (h : failures evs ≤ 1)
    (he : e ∈ evs) (hne : e.err ≠ 0) (he' : e' ∈ evs) (hne' : e'.err ≠ 0) : e = e' := by
  unfold failures at h
  have m : e ∈ evs.filter (fun e => decide (e.err ≠ 0)) := by simp [he, hne]
  have m' : e' ∈ evs.filter (fun e => decide (e.err ≠ 0)) := by simp [he', hne']
  cases hl : evs.filter (fun e => decide (e.err ≠ 0)) with
  | nil => rw [hl] at m; simp at m
  | cons x xs =>
    rw [hl] at h m m'
    cases xs with
    | nil =>
      simp only [List.mem_singleton] at m m'
      rw [m, m']
    | cons y ys => simp at h

/-- When the one failure of a run is a request other than the second (BM) flood
write of the forward path, that write did not fail. -/
theorem no_bm_failure {s a t s' : St} (h1 : ∃ evs, a.trace = evs ++ s.trace)
    (h2 : ∃ evs, t.trace = evs ++ a.trace) (h3 : ∃ evs, s'.trace = evs ++ t.trace)
    (hone : failures (new_events s s') ≤ 1) {ev : Ev} (hev : ev ∈ new_events a t)
    (hne : ev.err ≠ 0) {bm : Op} (hop : ev.op ≠ bm) :
    ¬ ∃ e ∈ new_events s s', e.err ≠ 0 ∧ e.op = bm := by
  rintro ⟨e, he, hne', hop'⟩
  have := failure_unique hone (new_events_mid h1 h2 h3 hev) hne he hne'
  rw [this] at hop
  exact hop hop'

theorem op_ne_flood_bm_of_only {ks : List OpKind} {e : Ev} (h : only ks e)
    (hk : OpKind.sftr ∉ ks) (lp b e' : Nat) (set : Bool) : e.op ≠ flood_bm_op lp b e' set := by
  intro heq
  unfold only at h
  rw [heq] at h
  exact hk h

/-- The flood step of `__mlxsw_sp_port_vlans_add` on a physical port, when it
fails: either the failed request is the allocation or the unicast write, and
the tables are as before; or it is the second (BM) write, and the unicast
entries of the range are set while every other entry is as before. -/
theorem flood_set_failed_cases (c : Consts) (env : Nat → Int) (vid_begin vid_end : Nat)
    (s s' : St) (err : Int) (hphys : s.port.is_vport = false) (hle : vid_begin ≤ vid_end)
    (hve : vid_end + 1 < U16)
    (h : __mlxsw_sp_port_flood_set c env vid_begin vid_end true false s = Res.ret err s')
    (herr : err ≠ 0) :
    (TablesKept s s' ∧ ∃ e ∈ new_events s s', e.err ≠ 0 ∧
        e.op ≠ flood_bm_op s.port.local_port vid_begin vid_end true) ∨
    ((∃ e ∈ new_events s s', e.err ≠ 0 ∧
        e.op = flood_bm_op s.port.local_port vid_begin vid_end true) ∧
      (∀ table table_type port idx, hw_flood table table_type port idx s'.trace
        = if table = .MLXSW_SP_FLOOD_TABLE_UC ∧
            table_type = .MLXSW_REG_SFGC_TABLE_TYPE_FID_OFFEST ∧ port = s.port.local_port ∧
            vid_begin ≤ idx ∧ idx ≤ vid_end then true
          else hw_flood table table_type port idx s.trace) ∧
      ∀ lp vid, hw_vid_to_fid lp .MLXSW_REG_SVFA_MT_PORT_VID_TO_FID vid s'.trace
        = hw_vid_to_fid lp .MLXSW_REG_SVFA_MT_PORT_VID_TO_FID vid s.trace) := by
  have hrange : (vid_end + U16 - vid_begin + 1) % U16 = vid_end - vid_begin + 1 := by
    have : vid_end + U16 - vid_begin + 1 = (vid_end - vid_begin + 1) + U16 := by omega
    rw [this, Nat.add_mod_right]
    exact Nat.mod_eq_of_lt (by omega)
  have r1 := Pres_ret (Pres_flood_set [.kmalloc, .sftr] c env _ _ _ _ (by simp) (by simp)) h
  have hmap := HwOnly_hw_vid_to_fid r1 (by simp : OpKind.vid_to_fid_set ∉ [.kmalloc, .sftr])
  rw [flood_set_eq c env vid_begin vid_end true s hphys] at h
  split at h
  · rename_i hne
    simp only [Res.ret.injEq] at h
    obtain ⟨rfl, rfl⟩ := h
    refine Or.inl ⟨⟨fun _ _ _ _ => rfl, fun lp vid => hmap _ _ _⟩,
      ⟨.kmalloc .sftr_pl, env s.trace.length⟩, ?_, hne, by simp [flood_bm_op]⟩
    rw [new_events_of_append s _ [_] rfl]
    exact List.mem_cons_self _ _
  · split at h
    · rename_i h0 hne
      simp only [Res.ret.injEq] at h
      obtain ⟨rfl, rfl⟩ := h
      refine Or.inl ⟨⟨fun _ _ _ _ => ?_, fun lp vid => hmap _ _ _⟩,
        ⟨flood_uc_op s.port.local_port vid_begin vid_end true, env (s.trace.length + 1)⟩,
        ?_, hne, by simp [flood_bm_op, flood_uc_op]⟩
      · simp only [flood_uc_op, hw_flood_cons_sftr, hw_flood_cons_kmalloc, hne, false_and,
          if_false]
      · rw [new_events_of_append s _ [_, _] rfl]
        exact List.mem_cons_self _ _
    · rename_i h0 h1
      simp only [Res.ret.injEq] at h
      obtain ⟨rfl, rfl⟩ := h
      refine Or.inr ⟨⟨⟨flood_bm_op s.port.local_port vid_begin vid_end true,
        env (s.trace.length + 2)⟩, ?_, herr, rfl⟩, fun table tt port idx => ?_,
        fun lp vid => hmap _ _ _⟩
      · rw [new_events_of_append s _ [_, _, _] rfl]
        exact List.mem_cons_self _ _
      · simp only [flood_bm_op, flood_uc_op, hw_flood_cons_sftr, hw_flood_cons_kmalloc, hrange]
        rw [if_neg (fun hh => herr hh.1)]
        by_cases hk : table = .MLXSW_SP_FLOOD_TABLE_UC ∧
            tt = .MLXSW_REG_SFGC_TABLE_TYPE_FID_OFFEST ∧ port = s.port.local_port ∧
            vid_begin ≤ idx ∧ idx ≤ vid_end
        · obtain ⟨rfl, rfl, rfl, a, b⟩ := hk
          simp [a, b]
          omega
        · rw [if_neg hk, if_neg]
          rintro ⟨-, a, b, c', d, e⟩
          exact hk ⟨a.symm, b.symm, c'.symm, d, by omega⟩

/-- When the PVID step of `__mlxsw_sp_port_vlans_add` fails, its PVID write
failed. -/
theorem vlans_add_pvid_failed (env : Nat → Int) (vid_begin : Nat) (fp : Bool) (old : Nat)
    (s s' : St) (err : Int) (h : vlans_add_pvid env vid_begin fp old s = Res.ret err s')
    (herr : err ≠ 0) :
    ∃ e ∈ new_events s s', e.err ≠ 0 ∧ e.op = .spvid s.port.local_port vid_begin := by
  rw [vlans_add_pvid_eq] at h
  split at h
  · simp only [Res.ret.injEq] at h
    obtain ⟨rfl, rfl⟩ := h
    refine ⟨⟨.spvid s.port.local_port vid_begin, env s.trace.length⟩, ?_, herr, rfl⟩
    rw [new_events_of_append s _ [_] rfl]
    exact List.mem_cons_self _ _
  · simp only [Res.ret.injEq] at h
    exact absurd h.1.symm herr

/-- What a failed `__mlxsw_sp_port_vlans_add` with a single failed request
leaves in the tables, on a bridged physical port: either the failed request is
not the second (BM) flood write of the forward path, and every entry is kept or
cleared; or it is that write, and the unicast flood entries of the range are
left set. -/
theorem vlans_add_failure_tables (c : Consts) (env : Nat → Int)
    (fuel vid_begin vid_end : Nat) (fu fp : Bool) (s s' : St) (err : Int)
    (hb : s.port.bridged = true) (hphys : s.port.is_vport = false)
    (hvb : 0 < vid_begin) (hle : vid_begin ≤ vid_end) (hve : vid_end < VLAN_N_VID)
    (hfuel : vid_end + 1 - vid_begin < fuel)
    (h : __mlxsw_sp_port_vlans_add c env fuel vid_begin vid_end fu fp s = Res.ret err s')
    (herr : err ≠ 0)
    (hone : failures (new_events s s') ≤ 1) :
    (KeptOrCleared s.port vid_begin vid_end s s' ∧
      ¬ ∃ e ∈ new_events s s', e.err ≠ 0 ∧
        e.op = flood_bm_op s.port.local_port vid_begin vid_end true) ∨
    ((∃ e ∈ new_events s s', e.err ≠ 0 ∧
        e.op = flood_bm_op s.port.local_port vid_begin vid_end true) ∧
      UcFloodLeft s.port vid_begin vid_end s s') := by
  have hk := mem_all_kinds
  have hve' : vid_end + 1 < U16 := by
    have h1 : VLAN_N_VID = 4096 := rfl
    have h2 : U16 = 65536 := rfl
    omega
  obtain ⟨ex, h⟩ := vlans_add_exit_of_eq c env fuel vid_begin vid_end fu fp s s' err h
  rcases vlans_add_exit_cases c env fuel vid_begin vid_end fu fp s s' err ex hb h with
    ⟨v, h1⟩ | ⟨v1, s1, h1, hrest⟩
  · -- the first loop failed
    refine Or.inl ⟨KeptOrCleared_of_kept
      (Pres_ret (Pres_vlans_add_fids_tables env fuel vid_begin vid_end) h1), ?_⟩
    obtain ⟨-, -, evs, t, o⟩ := Pres_ret (Pres_vlans_add_fids env fuel vid_begin vid_end) h1
    rw [new_events_of_append s s' evs t]
    rintro ⟨e, he, -, hop⟩
    exact op_ne_flood_bm_of_only (o e he) (by simp) _ _ _ _ hop
  have k1 : TablesKept s s1 := Pres_ret (Pres_vlans_add_fids_tables env fuel vid_begin vid_end) h1
  have g1 := Pres_ret (Pres_vlans_add_fids env fuel vid_begin vid_end) h1
  have p1 : s1.port = s.port := FidsGrow_port g1
  have e1 : ∃ evs, s1.trace = evs ++ s.trace := by
    obtain ⟨-, -, evs, t, -⟩ := g1
    exact ⟨evs, t⟩
  -- the second loop
  have step2 : ∀ v e s2, vlans_add_fid_maps env fuel vid_begin vid_end s1 = Res.ret (v, e) s2 →
      s2.port = s.port ∧ (∃ evs, s2.trace = evs ++ s1.trace) ∧
      (∀ table tt port idx,
        hw_flood table tt port idx s2.trace = hw_flood table tt port idx s.trace) ∧
      ∀ last, (v ≤ last + 1 ∨ vid_end ≤ last) → ∀ lp u,
        ¬ (s.port.vports_list_empty = false ∧ lp = s.port.local_port ∧ vid_begin ≤ u ∧
            u ≤ last) →
        hw_vid_to_fid lp .MLXSW_REG_SVFA_MT_PORT_VID_TO_FID u s2.trace
          = hw_vid_to_fid lp .MLXSW_REG_SVFA_MT_PORT_VID_TO_FID u s.trace := by
    intro v e s2 h2
    obtain ⟨m2, -, -⟩ := vlans_add_fid_maps_tables env fuel vid_begin vid_end s1 s2 v e hve' h2
    have r2 := Pres_ret (Pres_vlans_add_fid_maps [.vid_to_fid_set] env fuel vid_begin vid_end
      (by simp)) h2
    refine ⟨(HwOnly_port r2).1.trans p1, ⟨_, (HwOnly_new_events r2).1⟩,
      fun table tt port idx => (HwOnly_hw_flood r2 (by simp) _ _ _ _).trans (k1.1 _ _ _ _),
      fun last hl lp u hk => (m2 lp u ?_).trans (k1.2 lp u)⟩
    rw [p1]
    cases hvp : s.port.vports_list_empty with
    | true => exact Or.inl rfl
    | false =>
      right
      rintro ⟨a, b, c, d⟩
      exact hk ⟨hvp, a, b, by omega⟩
  rcases hrest with ⟨v, s2, h2, h3, -⟩ | ⟨v2, s2, h2, hrest⟩
  · -- a mapping of the second loop failed
    obtain ⟨p2, e2, f2, m2⟩ := step2 v _ s2 h2
    obtain ⟨-, hv, hv', ev, hev, hne⟩ :=
      vlans_add_fid_maps_tables env fuel vid_begin vid_end s1 s2 v (some err) hve' h2
    have r2 := Pres_ret (Pres_vlans_add_fid_maps [.vid_to_fid_set] env fuel vid_begin vid_end
      (by simp)) h2
    have r3 := Pres_ret (Pres_err_port_fid_map [.vid_to_fid_set] env _ _ _ (by simp)) h3
    have e3 : ∃ evs, s'.trace = evs ++ s2.trace := ⟨_, (HwOnly_new_events r3).1⟩
    have hz := unwind_succeeds e1 e2 e3 hone hev hne
    have hmod : (v + U16 - 1) % U16 = v - 1 := by
      have : v + U16 - 1 = (v - 1) + U16 := by omega
      rw [this, Nat.add_mod_right]
      exact Nat.mod_eq_of_lt (by omega)
    rw [hmod] at h3
    obtain ⟨hfl, hmp⟩ := fid_unwind_cleared env fuel vid_begin vid_end (v - 1) s s2 s' hvb
      (by omega) hve' (by omega) hfuel p2 (m2 (v - 1) (Or.inl (by omega))) h3 hz
    exact Or.inl ⟨⟨fun t tt port idx => Or.inl ((hfl t tt port idx).trans (f2 t tt port idx)),
      hmp⟩, no_bm_failure e1 e2 e3 hone hev hne
        (op_ne_flood_bm_of_only ((HwOnly_new_events r2).2 ev hev) (by simp) _ _ _ _)⟩
  obtain ⟨p2, e2, f2, m2⟩ := step2 v2 _ s2 h2
  have e02 := ext_trans e1 e2
  have phys2 : s2.port.is_vport = false := by rw [p2]; exact hphys
  have step3 : ∀ err3 s3,
      __mlxsw_sp_port_flood_set c env vid_begin vid_end true false s2 = Res.ret err3 s3 →
      s3.port = s.port ∧ (∃ evs, s3.trace = evs ++ s2.trace) ∧
      RangeOnly s.port vid_begin vid_end s s3 := by
    intro err3 s3 h3
    obtain ⟨ro3, -⟩ := flood_set_forward c env vid_begin vid_end s2 s3 err3 phys2 hle hve' h3
    have r3 := Pres_ret (Pres_flood_set [.kmalloc, .sftr] c env _ _ _ _ (by simp) (by simp)) h3
    rw [p2] at ro3
    exact ⟨(HwOnly_port r3).1.trans p2, ⟨_, (HwOnly_new_events r3).1⟩,
      RangeOnly_trans ⟨fun t tt port idx _ => f2 t tt port idx, m2 vid_end (Or.inr (le_refl _))⟩
        ro3⟩
  rcases hrest with ⟨s3, h3, hne3, h4, -⟩ | ⟨s3, h3, hrest⟩
  · -- the flood step failed
    obtain ⟨p3, e3, -⟩ := step3 err s3 h3
    have r4 := Pres_ret (Pres_err_port_fid_map [.vid_to_fid_set] env _ _ _ (by simp)) h4
    have e4 : ∃ evs, s'.trace = evs ++ s3.trace := ⟨_, (HwOnly_new_events r4).1⟩
    rcases flood_set_failed_cases c env vid_begin vid_end s2 s3 err phys2 hle hve' h3 hne3 with
      ⟨k3, ev, hev, hne, hop⟩ | ⟨⟨e, he, hne', hop⟩, hfl3, hmp3⟩
    · have hz := unwind_succeeds e02 e3 e4 hone hev hne
      rw [p2] at hop
      obtain ⟨hfl, hmp⟩ := fid_unwind_cleared env fuel vid_begin vid_end vid_end s s3 s' hvb
        (le_refl _) hve' (by omega) hfuel p3
        (fun lp u hk => (k3.2 lp u).trans (m2 vid_end (Or.inr (le_refl _)) lp u hk)) h4 hz
      exact Or.inl ⟨⟨fun t tt port idx =>
          Or.inl ((hfl t tt port idx).trans ((k3.1 t tt port idx).trans (f2 t tt port idx))),
        hmp⟩, no_bm_failure e02 e3 e4 hone hev hne hop⟩
    · -- the second (BM) write failed: the unicast write is not undone
      have hz := unwind_succeeds e02 e3 e4 hone he hne'
      rw [p2] at hop hfl3
      obtain ⟨hfl, hmp⟩ := fid_unwind_cleared env fuel vid_begin vid_end vid_end s s3 s' hvb
        (le_refl _) hve' (by omega) hfuel p3
        (fun lp u hk => (hmp3 lp u).trans (m2 vid_end (Or.inr (le_refl _)) lp u hk)) h4 hz
      refine Or.inr ⟨⟨e, new_events_mid e02 e3 e4 he, hne', hop⟩,
        fun t tt port idx => ?_, hmp⟩
      rw [hfl, hfl3]
      split
      · rfl
      · exact f2 t tt port idx
  obtain ⟨p3, e3, ro3⟩ := step3 0 s3 h3
  have e03 := ext_trans e02 e3
  have fin : ∀ a t : St, (∃ evs, a.trace = evs ++ s.trace) → (∃ evs, t.trace = evs ++ a.trace) →
      RangeOnly s.port vid_begin vid_end s t →
      (∃ e ∈ new_events a t, e.err ≠ 0 ∧
        e.op ≠ flood_bm_op s.port.local_port vid_begin vid_end true) →
      (∃ evs, s'.trace = evs ++ t.trace) →
      ((∀ e ∈ new_events t s', e.err = 0) → Unwound s.port vid_begin vid_end t s') →
      (KeptOrCleared s.port vid_begin vid_end s s' ∧
        ¬ ∃ e ∈ new_events s s', e.err ≠ 0 ∧
          e.op = flood_bm_op s.port.local_port vid_begin vid_end true) ∨
      ((∃ e ∈ new_events s s', e.err ≠ 0 ∧
          e.op = flood_bm_op s.port.local_port vid_begin vid_end true) ∧
        UcFloodLeft s.port vid_begin vid_end s s') := by
    intro a t ea et ro ⟨e, he, hne, hop⟩ es hu
    exact Or.inl ⟨unwound_cleared ro (hu (unwind_succeeds ea et es hone he hne)),
      no_bm_failure ea et es hone he hne hop⟩
  rcases hrest with ⟨s4, h4, hne4, h5, -⟩ | ⟨s4, h4, hrest⟩
  · -- the VLAN-table step failed
    have r4 := Pres_ret (Pres_vlans_set [.vlan_set] c env _ _ _ _ _ (by simp)) h4
    have r5 := Pres_ret (Pres_err_port_vlans_set all_kinds c env _ _ _ (hk _) (hk _) (hk _)) h5
    have p4 : s4.port = s.port := (HwOnly_port r4).1.trans p3
    obtain ⟨ev, hev, hne⟩ := vlans_set_failed c env fuel vid_begin vid_end true fu s3 s4 err h4 hne4
    refine fin s3 s4 e03 ⟨_, (HwOnly_new_events r4).1⟩
      (RangeOnly_trans ro3 (RangeOnly_of_kept (HwOnly_TablesKept r4 (by simp) (by simp))))
      ⟨ev, hev, hne, op_ne_flood_bm_of_only ((HwOnly_new_events r4).2 ev hev) (by simp) _ _ _ _⟩
      ⟨_, (HwOnly_new_events r5).1⟩ (fun hz => ?_)
    have u := err_port_vlans_set_unwound c env fuel vid_begin vid_end s4 s'
      (by rw [p4]; exact hphys) hvb hle hve' hfuel h5 hz
    rw [p4] at u
    exact u
  have r4 := Pres_ret (Pres_vlans_set [.vlan_set] c env _ _ _ _ _ (by simp)) h4
  have p4 : s4.port = s.port := (HwOnly_port r4).1.trans p3
  have e04 := ext_trans e03 ⟨_, (HwOnly_new_events r4).1⟩
  have ro4 : RangeOnly s.port vid_begin vid_end s s4 := RangeOnly_trans ro3
    (RangeOnly_of_kept (HwOnly_TablesKept r4 (by simp) (by simp)))
  rcases hrest with ⟨s5, h5, hne5, h6, -⟩ | ⟨s5, s6, h5, h6, hrest⟩
  · -- the PVID step failed
    obtain ⟨k5, e5, p5, -⟩ := vlans_add_pvid_forward env vid_begin fp _ s4 s5 err h5
    obtain ⟨ev, hev, hne, hop⟩ := vlans_add_pvid_failed env vid_begin fp _ s4 s5 err h5 hne5
    have r6 := Pres_ret
      (Pres_err_port_pvid_set all_kinds c env _ _ _ (hk _) (hk _) (hk _) (hk _)) h6
    refine fin s4 s5 e04 e5 (RangeOnly_trans ro4 (RangeOnly_of_kept k5))
      ⟨ev, hev, hne, by rw [hop]; simp [flood_bm_op]⟩
      ⟨_, (HwOnly_new_events r6).1⟩ (fun hz => ?_)
    have u := err_port_pvid_set_unwound c env fuel vid_begin vid_end s5 s'
      (by rw [p5, p4]; exact hphys) hvb hle hve' hfuel h6 hz
    refine Unwound_port_congr ?_ ?_ u
    · rw [p5, p4]
    · rw [p5, p4]
  obtain ⟨k5, e5, p5, -⟩ := vlans_add_pvid_forward env vid_begin fp _ s4 s5 0 h5
  obtain ⟨-, t6, p6, -⟩ := set_active_vlans_spec fuel vid_begin vid_end s5 s6 (by omega) h6
  rcases hrest with ⟨s7, h7, hne7, h8, -⟩ | ⟨-, h0, -⟩
  · -- the final STP re-apply failed
    have r7 := Pres_ret (Pres_stp_state_set [.kmalloc, .spms] env _ (by simp) (by simp)) h7
    have p7 := (HwOnly_port r7).1
    have k6 : TablesKept s5 s6 := TablesKept_of_trace t6
    have e06 : ∃ evs, s6.trace = evs ++ s.trace := by
      rw [t6]
      exact ext_trans e04 e5
    obtain ⟨-, e8, -, -⟩ := err_port_stp_state_set_spec c env fuel vid_begin vid_end _ s7 s'
      (by omega) h8
    have p6l : s6.port.local_port = s.port.local_port := by rw [p6, p5, p4]
    have p6v : s6.port.vports_list_empty = s.port.vports_list_empty := by rw [p6, p5, p4]
    have p6p : s6.port.is_vport = s.port.is_vport := by rw [p6, p5, p4]
    obtain ⟨ev, hev, hne⟩ := stp_state_set_failed env _ s6 s7 err h7 hne7
    refine fin s6 s7 e06 ⟨_, (HwOnly_new_events r7).1⟩
      (RangeOnly_trans ro4 (RangeOnly_trans (RangeOnly_of_kept k5) (RangeOnly_trans
        (RangeOnly_of_kept k6)
        (RangeOnly_of_kept (HwOnly_TablesKept r7 (by simp) (by simp))))))
      ⟨ev, hev, hne, op_ne_flood_bm_of_only ((HwOnly_new_events r7).2 ev hev) (by simp) _ _ _ _⟩
      e8 (fun hz => ?_)
    have u := err_port_stp_state_set_unwound c env fuel vid_begin vid_end _ s7 s'
      (by rw [p7, p6p]; exact hphys) hvb hle hve' hfuel h8 hz
    refine Unwound_port_congr ?_ ?_ u
    · rw [p7, p6l]
    · rw [p7, p6v]
  · exact absurd h0 herr

/-- C4 (amended): on a bridged physical port, for a range inside `1 .. 4095`, a
failed `__mlxsw_sp_port_vlans_add` in which no request but the failing one
fails leaves the flood tables and the port-scoped VLAN-to-FID mapping table as
follows. When the failing request is not the second (broadcast/multicast)
flood write of the forward path, every entry is as it was before the call, or
it is an entry of the range of the port and is cleared (the port is no member
of the flood entry, the mapping is invalid); so when the entries of the range
were unprogrammed before the call, every entry is identical to the state
before the call. When the failing request is the second flood write, the
unicast flood entries of the range, written just before it, are left set: the
path to `err_port_flood_set` undoes the mappings only. -/
theorem vlans_add_failure_unwinds_tables (c : Consts) (env : Nat → Int)
    (fuel vid_begin vid_end : Nat) (fu fp : Bool) (s s' : St) (err : Int)
    (hb : s.port.bridged = true) (hphys : s.port.is_vport = false)
    (hvb : 0 < vid_begin) (hle : vid_begin ≤ vid_end) (hve : vid_end < VLAN_N_VID)
    (hfuel : vid_end + 1 - vid_begin < fuel)
    (h : __mlxsw_sp_port_vlans_add c env fuel vid_begin vid_end fu fp s = Res.ret err s')
    (herr : err ≠ 0)
    (hone : failures (new_events s s') ≤ 1) :
    ((¬ ∃ e ∈ new_events s s', e.err ≠ 0 ∧
        e.op = flood_bm_op s.port.local_port vid_begin vid_end true) →
      KeptOrCleared s.port vid_begin vid_end s s') ∧
    ((¬ ∃ e ∈ new_events s s', e.err ≠ 0 ∧
        e.op = flood_bm_op s.port.local_port vid_begin vid_end true) →
      (∀ table idx, vid_begin ≤ idx → idx ≤ vid_end →
        hw_flood table .MLXSW_REG_SFGC_TABLE_TYPE_FID_OFFEST s.port.local_port idx s.trace
          = false) →
      (∀ vid, vid_begin ≤ vid → vid ≤ vid_end →
        hw_vid_to_fid s.port.local_port .MLXSW_REG_SVFA_MT_PORT_VID_TO_FID vid s.trace = none) →
      TablesKept s s') ∧
    ((∃ e ∈ new_events s s', e.err ≠ 0 ∧
        e.op = flood_bm_op s.port.local_port vid_begin vid_end true) →
      UcFloodLeft s.port vid_begin vid_end s s') := by
  rcases vlans_add_failure_tables c env fuel vid_begin vid_end fu fp s s' err hb hphys hvb hle
    hve hfuel h herr hone with ⟨hk, hno⟩ | ⟨hbm, hleft⟩
  · exact ⟨fun _ => hk, fun _ hf hm => KeptOrCleared_unprogrammed hk hf hm,
      fun hbm => absurd hbm hno⟩
  · exact ⟨fun hno => absurd hbm hno, fun hno => absurd hbm hno, fun _ => hleft⟩

/-- Instance of C4: on `ex_port_vports`, adding the VLANs 5 to 7 with the
VLAN-table write failing returns `-EIO`. -/
theorem vlans_add_failure_unwinds_tables_witness :
    __mlxsw_sp_port_vlans_add mlxsw_consts (fail_at 12) 9 5 7 true true ex_st_vports
      = Res.ret (-5) (Res.final ex_st_vports
          (__mlxsw_sp_port_vlans_add mlxsw_consts (fail_at 12) 9 5 7 true true ex_st_vports)) ∧
    ((¬ ∃ e ∈ new_events ex_st_vports (Res.final ex_st_vports
          (__mlxsw_sp_port_vlans_add mlxsw_consts (fail_at 12) 9 5 7 true true ex_st_vports)),
        e.err ≠ 0 ∧ e.op = flood_bm_op ex_st_vports.port.local_port 5 7 true) →
      KeptOrCleared ex_st_vports.port 5 7 ex_st_vports (Res.final ex_st_vports
        (__mlxsw_sp_port_vlans_add mlxsw_consts (fail_at 12) 9 5 7 true true ex_st_vports))) ∧
    ((¬ ∃ e ∈ new_events ex_st_vports (Res.final ex_st_vports
          (__mlxsw_sp_port_vlans_add mlxsw_consts (fail_at 12) 9 5 7 true true ex_st_vports)),
        e.err ≠ 0 ∧ e.op = flood_bm_op ex_st_vports.port.local_port 5 7 true) →
      (∀ table idx, 5 ≤ idx → idx ≤ 7 →
        hw_flood table .MLXSW_REG_SFGC_TABLE_TYPE_FID_OFFEST ex_st_vports.port.local_port idx
          ex_st_vports.trace = false) →
      (∀ vid, 5 ≤ vid → vid ≤ 7 →
        hw_vid_to_fid ex_st_vports.port.local_port .MLXSW_REG_SVFA_MT_PORT_VID_TO_FID vid
          ex_st_vports.trace = none) →
      TablesKept ex_st_vports (Res.final ex_st_vports
        (__mlxsw_sp_port_vlans_add mlxsw_consts (fail_at 12) 9 5 7 true true ex_st_vports))) ∧
    ((∃ e ∈ new_events ex_st_vports (Res.final ex_st_vports
          (__mlxsw_sp_port_vlans_add mlxsw_consts (fail_at 12) 9 5 7 true true ex_st_vports)),
        e.err ≠ 0 ∧ e.op = flood_bm_op ex_st_vports.port.local_port 5 7 true) →
      UcFloodLeft ex_st_vports.port 5 7 ex_st_vports (Res.final ex_st_vports
        (__mlxsw_sp_port_vlans_add mlxsw_consts (fail_at 12) 9 5 7 true true ex_st_vports))) :=
  ⟨by decide!,
   vlans_add_failure_unwinds_tables mlxsw_consts (fail_at 12) 9 5 7 true true ex_st_vports
    (Res.final ex_st_vports
      (__mlxsw_sp_port_vlans_add mlxsw_consts (fail_at 12) 9 5 7 true true ex_st_vports))
    (-5) (by decide) (by decide) (by decide) (by decide) (by decide) (by decide) (by decide!)
    (by decide) (by decide!)⟩

/-- C4, counterexample: four failed adds of VLAN 100, for which the tables are
not as before the call. (1) On `ex_port` (no virtual port) with the VLAN-table
write failing, the only failure: the VLAN-to-FID mapping of vid 100, invalid
before the call, is valid after it, and the call made no invalidating mapping
write. (2) On `ex_port` with the second (broadcast/multicast) flood write
failing, the only failure: the unicast flood entry of vid 100, not set before
the call, is set after it. (3) On the port on which a first add of VLAN 100
has succeeded, a second add whose VLAN-table write fails, the only failure:
the unicast flood entry of vid 100, set before the call, is cleared after it,
while VLAN 100 is still active on the port. (4) On `ex_port` with the
VLAN-table write and then the unicast write of the unwinding failing: the
unicast and the broadcast/multicast flood entries of vid 100, not set before
the call, are set after it. -/
theorem vlans_add_failure_not_restoring :
    (__mlxsw_sp_port_vlans_add mlxsw_consts (fail_at 6) 3 100 100 true true ex_st
        = Res.ret (-5) (Res.final ex_st
            (__mlxsw_sp_port_vlans_add mlxsw_consts (fail_at 6) 3 100 100 true true ex_st)) ∧
      failures (Res.final ex_st
        (__mlxsw_sp_port_vlans_add mlxsw_consts (fail_at 6) 3 100 100 true true ex_st)).trace
        = 1 ∧
      hw_vid_to_fid 3 .MLXSW_REG_SVFA_MT_VID_TO_FID 100 ex_st.trace = none ∧
      hw_vid_to_fid 3 .MLXSW_REG_SVFA_MT_VID_TO_FID 100 (Res.final ex_st
        (__mlxsw_sp_port_vlans_add mlxsw_consts (fail_at 6) 3 100 100 true true ex_st)).trace
        = some 100 ∧
      ((Res.final ex_st
        (__mlxsw_sp_port_vlans_add mlxsw_consts (fail_at 6) 3 100 100 true true ex_st)).trace.map
          Ev.op).filter (fun op => decide (op.kind = .vid_to_fid_set))
        = [.vid_to_fid_set 3 .MLXSW_REG_SVFA_MT_VID_TO_FID true 100 100,
           .vid_to_fid_set 3 .MLXSW_REG_SVFA_MT_VID_TO_FID true 100 100]) ∧
    (__mlxsw_sp_port_vlans_add mlxsw_consts (fail_at 5) 3 100 100 true true ex_st
        = Res.ret (-5) { ex_st with
            sp := { ex_st.sp with active_fids := set_bit 100 0 }
            trace :=
              [⟨flood_bm_op 3 100 100 true, -5⟩, ⟨flood_uc_op 3 100 100 true, 0⟩,
               ⟨.kmalloc .sftr_pl, 0⟩,
               ⟨.vid_to_fid_set 3 .MLXSW_REG_SVFA_MT_VID_TO_FID true 100 100, 0⟩,
               ⟨.vid_to_fid_set 3 .MLXSW_REG_SVFA_MT_VID_TO_FID true 100 100, 0⟩,
               ⟨.sfmr .MLXSW_REG_SFMR_OP_CREATE_FID 100 100, 0⟩] } ∧
      hw_flood .MLXSW_SP_FLOOD_TABLE_UC .MLXSW_REG_SFGC_TABLE_TYPE_FID_OFFEST 3 100
        ex_st.trace = false ∧
      hw_flood .MLXSW_SP_FLOOD_TABLE_UC .MLXSW_REG_SFGC_TABLE_TYPE_FID_OFFEST 3 100
        (Res.final ex_st
          (__mlxsw_sp_port_vlans_add mlxsw_consts (fail_at 5) 3 100 100 true true ex_st)).trace
        = true) ∧
    (__mlxsw_sp_port_vlans_add mlxsw_consts no_failure 3 100 100 true true ex_st
        = Res.ret 0 (Res.final ex_st
            (__mlxsw_sp_port_vlans_add mlxsw_consts no_failure 3 100 100 true true ex_st)) ∧
      __mlxsw_sp_port_vlans_add mlxsw_consts (fail_at 14) 3 100 100 true true
          (Res.final ex_st
            (__mlxsw_sp_port_vlans_add mlxsw_consts no_failure 3 100 100 true true ex_st))
        = Res.ret (-5) (Res.final ex_st
            (__mlxsw_sp_port_vlans_add mlxsw_consts (fail_at 14) 3 100 100 true true
              (Res.final ex_st
                (__mlxsw_sp_port_vlans_add mlxsw_consts no_failure 3 100 100 true true
                  ex_st)))) ∧
      failures (Res.final ex_st
        (__mlxsw_sp_port_vlans_add mlxsw_consts (fail_at 14) 3 100 100 true true
          (Res.final ex_st
            (__mlxsw_sp_port_vlans_add mlxsw_consts no_failure 3 100 100 true true
              ex_st)))).trace = 1 ∧
      ((Res.final ex_st
        (__mlxsw_sp_port_vlans_add mlxsw_consts (fail_at 14) 3 100 100 true true
          (Res.final ex_st
            (__mlxsw_sp_port_vlans_add mlxsw_consts no_failure 3 100 100 true true
              ex_st)))).trace.take 4)
        = [⟨flood_bm_op 3 100 100 false, 0⟩, ⟨flood_uc_op 3 100 100 false, 0⟩,
           ⟨.kmalloc .sftr_pl, 0⟩, ⟨.vlan_set 3 100 100 true true, -5⟩] ∧
      hw_flood .MLXSW_SP_FLOOD_TABLE_UC .MLXSW_REG_SFGC_TABLE_TYPE_FID_OFFEST 3 100
        (Res.final ex_st
          (__mlxsw_sp_port_vlans_add mlxsw_consts no_failure 3 100 100 true true ex_st)).trace
        = true ∧
      hw_flood .MLXSW_SP_FLOOD_TABLE_UC .MLXSW_REG_SFGC_TABLE_TYPE_FID_OFFEST 3 100
        (Res.final ex_st
          (__mlxsw_sp_port_vlans_add mlxsw_consts (fail_at 14) 3 100 100 true true
            (Res.final ex_st
              (__mlxsw_sp_port_vlans_add mlxsw_consts no_failure 3 100 100 true true
                ex_st)))).trace = false ∧
      test_bit 100 (Res.final ex_st
        (__mlxsw_sp_port_vlans_add mlxsw_consts (fail_at 14) 3 100 100 true true
          (Res.final ex_st
            (__mlxsw_sp_port_vlans_add mlxsw_consts no_failure 3 100 100 true true
              ex_st)))).port.active_vlans = true) ∧
    (__mlxsw_sp_port_vlans_add mlxsw_consts (fun k => if k = 6 ∨ k = 8 then -5 else 0)
          3 100 100 true true ex_st
        = Res.ret (-5) (Res.final ex_st
            (__mlxsw_sp_port_vlans_add mlxsw_consts (fun k => if k = 6 ∨ k = 8 then -5 else 0)
              3 100 100 true true ex_st)) ∧
      ((Res.final ex_st
          (__mlxsw_sp_port_vlans_add mlxsw_consts (fun k => if k = 6 ∨ k = 8 then -5 else 0)
            3 100 100 true true ex_st)).trace.take 3)
        = [⟨flood_uc_op 3 100 100 false, -5⟩, ⟨.kmalloc .sftr_pl, 0⟩,
           ⟨.vlan_set 3 100 100 true true, -5⟩] ∧
      hw_flood .MLXSW_SP_FLOOD_TABLE_UC .MLXSW_REG_SFGC_TABLE_TYPE_FID_OFFEST 3 100
        (Res.final ex_st
          (__mlxsw_sp_port_vlans_add mlxsw_consts (fun k => if k = 6 ∨ k = 8 then -5 else 0)
            3 100 100 true true ex_st)).trace = true ∧
      hw_flood .MLXSW_SP_FLOOD_TABLE_BM .MLXSW_REG_SFGC_TABLE_TYPE_FID_OFFEST 3 100
        (Res.final ex_st
          (__mlxsw_sp_port_vlans_add mlxsw_consts (fun k => if k = 6 ∨ k = 8 then -5 else 0)
            3 100 100 true true ex_st)).trace = true ∧
      hw_flood .MLXSW_SP_FLOOD_TABLE_BM .MLXSW_REG_SFGC_TABLE_TYPE_FID_OFFEST 3 100
        ex_st.trace = false) := by
  refine ⟨by decide!, by decide!, by decide!, by decide!⟩

end Mlxsw
